import Mathlib

/-!
# XPDMA: PCIe driver for the Xilinx AXI CDMA subsystem

A shallow embedding of `driver/xpdma_driver.c` (descriptor chain builder,
engine control protocol, transfer chunking) and theorems about it.

Conventions of the embedding
* `u32` values are natural numbers reduced modulo `2^32`, `size_t` values are
  reduced modulo `2^64`.
* The driver functions act on one slot `xpdmas[id]` of the global array; the
  embedding passes that slot (inside a `World`) instead of the index `id`.
* Memory buffers are maps from an index to a byte (or descriptor).
* The hardware behind the register window is a parameter (`Engine`): the
  driver only reaches it through `readl`, `writel` and `udelay`.
* Every observable action of the driver (register access, delay, host copy,
  kernel log line, engine invocation) is appended to `World.trace`.
* A sum of a variable and a constant is written with the constant first
  (`BUF_SIZE + curAddr` for `curAddr + BUF_SIZE`): the value is the same, and
  the term does not unfold into a tower of successors over the variable.
-/

namespace XPDMA

/-! ## Constants of `xpdma_driver.c` -/

/-- Constant `MAX_BTT`, `0x007FFFFF`. -/
def MAX_BTT : Nat := 0x007FFFFF
/-- Constant `BUF_SIZE`, `(4<<20)`. -/
def BUF_SIZE : Nat := 4194304
/-- Constant `TRANSFER_SIZE`, `(4<<20)`. -/
def TRANSFER_SIZE : Nat := 4194304
/-- Constant `DESCRIPTOR_SIZE`. -/
def DESCRIPTOR_SIZE : Nat := 64

def BRAM_OFFSET : Nat := 0x00000000
def PCIE_CTL_OFFSET : Nat := 0x00008000
def CDMA_OFFSET : Nat := 0x0000c000

def CDMA_CONTROL_OFFSET : Nat := 0x00
def CDMA_STATUS_OFFSET : Nat := 0x04
def CDMA_CDESC_OFFSET : Nat := 0x08
def CDMA_TDESC_OFFSET : Nat := 0x10
def CDMA_SRCADDR_OFFSET : Nat := 0x18
def CDMA_SRCADDR_MSB_OFFSET : Nat := 0x1C
def CDMA_DSTADDR_OFFSET : Nat := 0x20
def CDMA_DSTADDR_MSB_OFFSET : Nat := 0x24
def CDMA_BTT_OFFSET : Nat := 0x28

def AXI_PCIE_DM_ADDR : Nat := 0x80000000
def AXI_PCIE_SG_ADDR : Nat := 0x80800000
def AXI_BRAM_ADDR : Nat := 0x81000000
def AXI_DDR3_ADDR : Nat := 0x00000000

def SG_COMPLETE_MASK : Nat := 0xF0000000
def SG_DEC_ERR_MASK : Nat := 0x40000000
def SG_SLAVE_ERR_MASK : Nat := 0x20000000
def SG_INT_ERR_MASK : Nat := 0x10000000

def BRAM_STEP : Nat := 0x8
def ADDR_BTT : Nat := 0x00000008

def CDMA_CR_SG_EN : Nat := 0x00000008
def CDMA_CR_RESET_MASK : Nat := 0x00000004
def CDMA_CR_IDLE_MASK : Nat := 0x00000002

def AXIBAR2PCIEBAR_0U : Nat := 0x208
def AXIBAR2PCIEBAR_0L : Nat := 0x20C
def AXIBAR2PCIEBAR_1U : Nat := 0x210
def AXIBAR2PCIEBAR_1L : Nat := 0x214

def CDMA_RESET_LOOP : Nat := 1000000
def CDMA_TRANSFER_LOOP : Nat := 1000000

def DMA_SIMPLE_MODE : Int := 0
def DMA_SG_MODE : Int := 1

/-- Modelled from the spec: `SUCCESS` is declared in `xpdma_driver.h`, which is
not among the sources; the driver tests `if (xpdma_reset(c))` for failure, so
success is the value 0. -/
def SUCCESS : Int := 0
/-- Modelled from the spec: `CRIT_ERR` is declared in `xpdma_driver.h`, which is
not among the sources; it is the single failure signal, a non-zero value. -/
def CRIT_ERR : Int := -1
/-- The kernel constant `PCI_DMA_TODEVICE` of `linux/pci.h`. -/
def PCI_DMA_TODEVICE : Int := 1
/-- The kernel constant `PCI_DMA_FROMDEVICE` of `linux/pci.h`. -/
def PCI_DMA_FROMDEVICE : Int := 2

/-! ## Machine integers -/

/-- Conversion to `u32`. -/
def u32 (x : Nat) : Nat := x % 4294967296
/-- Conversion to `size_t` (64 bit). -/
def usize (x : Nat) : Nat := x % 18446744073709551616

/-! ## Data model -/

/-- The scatter gather transfer descriptor `sg_desc_t`. -/
structure sg_desc_t where
  nextDesc : Nat
  na1 : Nat
  srcAddr : Nat
  na2 : Nat
  destAddr : Nat
  na3 : Nat
  control : Nat
  status : Nat
deriving DecidableEq

/-- The slot `struct xpdma_state`, restricted to the fields the transfer engine
uses.  `descChain k` is the descriptor `descChain[k]`, the index being a
`size_t`; the buffers are maps from a byte offset to a byte. -/
structure xpdma_state where
  used : Bool
  readBuffer : Nat → Nat
  writeBuffer : Nat → Nat
  descChain : Nat → sg_desc_t
  descChainLength : Nat
  readHWAddr : Nat
  writeHWAddr : Nat
  descChainHWAddr : Nat

/-- The memory of a slot that the device reaches by bus mastering. -/
structure DmaMem where
  readBuffer : Nat → Nat
  writeBuffer : Nat → Nat
  descChain : Nat → sg_desc_t

/-- The bus addresses of the three buffers of a slot. -/
structure HwAddrs where
  readHWAddr : Nat
  writeHWAddr : Nat
  descChainHWAddr : Nat

def xpdma_state.dma (s : xpdma_state) : DmaMem :=
  { readBuffer := s.readBuffer, writeBuffer := s.writeBuffer, descChain := s.descChain }

def xpdma_state.addrs (s : xpdma_state) : HwAddrs :=
  { readHWAddr := s.readHWAddr, writeHWAddr := s.writeHWAddr,
    descChainHWAddr := s.descChainHWAddr }

def xpdma_state.setDma (s : xpdma_state) (m : DmaMem) : xpdma_state :=
  { s with readBuffer := m.readBuffer, writeBuffer := m.writeBuffer, descChain := m.descChain }

/-- The hardware behind the register window: what a 32 bit register read
returns, and how a register read, a register write and a delay change the
hardware state and the memory the device masters. -/
structure Engine (H : Type) where
  readl : HwAddrs → H → DmaMem → Nat → Nat × H × DmaMem
  writel : HwAddrs → H → DmaMem → Nat → Nat → H × DmaMem
  udelay : HwAddrs → H → DmaMem → Nat → H × DmaMem

/-- The kernel log lines of the driver that report a condition. -/
inductive Msg where
  | notInitialized
  | unknownDirection
  | chainUnknownDirection
  | notIdle
  | simpleTimeout
  | sgDecodeError
  | sgSlaveError
  | sgInternalError
  | sgTimeout
  | notAligned
  | copyFromUserFailed
  | copyToUserFailed
  | unsupportedMode
  | resetTimeout
deriving DecidableEq

/-- The observable actions of the driver. -/
inductive Event where
  | readReg (reg val : Nat)
  | writeReg (reg val : Nat)
  | udelay (us : Nat)
  | readStatus (index val : Nat)
  | copy_from_user (src n : Nat)
  | copy_to_user (dst n : Nat)
  | engineCall (mode direction : Int) (count addr : Nat)
  | printk (m : Msg)
deriving DecidableEq

/-- User space memory: the bytes, and the first address that is not
accessible. -/
structure UserMem where
  bytes : Nat → Nat
  limit : Nat

/-- One device slot with its hardware, the user memory and the actions so far. -/
structure World (H : Type) where
  st : xpdma_state
  hw : H
  user : UserMem
  trace : List Event

def World.log {H : Type} (w : World H) (e : Event) : World H :=
  { w with trace := w.trace ++ [e] }

/-- The world `w` with the events `t` appended to the trace. -/
def World.logs {H : Type} (w : World H) (t : List Event) : World H :=
  { w with trace := w.trace ++ t }

/-! ## Register access -/

/-- The function `xpdma_readReg`. -/
def xpdma_readReg {H : Type} (E : Engine H) (w : World H) (reg : Nat) : Nat × World H :=
  if !w.st.used then
    (0, w.log (Event.printk Msg.notInitialized))
  else
    let r := E.readl w.st.addrs w.hw w.st.dma reg
    (u32 r.1, { w with hw := r.2.1, st := w.st.setDma r.2.2,
                       trace := w.trace ++ [Event.readReg reg (u32 r.1)] })

/-- The function `xpdma_writeReg`. -/
def xpdma_writeReg {H : Type} (E : Engine H) (w : World H) (reg val : Nat) : World H :=
  if !w.st.used then
    w.log (Event.printk Msg.notInitialized)
  else
    let r := E.writel w.st.addrs w.hw w.st.dma reg (u32 val)
    { w with hw := r.1, st := w.st.setDma r.2,
             trace := w.trace ++ [Event.writeReg reg (u32 val)] }

/-- The kernel function `udelay`: time passes for the hardware. -/
def udelay {H : Type} (E : Engine H) (w : World H) (us : Nat) : World H :=
  let r := E.udelay w.st.addrs w.hw w.st.dma us
  { w with hw := r.1, st := w.st.setDma r.2, trace := w.trace ++ [Event.udelay us] }

/-! ## Descriptor chain builder -/

/-- The local variables of the `for` loop of `create_desc_chain`, with the
descriptor buffer it fills. -/
structure ChainLoop where
  descChain : Nat → sg_desc_t
  sgAddr : Nat
  bramAddr : Nat
  unmappedSize : Nat
  srcAddr : Nat
  destAddr : Nat

/-- One iteration of the `for` loop of `create_desc_chain`, for chunk `count`. -/
def create_desc_chain_body (count : Nat) (l : ChainLoop) : ChainLoop :=
  let btt := if l.unmappedSize > TRANSFER_SIZE then TRANSFER_SIZE else l.unmappedSize
  -- fill address translation descriptor
  let addrDesc : sg_desc_t :=
    { l.descChain (2 * count) with
      nextDesc := u32 (DESCRIPTOR_SIZE + l.sgAddr)
      srcAddr := l.bramAddr
      destAddr := u32 (AXI_BRAM_ADDR + PCIE_CTL_OFFSET + AXIBAR2PCIEBAR_1U)
      control := ADDR_BTT
      status := 0 }
  let chain1 := Function.update l.descChain (2 * count) addrDesc
  let sgAddr1 := u32 (DESCRIPTOR_SIZE + l.sgAddr)
  -- fill target data transfer descriptor
  let dataDesc : sg_desc_t :=
    { chain1 (2 * count + 1) with
      nextDesc := u32 (DESCRIPTOR_SIZE + sgAddr1)
      srcAddr := l.srcAddr
      destAddr := l.destAddr
      control := btt
      status := 0 }
  let chain2 := Function.update chain1 (2 * count + 1) dataDesc
  let sgAddr2 := u32 (DESCRIPTOR_SIZE + sgAddr1)
  { descChain := chain2
    sgAddr := sgAddr2
    bramAddr := u32 (BRAM_STEP + l.bramAddr)
    unmappedSize := u32 (4294967296 + l.unmappedSize - btt)
    srcAddr := u32 (l.srcAddr + btt)
    destAddr := u32 (l.destAddr + btt) }

/-- The `for (count = 0; count < descChainLength; ++count)` loop of
`create_desc_chain`: `todo` iterations remain, the next one is for chunk
`count`. -/
def create_desc_chain_loop : Nat → Nat → ChainLoop → ChainLoop
  | 0, _, l => l
  | todo + 1, count, l => create_desc_chain_loop todo (count + 1) (create_desc_chain_body count l)

/-- The function `create_desc_chain`. -/
def create_desc_chain {H : Type} (w : World H) (direction : Int) (size addr : Nat) :
    Int × World H :=
  let size := u32 size
  let addr := u32 addr
  let len := u32 (u32 TRANSFER_SIZE - 1 + size) / u32 TRANSFER_SIZE
  let w1 : World H := { w with st := { w.st with descChainLength := len } }
  let dirs : Option (Nat × Nat) :=
    if direction = PCI_DMA_FROMDEVICE then
      some (u32 (AXI_DDR3_ADDR + addr), AXI_PCIE_DM_ADDR)
    else if direction = PCI_DMA_TODEVICE then
      some (AXI_PCIE_DM_ADDR, u32 (AXI_DDR3_ADDR + addr))
    else none
  match dirs with
  | none => (CRIT_ERR, w1.log (Event.printk Msg.chainUnknownDirection))
  | some (srcAddr, destAddr) =>
    -- fill descriptor chain
    let l := create_desc_chain_loop len 0
      { descChain := w1.st.descChain, sgAddr := AXI_PCIE_SG_ADDR, bramAddr := AXI_BRAM_ADDR,
        unmappedSize := size, srcAddr := srcAddr, destAddr := destAddr }
    -- tail descriptor pointed to chain head
    let tail := usize (18446744073709551616 - 1 + 2 * len)
    let chain := Function.update l.descChain tail
      { l.descChain tail with nextDesc := AXI_PCIE_SG_ADDR }
    (SUCCESS, { w1 with st := { w1.st with descChain := chain } })

/-! ## Diagnostics -/

/-- Register reads made one after the other, the values being only printed. -/
def dump_regs {H : Type} (E : Engine H) : World H → List Nat → World H
  | w, [] => w
  | w, reg :: regs => dump_regs E (xpdma_readReg E w reg).2 regs

/-- The registers `xpdma_showInfo` prints, in order: nine words of the
translation BRAM, the PCIe control block, the CDMA block. -/
def showInfo_regs : List Nat :=
  (List.range 9).map (fun k => BRAM_OFFSET + 4 * k) ++
  [PCIE_CTL_OFFSET] ++
  (List.range 12).map (fun k => PCIE_CTL_OFFSET + (0x208 + 4 * k)) ++
  (List.range 11).map (fun k => CDMA_OFFSET + 4 * k)

/-- The function `xpdma_showInfo`. -/
def xpdma_showInfo {H : Type} (E : Engine H) (w : World H) : World H :=
  if !w.st.used then
    w.log (Event.printk Msg.notInitialized)
  else
    dump_regs E w showInfo_regs

/-- The function `show_descriptors`: four translation vector words are read from
the BRAM, then the first four descriptors are printed. -/
def show_descriptors {H : Type} (E : Engine H) (w : World H) : World H :=
  if !w.st.used then
    w.log (Event.printk Msg.notInitialized)
  else
    dump_regs E w [0, 4, 8, 12]

/-! ## Engine control protocol -/

/-- The function `xpdma_isIdle`. -/
def xpdma_isIdle {H : Type} (E : Engine H) (w : World H) : Nat × World H :=
  if !w.st.used then
    (0, w.log (Event.printk Msg.notInitialized))
  else
    let r := xpdma_readReg E w (CDMA_OFFSET + CDMA_STATUS_OFFSET)
    (r.1 &&& CDMA_CR_IDLE_MASK, r.2)

/-- The loop `while (delayTime-- && !xpdma_isIdle(id)) udelay(10);` of
`simple_operation`; the argument is `delayTime`. -/
def simple_poll {H : Type} (E : Engine H) : Nat → World H → World H
  | 0, w => w
  | delayTime + 1, w =>
    let r := xpdma_isIdle E w
    if r.1 ≠ 0 then r.2 else simple_poll E delayTime (udelay E r.2 10)

/-- The function `simple_operation`. -/
def simple_operation {H : Type} (E : Engine H) (w : World H) (direction : Int)
    (count addr : Nat) : Int × World H :=
  let sel : Option (Nat × Nat × Nat) :=
    if PCI_DMA_FROMDEVICE = direction then
      some (w.st.readHWAddr, AXI_DDR3_ADDR, AXI_PCIE_DM_ADDR)
    else if PCI_DMA_TODEVICE = direction then
      some (w.st.writeHWAddr, AXI_PCIE_DM_ADDR, AXI_DDR3_ADDR)
    else none
  match sel with
  | none => (CRIT_ERR, w.log (Event.printk Msg.unknownDirection))
  | some (pntr, src_pntr, dst_pntr) =>
    -- 0. Verify CMDASR.IDLE = 1.
    let idle := xpdma_isIdle E w
    if idle.1 = 0 then
      (CRIT_ERR, xpdma_showInfo E (idle.2.log (Event.printk Msg.notIdle)))
    else
      -- 1. Set DMA to Simple DMA mode
      let w := xpdma_writeReg E idle.2 (CDMA_OFFSET + CDMA_CONTROL_OFFSET) 0
      -- 3.1 Update PCIe Translation vector
      let w := xpdma_writeReg E w (PCIE_CTL_OFFSET + AXIBAR2PCIEBAR_1L) (u32 pntr)
      let w := xpdma_writeReg E w (PCIE_CTL_OFFSET + AXIBAR2PCIEBAR_1U)
        (u32 (pntr / 4294967296))
      let w := xpdma_writeReg E w (CDMA_OFFSET + CDMA_SRCADDR_OFFSET) (u32 src_pntr)
      let w := xpdma_writeReg E w (CDMA_OFFSET + CDMA_SRCADDR_MSB_OFFSET)
        (u32 (src_pntr / 4294967296))
      -- 4. destination address
      let w := xpdma_writeReg E w (CDMA_OFFSET + CDMA_DSTADDR_OFFSET) (u32 dst_pntr)
      let w := xpdma_writeReg E w (CDMA_OFFSET + CDMA_DSTADDR_MSB_OFFSET)
        (u32 (dst_pntr / 4294967296))
      -- 5. bytes to transfer; this write starts the transfer
      let w := xpdma_writeReg E w (CDMA_OFFSET + CDMA_BTT_OFFSET) count
      -- 6. poll the CMDASR.IDLE bit
      let w := simple_poll E CDMA_TRANSFER_LOOP w
      let fin := xpdma_isIdle E w
      if fin.1 = 0 then
        (CRIT_ERR, fin.2.log (Event.printk Msg.simpleTimeout))
      else
        (SUCCESS, fin.2)

/-- The outcomes of one look at the status word of the tail descriptor. -/
inductive SgPoll where
  | decodeError
  | slaveError
  | internalError
  | complete
  | noneYet
deriving DecidableEq

/-- The chain of `if (status & ...)` tests in the poll loop of `sg_operation`. -/
def sg_status_class (status : Nat) : SgPoll :=
  if status &&& SG_DEC_ERR_MASK ≠ 0 then SgPoll.decodeError
  else if status &&& SG_SLAVE_ERR_MASK ≠ 0 then SgPoll.slaveError
  else if status &&& SG_INT_ERR_MASK ≠ 0 then SgPoll.internalError
  else if status &&& SG_COMPLETE_MASK ≠ 0 then SgPoll.complete
  else SgPoll.noneYet

/-- The loop `while (delayTime) { delayTime--; udelay(10); ... }` of
`sg_operation` with the return statements inside and after it; the first
argument is `delayTime`. -/
def sg_poll {H : Type} (E : Engine H) : Nat → World H → Int × World H
  | 0, w => (CRIT_ERR, show_descriptors E (w.log (Event.printk Msg.sgTimeout)))
  | delayTime + 1, w =>
    let w := udelay E w 10
    let tail := usize (18446744073709551616 - 1 + 2 * w.st.descChainLength)
    let status := u32 (w.st.descChain tail).status
    let w := w.log (Event.readStatus tail status)
    match sg_status_class status with
    | SgPoll.decodeError => (CRIT_ERR, show_descriptors E (w.log (Event.printk Msg.sgDecodeError)))
    | SgPoll.slaveError => (CRIT_ERR, show_descriptors E (w.log (Event.printk Msg.sgSlaveError)))
    | SgPoll.internalError =>
      (CRIT_ERR, show_descriptors E (w.log (Event.printk Msg.sgInternalError)))
    | SgPoll.complete => (SUCCESS, w)
    | SgPoll.noneYet => sg_poll E delayTime w

/-- The loop `while (countBuf) { ... }` of `sg_operation` that writes the
translation vectors; the first argument is `countBuf`. -/
def sg_write_vectors {H : Type} (E : Engine H) : Nat → World H → Nat → Nat → World H
  | 0, w, _, _ => w
  | countBuf + 1, w, pntr, bramOffset =>
    let w := xpdma_writeReg E w (u32 (4 + (BRAM_OFFSET + bramOffset))) (u32 pntr)
    let w := xpdma_writeReg E w (u32 (0 + (BRAM_OFFSET + bramOffset)))
      (u32 (pntr / 4294967296))
    sg_write_vectors E countBuf w (usize (TRANSFER_SIZE + pntr)) (usize (BRAM_STEP + bramOffset))

/-- The function `sg_operation`. -/
def sg_operation {H : Type} (E : Engine H) (w : World H) (direction : Int)
    (count addr : Nat) : Int × World H :=
  let idle := xpdma_isIdle E w
  if idle.1 = 0 then
    (CRIT_ERR, xpdma_showInfo E (idle.2.log (Event.printk Msg.notIdle)))
  else
    -- 1. Set DMA to Scatter Gather Mode
    let w := xpdma_writeReg E idle.2 (CDMA_OFFSET + CDMA_CONTROL_OFFSET) CDMA_CR_SG_EN
    -- 2. Create Descriptors chain
    let w := (create_desc_chain w direction count addr).2
    -- 3. Update PCIe Translation vector
    let pntr := usize w.st.descChainHWAddr
    let w := xpdma_writeReg E w (PCIE_CTL_OFFSET + AXIBAR2PCIEBAR_0L) (u32 pntr)
    let w := xpdma_writeReg E w (PCIE_CTL_OFFSET + AXIBAR2PCIEBAR_0U)
      (u32 (pntr / 4294967296))
    -- 4. Write appropriate Translation Vectors
    let sel : Option Nat :=
      if PCI_DMA_FROMDEVICE = direction then some (usize w.st.readHWAddr)
      else if PCI_DMA_TODEVICE = direction then some (usize w.st.writeHWAddr)
      else none
    match sel with
    | none => (CRIT_ERR, w.log (Event.printk Msg.unknownDirection))
    | some pntr =>
      let countBuf := u32 w.st.descChainLength
      let w := sg_write_vectors E countBuf w pntr 0
      -- 5. Write a valid pointer to DMA CURDESC_PNTR
      let w := xpdma_writeReg E w (CDMA_OFFSET + CDMA_CDESC_OFFSET) AXI_PCIE_SG_ADDR
      -- 6. Write a valid pointer to DMA TAILDESC_PNTR
      let w := xpdma_writeReg E w (CDMA_OFFSET + CDMA_TDESC_OFFSET)
        (usize (AXI_PCIE_SG_ADDR +
          usize (usize (18446744073709551616 - 1 + 2 * w.st.descChainLength) * DESCRIPTOR_SIZE)))
      -- wait for Scatter Gather operation...
      sg_poll E CDMA_TRANSFER_LOOP w

/-- The loop `while (loop && tmp) { tmp = xpdma_readReg(...) & CDMA_CR_RESET_MASK;
loop--; }` of `xpdma_reset`; the arguments are `loop` and `tmp`, the result
holds their values when the loop is left. -/
def reset_poll {H : Type} (E : Engine H) : Nat → Nat → World H → Nat × Nat × World H
  | 0, tmp, w => (0, tmp, w)
  | loop + 1, tmp, w =>
    if tmp = 0 then (loop + 1, tmp, w)
    else
      reset_poll E loop
        ((xpdma_readReg E w (CDMA_OFFSET + CDMA_CONTROL_OFFSET)).1 &&& CDMA_CR_RESET_MASK)
        (xpdma_readReg E w (CDMA_OFFSET + CDMA_CONTROL_OFFSET)).2

/-- The first statement of `xpdma_reset` on an initialised slot: the control
register is read and written back with the reset bit set. -/
def reset_arm {H : Type} (E : Engine H) (w : World H) : World H :=
  xpdma_writeReg E (xpdma_readReg E w (CDMA_OFFSET + CDMA_CONTROL_OFFSET)).2
    (CDMA_OFFSET + CDMA_CONTROL_OFFSET)
    ((xpdma_readReg E w (CDMA_OFFSET + CDMA_CONTROL_OFFSET)).1 ||| CDMA_CR_RESET_MASK)

/-- The wait of `xpdma_reset` for the hardware to finish the reset: the read
of the control register before the loop, then the loop with
`loop = CDMA_RESET_LOOP`.  The result holds `loop`, `tmp` and the world when
the loop is left. -/
def reset_wait {H : Type} (E : Engine H) (w : World H) : Nat × Nat × World H :=
  reset_poll E CDMA_RESET_LOOP
    ((xpdma_readReg E w (CDMA_OFFSET + CDMA_CONTROL_OFFSET)).1 &&& CDMA_CR_RESET_MASK)
    (xpdma_readReg E w (CDMA_OFFSET + CDMA_CONTROL_OFFSET)).2

/-- The timeout line of `xpdma_reset`, which prints the control register and
the status register.  The two reads are arguments of one call of `printk`, and
C leaves the order in which the arguments of a call are evaluated unspecified:
`statusFirst` tells whether the status register is read before the control
register. -/
def reset_report {H : Type} (E : Engine H) (statusFirst : Bool) (w : World H) : World H :=
  if statusFirst then
    let s := xpdma_readReg E w (CDMA_OFFSET + CDMA_STATUS_OFFSET)
    let c := xpdma_readReg E s.2 (CDMA_OFFSET + CDMA_CONTROL_OFFSET)
    c.2.log (Event.printk Msg.resetTimeout)
  else
    let c := xpdma_readReg E w (CDMA_OFFSET + CDMA_CONTROL_OFFSET)
    let s := xpdma_readReg E c.2 (CDMA_OFFSET + CDMA_STATUS_OFFSET)
    s.2.log (Event.printk Msg.resetTimeout)

/-- The function `xpdma_reset`; `statusFirst` is the order in which the
compiled driver evaluates the two register reads of the timeout line (see
`reset_report`). -/
def xpdma_reset {H : Type} (E : Engine H) (statusFirst : Bool) (w : World H) :
    Int × World H :=
  if !w.st.used then
    (CRIT_ERR, w.log (Event.printk Msg.notInitialized))
  else
    let p := reset_wait E (reset_arm E w)
    if p.1 = 0 then
      (CRIT_ERR, reset_report E statusFirst p.2.2)
    else
      -- For Axi CDMA, always do sg transfers if sg mode is built in
      (SUCCESS, xpdma_writeReg E p.2.2 (CDMA_OFFSET + CDMA_CONTROL_OFFSET)
        (p.2.1 ||| CDMA_CR_SG_EN))

/-! ## Transfer chunking -/

/-- The kernel function `copy_from_user` with the write staging buffer as
destination: the accessible bytes are copied, the rest of the `n` bytes is
zeroed, and the number of bytes that could not be copied is returned. -/
def copy_from_user {H : Type} (w : World H) (src n : Nat) : Nat × World H :=
  let ok := min n (w.user.limit - src)
  let buf : Nat → Nat := fun j =>
    if j < ok then w.user.bytes (src + j) else if j < n then 0 else w.st.writeBuffer j
  (n - ok, { w with st := { w.st with writeBuffer := buf },
                    trace := w.trace ++ [Event.copy_from_user src n] })

/-- The kernel function `copy_to_user` with the read staging buffer as source:
the accessible bytes are written, and the number of bytes that could not be
copied is returned. -/
def copy_to_user {H : Type} (w : World H) (dst n : Nat) : Nat × World H :=
  let ok := min n (w.user.limit - dst)
  let bytes : Nat → Nat := fun x =>
    if dst ≤ x ∧ x < dst + ok then w.st.readBuffer (x - dst) else w.user.bytes x
  (n - ok, { w with user := { w.user with bytes := bytes },
                    trace := w.trace ++ [Event.copy_to_user dst n] })

/-- The choice of the engine operation in the loop of `dma_block`, by `mode`;
`none` for an unsupported mode.  The results of `sg_operation` and
`simple_operation` are not used by `dma_block`. -/
def dma_block_engine {H : Type} (E : Engine H) (mode direction : Int) (w : World H)
    (btt curAddr : Nat) : Option (World H) :=
  if mode = DMA_SG_MODE then
    some (sg_operation E w direction btt curAddr).2
  else if mode = DMA_SIMPLE_MODE then
    some (simple_operation E w direction btt curAddr).2
  else none

/-- The body of the loop `while (unsended) { ... }` of `dma_block` up to the
pointer updates: `Except.error r` when the iteration leaves `dma_block` with
`return r`, `Except.ok w` when it reaches the pointer updates in world `w`. -/
def dma_block_body {H : Type} (E : Engine H) (mode direction : Int) (w : World H)
    (curData btt curAddr : Nat) : Except (Int × World H) (World H) :=
  let cf : Nat × World H :=
    if PCI_DMA_TODEVICE = direction then copy_from_user w curData btt else (0, w)
  if cf.1 ≠ 0 then
    Except.error (CRIT_ERR, cf.2.log (Event.printk Msg.copyFromUserFailed))
  else
    match dma_block_engine E mode direction
        (cf.2.log (Event.engineCall mode direction btt curAddr)) btt curAddr with
    | none => Except.error (CRIT_ERR, cf.2.log (Event.printk Msg.unsupportedMode))
    | some w =>
      let ct : Nat × World H :=
        if PCI_DMA_FROMDEVICE = direction then copy_to_user w curData btt else (0, w)
      if ct.1 ≠ 0 then
        Except.error (CRIT_ERR, ct.2.log (Event.printk Msg.copyToUserFailed))
      else
        Except.ok ct.2

/-- The loop `while (unsended) { ... }` of `dma_block` with the return
statements inside and after it.  The first argument bounds the number of
iterations; `dma_block` passes `count`, and every iteration takes at least one
byte off `unsended`. -/
def dma_block_loop {H : Type} (E : Engine H) (mode direction : Int) :
    Nat → World H → Nat → Nat → Nat → Int × World H
  | 0, w, _, _, _ => (SUCCESS, w)
  | fuel + 1, w, curData, unsended, curAddr =>
    if unsended = 0 then (SUCCESS, w)
    else
      let btt := u32 (if unsended < BUF_SIZE then unsended else BUF_SIZE)
      match dma_block_body E mode direction w curData btt curAddr with
      | Except.error r => r
      | Except.ok w =>
        dma_block_loop E mode direction fuel w (BUF_SIZE + curData)
          (usize (18446744073709551616 + unsended - btt)) (u32 (BUF_SIZE + curAddr))

/-- The function `dma_block`. -/
def dma_block {H : Type} (E : Engine H) (w : World H) (mode direction : Int)
    (data count addr : Nat) : Int × World H :=
  let count := usize count
  let addr := u32 addr
  if addr % 4 ≠ 0 then
    (CRIT_ERR, w.log (Event.printk Msg.notAligned))
  else
    dma_block_loop E mode direction count w data count addr

/-- The function `xpdma_send`. -/
def xpdma_send {H : Type} (E : Engine H) (w : World H) (data count addr : Nat) :
    Int × World H :=
  if !w.st.used then
    (CRIT_ERR, w.log (Event.printk Msg.notInitialized))
  else
    (SUCCESS, (dma_block E w DMA_SG_MODE PCI_DMA_TODEVICE data count addr).2)

/-- The function `xpdma_recv`. -/
def xpdma_recv {H : Type} (E : Engine H) (w : World H) (data count addr : Nat) :
    Int × World H :=
  if !w.st.used then
    (CRIT_ERR, w.log (Event.printk Msg.notInitialized))
  else
    (SUCCESS, (dma_block E w DMA_SG_MODE PCI_DMA_FROMDEVICE data count addr).2)

/-- The function `xpdma_write`, on slot 0 and device address 0. -/
def xpdma_write {H : Type} (E : Engine H) (w : World H) (buf count : Nat) : Int × World H :=
  if !w.st.used then
    (CRIT_ERR, w.log (Event.printk Msg.notInitialized))
  else
    (SUCCESS, (dma_block E w DMA_SIMPLE_MODE PCI_DMA_TODEVICE buf count 0).2)

/-- The function `xpdma_read`, on slot 0 and device address 0. -/
def xpdma_read {H : Type} (E : Engine H) (w : World H) (buf count : Nat) : Int × World H :=
  if !w.st.used then
    (CRIT_ERR, w.log (Event.printk Msg.notInitialized))
  else
    (SUCCESS, (dma_block E w DMA_SIMPLE_MODE PCI_DMA_FROMDEVICE buf count 0).2)

/-! ## A faithful simulated engine

The claims on round trips speak of a faithful simulated engine.  The model
below is the AXI CDMA behind the AXI to PCIe bridge, as far as the driver
programs it: a register window (translation BRAM, PCIe control block, CDMA
block), a device memory, and the AXI address map given by the constants
`AXI_DDR3_ADDR`, `AXI_PCIE_DM_ADDR`, `AXI_PCIE_SG_ADDR` and `AXI_BRAM_ADDR`.
It always reports idle, executes a transfer at once when the driver arms it,
and marks every descriptor it has executed complete. -/

/-- Modelled from the spec: the state of the simulated engine, which is
hardware and not code of the repository.  `regs` holds the bytes of the
register window by byte offset, `ddr` the bytes of the device memory by AXI
address. -/
structure Cdma where
  regs : Nat → Nat
  ddr : Nat → Nat

/-- The 32 bit register at byte offset `r`, little endian. -/
def regWord (regs : Nat → Nat) (r : Nat) : Nat :=
  regs r % 256 + 256 * (regs (1 + r) % 256) + 65536 * (regs (2 + r) % 256) +
    16777216 * (regs (3 + r) % 256)

/-- The register window after a 32 bit write of `v` at byte offset `r`. -/
def setRegWord (regs : Nat → Nat) (r v : Nat) : Nat → Nat :=
  fun x =>
    if x = r then v % 256
    else if x = 1 + r then v / 256 % 256
    else if x = 2 + r then v / 65536 % 256
    else if x = 3 + r then v / 16777216 % 256
    else regs x

/-- The PCIe address the bridge translates AXI BAR0 (the window at
`AXI_PCIE_SG_ADDR`) to. -/
def bar0 (h : Cdma) : Nat :=
  regWord h.regs (PCIE_CTL_OFFSET + AXIBAR2PCIEBAR_0L) +
    4294967296 * regWord h.regs (PCIE_CTL_OFFSET + AXIBAR2PCIEBAR_0U)

/-- The PCIe address the bridge translates AXI BAR1 (the window at
`AXI_PCIE_DM_ADDR`) to. -/
def bar1 (h : Cdma) : Nat :=
  regWord h.regs (PCIE_CTL_OFFSET + AXIBAR2PCIEBAR_1L) +
    4294967296 * regWord h.regs (PCIE_CTL_OFFSET + AXIBAR2PCIEBAR_1U)

/-- A data byte read by bus mastering at bus address `p`: a byte of the read
or of the write staging buffer; the descriptor storage and the rest of the host
memory are not read as data (0). -/
def hostRead (a : HwAddrs) (m : DmaMem) (p : Nat) : Nat :=
  if a.readHWAddr ≤ p ∧ p < BUF_SIZE + a.readHWAddr then m.readBuffer (p - a.readHWAddr)
  else if a.writeHWAddr ≤ p ∧ p < BUF_SIZE + a.writeHWAddr then m.writeBuffer (p - a.writeHWAddr)
  else 0

/-- A data byte written by bus mastering at bus address `p`: into the read or
the write staging buffer; writes of data elsewhere are dropped. -/
def hostWrite (a : HwAddrs) (m : DmaMem) (p v : Nat) : DmaMem :=
  if a.readHWAddr ≤ p ∧ p < BUF_SIZE + a.readHWAddr then
    { m with readBuffer := Function.update m.readBuffer (p - a.readHWAddr) v }
  else if a.writeHWAddr ≤ p ∧ p < BUF_SIZE + a.writeHWAddr then
    { m with writeBuffer := Function.update m.writeBuffer (p - a.writeHWAddr) v }
  else m

/-- The byte at AXI address `x`: device memory below `AXI_PCIE_DM_ADDR`, host
memory through the two bridge windows, the register window from
`AXI_BRAM_ADDR`. -/
def axiRead (a : HwAddrs) (s : Cdma × DmaMem) (x : Nat) : Nat :=
  if x < AXI_PCIE_DM_ADDR then s.1.ddr x
  else if x < AXI_PCIE_SG_ADDR then hostRead a s.2 (bar1 s.1 + (x - AXI_PCIE_DM_ADDR))
  else if x < AXI_BRAM_ADDR then hostRead a s.2 (bar0 s.1 + (x - AXI_PCIE_SG_ADDR))
  else s.1.regs (x - AXI_BRAM_ADDR)

/-- The write of byte `v` at AXI address `x`. -/
def axiWrite (a : HwAddrs) (s : Cdma × DmaMem) (x v : Nat) : Cdma × DmaMem :=
  if x < AXI_PCIE_DM_ADDR then ({ s.1 with ddr := Function.update s.1.ddr x v }, s.2)
  else if x < AXI_PCIE_SG_ADDR then
    (s.1, hostWrite a s.2 (bar1 s.1 + (x - AXI_PCIE_DM_ADDR)) v)
  else if x < AXI_BRAM_ADDR then
    (s.1, hostWrite a s.2 (bar0 s.1 + (x - AXI_PCIE_SG_ADDR)) v)
  else ({ s.1 with regs := Function.update s.1.regs (x - AXI_BRAM_ADDR) v }, s.2)

/-- The transfer of `n` bytes from AXI address `src` to AXI address `dst`, byte
after byte in increasing order; AXI addresses are 32 bit. -/
def axiCopy (a : HwAddrs) (src dst : Nat) : Nat → Cdma × DmaMem → Cdma × DmaMem
  | 0, s => s
  | n + 1, s =>
    axiWrite a (axiCopy a src dst n s) (u32 (dst + n))
      (axiRead a (axiCopy a src dst n s) (u32 (src + n)))

/-- The index in the descriptor storage of the descriptor at AXI address `x`,
when `x` lies in the BAR0 window and the bridge translates it to a descriptor
of the slot. -/
def fetchDesc (a : HwAddrs) (h : Cdma) (x : Nat) : Option Nat :=
  if AXI_PCIE_SG_ADDR ≤ x ∧ x < AXI_BRAM_ADDR ∧
      a.descChainHWAddr ≤ bar0 h + (x - AXI_PCIE_SG_ADDR) ∧
      bar0 h + (x - AXI_PCIE_SG_ADDR) < BUF_SIZE + a.descChainHWAddr ∧
      (bar0 h + (x - AXI_PCIE_SG_ADDR) - a.descChainHWAddr) % DESCRIPTOR_SIZE = 0 then
    some ((bar0 h + (x - AXI_PCIE_SG_ADDR) - a.descChainHWAddr) / DESCRIPTOR_SIZE)
  else none

/-- The status word of a descriptor the engine has executed without error:
the complete bit (bit 31). -/
def SG_DESC_COMPLETE : Nat := 0x80000000

/-- The bus mastered memory after descriptor `k`, which held `d`, has been
marked complete. -/
def markDone (m : DmaMem) (k : Nat) (d : sg_desc_t) : DmaMem :=
  { m with descChain := Function.update m.descChain k { d with status := SG_DESC_COMPLETE } }

/-- The execution of the descriptor at index `k`: its transfer is made, then
its status word is set to complete. -/
def execDesc (a : HwAddrs) (s : Cdma × DmaMem) (k : Nat) : Cdma × DmaMem :=
  ((axiCopy a (s.2.descChain k).srcAddr (s.2.descChain k).destAddr
      (s.2.descChain k).control s).1,
    markDone (axiCopy a (s.2.descChain k).srcAddr (s.2.descChain k).destAddr
      (s.2.descChain k).control s).2 k (s.2.descChain k))

/-- The execution of the descriptor chain from the descriptor at AXI address
`cur` to the one at `tail`: each descriptor is fetched and executed, and the
engine goes on to `nextDesc` unless the descriptor was the tail.  The first
argument bounds the number of descriptors (the storage holds
`BUF_SIZE / DESCRIPTOR_SIZE`); the engine stops at a descriptor it cannot
fetch. -/
def runChain (a : HwAddrs) : Nat → Nat → Nat → Cdma × DmaMem → Cdma × DmaMem
  | 0, _, _, s => s
  | fuel + 1, cur, tail, s =>
    match fetchDesc a s.1 cur with
    | none => s
    | some k =>
      if cur = tail then execDesc a s k
      else runChain a fuel (s.2.descChain k).nextDesc tail (execDesc a s k)

/-- The effect of a 32 bit write of `val` to the register at byte offset `reg`:
the register takes the value; a write to the tail descriptor pointer in
scatter gather mode runs the chain from the current descriptor pointer, a write
to the bytes to transfer register in simple mode makes the transfer from the
source to the destination address register. -/
def cdmaWrite (a : HwAddrs) (s : Cdma × DmaMem) (reg val : Nat) : Cdma × DmaMem :=
  if reg = CDMA_OFFSET + CDMA_TDESC_OFFSET then
    if regWord s.1.regs (CDMA_OFFSET + CDMA_CONTROL_OFFSET) &&& CDMA_CR_SG_EN ≠ 0 then
      runChain a (BUF_SIZE / DESCRIPTOR_SIZE)
        (regWord s.1.regs (CDMA_OFFSET + CDMA_CDESC_OFFSET)) (u32 val)
        ({ s.1 with regs := setRegWord s.1.regs reg val }, s.2)
    else ({ s.1 with regs := setRegWord s.1.regs reg val }, s.2)
  else if reg = CDMA_OFFSET + CDMA_BTT_OFFSET then
    if regWord s.1.regs (CDMA_OFFSET + CDMA_CONTROL_OFFSET) &&& CDMA_CR_SG_EN ≠ 0 then
      ({ s.1 with regs := setRegWord s.1.regs reg val }, s.2)
    else
      axiCopy a (regWord s.1.regs (CDMA_OFFSET + CDMA_SRCADDR_OFFSET))
        (regWord s.1.regs (CDMA_OFFSET + CDMA_DSTADDR_OFFSET)) (u32 val)
        ({ s.1 with regs := setRegWord s.1.regs reg val }, s.2)
  else ({ s.1 with regs := setRegWord s.1.regs reg val }, s.2)

/-- Modelled from the spec: the faithful simulated engine.  Its status register
always reads idle, a register write acts as `cdmaWrite`, and a delay changes
nothing (transfers are made at once when they are armed). -/
def faithfulEngine : Engine Cdma :=
  { readl := fun _ h m reg =>
      (if reg = CDMA_OFFSET + CDMA_STATUS_OFFSET then CDMA_CR_IDLE_MASK
       else regWord h.regs reg, h, m)
    writel := fun a h m reg val => cdmaWrite a (h, m) reg val
    udelay := fun _ h m _ => (h, m) }

/-- The device memory `ddr` after the `n` bytes `buf 0 .. buf (n-1)` have been
written from address `dst` on. -/
def ddrAfter (ddr buf : Nat → Nat) (dst n : Nat) : Nat → Nat :=
  fun x => if dst ≤ x ∧ x < dst + n then buf (x - dst) else ddr x

/-- The staging buffer `buf` after the `n` bytes of the device memory from
address `src` on have been written to its start. -/
def bufAfter (buf ddr : Nat → Nat) (src n : Nat) : Nat → Nat :=
  fun k => if k < n then ddr (src + k) else buf k

/-- The register window after the first `n` bytes of the translation BRAM
have been written to the BAR1 translation registers. -/
def regsAfter (regs : Nat → Nat) (n : Nat) : Nat → Nat :=
  fun x =>
    if PCIE_CTL_OFFSET + AXIBAR2PCIEBAR_1U ≤ x ∧ x < PCIE_CTL_OFFSET + AXIBAR2PCIEBAR_1U + n then
      regs (x - (PCIE_CTL_OFFSET + AXIBAR2PCIEBAR_1U))
    else regs x

/-- Steps 1 to 3 of `sg_operation` as one function: scatter gather mode, the
descriptor chain, the BAR0 translation (see `sg_operation_stages`). -/
def sg_setup {H : Type} (E : Engine H) (w : World H) (direction : Int) (count addr : Nat) :
    World H :=
  xpdma_writeReg E
    (xpdma_writeReg E
      (create_desc_chain
        (xpdma_writeReg E w (CDMA_OFFSET + CDMA_CONTROL_OFFSET) CDMA_CR_SG_EN)
        direction count addr).2
      (PCIE_CTL_OFFSET + AXIBAR2PCIEBAR_0L)
      (u32 (usize (create_desc_chain
        (xpdma_writeReg E w (CDMA_OFFSET + CDMA_CONTROL_OFFSET) CDMA_CR_SG_EN)
        direction count addr).2.st.descChainHWAddr)))
    (PCIE_CTL_OFFSET + AXIBAR2PCIEBAR_0U)
    (u32 (usize (create_desc_chain
        (xpdma_writeReg E w (CDMA_OFFSET + CDMA_CONTROL_OFFSET) CDMA_CR_SG_EN)
        direction count addr).2.st.descChainHWAddr / 4294967296))

/-- Steps 4 to 6 of `sg_operation` as one function: the translation vectors,
the current and the tail descriptor pointer (see `sg_operation_stages`). -/
def sg_start {H : Type} (E : Engine H) (w : World H) (pntr : Nat) : World H :=
  xpdma_writeReg E
    (xpdma_writeReg E (sg_write_vectors E (u32 w.st.descChainLength) w pntr 0)
      (CDMA_OFFSET + CDMA_CDESC_OFFSET) AXI_PCIE_SG_ADDR)
    (CDMA_OFFSET + CDMA_TDESC_OFFSET)
    (usize (AXI_PCIE_SG_ADDR +
      usize (usize (18446744073709551616 - 1 +
        2 * (xpdma_writeReg E (sg_write_vectors E (u32 w.st.descChainLength) w pntr 0)
          (CDMA_OFFSET + CDMA_CDESC_OFFSET) AXI_PCIE_SG_ADDR).st.descChainLength) *
        DESCRIPTOR_SIZE)))

/-- The register window after steps 1 to 3 of `sg_operation`: scatter gather
mode, and the BAR0 translation to bus address `d`. -/
def setupRegs (regs : Nat → Nat) (d : Nat) : Nat → Nat :=
  setRegWord
    (setRegWord
      (setRegWord regs (CDMA_OFFSET + CDMA_CONTROL_OFFSET) (u32 CDMA_CR_SG_EN))
      (PCIE_CTL_OFFSET + AXIBAR2PCIEBAR_0L) (u32 (u32 (usize d))))
    (PCIE_CTL_OFFSET + AXIBAR2PCIEBAR_0U) (u32 (u32 (usize d / 4294967296)))

/-- The register window after steps 4 to 6 of `sg_operation` for a chain of
one pair: translation vector `p` in slot 0, the current and the tail
descriptor pointer. -/
def startRegs (regs : Nat → Nat) (p : Nat) : Nat → Nat :=
  setRegWord
    (setRegWord
      (setRegWord
        (setRegWord regs (u32 (4 + (BRAM_OFFSET + 0))) (u32 (u32 p)))
        (u32 (0 + (BRAM_OFFSET + 0))) (u32 (u32 (p / 4294967296))))
      (CDMA_OFFSET + CDMA_CDESC_OFFSET) (u32 AXI_PCIE_SG_ADDR))
    (CDMA_OFFSET + CDMA_TDESC_OFFSET)
    (u32 (usize (AXI_PCIE_SG_ADDR +
      usize (usize (18446744073709551616 - 1 + 2 * 1) * DESCRIPTOR_SIZE))))

/-- Steps 1 to 4 of `simple_operation` as one function: simple mode, the BAR1
translation to `pntr`, the source and the destination address (see
`simple_operation_stages`). -/
def simple_setup {H : Type} (E : Engine H) (w : World H) (pntr src_pntr dst_pntr : Nat) :
    World H :=
  xpdma_writeReg E
    (xpdma_writeReg E
      (xpdma_writeReg E
        (xpdma_writeReg E
          (xpdma_writeReg E
            (xpdma_writeReg E
              (xpdma_writeReg E w (CDMA_OFFSET + CDMA_CONTROL_OFFSET) 0)
              (PCIE_CTL_OFFSET + AXIBAR2PCIEBAR_1L) (u32 pntr))
            (PCIE_CTL_OFFSET + AXIBAR2PCIEBAR_1U) (u32 (pntr / 4294967296)))
          (CDMA_OFFSET + CDMA_SRCADDR_OFFSET) (u32 src_pntr))
        (CDMA_OFFSET + CDMA_SRCADDR_MSB_OFFSET) (u32 (src_pntr / 4294967296)))
      (CDMA_OFFSET + CDMA_DSTADDR_OFFSET) (u32 dst_pntr))
    (CDMA_OFFSET + CDMA_DSTADDR_MSB_OFFSET) (u32 (dst_pntr / 4294967296))

/-- The register window after steps 1 to 4 of `simple_operation`. -/
def simpleRegs (regs : Nat → Nat) (p src dst : Nat) : Nat → Nat :=
  setRegWord
    (setRegWord
      (setRegWord
        (setRegWord
          (setRegWord
            (setRegWord
              (setRegWord regs (CDMA_OFFSET + CDMA_CONTROL_OFFSET) (u32 0))
              (PCIE_CTL_OFFSET + AXIBAR2PCIEBAR_1L) (u32 (u32 p)))
            (PCIE_CTL_OFFSET + AXIBAR2PCIEBAR_1U) (u32 (u32 (p / 4294967296))))
          (CDMA_OFFSET + CDMA_SRCADDR_OFFSET) (u32 (u32 src)))
        (CDMA_OFFSET + CDMA_SRCADDR_MSB_OFFSET) (u32 (u32 (src / 4294967296))))
      (CDMA_OFFSET + CDMA_DSTADDR_OFFSET) (u32 (u32 dst)))
    (CDMA_OFFSET + CDMA_DSTADDR_MSB_OFFSET) (u32 (u32 (dst / 4294967296)))

/-- The hardware state and the bus mastered memory of a world. -/
def World.bus {H : Type} (w : World H) : H × DmaMem := (w.hw, w.st.dma)

/-! ## Closed forms for the descriptor chain -/

/-- The address translation descriptor the loop of `create_desc_chain` writes
over `old` for the chunk that is `d` iterations after the one it stands at. -/
def addrDescOf (l : ChainLoop) (old : sg_desc_t) (d : Nat) : sg_desc_t :=
  { old with
    nextDesc := u32 (l.sgAddr + 128 * d + 64)
    srcAddr := u32 (l.bramAddr + 8 * d)
    destAddr := u32 (AXI_BRAM_ADDR + PCIE_CTL_OFFSET + AXIBAR2PCIEBAR_1U)
    control := ADDR_BTT
    status := 0 }

/-- The data descriptor the loop of `create_desc_chain` writes over `old` for
the chunk that is `d` iterations after the one it stands at. -/
def dataDescOf (l : ChainLoop) (old : sg_desc_t) (d : Nat) : sg_desc_t :=
  { old with
    nextDesc := u32 (l.sgAddr + 128 * d + 128)
    srcAddr := u32 (l.srcAddr + min (d * TRANSFER_SIZE) l.unmappedSize)
    destAddr := u32 (l.destAddr + min (d * TRANSFER_SIZE) l.unmappedSize)
    control := min (l.unmappedSize - d * TRANSFER_SIZE) TRANSFER_SIZE
    status := 0 }

/-- The loop variables of `create_desc_chain` hold `u32` values. -/
def ChainLoop.inRange (l : ChainLoop) : Prop :=
  l.bramAddr < 4294967296 ∧ l.unmappedSize < 4294967296 ∧
  l.srcAddr < 4294967296 ∧ l.destAddr < 4294967296

/-- The loop variables of `create_desc_chain` when the loop is entered. -/
def chainStart (chain : Nat → sg_desc_t) (direction : Int) (size addr : Nat) : ChainLoop :=
  { descChain := chain, sgAddr := AXI_PCIE_SG_ADDR, bramAddr := AXI_BRAM_ADDR,
    unmappedSize := u32 size,
    srcAddr := if direction = PCI_DMA_FROMDEVICE then u32 (AXI_DDR3_ADDR + u32 addr)
               else AXI_PCIE_DM_ADDR,
    destAddr := if direction = PCI_DMA_FROMDEVICE then AXI_PCIE_DM_ADDR
                else u32 (AXI_DDR3_ADDR + u32 addr) }

/-- The chain length `create_desc_chain` computes, in `u32` arithmetic. -/
def chainLen (size : Nat) : Nat := u32 (u32 TRANSFER_SIZE - 1 + u32 size) / u32 TRANSFER_SIZE

/-- The index `2 * descChainLength - 1` of the tail descriptor, a `size_t`. -/
def tailIndex (len : Nat) : Nat := usize (18446744073709551616 - 1 + 2 * len)

/-- The slot after a successful `create_desc_chain`. -/
def chainState (s : xpdma_state) (direction : Int) (size addr : Nat) : xpdma_state :=
  { s with
    descChainLength := chainLen size
    descChain :=
      Function.update
        (create_desc_chain_loop (chainLen size) 0
          (chainStart s.descChain direction size addr)).descChain
        (tailIndex (chainLen size))
        { (create_desc_chain_loop (chainLen size) 0
            (chainStart s.descChain direction size addr)).descChain (tailIndex (chainLen size)) with
          nextDesc := AXI_PCIE_SG_ADDR } }

/-! ## Concrete worlds -/

/-- A descriptor with all fields zero. -/
def zeroDesc : sg_desc_t :=
  { nextDesc := 0, na1 := 0, srcAddr := 0, na2 := 0, destAddr := 0, na3 := 0,
    control := 0, status := 0 }

/-- An initialised slot with zeroed buffers; the three buffers lie one after
the other from bus address `0x10000000`. -/
def slot0 : xpdma_state :=
  { used := true, readBuffer := fun _ => 0, writeBuffer := fun _ => 0,
    descChain := fun _ => zeroDesc, descChainLength := 0,
    readHWAddr := 0x10000000, writeHWAddr := 0x10400000, descChainHWAddr := 0x10800000 }

/-- Hardware that stores nothing: every register reads as `v`. -/
def constEngine (v : Nat) : Engine Unit :=
  { readl := fun _ h m _ => (v, h, m)
    writel := fun _ h m _ _ => (h, m)
    udelay := fun _ h m _ => (h, m) }

/-- A world on `slot0` whose user memory holds 0x41 everywhere. -/
def world0 : World Unit :=
  { st := slot0, hw := (), user := { bytes := fun _ => 0x41, limit := 0x100000000000 },
    trace := [] }

/-- A descriptor a previous use has left with values in every field. -/
def usedDesc : sg_desc_t :=
  { nextDesc := 0x11, na1 := 0x22, srcAddr := 0x33, na2 := 0x44, destAddr := 0x55,
    na3 := 0x66, control := 0x77, status := 0x80000000 }

/-- The world `world0` with a descriptor buffer full of `usedDesc`. -/
def world0used : World Unit :=
  { world0 with st := { slot0 with descChain := fun _ => usedDesc } }

/-- The world `world0` with the slot not initialised. -/
def world0off : World Unit :=
  { world0 with st := { slot0 with used := false } }

/-- A zeroed engine: every register and every byte of the device memory is 0. -/
def cdma0 : Cdma := { regs := fun _ => 0, ddr := fun _ => 0 }

/-- A world on `slot0` and the zeroed engine whose user memory holds 0x41 in its
first `BUF_SIZE` bytes, 0x42 in the next `BUF_SIZE` bytes, and so on. -/
def world1 : World Cdma :=
  { st := slot0, hw := cdma0,
    user := { bytes := fun x => (0x41 + x / BUF_SIZE) % 256, limit := 0x100000000000 },
    trace := [] }

/-- Hardware that counts the register reads made so far (its state) and stores
nothing: the first `k` reads return `early`, every later read returns `late`. -/
def lateEngine (k early late : Nat) : Engine Nat :=
  { readl := fun _ h m _ => (if h < k then early else late, h + 1, m)
    writel := fun _ h m _ _ => (h, m)
    udelay := fun _ h m _ => (h, m) }

/-- A world on `slot0` for `lateEngine`, with no register read made so far. -/
def worldLate : World Nat :=
  { st := slot0, hw := 0, user := { bytes := fun _ => 0x41, limit := 0x100000000000 },
    trace := [] }

/-- A slot in use whose bus addresses are 64 bit values and whose two staging
buffers do not overlap on the bus, as `xpdma_init` leaves it. -/
def SlotOk (s : xpdma_state) : Prop :=
  s.used = true ∧ s.descChainHWAddr < 18446744073709551616 ∧
  s.readHWAddr < 18446744073709551616 ∧ s.writeHWAddr < 18446744073709551616 ∧
  (BUF_SIZE + s.writeHWAddr ≤ s.readHWAddr ∨ BUF_SIZE + s.readHWAddr ≤ s.writeHWAddr)

instance (s : xpdma_state) : Decidable (SlotOk s) := by
  unfold SlotOk
  infer_instance

/-! ## Observations on the trace -/

/-- The events an engine operation (`sg_operation`, `simple_operation` and the
functions they call) can append to the trace: register accesses, delays, reads
of the tail status word, and the log lines of the engine control protocol. -/
def Event.ofOperation : Event → Bool
  | Event.readReg _ _ => true
  | Event.writeReg _ _ => true
  | Event.udelay _ => true
  | Event.readStatus _ _ => true
  | Event.printk m =>
    decide (m ≠ Msg.notAligned ∧ m ≠ Msg.copyFromUserFailed ∧ m ≠ Msg.copyToUserFailed ∧
      m ≠ Msg.unsupportedMode ∧ m ≠ Msg.resetTimeout)
  | _ => false

/-- A step of the engine control protocol from `w` to `w2`: the user memory,
the `used` flag and the bus addresses of the slot are kept, and the trace grows
by events of an engine operation. -/
def OpStep {H : Type} (w w2 : World H) : Prop :=
  w2.user = w.user ∧ w2.st.used = w.st.used ∧ w2.st.addrs = w.st.addrs ∧
  ∃ t, w2.trace = w.trace ++ t ∧ ∀ e ∈ t, e.ofOperation = true

/-- The engine invocations in a trace: mode, direction, byte count and device
address of each, in order. -/
def engineCalls : List Event → List (Int × Int × Nat × Nat)
  | [] => []
  | Event.engineCall mode direction count addr :: t =>
    (mode, direction, count, addr) :: engineCalls t
  | _ :: t => engineCalls t

/-- The host copies in a trace: `(true, src, n)` for `copy_from_user` from user
address `src`, `(false, dst, n)` for `copy_to_user` to user address `dst`. -/
def userCopies : List Event → List (Bool × Nat × Nat)
  | [] => []
  | Event.copy_from_user src n :: t => (true, src, n) :: userCopies t
  | Event.copy_to_user dst n :: t => (false, dst, n) :: userCopies t
  | _ :: t => userCopies t

/-- The register writes in a trace: register and value of each, in order. -/
def regWrites : List Event → List (Nat × Nat)
  | [] => []
  | Event.writeReg reg val :: t => (reg, val) :: regWrites t
  | _ :: t => regWrites t

/-- The register reads in a trace: register and value of each, in order. -/
def regReads : List Event → List (Nat × Nat)
  | [] => []
  | Event.readReg reg val :: t => (reg, val) :: regReads t
  | _ :: t => regReads t

/-- The reads of a descriptor status word in a trace: descriptor index and
value of each, in order. -/
def statusReads : List Event → List (Nat × Nat)
  | [] => []
  | Event.readStatus index val :: t => (index, val) :: statusReads t
  | _ :: t => statusReads t

/-- The events that are neither a register write nor a read of a descriptor
status word nor a host copy nor an engine invocation: register reads, delays
and log lines. -/
def Event.passive : Event → Bool
  | Event.readReg _ _ => true
  | Event.udelay _ => true
  | Event.printk _ => true
  | _ => false

/-- The fields of a slot the hardware cannot reach are the same in `s` and
`t`: the `used` flag, the three bus addresses and the chain length. -/
def SameSlot (s t : xpdma_state) : Prop :=
  t.used = s.used ∧ t.readHWAddr = s.readHWAddr ∧ t.writeHWAddr = s.writeHWAddr ∧
  t.descChainHWAddr = s.descChainHWAddr ∧ t.descChainLength = s.descChainLength

/-- A step from `w` to `w2` that writes no register and reads no status word:
the slot fields out of reach of the hardware and the user memory are kept, and
the trace grows by passive events. -/
def Quiet {H : Type} (w w2 : World H) : Prop :=
  SameSlot w.st w2.st ∧ w2.user = w.user ∧
  ∃ t, w2.trace = w.trace ++ t ∧ ∀ e ∈ t, e.passive = true

/-- From `w` to `w2` exactly the register writes `l` were made, in this order,
and no descriptor status word was read; the slot fields out of reach of the
hardware and the user memory are kept. -/
def Wrote {H : Type} (w w2 : World H) (l : List (Nat × Nat)) : Prop :=
  SameSlot w.st w2.st ∧ w2.user = w.user ∧
  regWrites w2.trace = regWrites w.trace ++ l ∧
  statusReads w2.trace = statusReads w.trace

/-- An engine whose register reads have no side effect on the hardware and on
the memory the device masters. -/
def Engine.readsPure {H : Type} (E : Engine H) : Prop :=
  ∀ (a : HwAddrs) (h : H) (m : DmaMem) (reg : Nat), (E.readl a h m reg).2 = (h, m)

/-- The register writes of the loop `sg_write_vectors`: the arguments are
`countBuf`, `pntr` and `bramOffset`. -/
def vectorWrites : Nat → Nat → Nat → List (Nat × Nat)
  | 0, _, _ => []
  | countBuf + 1, pntr, bramOffset =>
    (u32 (4 + (BRAM_OFFSET + bramOffset)), u32 (u32 pntr)) ::
    (u32 (0 + (BRAM_OFFSET + bramOffset)), u32 (u32 (pntr / 4294967296))) ::
    vectorWrites countBuf (usize (TRANSFER_SIZE + pntr)) (usize (BRAM_STEP + bramOffset))

/-- The two register writes for slot `i` of the translation vector table, for
the bus address `p` of the staging buffer: the low 32 bits of
`p + TRANSFER_SIZE * i` at offset `BRAM_OFFSET + 8 * i + 4`, then the high 32
bits at offset `BRAM_OFFSET + 8 * i`. -/
def slotWrites (p i : Nat) : List (Nat × Nat) :=
  [(BRAM_OFFSET + 8 * i + 4, usize (p + TRANSFER_SIZE * i) % 4294967296),
   (BRAM_OFFSET + 8 * i, usize (p + TRANSFER_SIZE * i) / 4294967296)]

/-- From `w` to `w2` the trace grows, and by no log line of the alignment
check of `dma_block`. -/
def NoAlignLog {H : Type} (w w2 : World H) : Prop :=
  ∃ t, w2.trace = w.trace ++ t ∧ Event.printk Msg.notAligned ∉ t

/-- The world an iteration of the loop of `dma_block` ends in, whether it
returns from `dma_block` or goes on. -/
def bodyWorld {H : Type} : Except (Int × World H) (World H) → World H
  | Except.error r => r.2
  | Except.ok w => w

/-- The index of the tail descriptor `sg_operation` polls in world `w`. -/
def polledIndex {H : Type} (E : Engine H) (w : World H) : Nat :=
  usize (18446744073709551616 - 1 + 2 * (udelay E w 10).st.descChainLength)

/-- The status word one iteration of the poll loop of `sg_operation` reads in
world `w`, after its delay. -/
def polledStatus {H : Type} (E : Engine H) (w : World H) : Nat :=
  u32 ((udelay E w 10).st.descChain (polledIndex E w)).status

/-- The world after one iteration of the poll loop of `sg_operation` has read
the status word. -/
def polledWorld {H : Type} (E : Engine H) (w : World H) : World H :=
  (udelay E w 10).log (Event.readStatus (polledIndex E w) (polledStatus E w))

end XPDMA

namespace XPDMA

/-! ## The descriptor chain builder -/

theorem loop_succ (todo c : Nat) (l : ChainLoop) :
    create_desc_chain_loop (todo + 1) c l =
      create_desc_chain_loop todo (c + 1) (create_desc_chain_body c l) := rfl

theorem body_descChain (c : Nat) (l : ChainLoop) (j : Nat) :
    (create_desc_chain_body c l).descChain j =
      if j = 2 * c + 1 then
        { l.descChain (2 * c + 1) with
          nextDesc := u32 (DESCRIPTOR_SIZE + u32 (DESCRIPTOR_SIZE + l.sgAddr))
          srcAddr := l.srcAddr
          destAddr := l.destAddr
          control := if l.unmappedSize > TRANSFER_SIZE then TRANSFER_SIZE else l.unmappedSize
          status := 0 }
      else if j = 2 * c then
        { l.descChain (2 * c) with
          nextDesc := u32 (DESCRIPTOR_SIZE + l.sgAddr)
          srcAddr := l.bramAddr
          destAddr := u32 (AXI_BRAM_ADDR + PCIE_CTL_OFFSET + AXIBAR2PCIEBAR_1U)
          control := ADDR_BTT
          status := 0 }
      else l.descChain j := by
  unfold create_desc_chain_body
  by_cases h1 : j = 2 * c + 1
  · subst h1
    simp [Function.update]
  · by_cases h2 : j = 2 * c
    · subst h2; simp [Function.update]
    · simp [Function.update, h1, h2]

/-- The loop leaves the descriptors outside the chunks it runs over as they
were. -/
theorem loop_frame (todo : Nat) : ∀ (c : Nat) (l : ChainLoop) (j : Nat),
    (j < 2 * c ∨ 2 * (c + todo) ≤ j) →
    (create_desc_chain_loop todo c l).descChain j = l.descChain j := by
  induction todo with
  | zero => intro c l j _; rfl
  | succ t ih =>
    intro c l j h
    rw [loop_succ, ih (c + 1) _ j (by omega), body_descChain]
    rw [if_neg (by omega), if_neg (by omega)]

theorem body_inRange (c : Nat) (l : ChainLoop) : (create_desc_chain_body c l).inRange := by
  simp only [ChainLoop.inRange, create_desc_chain_body, u32]
  refine ⟨?_, ?_, ?_, ?_⟩ <;> exact Nat.mod_lt _ (by norm_num)

/-- The address translation descriptor of every chunk the loop runs over. -/
theorem loop_addr (todo : Nat) : ∀ (c : Nat) (l : ChainLoop) (d : Nat),
    l.inRange → d < todo →
    (create_desc_chain_loop todo c l).descChain (2 * (c + d)) =
      addrDescOf l (l.descChain (2 * (c + d))) d := by
  induction todo with
  | zero => intro c l d _ h; omega
  | succ t ih =>
    intro c l d hl hd
    rw [loop_succ]
    cases d with
    | zero =>
      rw [loop_frame t (c + 1) _ _ (by omega), body_descChain]
      rw [if_neg (by omega), if_pos (by omega)]
      obtain ⟨h1, h2, h3, h4⟩ := hl
      simp only [addrDescOf, u32, DESCRIPTOR_SIZE, Nat.add_zero, Nat.mul_zero]
      rw [Nat.mod_eq_of_lt h1]
      congr 1
      omega
    | succ d =>
      have e : 2 * (c + (d + 1)) = 2 * (c + 1 + d) := by omega
      rw [e, ih (c + 1) _ d (body_inRange c l) (by omega), body_descChain]
      rw [if_neg (by omega), if_neg (by omega)]
      simp only [addrDescOf, create_desc_chain_body, u32, DESCRIPTOR_SIZE, BRAM_STEP]
      congr 1 <;> omega

/-- The data descriptor of every chunk the loop runs over. -/
theorem loop_data (todo : Nat) : ∀ (c : Nat) (l : ChainLoop) (d : Nat),
    l.inRange → d < todo →
    (create_desc_chain_loop todo c l).descChain (2 * (c + d) + 1) =
      dataDescOf l (l.descChain (2 * (c + d) + 1)) d := by
  induction todo with
  | zero => intro c l d _ h; omega
  | succ t ih =>
    intro c l d hl hd
    rw [loop_succ]
    obtain ⟨h1, h2, h3, h4⟩ := hl
    cases d with
    | zero =>
      rw [loop_frame t (c + 1) _ _ (by omega), body_descChain]
      rw [if_pos (by omega)]
      simp only [dataDescOf, u32, DESCRIPTOR_SIZE, Nat.add_zero, Nat.mul_zero, Nat.zero_mul,
        Nat.zero_min, Nat.sub_zero, TRANSFER_SIZE]
      rw [Nat.mod_eq_of_lt h3, Nat.mod_eq_of_lt h4]
      congr 1
      · omega
      · split <;> omega
    | succ d =>
      have e : 2 * (c + (d + 1)) + 1 = 2 * (c + 1 + d) + 1 := by omega
      rw [e, ih (c + 1) _ d (body_inRange c l) (by omega), body_descChain]
      rw [if_neg (by omega), if_neg (by omega)]
      simp only [dataDescOf, create_desc_chain_body, u32, DESCRIPTOR_SIZE, TRANSFER_SIZE]
      congr 1
      · omega
      · split <;> omega
      · split <;> omega
      · split <;> omega

theorem chainStart_descChain (chain : Nat → sg_desc_t) (direction : Int) (size addr : Nat) :
    (chainStart chain direction size addr).descChain = chain := rfl

theorem chainStart_inRange (chain : Nat → sg_desc_t) (direction : Int) (size addr : Nat) :
    (chainStart chain direction size addr).inRange := by
  simp only [ChainLoop.inRange, chainStart, u32, AXI_BRAM_ADDR, AXI_PCIE_DM_ADDR]
  refine ⟨by norm_num, Nat.mod_lt _ (by norm_num), ?_, ?_⟩ <;> split <;>
    first | exact Nat.mod_lt _ (by norm_num) | norm_num

theorem chainLen_le (size : Nat) : chainLen size ≤ 1023 := by
  simp only [chainLen, u32, TRANSFER_SIZE, Nat.reduceMod]
  omega

theorem chainLen_small (size : Nat) (h : size ≤ 4294967296 - TRANSFER_SIZE) :
    chainLen size = (size + TRANSFER_SIZE - 1) / TRANSFER_SIZE := by
  simp only [TRANSFER_SIZE] at h
  simp only [chainLen, u32, TRANSFER_SIZE, Nat.reduceMod]
  omega

theorem tailIndex_pos (len : Nat) (h1 : 1 ≤ len) (h2 : len ≤ 1023) :
    tailIndex len = 2 * len - 1 := by
  simp only [tailIndex, usize]
  omega

/-- What `create_desc_chain` returns for a recognised direction. -/
theorem create_desc_chain_ok {H : Type} (w : World H) (direction : Int) (size addr : Nat)
    (hdir : direction = PCI_DMA_FROMDEVICE ∨ direction = PCI_DMA_TODEVICE) :
    create_desc_chain w direction size addr =
      (SUCCESS, { w with st := { w.st with
        descChainLength := chainLen size
        descChain :=
          let l := create_desc_chain_loop (chainLen size) 0
            (chainStart w.st.descChain direction size addr)
          Function.update l.descChain (tailIndex (chainLen size))
            { l.descChain (tailIndex (chainLen size)) with nextDesc := AXI_PCIE_SG_ADDR } } }) := by
  rcases hdir with h | h <;> subst h <;> rfl

/-- What `create_desc_chain` returns for an unknown direction. -/
theorem create_desc_chain_bad {H : Type} (w : World H) (direction : Int) (size addr : Nat)
    (h1 : direction ≠ PCI_DMA_FROMDEVICE) (h2 : direction ≠ PCI_DMA_TODEVICE) :
    create_desc_chain w direction size addr =
      (CRIT_ERR, ({ w with st := { w.st with descChainLength := chainLen size } } : World H).log
        (Event.printk Msg.chainUnknownDirection)) := by
  unfold create_desc_chain
  simp only [if_neg h1, if_neg h2]
  rfl

theorem create_desc_chain_success_iff {H : Type} (w : World H) (direction : Int)
    (size addr : Nat) :
    (create_desc_chain w direction size addr).1 = SUCCESS ↔
      (direction = PCI_DMA_FROMDEVICE ∨ direction = PCI_DMA_TODEVICE) := by
  constructor
  · intro h
    by_contra hn
    push_neg at hn
    rw [create_desc_chain_bad w direction size addr hn.1 hn.2] at h
    simp [CRIT_ERR, SUCCESS] at h
  · intro h
    rw [create_desc_chain_ok w direction size addr h]

/-- The sum of the byte counts of the first `n` chunks of a transfer of `C`
bytes. -/
theorem sum_chunks (C n : Nat) :
    ∑ i in Finset.range n, min (C - i * TRANSFER_SIZE) TRANSFER_SIZE =
      min C (n * TRANSFER_SIZE) := by
  induction n with
  | zero => simp
  | succ n ih =>
    rw [Finset.sum_range_succ, ih]
    simp only [TRANSFER_SIZE]
    omega

/-- The data descriptor of chunk `i` after `create_desc_chain`, up to the
`nextDesc` field (which the ring closure changes for the last chunk). -/
theorem create_desc_chain_data {H : Type} (w : World H) (direction : Int) (size addr : Nat)
    (hdir : direction = PCI_DMA_FROMDEVICE ∨ direction = PCI_DMA_TODEVICE)
    (i : Nat) (hi : i < chainLen size) :
    (create_desc_chain w direction size addr).2.st.descChain (2 * i + 1) =
      { dataDescOf (chainStart w.st.descChain direction size addr)
          (w.st.descChain (2 * i + 1)) i with
        nextDesc := if i + 1 = chainLen size then AXI_PCIE_SG_ADDR
                    else u32 (AXI_PCIE_SG_ADDR + 128 * i + 128) } := by
  rw [create_desc_chain_ok w direction size addr hdir]
  have hl := chainLen_le size
  have hd := loop_data (chainLen size) 0 (chainStart w.st.descChain direction size addr) i
    (chainStart_inRange _ _ _ _) hi
  simp only [Nat.zero_add, chainStart_descChain] at hd
  simp only [tailIndex_pos (chainLen size) (by omega) hl]
  by_cases ht : i + 1 = chainLen size
  · have e : 2 * chainLen size - 1 = 2 * i + 1 := by omega
    rw [e, Function.update_same, hd, if_pos ht]
  · rw [Function.update_noteq (by omega), hd, if_neg ht]
    simp only [dataDescOf, chainStart]

/-- The address translation descriptor of chunk `i` after `create_desc_chain`. -/
theorem create_desc_chain_addr {H : Type} (w : World H) (direction : Int) (size addr : Nat)
    (hdir : direction = PCI_DMA_FROMDEVICE ∨ direction = PCI_DMA_TODEVICE)
    (i : Nat) (hi : i < chainLen size) :
    (create_desc_chain w direction size addr).2.st.descChain (2 * i) =
      addrDescOf (chainStart w.st.descChain direction size addr) (w.st.descChain (2 * i)) i := by
  rw [create_desc_chain_ok w direction size addr hdir]
  have hl := chainLen_le size
  have hd := loop_addr (chainLen size) 0 (chainStart w.st.descChain direction size addr) i
    (chainStart_inRange _ _ _ _) hi
  simp only [Nat.zero_add, chainStart_descChain] at hd
  simp only [tailIndex_pos (chainLen size) (by omega) hl]
  rw [Function.update_noteq (by omega), hd]

end XPDMA

namespace XPDMA

/-! ## Claims on the descriptor chain builder -/

/-- C1 (counterexample): for the 32-bit byte count `C = 0xFFFFFFFF` the call
succeeds with `descChainLength = 0`, while `ceil(C / TRANSFER_SIZE) = 1024`, and
the byte counts of the data descriptors of the chain do not sum to `C`. -/
theorem C1_counterexample :
    (create_desc_chain world0 PCI_DMA_TODEVICE 4294967295 0).1 = SUCCESS ∧
    (create_desc_chain world0 PCI_DMA_TODEVICE 4294967295 0).2.st.descChainLength = 0 ∧
    (4294967295 + TRANSFER_SIZE - 1) / TRANSFER_SIZE = 1024 ∧
    ¬ (∑ i in Finset.range
          (create_desc_chain world0 PCI_DMA_TODEVICE 4294967295 0).2.st.descChainLength,
        ((create_desc_chain world0 PCI_DMA_TODEVICE 4294967295 0).2.st.descChain
          (2 * i + 1)).control = 4294967295) := by
  have h0 : (create_desc_chain world0 PCI_DMA_TODEVICE 4294967295 0).2.st.descChainLength = 0 := by
    decide
  refine ⟨by decide, h0, by decide, ?_⟩
  rw [h0]
  simp

/-- C1 (amended): for every byte count `C ≤ 2^32 - TRANSFER_SIZE` and a recognised
direction, `create_desc_chain` sets `descChainLength = ceil(C / TRANSFER_SIZE)`
(the quotient `(C + TRANSFER_SIZE - 1) / TRANSFER_SIZE` of unbounded naturals),
and the control fields of the data descriptors `descChain[2i+1]`,
`i < descChainLength`, sum to `C`. -/
theorem C1_chain_length_and_sum {H : Type} (w : World H) (direction : Int) (C addr : Nat)
    (hdir : direction = PCI_DMA_FROMDEVICE ∨ direction = PCI_DMA_TODEVICE)
    (hC : C ≤ 4294967296 - TRANSFER_SIZE) :
    (create_desc_chain w direction C addr).2.st.descChainLength =
      (C + TRANSFER_SIZE - 1) / TRANSFER_SIZE ∧
    ∑ i in Finset.range (create_desc_chain w direction C addr).2.st.descChainLength,
      ((create_desc_chain w direction C addr).2.st.descChain (2 * i + 1)).control = C := by
  have hlen : (create_desc_chain w direction C addr).2.st.descChainLength = chainLen C := by
    rw [create_desc_chain_ok w direction C addr hdir]
  have hC32 : u32 C = C := by
    simp only [TRANSFER_SIZE] at hC
    simp only [u32]
    omega
  refine ⟨by rw [hlen, chainLen_small C hC], ?_⟩
  rw [hlen]
  have hs : ∀ i ∈ Finset.range (chainLen C),
      ((create_desc_chain w direction C addr).2.st.descChain (2 * i + 1)).control =
        min (C - i * TRANSFER_SIZE) TRANSFER_SIZE := by
    intro i hi
    rw [create_desc_chain_data w direction C addr hdir i (Finset.mem_range.mp hi)]
    simp only [dataDescOf, chainStart, hC32]
  rw [Finset.sum_congr rfl hs, sum_chunks, chainLen_small C hC]
  simp only [TRANSFER_SIZE] at hC ⊢
  omega

/-- C1 (witness): the amended claim on a transfer of two chunks. -/
theorem C1_chain_length_and_sum_witness :
    (PCI_DMA_TODEVICE = PCI_DMA_FROMDEVICE ∨ PCI_DMA_TODEVICE = PCI_DMA_TODEVICE) ∧
    4194305 ≤ 4294967296 - TRANSFER_SIZE ∧
    (create_desc_chain world0 PCI_DMA_TODEVICE 4194305 0).2.st.descChainLength =
      (4194305 + TRANSFER_SIZE - 1) / TRANSFER_SIZE ∧
    ∑ i in Finset.range (create_desc_chain world0 PCI_DMA_TODEVICE 4194305 0).2.st.descChainLength,
      ((create_desc_chain world0 PCI_DMA_TODEVICE 4194305 0).2.st.descChain
        (2 * i + 1)).control = 4194305 :=
  ⟨by decide, by decide,
    C1_chain_length_and_sum world0 PCI_DMA_TODEVICE 4194305 0 (by decide) (by decide)⟩

/-- C2: after a successful `create_desc_chain` that yields a chain length
`n ≥ 1`, the last data descriptor `descChain[2n-1]` has `nextDesc` equal to the
chain head address `AXI_PCIE_SG_ADDR = 0x80800000`. -/
theorem C2_ring_closure {H : Type} (w : World H) (direction : Int) (size addr : Nat)
    (hok : (create_desc_chain w direction size addr).1 = SUCCESS)
    (hn : 1 ≤ (create_desc_chain w direction size addr).2.st.descChainLength) :
    ((create_desc_chain w direction size addr).2.st.descChain
      (2 * (create_desc_chain w direction size addr).2.st.descChainLength - 1)).nextDesc =
        AXI_PCIE_SG_ADDR ∧ AXI_PCIE_SG_ADDR = 0x80800000 := by
  have hdir := (create_desc_chain_success_iff w direction size addr).mp hok
  rw [create_desc_chain_ok w direction size addr hdir] at hn ⊢
  simp only at hn ⊢
  rw [tailIndex_pos (chainLen size) hn (chainLen_le size), Function.update_same]
  exact ⟨rfl, rfl⟩

/-- C2 (witness): a one-chunk chain is closed on itself. -/
theorem C2_ring_closure_witness :
    (create_desc_chain world0 PCI_DMA_FROMDEVICE 1024 0).1 = SUCCESS ∧
    1 ≤ (create_desc_chain world0 PCI_DMA_FROMDEVICE 1024 0).2.st.descChainLength ∧
    ((create_desc_chain world0 PCI_DMA_FROMDEVICE 1024 0).2.st.descChain
      (2 * (create_desc_chain world0 PCI_DMA_FROMDEVICE 1024 0).2.st.descChainLength - 1)).nextDesc =
        AXI_PCIE_SG_ADDR ∧ AXI_PCIE_SG_ADDR = 0x80800000 :=
  ⟨by decide, by decide,
    C2_ring_closure world0 PCI_DMA_FROMDEVICE 1024 0 (by decide) (by decide)⟩

/-- C3: after a successful `create_desc_chain` with chain length `n`, for every
`i < n` the descriptor at index `2i` is an address translation descriptor:
control `ADDR_BTT = 8`, source `AXI_BRAM_ADDR + 8 i`, destination
`AXI_BRAM_ADDR + PCIE_CTL_OFFSET + AXIBAR2PCIEBAR_1U`, status 0, and `nextDesc`
the device address `AXI_PCIE_SG_ADDR + 64 (2i+1)` of descriptor `2i+1`, which is
the data descriptor of the same chunk (its control is the byte count of chunk
`i`). -/
theorem C3_translation_descriptors {H : Type} (w : World H) (direction : Int)
    (size addr i : Nat)
    (hok : (create_desc_chain w direction size addr).1 = SUCCESS)
    (hi : i < (create_desc_chain w direction size addr).2.st.descChainLength) :
    ((create_desc_chain w direction size addr).2.st.descChain (2 * i)).control = ADDR_BTT ∧
    ADDR_BTT = 8 ∧
    ((create_desc_chain w direction size addr).2.st.descChain (2 * i)).srcAddr =
      AXI_BRAM_ADDR + 8 * i ∧
    ((create_desc_chain w direction size addr).2.st.descChain (2 * i)).destAddr =
      AXI_BRAM_ADDR + PCIE_CTL_OFFSET + AXIBAR2PCIEBAR_1U ∧
    ((create_desc_chain w direction size addr).2.st.descChain (2 * i)).status = 0 ∧
    ((create_desc_chain w direction size addr).2.st.descChain (2 * i)).nextDesc =
      AXI_PCIE_SG_ADDR + DESCRIPTOR_SIZE * (2 * i + 1) ∧
    ((create_desc_chain w direction size addr).2.st.descChain (2 * i + 1)).control =
      min (u32 size - i * TRANSFER_SIZE) TRANSFER_SIZE := by
  have hdir := (create_desc_chain_success_iff w direction size addr).mp hok
  have hlen : (create_desc_chain w direction size addr).2.st.descChainLength = chainLen size := by
    rw [create_desc_chain_ok w direction size addr hdir]
  rw [hlen] at hi
  have hl := chainLen_le size
  rw [create_desc_chain_addr w direction size addr hdir i hi,
    create_desc_chain_data w direction size addr hdir i hi]
  simp only [addrDescOf, dataDescOf, chainStart, u32, AXI_PCIE_SG_ADDR, AXI_BRAM_ADDR,
    PCIE_CTL_OFFSET, AXIBAR2PCIEBAR_1U, DESCRIPTOR_SIZE, ADDR_BTT]
  refine ⟨?_, ?_, ?_, ?_, ?_, ?_, ?_⟩ <;> first | trivial | omega

/-- C3 (witness): the second chunk of a two-chunk chain. -/
theorem C3_translation_descriptors_witness :
    (create_desc_chain world0 PCI_DMA_TODEVICE 4194305 0).1 = SUCCESS ∧
    1 < (create_desc_chain world0 PCI_DMA_TODEVICE 4194305 0).2.st.descChainLength ∧
    ((create_desc_chain world0 PCI_DMA_TODEVICE 4194305 0).2.st.descChain (2 * 1)).srcAddr =
      AXI_BRAM_ADDR + 8 * 1 :=
  ⟨by decide, by decide,
    (C3_translation_descriptors world0 PCI_DMA_TODEVICE 4194305 0 1
      (by decide) (by decide)).2.2.1⟩

end XPDMA

namespace XPDMA

/-! ## Steps of the engine control protocol -/

theorem opStep_refl {H : Type} (w : World H) : OpStep w w :=
  ⟨rfl, rfl, rfl, [], by simp, by simp⟩

theorem opStep_trans {H : Type} {w1 w2 w3 : World H} (h12 : OpStep w1 w2) (h23 : OpStep w2 w3) :
    OpStep w1 w3 := by
  obtain ⟨a1, b1, c1, t1, d1, e1⟩ := h12
  obtain ⟨a2, b2, c2, t2, d2, e2⟩ := h23
  refine ⟨a2.trans a1, b2.trans b1, c2.trans c1, t1 ++ t2, ?_, ?_⟩
  · rw [d2, d1, List.append_assoc]
  · intro e he
    rcases List.mem_append.mp he with h | h
    · exact e1 e h
    · exact e2 e h

theorem opStep_log {H : Type} (w : World H) (e : Event) (he : e.ofOperation = true) :
    OpStep w (w.log e) :=
  ⟨rfl, rfl, rfl, [e], rfl, by simpa using he⟩

theorem opStep_readReg {H : Type} (E : Engine H) (w : World H) (reg : Nat) :
    OpStep w (xpdma_readReg E w reg).2 := by
  unfold xpdma_readReg
  split
  · exact opStep_log w (Event.printk Msg.notInitialized) rfl
  · exact ⟨rfl, rfl, rfl, [_], rfl, by simp [Event.ofOperation]⟩

theorem opStep_writeReg {H : Type} (E : Engine H) (w : World H) (reg val : Nat) :
    OpStep w (xpdma_writeReg E w reg val) := by
  unfold xpdma_writeReg
  split
  · exact opStep_log w (Event.printk Msg.notInitialized) rfl
  · exact ⟨rfl, rfl, rfl, [_], rfl, by simp [Event.ofOperation]⟩

theorem opStep_udelay {H : Type} (E : Engine H) (w : World H) (us : Nat) :
    OpStep w (udelay E w us) :=
  ⟨rfl, rfl, rfl, [_], rfl, by simp [Event.ofOperation]⟩

theorem opStep_dump_regs {H : Type} (E : Engine H) (regs : List Nat) :
    ∀ w : World H, OpStep w (dump_regs E w regs) := by
  induction regs with
  | nil => intro w; exact opStep_refl w
  | cons r rs ih => intro w; exact opStep_trans (opStep_readReg E w r) (ih _)

theorem opStep_showInfo {H : Type} (E : Engine H) (w : World H) :
    OpStep w (xpdma_showInfo E w) := by
  unfold xpdma_showInfo
  split
  · exact opStep_log w (Event.printk Msg.notInitialized) rfl
  · exact opStep_dump_regs E _ w

theorem opStep_show_descriptors {H : Type} (E : Engine H) (w : World H) :
    OpStep w (show_descriptors E w) := by
  unfold show_descriptors
  split
  · exact opStep_log w (Event.printk Msg.notInitialized) rfl
  · exact opStep_dump_regs E _ w

theorem opStep_isIdle {H : Type} (E : Engine H) (w : World H) :
    OpStep w (xpdma_isIdle E w).2 := by
  unfold xpdma_isIdle
  split
  · exact opStep_log w (Event.printk Msg.notInitialized) rfl
  · exact opStep_readReg E w _

theorem simple_poll_succ {H : Type} (E : Engine H) (n : Nat) (w : World H) :
    simple_poll E (n + 1) w =
      if (xpdma_isIdle E w).1 ≠ 0 then (xpdma_isIdle E w).2
      else simple_poll E n (udelay E (xpdma_isIdle E w).2 10) := rfl

theorem opStep_simple_poll {H : Type} (E : Engine H) (n : Nat) :
    ∀ w : World H, OpStep w (simple_poll E n w) := by
  induction n with
  | zero => intro w; exact opStep_refl w
  | succ n ih =>
    intro w
    rw [simple_poll_succ]
    split
    · exact opStep_isIdle E w
    · exact opStep_trans (opStep_isIdle E w) (opStep_trans (opStep_udelay E _ 10) (ih _))

theorem opStep_create_desc_chain {H : Type} (w : World H) (direction : Int) (size addr : Nat) :
    OpStep w (create_desc_chain w direction size addr).2 := by
  by_cases h : direction = PCI_DMA_FROMDEVICE ∨ direction = PCI_DMA_TODEVICE
  · rw [create_desc_chain_ok w direction size addr h]
    exact ⟨rfl, rfl, rfl, [], by simp, by simp⟩
  · push_neg at h
    rw [create_desc_chain_bad w direction size addr h.1 h.2]
    exact ⟨rfl, rfl, rfl, [_], rfl, by simp [Event.ofOperation]⟩

theorem opStep_simple_operation {H : Type} (E : Engine H) (w : World H) (direction : Int)
    (count addr : Nat) : OpStep w (simple_operation E w direction count addr).2 := by
  unfold simple_operation
  generalize CDMA_TRANSFER_LOOP = budget
  simp only
  split
  · exact opStep_log w (Event.printk Msg.unknownDirection) rfl
  · split <;> try split
    all_goals try simp only
    all_goals
      repeat (with_reducible first
        | exact opStep_refl _
        | refine opStep_trans ?_ (opStep_writeReg _ _ _ _)
        | refine opStep_trans ?_ (opStep_isIdle _ _)
        | refine opStep_trans ?_ (opStep_simple_poll _ _ _)
        | refine opStep_trans ?_ (opStep_showInfo _ _)
        | refine opStep_trans ?_ (opStep_log _ _ (by decide)))

theorem sg_poll_succ {H : Type} (E : Engine H) (n : Nat) (w : World H) :
    sg_poll E (n + 1) w =
      match sg_status_class (u32 ((udelay E w 10).st.descChain
        (usize (18446744073709551616 - 1 + 2 * (udelay E w 10).st.descChainLength))).status) with
      | SgPoll.decodeError =>
        (CRIT_ERR, show_descriptors E
          (((udelay E w 10).log (Event.readStatus
            (usize (18446744073709551616 - 1 + 2 * (udelay E w 10).st.descChainLength))
            (u32 ((udelay E w 10).st.descChain
              (usize (18446744073709551616 - 1 +
                2 * (udelay E w 10).st.descChainLength))).status))).log
            (Event.printk Msg.sgDecodeError)))
      | SgPoll.slaveError =>
        (CRIT_ERR, show_descriptors E
          (((udelay E w 10).log (Event.readStatus
            (usize (18446744073709551616 - 1 + 2 * (udelay E w 10).st.descChainLength))
            (u32 ((udelay E w 10).st.descChain
              (usize (18446744073709551616 - 1 +
                2 * (udelay E w 10).st.descChainLength))).status))).log
            (Event.printk Msg.sgSlaveError)))
      | SgPoll.internalError =>
        (CRIT_ERR, show_descriptors E
          (((udelay E w 10).log (Event.readStatus
            (usize (18446744073709551616 - 1 + 2 * (udelay E w 10).st.descChainLength))
            (u32 ((udelay E w 10).st.descChain
              (usize (18446744073709551616 - 1 +
                2 * (udelay E w 10).st.descChainLength))).status))).log
            (Event.printk Msg.sgInternalError)))
      | SgPoll.complete =>
        (SUCCESS, (udelay E w 10).log (Event.readStatus
            (usize (18446744073709551616 - 1 + 2 * (udelay E w 10).st.descChainLength))
            (u32 ((udelay E w 10).st.descChain
              (usize (18446744073709551616 - 1 +
                2 * (udelay E w 10).st.descChainLength))).status)))
      | SgPoll.noneYet =>
        sg_poll E n ((udelay E w 10).log (Event.readStatus
            (usize (18446744073709551616 - 1 + 2 * (udelay E w 10).st.descChainLength))
            (u32 ((udelay E w 10).st.descChain
              (usize (18446744073709551616 - 1 +
                2 * (udelay E w 10).st.descChainLength))).status))) := rfl

theorem opStep_sg_poll {H : Type} (E : Engine H) (n : Nat) :
    ∀ w : World H, OpStep w (sg_poll E n w).2 := by
  induction n with
  | zero =>
    intro w
    exact opStep_trans (opStep_log w (Event.printk Msg.sgTimeout) rfl)
      (opStep_show_descriptors E _)
  | succ n ih =>
    intro w
    rw [sg_poll_succ]
    have h1 : OpStep w ((udelay E w 10).log (Event.readStatus
        (usize (18446744073709551616 - 1 + 2 * (udelay E w 10).st.descChainLength))
        (u32 ((udelay E w 10).st.descChain
          (usize (18446744073709551616 - 1 +
            2 * (udelay E w 10).st.descChainLength))).status))) :=
      opStep_trans (opStep_udelay E w 10) (opStep_log _ (Event.readStatus _ _) rfl)
    split
    · exact opStep_trans h1 (opStep_trans (opStep_log _ (Event.printk Msg.sgDecodeError) rfl)
        (opStep_show_descriptors E _))
    · exact opStep_trans h1 (opStep_trans (opStep_log _ (Event.printk Msg.sgSlaveError) rfl)
        (opStep_show_descriptors E _))
    · exact opStep_trans h1 (opStep_trans (opStep_log _ (Event.printk Msg.sgInternalError) rfl)
        (opStep_show_descriptors E _))
    · exact h1
    · exact opStep_trans h1 (ih _)

theorem sg_write_vectors_succ {H : Type} (E : Engine H) (n : Nat) (w : World H)
    (pntr bramOffset : Nat) :
    sg_write_vectors E (n + 1) w pntr bramOffset =
      sg_write_vectors E n
        (xpdma_writeReg E
          (xpdma_writeReg E w (u32 (4 + (BRAM_OFFSET + bramOffset))) (u32 pntr))
          (u32 (0 + (BRAM_OFFSET + bramOffset))) (u32 (pntr / 4294967296)))
        (usize (TRANSFER_SIZE + pntr)) (usize (BRAM_STEP + bramOffset)) := rfl

theorem opStep_sg_write_vectors {H : Type} (E : Engine H) (n : Nat) :
    ∀ (w : World H) (pntr bramOffset : Nat), OpStep w (sg_write_vectors E n w pntr bramOffset) := by
  induction n with
  | zero => intro w _ _; exact opStep_refl w
  | succ n ih =>
    intro w pntr bramOffset
    rw [sg_write_vectors_succ]
    exact opStep_trans (opStep_trans (opStep_writeReg E _ _ _) (opStep_writeReg E _ _ _))
      (ih _ _ _)

theorem opStep_sg_operation {H : Type} (E : Engine H) (w : World H) (direction : Int)
    (count addr : Nat) : OpStep w (sg_operation E w direction count addr).2 := by
  unfold sg_operation
  generalize CDMA_TRANSFER_LOOP = budget
  simp only
  split
  on_goal 2 => split
  all_goals try simp only
  all_goals
    repeat (with_reducible first
      | exact opStep_refl _
      | refine opStep_trans ?_ (opStep_writeReg _ _ _ _)
      | refine opStep_trans ?_ (opStep_isIdle _ _)
      | refine opStep_trans ?_ (opStep_sg_poll _ _ _)
      | refine opStep_trans ?_ (opStep_sg_write_vectors _ _ _ _ _)
      | refine opStep_trans ?_ (opStep_create_desc_chain _ _ _ _)
      | refine opStep_trans ?_ (opStep_showInfo _ _)
      | refine opStep_trans ?_ (opStep_log _ _ (by decide)))

end XPDMA

namespace XPDMA

/-! ## Transfer chunking -/

theorem u32_eq (x : Nat) : u32 x = x % 4294967296 := rfl

theorem usize_eq (x : Nat) : usize x = x % 18446744073709551616 := rfl

theorem engineCalls_append (l1 l2 : List Event) :
    engineCalls (l1 ++ l2) = engineCalls l1 ++ engineCalls l2 := by
  induction l1 with
  | nil => rfl
  | cons e t ih => cases e <;> simp [engineCalls, ih]

theorem userCopies_append (l1 l2 : List Event) :
    userCopies (l1 ++ l2) = userCopies l1 ++ userCopies l2 := by
  induction l1 with
  | nil => rfl
  | cons e t ih => cases e <;> simp [userCopies, ih]

theorem engineCalls_ofOperation (t : List Event) (h : ∀ e ∈ t, e.ofOperation = true) :
    engineCalls t = [] := by
  induction t with
  | nil => rfl
  | cons e t ih =>
    have he := h e (List.mem_cons_self e t)
    have ht := ih (fun x hx => h x (List.mem_cons_of_mem e hx))
    cases e <;> simp_all [engineCalls, Event.ofOperation]

theorem userCopies_ofOperation (t : List Event) (h : ∀ e ∈ t, e.ofOperation = true) :
    userCopies t = [] := by
  induction t with
  | nil => rfl
  | cons e t ih =>
    have he := h e (List.mem_cons_self e t)
    have ht := ih (fun x hx => h x (List.mem_cons_of_mem e hx))
    cases e <;> simp_all [userCopies, Event.ofOperation]

theorem OpStep.engineCalls {H : Type} {w w2 : World H} (h : OpStep w w2) :
    engineCalls w2.trace = engineCalls w.trace := by
  obtain ⟨_, _, _, t, ht, hP⟩ := h
  rw [ht, engineCalls_append, engineCalls_ofOperation t hP, List.append_nil]

theorem OpStep.userCopies {H : Type} {w w2 : World H} (h : OpStep w w2) :
    userCopies w2.trace = userCopies w.trace := by
  obtain ⟨_, _, _, t, ht, hP⟩ := h
  rw [ht, userCopies_append, userCopies_ofOperation t hP, List.append_nil]

/-- The engine operation `dma_block` selects is a step of the engine control
protocol, and it exists exactly for the two supported modes. -/
theorem dma_block_engine_some {H : Type} (E : Engine H) (mode direction : Int) (w : World H)
    (btt curAddr : Nat) (hmode : mode = DMA_SG_MODE ∨ mode = DMA_SIMPLE_MODE) :
    ∃ w2, dma_block_engine E mode direction w btt curAddr = some w2 ∧ OpStep w w2 := by
  unfold dma_block_engine
  rcases hmode with h | h
  · subst h
    exact ⟨_, if_pos rfl, opStep_sg_operation E w direction btt curAddr⟩
  · subst h
    refine ⟨_, ?_, opStep_simple_operation E w direction btt curAddr⟩
    rw [if_neg (by decide), if_pos rfl]

theorem dma_block_engine_none {H : Type} (E : Engine H) (mode direction : Int) (w : World H)
    (btt curAddr : Nat) (h1 : mode ≠ DMA_SG_MODE) (h2 : mode ≠ DMA_SIMPLE_MODE) :
    dma_block_engine E mode direction w btt curAddr = none := by
  unfold dma_block_engine
  rw [if_neg h1, if_neg h2]

theorem copy_from_user_ok {H : Type} (w : World H) (src n : Nat) (h : src + n ≤ w.user.limit) :
    (copy_from_user w src n).1 = 0 := by
  simp only [copy_from_user]
  omega

theorem copy_to_user_ok {H : Type} (w : World H) (dst n : Nat) (h : dst + n ≤ w.user.limit) :
    (copy_to_user w dst n).1 = 0 := by
  simp only [copy_to_user]
  omega

/-- The host copies one iteration of the loop of `dma_block` makes. -/
theorem dma_block_body_ok {H : Type} (E : Engine H) (mode direction : Int) (w : World H)
    (curData btt curAddr : Nat) (hmode : mode = DMA_SG_MODE ∨ mode = DMA_SIMPLE_MODE)
    (hcopy : curData + btt ≤ w.user.limit) :
    ∃ w2, dma_block_body E mode direction w curData btt curAddr = Except.ok w2 ∧
      w2.user.limit = w.user.limit ∧
      engineCalls w2.trace = engineCalls w.trace ++ [(mode, direction, btt, curAddr)] ∧
      userCopies w2.trace = userCopies w.trace ++
        (if direction = PCI_DMA_TODEVICE then [(true, curData, btt)]
         else if direction = PCI_DMA_FROMDEVICE then [(false, curData, btt)] else []) := by
  unfold dma_block_body
  by_cases hto : PCI_DMA_TODEVICE = direction
  · subst hto
    obtain ⟨w2, hw2, hstep⟩ := dma_block_engine_some E mode PCI_DMA_TODEVICE
      ((copy_from_user w curData btt).2.log
        (Event.engineCall mode PCI_DMA_TODEVICE btt curAddr)) btt curAddr hmode
    have hne : ¬ (PCI_DMA_FROMDEVICE = PCI_DMA_TODEVICE) := by decide
    simp only [if_true, copy_from_user_ok w curData btt hcopy, ne_eq, not_true_eq_false,
      if_false, hw2, hne]
    refine ⟨w2, rfl, ?_, ?_, ?_⟩
    · rw [hstep.1]; rfl
    · rw [hstep.engineCalls]
      simp [World.log, copy_from_user, engineCalls_append, engineCalls]
    · rw [hstep.userCopies]
      simp [World.log, copy_from_user, userCopies_append, userCopies]
  · by_cases hfrom : PCI_DMA_FROMDEVICE = direction
    · subst hfrom
      obtain ⟨w2, hw2, hstep⟩ := dma_block_engine_some E mode PCI_DMA_FROMDEVICE
        (w.log (Event.engineCall mode PCI_DMA_FROMDEVICE btt curAddr)) btt curAddr hmode
      have hlim : curData + btt ≤ w2.user.limit := by rw [hstep.1]; exact hcopy
      simp only [if_neg hto, ne_eq, not_true_eq_false, if_false, hw2, if_true,
        copy_to_user_ok w2 curData btt hlim]
      refine ⟨_, rfl, ?_, ?_, ?_⟩
      · show w2.user.limit = w.user.limit
        rw [hstep.1]; rfl
      · show engineCalls (w2.trace ++ [Event.copy_to_user curData btt]) = _
        rw [engineCalls_append, hstep.engineCalls]
        simp [World.log, engineCalls_append, engineCalls]
      · show userCopies (w2.trace ++ [Event.copy_to_user curData btt]) = _
        rw [userCopies_append, hstep.userCopies]
        simp [World.log, userCopies_append, userCopies, PCI_DMA_FROMDEVICE, PCI_DMA_TODEVICE]
    · obtain ⟨w2, hw2, hstep⟩ := dma_block_engine_some E mode direction
        (w.log (Event.engineCall mode direction btt curAddr)) btt curAddr hmode
      simp only [if_neg hto, if_neg hfrom, ne_eq, not_true_eq_false, if_false, hw2]
      refine ⟨w2, rfl, ?_, ?_, ?_⟩
      · rw [hstep.1]; rfl
      · rw [hstep.engineCalls]
        simp [World.log, engineCalls_append, engineCalls]
      · rw [hstep.userCopies, if_neg (fun h => hto h.symm), if_neg (fun h => hfrom h.symm)]
        simp [World.log, userCopies_append, userCopies]

end XPDMA

namespace XPDMA

theorem dma_block_loop_succ {H : Type} (E : Engine H) (mode direction : Int) (fuel : Nat)
    (w : World H) (curData unsended curAddr : Nat) :
    dma_block_loop E mode direction (fuel + 1) w curData unsended curAddr =
      if unsended = 0 then (SUCCESS, w)
      else
        match dma_block_body E mode direction w curData
            (u32 (if unsended < BUF_SIZE then unsended else BUF_SIZE)) curAddr with
        | Except.error r => r
        | Except.ok w2 =>
          dma_block_loop E mode direction fuel w2 (BUF_SIZE + curData)
            (usize (18446744073709551616 + unsended -
              u32 (if unsended < BUF_SIZE then unsended else BUF_SIZE)))
            (u32 (BUF_SIZE + curAddr)) := rfl

/-- The engine invocations and host copies of the loop of `dma_block`, for a
supported mode and an accessible caller buffer: one invocation per chunk of
`BUF_SIZE` bytes, and the loop ends with success whatever the engine
operations returned. -/
theorem dma_block_loop_spec {H : Type} (E : Engine H) (mode direction : Int)
    (hmode : mode = DMA_SG_MODE ∨ mode = DMA_SIMPLE_MODE) (fuel : Nat) :
    ∀ (w : World H) (curData unsended curAddr : Nat),
      unsended ≤ fuel → unsended < 18446744073709551616 → curAddr < 4294967296 →
      (unsended ≠ 0 → curData + unsended ≤ w.user.limit) →
      (dma_block_loop E mode direction fuel w curData unsended curAddr).1 = SUCCESS ∧
      engineCalls (dma_block_loop E mode direction fuel w curData unsended curAddr).2.trace =
        engineCalls w.trace ++
          (List.range ((unsended + BUF_SIZE - 1) / BUF_SIZE)).map (fun i =>
            (mode, direction, min (unsended - i * BUF_SIZE) BUF_SIZE,
              (curAddr + i * BUF_SIZE) % 4294967296)) ∧
      userCopies (dma_block_loop E mode direction fuel w curData unsended curAddr).2.trace =
        userCopies w.trace ++
          (List.range ((unsended + BUF_SIZE - 1) / BUF_SIZE)).flatMap (fun i =>
            if direction = PCI_DMA_TODEVICE then
              [(true, curData + i * BUF_SIZE, min (unsended - i * BUF_SIZE) BUF_SIZE)]
            else if direction = PCI_DMA_FROMDEVICE then
              [(false, curData + i * BUF_SIZE, min (unsended - i * BUF_SIZE) BUF_SIZE)]
            else []) := by
  induction fuel with
  | zero =>
    intro w curData unsended curAddr hf _ _ _
    have h0 : unsended = 0 := by omega
    subst h0
    simp [dma_block_loop, BUF_SIZE]
  | succ fuel ih =>
    intro w curData unsended curAddr hf hu ha hlim
    rw [dma_block_loop_succ]
    by_cases h0 : unsended = 0
    · subst h0
      simp [BUF_SIZE]
    · rw [if_neg h0]
      have hbtt : u32 (if unsended < BUF_SIZE then unsended else BUF_SIZE) =
          min unsended BUF_SIZE := by
        simp only [u32_eq, BUF_SIZE]
        split <;> omega
      rw [hbtt]
      obtain ⟨w2, hw2, hl2, hc2, hu2⟩ := dma_block_body_ok E mode direction w curData
        (min unsended BUF_SIZE) curAddr hmode (by have := hlim h0; omega)
      rw [hw2]
      have hrest : usize (18446744073709551616 + unsended - min unsended BUF_SIZE) =
          unsended - min unsended BUF_SIZE := by
        simp only [usize_eq, BUF_SIZE]
        omega
      have hn : (unsended + BUF_SIZE - 1) / BUF_SIZE =
          (unsended - min unsended BUF_SIZE + BUF_SIZE - 1) / BUF_SIZE + 1 := by
        simp only [BUF_SIZE]
        omega
      have := ih w2 (BUF_SIZE + curData) (unsended - min unsended BUF_SIZE)
        (u32 (BUF_SIZE + curAddr))
        (by simp only [BUF_SIZE] at *; omega) (by omega)
        (by simp only [u32_eq]; omega)
        (by intro h; rw [hl2]; have := hlim h0; simp only [BUF_SIZE] at *; omega)
      simp only [hrest]
      obtain ⟨r1, r2, r3⟩ := this
      refine ⟨r1, ?_, ?_⟩
      · rw [r2, hc2, hn, List.range_succ_eq_map, List.map_cons, List.map_map,
          List.append_assoc]
        congr 1
        simp only [List.singleton_append, Nat.zero_mul, Nat.sub_zero, Nat.add_zero,
          Nat.mod_eq_of_lt ha]
        congr 1
        apply List.map_congr_left
        intro i _
        simp only [Function.comp, u32_eq, BUF_SIZE, Prod.mk.injEq, true_and]
        constructor <;> omega
      · rw [r3, hu2, hn, List.range_succ_eq_map, List.flatMap_cons, List.flatMap_map,
          List.append_assoc]
        congr 1
        simp only [Nat.zero_mul, Nat.sub_zero, Nat.add_zero]
        congr 1
        apply List.flatMap_congr
        intro i _
        have e1 : BUF_SIZE + curData + i * BUF_SIZE = curData + (i + 1) * BUF_SIZE := by
          simp only [BUF_SIZE]; omega
        have e2 : min (unsended - min unsended BUF_SIZE - i * BUF_SIZE) BUF_SIZE =
            min (unsended - (i + 1) * BUF_SIZE) BUF_SIZE := by
          simp only [BUF_SIZE]; omega
        simp only [Function.comp, e1, e2, Nat.succ_eq_add_one]

end XPDMA

namespace XPDMA

theorem noAlignLog_refl {H : Type} (w : World H) : NoAlignLog w w :=
  ⟨[], by simp, by simp⟩

theorem noAlignLog_trans {H : Type} {w1 w2 w3 : World H} (h12 : NoAlignLog w1 w2)
    (h23 : NoAlignLog w2 w3) : NoAlignLog w1 w3 := by
  obtain ⟨t1, d1, e1⟩ := h12
  obtain ⟨t2, d2, e2⟩ := h23
  refine ⟨t1 ++ t2, by rw [d2, d1, List.append_assoc], ?_⟩
  intro h
  rcases List.mem_append.mp h with h | h
  · exact e1 h
  · exact e2 h

theorem noAlignLog_log {H : Type} (w : World H) (e : Event)
    (he : e ≠ Event.printk Msg.notAligned) : NoAlignLog w (w.log e) :=
  ⟨[e], rfl, by simpa using fun h => he h.symm⟩

theorem noAlignLog_of_opStep {H : Type} {w w2 : World H} (h : OpStep w w2) :
    NoAlignLog w w2 := by
  obtain ⟨_, _, _, t, ht, hP⟩ := h
  refine ⟨t, ht, ?_⟩
  intro hm
  have := hP _ hm
  simp [Event.ofOperation] at this

theorem noAlignLog_copy_from_user {H : Type} (w : World H) (src n : Nat) :
    NoAlignLog w (copy_from_user w src n).2 :=
  ⟨[Event.copy_from_user src n], rfl, by simp⟩

theorem noAlignLog_copy_to_user {H : Type} (w : World H) (dst n : Nat) :
    NoAlignLog w (copy_to_user w dst n).2 :=
  ⟨[Event.copy_to_user dst n], rfl, by simp⟩

theorem noAlignLog_engine {H : Type} (E : Engine H) (mode direction : Int) (w w2 : World H)
    (btt curAddr : Nat) (h : dma_block_engine E mode direction w btt curAddr = some w2) :
    NoAlignLog w w2 := by
  unfold dma_block_engine at h
  split at h
  · cases h; exact noAlignLog_of_opStep (opStep_sg_operation E w direction btt curAddr)
  · split at h
    · cases h; exact noAlignLog_of_opStep (opStep_simple_operation E w direction btt curAddr)
    · cases h

theorem noAlignLog_body {H : Type} (E : Engine H) (mode direction : Int) (w : World H)
    (curData btt curAddr : Nat) :
    NoAlignLog w (bodyWorld (dma_block_body E mode direction w curData btt curAddr)) := by
  unfold dma_block_body
  have hcf : NoAlignLog w
      (if PCI_DMA_TODEVICE = direction then copy_from_user w curData btt else (0, w)).2 := by
    split
    · exact noAlignLog_copy_from_user w curData btt
    · exact noAlignLog_refl w
  generalize (if PCI_DMA_TODEVICE = direction then copy_from_user w curData btt else (0, w)) = cf
    at hcf
  simp only
  split
  · exact noAlignLog_trans hcf (noAlignLog_log _ _ (by decide))
  · split
    · exact noAlignLog_trans hcf (noAlignLog_log _ _ (by decide))
    · rename_i w2 hw2
      have h2 : NoAlignLog w w2 := noAlignLog_trans hcf
        (noAlignLog_trans (noAlignLog_log _ _ (by simp)) (noAlignLog_engine E _ _ _ _ _ _ hw2))
      have hct : NoAlignLog w
          (if PCI_DMA_FROMDEVICE = direction then copy_to_user w2 curData btt else (0, w2)).2 := by
        split
        · exact noAlignLog_trans h2 (noAlignLog_copy_to_user w2 curData btt)
        · exact h2
      generalize (if PCI_DMA_FROMDEVICE = direction then copy_to_user w2 curData btt
        else (0, w2)) = ct at hct
      split
      · exact noAlignLog_trans hct (noAlignLog_log _ _ (by decide))
      · exact hct

theorem noAlignLog_loop {H : Type} (E : Engine H) (mode direction : Int) (fuel : Nat) :
    ∀ (w : World H) (curData unsended curAddr : Nat),
      NoAlignLog w (dma_block_loop E mode direction fuel w curData unsended curAddr).2 := by
  induction fuel with
  | zero => intro w _ _ _; exact noAlignLog_refl w
  | succ fuel ih =>
    intro w curData unsended curAddr
    rw [dma_block_loop_succ]
    split
    · exact noAlignLog_refl w
    · have hb := noAlignLog_body E mode direction w curData
        (u32 (if unsended < BUF_SIZE then unsended else BUF_SIZE)) curAddr
      split
      · rename_i r hr
        rw [hr] at hb
        exact hb
      · rename_i w2 hr
        rw [hr] at hb
        exact noAlignLog_trans hb (ih _ _ _ _)

theorem dma_block_aligned {H : Type} (E : Engine H) (w : World H) (mode direction : Int)
    (data count addr : Nat) (h : addr % 4 = 0) :
    dma_block E w mode direction data count addr =
      dma_block_loop E mode direction (usize count) w data (usize count) (u32 addr) := by
  unfold dma_block
  have : ¬ (u32 addr % 4 ≠ 0) := by
    simp only [u32_eq]
    omega
  simp only [if_neg this]

theorem dma_block_misaligned {H : Type} (E : Engine H) (w : World H) (mode direction : Int)
    (data count addr : Nat) (h : addr % 4 ≠ 0) :
    dma_block E w mode direction data count addr =
      (CRIT_ERR, w.log (Event.printk Msg.notAligned)) := by
  unfold dma_block
  have : u32 addr % 4 ≠ 0 := by
    simp only [u32_eq]
    omega
  simp only [if_pos this]

/-- C6: for every byte count, mode and direction, `dma_block` takes the
alignment failure (the log line of the alignment check, then `CRIT_ERR`) if and
only if `addr % 4 ≠ 0`; and when `addr % 4 ≠ 0` it returns `CRIT_ERR` with the
slot, the hardware and the user memory as they were and nothing but that log
line on the trace: no host copy, no engine invocation, no register access. -/
theorem C6_alignment {H : Type} (E : Engine H) (w : World H) (mode direction : Int)
    (data count addr : Nat) :
    (Event.printk Msg.notAligned ∈
        (dma_block E w mode direction data count addr).2.trace.drop w.trace.length ↔
      addr % 4 ≠ 0) ∧
    (addr % 4 ≠ 0 →
      dma_block E w mode direction data count addr =
        (CRIT_ERR, { w with trace := w.trace ++ [Event.printk Msg.notAligned] })) := by
  constructor
  · constructor
    · intro hm
      by_contra h0
      have h0 : addr % 4 = 0 := by omega
      rw [dma_block_aligned E w mode direction data count addr h0] at hm
      obtain ⟨t, ht, hnot⟩ := noAlignLog_loop E mode direction (usize count) w data
        (usize count) (u32 addr)
      rw [ht, List.drop_left] at hm
      exact hnot hm
    · intro h
      rw [dma_block_misaligned E w mode direction data count addr h]
      simp [World.log]
  · intro h
    rw [dma_block_misaligned E w mode direction data count addr h]
    rfl

end XPDMA

namespace XPDMA

/-- The result of `dma_block` does not depend on the results of the engine
operations: for an aligned address, a supported mode and an accessible caller
buffer it is `SUCCESS`, against every engine. -/
theorem dma_block_success {H : Type} (E : Engine H) (w : World H) (mode direction : Int)
    (data C a : Nat) (hmode : mode = DMA_SG_MODE ∨ mode = DMA_SIMPLE_MODE)
    (hC : C < 18446744073709551616) (ha : a < 4294967296) (hal : a % 4 = 0)
    (hcopy : data + C ≤ w.user.limit) :
    (dma_block E w mode direction data C a).1 = SUCCESS := by
  rw [dma_block_aligned E w mode direction data C a hal]
  have hCu : usize C = C := by simp only [usize_eq]; omega
  have hau : u32 a = a := by simp only [u32_eq]; omega
  rw [hCu, hau]
  exact (dma_block_loop_spec E mode direction hmode C w data C a (Nat.le_refl C) hC ha
    (fun _ => hcopy)).1

set_option maxRecDepth 100000 in
/-- C7 (failing input): a send of two chunks (`count = 2 * BUF_SIZE`) against an
engine whose status register never shows the idle bit.  `sg_operation` fails on
the first chunk (`CRIT_ERR`), yet `dma_block` copies and invokes the engine for
the second chunk as well and returns `SUCCESS`. -/
theorem C7_engine_failure_not_propagated :
    (sg_operation (constEngine 0)
      ((copy_from_user world0 0 4194304).2.log
        (Event.engineCall DMA_SG_MODE PCI_DMA_TODEVICE 4194304 0))
      PCI_DMA_TODEVICE 4194304 0).1 = CRIT_ERR ∧
    (dma_block (constEngine 0) world0 DMA_SG_MODE PCI_DMA_TODEVICE 0 (2 * BUF_SIZE) 0).1 =
      SUCCESS ∧
    engineCalls
      (dma_block (constEngine 0) world0 DMA_SG_MODE PCI_DMA_TODEVICE 0 (2 * BUF_SIZE) 0).2.trace =
      [(DMA_SG_MODE, PCI_DMA_TODEVICE, 4194304, 0),
       (DMA_SG_MODE, PCI_DMA_TODEVICE, 4194304, 4194304)] ∧
    userCopies
      (dma_block (constEngine 0) world0 DMA_SG_MODE PCI_DMA_TODEVICE 0 (2 * BUF_SIZE) 0).2.trace =
      [(true, 0, 4194304), (true, 4194304, 4194304)] := by
  decide

/-- C8 (failing input): `xpdma_send` with the misaligned device address 2, and
with a caller buffer that is not accessible: `dma_block` returns `CRIT_ERR`,
`xpdma_send` returns `SUCCESS`; the same for `xpdma_recv`, and for `xpdma_write`
and `xpdma_read` with a caller buffer that is not accessible. -/
theorem C8_failure_not_reported :
    (dma_block (constEngine 2) world0 DMA_SG_MODE PCI_DMA_TODEVICE 0 4 2).1 = CRIT_ERR ∧
    (xpdma_send (constEngine 2) world0 0 4 2).1 = SUCCESS ∧
    (dma_block (constEngine 2) world0 DMA_SG_MODE PCI_DMA_TODEVICE world0.user.limit 4 0).1 =
      CRIT_ERR ∧
    (xpdma_send (constEngine 2) world0 world0.user.limit 4 0).1 = SUCCESS ∧
    (dma_block (constEngine 2) world0 DMA_SG_MODE PCI_DMA_FROMDEVICE 0 4 2).1 = CRIT_ERR ∧
    (xpdma_recv (constEngine 2) world0 0 4 2).1 = SUCCESS ∧
    (dma_block (constEngine 2) world0 DMA_SIMPLE_MODE PCI_DMA_TODEVICE world0.user.limit 4 0).1 =
      CRIT_ERR ∧
    (xpdma_write (constEngine 2) world0 world0.user.limit 4).1 = SUCCESS ∧
    (dma_block (constEngine 2) world0 DMA_SIMPLE_MODE PCI_DMA_FROMDEVICE world0.user.limit 4 0).1 =
      CRIT_ERR ∧
    (xpdma_read (constEngine 2) world0 world0.user.limit 4).1 = SUCCESS := by
  decide

/-- The four entry points return `SUCCESS` on every initialised slot. -/
theorem entry_points_success {H : Type} (E : Engine H) (w : World H) (data count addr : Nat)
    (hused : w.st.used = true) :
    (xpdma_send E w data count addr).1 = SUCCESS ∧
    (xpdma_recv E w data count addr).1 = SUCCESS ∧
    (xpdma_write E w data count).1 = SUCCESS ∧
    (xpdma_read E w data count).1 = SUCCESS := by
  simp [xpdma_send, xpdma_recv, xpdma_write, xpdma_read, hused]

/-- C10: for every byte count `C` (a `size_t`), every 4-aligned device address
`a`, a supported mode and an accessible caller buffer, `dma_block` invokes the
engine exactly `ceil(C / BUF_SIZE)` times; invocation `i` has
`btt = min(C - i * BUF_SIZE, BUF_SIZE)` and device address
`(a + i * BUF_SIZE) mod 2^32`, its host copy is at caller buffer offset
`i * BUF_SIZE` with the same `btt`, the `btt` values sum to `C`, and the call
returns `SUCCESS`. -/
theorem C10_chunking {H : Type} (E : Engine H) (w : World H) (mode direction : Int)
    (data C a : Nat) (hmode : mode = DMA_SG_MODE ∨ mode = DMA_SIMPLE_MODE)
    (hC : C < 18446744073709551616) (ha : a < 4294967296) (hal : a % 4 = 0)
    (hcopy : data + C ≤ w.user.limit) :
    engineCalls (dma_block E w mode direction data C a).2.trace =
      engineCalls w.trace ++
        (List.range ((C + BUF_SIZE - 1) / BUF_SIZE)).map (fun i =>
          (mode, direction, min (C - i * BUF_SIZE) BUF_SIZE,
            (a + i * BUF_SIZE) % 4294967296)) ∧
    userCopies (dma_block E w mode direction data C a).2.trace =
      userCopies w.trace ++
        (List.range ((C + BUF_SIZE - 1) / BUF_SIZE)).flatMap (fun i =>
          if direction = PCI_DMA_TODEVICE then
            [(true, data + i * BUF_SIZE, min (C - i * BUF_SIZE) BUF_SIZE)]
          else if direction = PCI_DMA_FROMDEVICE then
            [(false, data + i * BUF_SIZE, min (C - i * BUF_SIZE) BUF_SIZE)]
          else []) ∧
    ∑ i in Finset.range ((C + BUF_SIZE - 1) / BUF_SIZE), min (C - i * BUF_SIZE) BUF_SIZE = C ∧
    (dma_block E w mode direction data C a).1 = SUCCESS := by
  rw [dma_block_aligned E w mode direction data C a hal]
  have hCu : usize C = C := by simp only [usize_eq]; omega
  have hau : u32 a = a := by simp only [u32_eq]; omega
  rw [hCu, hau]
  obtain ⟨h1, h2, h3⟩ := dma_block_loop_spec E mode direction hmode C w data C a
    (Nat.le_refl C) hC ha (fun _ => hcopy)
  refine ⟨h2, h3, ?_, h1⟩
  have hs := sum_chunks C ((C + BUF_SIZE - 1) / BUF_SIZE)
  simp only [TRANSFER_SIZE, BUF_SIZE] at hs ⊢
  rw [hs]
  omega

set_option maxRecDepth 100000 in
/-- C10 (witness): a send of `3 * BUF_SIZE + 1` bytes to device address 0 issues
exactly 4 invocations, the last one with `btt = 1`. -/
theorem C10_chunking_witness :
    (DMA_SG_MODE = DMA_SG_MODE ∨ DMA_SG_MODE = DMA_SIMPLE_MODE) ∧
    3 * BUF_SIZE + 1 < 18446744073709551616 ∧ 0 < 4294967296 ∧ 0 % 4 = 0 ∧
    0 + (3 * BUF_SIZE + 1) ≤ world0.user.limit ∧
    engineCalls (dma_block (constEngine 2) world0 DMA_SG_MODE PCI_DMA_TODEVICE 0
        (3 * BUF_SIZE + 1) 0).2.trace =
      [(DMA_SG_MODE, PCI_DMA_TODEVICE, BUF_SIZE, 0),
       (DMA_SG_MODE, PCI_DMA_TODEVICE, BUF_SIZE, BUF_SIZE),
       (DMA_SG_MODE, PCI_DMA_TODEVICE, BUF_SIZE, 2 * BUF_SIZE),
       (DMA_SG_MODE, PCI_DMA_TODEVICE, 1, 3 * BUF_SIZE)] :=
  ⟨by decide, by decide, by decide, by decide, by decide,
    (C10_chunking (constEngine 2) world0 DMA_SG_MODE PCI_DMA_TODEVICE 0 (3 * BUF_SIZE + 1) 0
      (by decide) (by decide) (by decide) (by decide) (by decide)).1.trans (by decide)⟩

end XPDMA

namespace XPDMA

/-! ## Status classification of the scatter gather poll -/

theorem land_ne_zero_iff (x m : Nat) :
    x &&& m ≠ 0 ↔ ∃ i, x.testBit i = true ∧ m.testBit i = true := by
  constructor
  · intro h
    obtain ⟨i, hi⟩ := Nat.ne_zero_implies_bit_true h
    rw [Nat.testBit_and, Bool.and_eq_true] at hi
    exact ⟨i, hi⟩
  · rintro ⟨i, h1, h2⟩ h0
    have : (x &&& m).testBit i = true := by
      rw [Nat.testBit_and, h1, h2]; rfl
    rw [h0, Nat.zero_testBit] at this
    exact Bool.false_ne_true this

theorem land_two_pow_ne_zero_iff (x k : Nat) : x &&& 2 ^ k ≠ 0 ↔ x.testBit k = true := by
  rw [land_ne_zero_iff]
  constructor
  · rintro ⟨i, h1, h2⟩
    rw [Nat.testBit_two_pow, decide_eq_true_eq] at h2
    subst h2
    exact h1
  · intro h
    exact ⟨k, h, Nat.testBit_two_pow_self⟩

theorem testBit_complete_mask (i : Nat) :
    SG_COMPLETE_MASK.testBit i = true ↔ 28 ≤ i ∧ i ≤ 31 := by
  by_cases hi : i < 32
  · interval_cases i <;> simp [SG_COMPLETE_MASK] <;> decide
  · have h32 : SG_COMPLETE_MASK < 2 ^ i :=
      Nat.lt_of_lt_of_le (by decide : SG_COMPLETE_MASK < 2 ^ 32)
        (Nat.pow_le_pow_right (by decide) (by omega))
    rw [Nat.testBit_lt_two_pow h32]
    constructor
    · intro h; exact absurd h (by decide)
    · intro h; omega

theorem land_complete_mask (x : Nat) :
    x &&& SG_COMPLETE_MASK ≠ 0 ↔
      (x.testBit 28 = true ∨ x.testBit 29 = true ∨ x.testBit 30 = true ∨ x.testBit 31 = true) := by
  rw [land_ne_zero_iff]
  constructor
  · rintro ⟨i, h1, h2⟩
    rw [testBit_complete_mask] at h2
    obtain ⟨ha, hb⟩ := h2
    interval_cases i
    · exact Or.inl h1
    · exact Or.inr (Or.inl h1)
    · exact Or.inr (Or.inr (Or.inl h1))
    · exact Or.inr (Or.inr (Or.inr h1))
  · rintro (h | h | h | h)
    · exact ⟨28, h, (testBit_complete_mask 28).mpr (by omega)⟩
    · exact ⟨29, h, (testBit_complete_mask 29).mpr (by omega)⟩
    · exact ⟨30, h, (testBit_complete_mask 30).mpr (by omega)⟩
    · exact ⟨31, h, (testBit_complete_mask 31).mpr (by omega)⟩

theorem land_dec_err (x : Nat) : x &&& SG_DEC_ERR_MASK ≠ 0 ↔ x.testBit 30 = true :=
  land_two_pow_ne_zero_iff x 30

theorem land_slave_err (x : Nat) : x &&& SG_SLAVE_ERR_MASK ≠ 0 ↔ x.testBit 29 = true :=
  land_two_pow_ne_zero_iff x 29

theorem land_int_err (x : Nat) : x &&& SG_INT_ERR_MASK ≠ 0 ↔ x.testBit 28 = true :=
  land_two_pow_ne_zero_iff x 28

/-- The classification of a status word by its bits 28 to 31. -/
theorem sg_status_class_spec (s : Nat) :
    (sg_status_class s = SgPoll.decodeError ↔ s.testBit 30 = true) ∧
    (sg_status_class s = SgPoll.slaveError ↔ s.testBit 30 = false ∧ s.testBit 29 = true) ∧
    (sg_status_class s = SgPoll.internalError ↔
      s.testBit 30 = false ∧ s.testBit 29 = false ∧ s.testBit 28 = true) ∧
    (sg_status_class s = SgPoll.complete ↔
      s.testBit 30 = false ∧ s.testBit 29 = false ∧ s.testBit 28 = false ∧
        s.testBit 31 = true) ∧
    (sg_status_class s = SgPoll.noneYet ↔
      s.testBit 30 = false ∧ s.testBit 29 = false ∧ s.testBit 28 = false ∧
        s.testBit 31 = false) := by
  unfold sg_status_class
  simp only [land_dec_err, land_slave_err, land_int_err, land_complete_mask]
  cases h30 : s.testBit 30 <;> cases h29 : s.testBit 29 <;> cases h28 : s.testBit 28 <;>
    cases h31 : s.testBit 31 <;> simp

theorem sg_poll_step {H : Type} (E : Engine H) (n : Nat) (w : World H) :
    sg_poll E (n + 1) w =
      match sg_status_class (polledStatus E w) with
      | SgPoll.decodeError =>
        (CRIT_ERR, show_descriptors E ((polledWorld E w).log (Event.printk Msg.sgDecodeError)))
      | SgPoll.slaveError =>
        (CRIT_ERR, show_descriptors E ((polledWorld E w).log (Event.printk Msg.sgSlaveError)))
      | SgPoll.internalError =>
        (CRIT_ERR, show_descriptors E ((polledWorld E w).log (Event.printk Msg.sgInternalError)))
      | SgPoll.complete => (SUCCESS, polledWorld E w)
      | SgPoll.noneYet => sg_poll E n (polledWorld E w) := rfl

/-- C9: one iteration of the poll loop of `sg_operation` classifies the status
word `s` of the tail descriptor by its bits 28 to 31, error bits first.  With
bit 30 (decode), 29 (slave) or 28 (internal) set the iteration returns
`CRIT_ERR`, also when bit 31 is set; with bit 31 set and bits 28 to 30 clear it
returns `SUCCESS`; with bits 28 to 31 clear it goes on polling.  The five
outcomes are decided by the bits alone, so every status word has exactly one. -/
theorem C9_status_classification {H : Type} (E : Engine H) (n : Nat) (w : World H) :
    ((polledStatus E w).testBit 30 = true ∨ (polledStatus E w).testBit 29 = true ∨
        (polledStatus E w).testBit 28 = true →
      (sg_poll E (n + 1) w).1 = CRIT_ERR ∧
        sg_status_class (polledStatus E w) ≠ SgPoll.complete ∧
        sg_status_class (polledStatus E w) ≠ SgPoll.noneYet) ∧
    ((polledStatus E w).testBit 31 = true ∧ (polledStatus E w).testBit 30 = false ∧
        (polledStatus E w).testBit 29 = false ∧ (polledStatus E w).testBit 28 = false →
      sg_poll E (n + 1) w = (SUCCESS, polledWorld E w)) ∧
    ((polledStatus E w).testBit 31 = false ∧ (polledStatus E w).testBit 30 = false ∧
        (polledStatus E w).testBit 29 = false ∧ (polledStatus E w).testBit 28 = false →
      sg_poll E (n + 1) w = sg_poll E n (polledWorld E w)) ∧
    (∀ s : Nat,
      (sg_status_class s = SgPoll.decodeError ↔ s.testBit 30 = true) ∧
      (sg_status_class s = SgPoll.slaveError ↔ s.testBit 30 = false ∧ s.testBit 29 = true) ∧
      (sg_status_class s = SgPoll.internalError ↔
        s.testBit 30 = false ∧ s.testBit 29 = false ∧ s.testBit 28 = true) ∧
      (sg_status_class s = SgPoll.complete ↔
        s.testBit 30 = false ∧ s.testBit 29 = false ∧ s.testBit 28 = false ∧
          s.testBit 31 = true) ∧
      (sg_status_class s = SgPoll.noneYet ↔
        s.testBit 30 = false ∧ s.testBit 29 = false ∧ s.testBit 28 = false ∧
          s.testBit 31 = false)) := by
  obtain ⟨c1, c2, c3, c4, c5⟩ := sg_status_class_spec (polledStatus E w)
  refine ⟨?_, ?_, ?_, sg_status_class_spec⟩
  · intro h
    rw [sg_poll_step]
    cases hc : sg_status_class (polledStatus E w) with
    | decodeError => simp
    | slaveError => simp
    | internalError => simp
    | complete =>
      have := c4.mp hc
      rcases h with h | h | h <;> simp_all
    | noneYet =>
      have := c5.mp hc
      rcases h with h | h | h <;> simp_all
  · rintro ⟨h31, h30, h29, h28⟩
    rw [sg_poll_step, c4.mpr ⟨h30, h29, h28, h31⟩]
  · rintro ⟨h31, h30, h29, h28⟩
    rw [sg_poll_step, c5.mpr ⟨h30, h29, h28, h31⟩]

end XPDMA

namespace XPDMA

/-! ## The simulated engine: registers and transfers -/

theorem regWord_setRegWord_same (regs : Nat → Nat) (r v : Nat) :
    regWord (setRegWord regs r v) r = v % 4294967296 := by
  have h1 : ¬ (1 + r = r) := by omega
  have h2 : ¬ (2 + r = r) := by omega
  have h3 : ¬ (3 + r = r) := by omega
  have h4 : ¬ (2 + r = 1 + r) := by omega
  have h5 : ¬ (3 + r = 1 + r) := by omega
  have h6 : ¬ (3 + r = 2 + r) := by omega
  simp only [regWord, setRegWord, if_true, h1, h2, h3, h4, h5, h6, if_false]
  omega

theorem setRegWord_other (regs : Nat → Nat) (r v x : Nat) (h : x < r ∨ 4 + r ≤ x) :
    setRegWord regs r v x = regs x := by
  simp only [setRegWord]
  rw [if_neg (by omega), if_neg (by omega), if_neg (by omega), if_neg (by omega)]

theorem regWord_setRegWord_other (regs : Nat → Nat) (r v q : Nat)
    (h : 4 + q ≤ r ∨ 4 + r ≤ q) :
    regWord (setRegWord regs r v) q = regWord regs q := by
  simp only [regWord]
  rw [setRegWord_other regs r v q (by omega), setRegWord_other regs r v (1 + q) (by omega),
    setRegWord_other regs r v (2 + q) (by omega), setRegWord_other regs r v (3 + q) (by omega)]

theorem regWord_congr (f g : Nat → Nat) (q : Nat)
    (h : ∀ x, q ≤ x → x < 4 + q → f x = g x) : regWord f q = regWord g q := by
  simp only [regWord]
  rw [h q (by omega) (by omega), h (1 + q) (by omega) (by omega),
    h (2 + q) (by omega) (by omega), h (3 + q) (by omega) (by omega)]

theorem regWord_lt (regs : Nat → Nat) (q : Nat) : regWord regs q < 4294967296 := by
  simp only [regWord]
  omega

theorem ddrAfter_zero (ddr buf : Nat → Nat) (dst : Nat) : ddrAfter ddr buf dst 0 = ddr := by
  funext x
  simp only [ddrAfter]
  rw [if_neg (by omega)]

theorem ddrAfter_succ (ddr buf : Nat → Nat) (dst n : Nat) :
    Function.update (ddrAfter ddr buf dst n) (dst + n) (buf n) = ddrAfter ddr buf dst (n + 1) := by
  funext x
  simp only [ddrAfter, Function.update_apply]
  by_cases hx : x = dst + n
  · subst hx
    rw [if_pos rfl, if_pos (by omega)]
    congr 1
    omega
  · rw [if_neg hx]
    by_cases hx2 : dst ≤ x ∧ x < dst + n
    · rw [if_pos hx2, if_pos (by omega)]
    · rw [if_neg hx2, if_neg (by omega)]

theorem bufAfter_zero (buf ddr : Nat → Nat) (src : Nat) : bufAfter buf ddr src 0 = buf := by
  funext k
  simp only [bufAfter]
  rw [if_neg (by omega)]

theorem bufAfter_succ (buf ddr : Nat → Nat) (src n : Nat) :
    Function.update (bufAfter buf ddr src n) n (ddr (src + n)) = bufAfter buf ddr src (n + 1) := by
  funext k
  simp only [bufAfter, Function.update_apply]
  by_cases hk : k = n
  · subst hk
    rw [if_pos rfl, if_pos (by omega)]
  · rw [if_neg hk]
    by_cases hk2 : k < n
    · rw [if_pos hk2, if_pos (by omega)]
    · rw [if_neg hk2, if_neg (by omega)]

theorem regsAfter_zero (regs : Nat → Nat) : regsAfter regs 0 = regs := by
  funext x
  simp only [regsAfter]
  rw [if_neg (by omega)]

theorem regsAfter_succ (regs : Nat → Nat) (n : Nat) (hn : n < 8) :
    Function.update (regsAfter regs n) (PCIE_CTL_OFFSET + AXIBAR2PCIEBAR_1U + n) (regs n) =
      regsAfter regs (n + 1) := by
  have hB : PCIE_CTL_OFFSET + AXIBAR2PCIEBAR_1U = 33296 := rfl
  funext x
  simp only [regsAfter, Function.update_apply]
  generalize PCIE_CTL_OFFSET + AXIBAR2PCIEBAR_1U = B at hB ⊢
  by_cases hx : x = B + n
  · subst hx
    rw [if_pos rfl, if_pos (by omega)]
    congr 1
    omega
  · rw [if_neg hx]
    by_cases hx2 : B ≤ x ∧ x < B + n
    · rw [if_pos hx2, if_pos (by omega)]
    · rw [if_neg hx2, if_neg (by omega)]

theorem axiRead_ddr (a : HwAddrs) (s : Cdma × DmaMem) (x : Nat) (hx : x < AXI_PCIE_DM_ADDR) :
    axiRead a s x = s.1.ddr x := by
  unfold axiRead
  rw [if_pos hx]

theorem axiRead_bar1 (a : HwAddrs) (s : Cdma × DmaMem) (x : Nat) (h1 : AXI_PCIE_DM_ADDR ≤ x)
    (h2 : x < AXI_PCIE_SG_ADDR) :
    axiRead a s x = hostRead a s.2 (bar1 s.1 + (x - AXI_PCIE_DM_ADDR)) := by
  unfold axiRead
  rw [if_neg (by omega), if_pos h2]

theorem axiRead_regs (a : HwAddrs) (s : Cdma × DmaMem) (x : Nat) (h1 : AXI_BRAM_ADDR ≤ x) :
    axiRead a s x = s.1.regs (x - AXI_BRAM_ADDR) := by
  have cDM : AXI_PCIE_DM_ADDR = 2147483648 := rfl
  have cSG : AXI_PCIE_SG_ADDR = 2155872256 := rfl
  have cBR : AXI_BRAM_ADDR = 2164260864 := rfl
  unfold axiRead
  rw [if_neg (by omega), if_neg (by omega), if_neg (by omega)]

theorem axiWrite_ddr (a : HwAddrs) (s : Cdma × DmaMem) (x v : Nat) (hx : x < AXI_PCIE_DM_ADDR) :
    axiWrite a s x v = ({ s.1 with ddr := Function.update s.1.ddr x v }, s.2) := by
  unfold axiWrite
  rw [if_pos hx]

theorem axiWrite_bar1 (a : HwAddrs) (s : Cdma × DmaMem) (x v : Nat) (h1 : AXI_PCIE_DM_ADDR ≤ x)
    (h2 : x < AXI_PCIE_SG_ADDR) :
    axiWrite a s x v = (s.1, hostWrite a s.2 (bar1 s.1 + (x - AXI_PCIE_DM_ADDR)) v) := by
  unfold axiWrite
  rw [if_neg (by omega), if_pos h2]

theorem axiWrite_regs (a : HwAddrs) (s : Cdma × DmaMem) (x v : Nat) (h1 : AXI_BRAM_ADDR ≤ x) :
    axiWrite a s x v =
      ({ s.1 with regs := Function.update s.1.regs (x - AXI_BRAM_ADDR) v }, s.2) := by
  have cDM : AXI_PCIE_DM_ADDR = 2147483648 := rfl
  have cSG : AXI_PCIE_SG_ADDR = 2155872256 := rfl
  have cBR : AXI_BRAM_ADDR = 2164260864 := rfl
  unfold axiWrite
  rw [if_neg (by omega), if_neg (by omega), if_neg (by omega)]

theorem axiCopy_succ (a : HwAddrs) (src dst n : Nat) (s : Cdma × DmaMem) :
    axiCopy a src dst (n + 1) s =
      axiWrite a (axiCopy a src dst n s) (u32 (dst + n))
        (axiRead a (axiCopy a src dst n s) (u32 (src + n))) := rfl

/-- A transfer from the BAR1 window to device memory reads the write staging
buffer when BAR1 is translated to its bus address. -/
theorem axiCopy_to_ddr (a : HwAddrs) (regs ddr : Nat → Nat) (m : DmaMem) (dst : Nat)
    (hbar : bar1 { regs := regs, ddr := ddr } = a.writeHWAddr)
    (hdisj : BUF_SIZE + a.writeHWAddr ≤ a.readHWAddr ∨ BUF_SIZE + a.readHWAddr ≤ a.writeHWAddr) :
    ∀ n, n ≤ BUF_SIZE → dst + n ≤ AXI_PCIE_DM_ADDR →
      axiCopy a AXI_PCIE_DM_ADDR dst n ({ regs := regs, ddr := ddr }, m) =
        ({ regs := regs, ddr := ddrAfter ddr m.writeBuffer dst n }, m) := by
  have cDM : AXI_PCIE_DM_ADDR = 2147483648 := rfl
  have cSG : AXI_PCIE_SG_ADDR = 2155872256 := rfl
  have cB : BUF_SIZE = 4194304 := rfl
  intro n
  induction n with
  | zero =>
    intro _ _
    rw [ddrAfter_zero]
    rfl
  | succ n ih =>
    intro hn hd
    have ih2 := ih (by omega) (by omega)
    have e1 : u32 (AXI_PCIE_DM_ADDR + n) = AXI_PCIE_DM_ADDR + n := by
      simp only [u32_eq]; omega
    have e2 : u32 (dst + n) = dst + n := by simp only [u32_eq]; omega
    have hb : bar1 { regs := regs, ddr := ddrAfter ddr m.writeBuffer dst n } = a.writeHWAddr :=
      hbar
    rw [axiCopy_succ, ih2, e1, e2, axiRead_bar1 a _ _ (by omega) (by omega),
      axiWrite_ddr a _ _ _ (by omega)]
    simp only [hb, hostRead]
    rw [if_neg (by omega), if_pos (by omega)]
    have e3 : a.writeHWAddr + (AXI_PCIE_DM_ADDR + n - AXI_PCIE_DM_ADDR) - a.writeHWAddr = n := by
      omega
    rw [e3, ddrAfter_succ]

/-- A transfer from device memory to the BAR1 window fills the read staging
buffer when BAR1 is translated to its bus address. -/
theorem axiCopy_from_ddr (a : HwAddrs) (h : Cdma) (rb wb : Nat → Nat) (dc : Nat → sg_desc_t)
    (src : Nat) (hbar : bar1 h = a.readHWAddr) :
    ∀ n, n ≤ BUF_SIZE → src + n ≤ AXI_PCIE_DM_ADDR →
      axiCopy a src AXI_PCIE_DM_ADDR n (h, { readBuffer := rb, writeBuffer := wb, descChain := dc }) =
        (h, { readBuffer := bufAfter rb h.ddr src n, writeBuffer := wb, descChain := dc }) := by
  have cDM : AXI_PCIE_DM_ADDR = 2147483648 := rfl
  have cSG : AXI_PCIE_SG_ADDR = 2155872256 := rfl
  have cB : BUF_SIZE = 4194304 := rfl
  intro n
  induction n with
  | zero =>
    intro _ _
    rw [bufAfter_zero]
    rfl
  | succ n ih =>
    intro hn hd
    have ih2 := ih (by omega) (by omega)
    have e1 : u32 (AXI_PCIE_DM_ADDR + n) = AXI_PCIE_DM_ADDR + n := by
      simp only [u32_eq]; omega
    have e2 : u32 (src + n) = src + n := by simp only [u32_eq]; omega
    rw [axiCopy_succ, ih2, e1, e2, axiRead_ddr a _ _ (by omega),
      axiWrite_bar1 a _ _ _ (by omega) (by omega)]
    simp only [hbar, hostWrite]
    rw [if_pos (by omega)]
    have e3 : a.readHWAddr + (AXI_PCIE_DM_ADDR + n - AXI_PCIE_DM_ADDR) - a.readHWAddr = n := by
      omega
    simp only [e3, bufAfter_succ]

/-- A transfer from the start of the translation BRAM to the BAR1 translation
registers copies the register bytes. -/
theorem axiCopy_vector (a : HwAddrs) (regs ddr : Nat → Nat) (m : DmaMem) :
    ∀ n, n ≤ 8 →
      axiCopy a AXI_BRAM_ADDR (AXI_BRAM_ADDR + PCIE_CTL_OFFSET + AXIBAR2PCIEBAR_1U) n
          ({ regs := regs, ddr := ddr }, m) =
        ({ regs := regsAfter regs n, ddr := ddr }, m) := by
  have cBR : AXI_BRAM_ADDR = 2164260864 := rfl
  have hB : PCIE_CTL_OFFSET + AXIBAR2PCIEBAR_1U = 33296 := rfl
  intro n
  induction n with
  | zero =>
    intro _
    rw [regsAfter_zero]
    rfl
  | succ n ih =>
    intro hn
    have ih2 := ih (by omega)
    have e1 : u32 (AXI_BRAM_ADDR + n) = AXI_BRAM_ADDR + n := by
      simp only [u32_eq]; omega
    have e2 : u32 (AXI_BRAM_ADDR + PCIE_CTL_OFFSET + AXIBAR2PCIEBAR_1U + n) =
        AXI_BRAM_ADDR + (PCIE_CTL_OFFSET + AXIBAR2PCIEBAR_1U + n) := by
      simp only [u32_eq]; omega
    rw [axiCopy_succ, ih2, e1, e2, axiRead_regs a _ _ (by omega), axiWrite_regs a _ _ _ (by omega)]
    have e3 : AXI_BRAM_ADDR + (PCIE_CTL_OFFSET + AXIBAR2PCIEBAR_1U + n) - AXI_BRAM_ADDR =
        PCIE_CTL_OFFSET + AXIBAR2PCIEBAR_1U + n := by omega
    have e4 : AXI_BRAM_ADDR + n - AXI_BRAM_ADDR = n := by omega
    have hr : regsAfter regs n n = regs n := by
      simp only [regsAfter]
      rw [if_neg (by omega)]
    simp only [e3, e4, hr, regsAfter_succ regs n (by omega)]

end XPDMA

namespace XPDMA

/-! ## The driver on the simulated engine -/

theorem setDma_dma (s : xpdma_state) : s.setDma s.dma = s := rfl

theorem isIdle_faithful (w : World Cdma) (hused : w.st.used = true) :
    xpdma_isIdle faithfulEngine w =
      (2, { w with trace := w.trace ++
        [Event.readReg (CDMA_OFFSET + CDMA_STATUS_OFFSET) 2] }) := by
  simp only [xpdma_isIdle, xpdma_readReg, hused, Bool.not_true, Bool.false_eq_true, if_false,
    faithfulEngine, if_true, setDma_dma]
  rfl

theorem readReg_faithful (w : World Cdma) (reg : Nat) :
    ∃ t, (xpdma_readReg faithfulEngine w reg).2 = { w with trace := w.trace ++ t } := by
  unfold xpdma_readReg
  split
  · exact ⟨_, rfl⟩
  · exact ⟨_, rfl⟩

theorem dump_regs_faithful (regs : List Nat) :
    ∀ w : World Cdma, ∃ t, dump_regs faithfulEngine w regs = { w with trace := w.trace ++ t } := by
  induction regs with
  | nil => intro w; exact ⟨[], by simp [dump_regs]⟩
  | cons r rs ih =>
    intro w
    obtain ⟨t1, h1⟩ := readReg_faithful w r
    obtain ⟨t2, h2⟩ := ih (xpdma_readReg faithfulEngine w r).2
    refine ⟨t1 ++ t2, ?_⟩
    show dump_regs faithfulEngine (xpdma_readReg faithfulEngine w r).2 rs = _
    rw [h2, h1]
    simp

theorem writeReg_faithful (w : World Cdma) (hused : w.st.used = true) (reg val : Nat) :
    xpdma_writeReg faithfulEngine w reg val =
      { st := w.st.setDma (cdmaWrite w.st.addrs (w.hw, w.st.dma) reg (u32 val)).2
        hw := (cdmaWrite w.st.addrs (w.hw, w.st.dma) reg (u32 val)).1
        user := w.user
        trace := w.trace ++ [Event.writeReg reg (u32 val)] } := by
  simp only [xpdma_writeReg, hused, Bool.not_true, Bool.false_eq_true, if_false, faithfulEngine]

/-- A register write that arms no transfer only stores the value. -/
theorem cdmaWrite_plain (a : HwAddrs) (s : Cdma × DmaMem) (reg val : Nat)
    (h1 : reg ≠ CDMA_OFFSET + CDMA_TDESC_OFFSET) (h2 : reg ≠ CDMA_OFFSET + CDMA_BTT_OFFSET) :
    cdmaWrite a s reg val = ({ s.1 with regs := setRegWord s.1.regs reg val }, s.2) := by
  unfold cdmaWrite
  rw [if_neg h1, if_neg h2]

end XPDMA

namespace XPDMA

theorem regWord_regsAfter_other (regs : Nat → Nat) (q : Nat)
    (h : 4 + q ≤ PCIE_CTL_OFFSET + AXIBAR2PCIEBAR_1U ∨
      PCIE_CTL_OFFSET + AXIBAR2PCIEBAR_1U + 8 ≤ q) :
    regWord (regsAfter regs 8) q = regWord regs q := by
  apply regWord_congr
  intro x h1 h2
  simp only [regsAfter]
  rw [if_neg (by omega)]

theorem regWord_regsAfter_low (regs : Nat → Nat) :
    regWord (regsAfter regs 8) (PCIE_CTL_OFFSET + AXIBAR2PCIEBAR_1L) = regWord regs 4 := by
  have hL : PCIE_CTL_OFFSET + AXIBAR2PCIEBAR_1L = 33300 := rfl
  have hU : PCIE_CTL_OFFSET + AXIBAR2PCIEBAR_1U = 33296 := rfl
  simp only [regWord, regsAfter]
  rw [hL, hU, if_pos (by omega), if_pos (by omega), if_pos (by omega), if_pos (by omega)]

theorem regWord_regsAfter_high (regs : Nat → Nat) :
    regWord (regsAfter regs 8) (PCIE_CTL_OFFSET + AXIBAR2PCIEBAR_1U) = regWord regs 0 := by
  have hU : PCIE_CTL_OFFSET + AXIBAR2PCIEBAR_1U = 33296 := rfl
  simp only [regWord, regsAfter]
  rw [hU, if_pos (by omega), if_pos (by omega), if_pos (by omega), if_pos (by omega)]

theorem bar0_regsAfter (regs ddr : Nat → Nat) :
    bar0 { regs := regsAfter regs 8, ddr := ddr } = bar0 { regs := regs, ddr := ddr } := by
  simp only [bar0]
  rw [regWord_regsAfter_other regs _ (Or.inl (by decide)),
    regWord_regsAfter_other regs _ (Or.inl (by decide))]

theorem bar1_regsAfter (regs ddr : Nat → Nat) :
    bar1 { regs := regsAfter regs 8, ddr := ddr } =
      regWord regs 4 + 4294967296 * regWord regs 0 := by
  simp only [bar1]
  rw [regWord_regsAfter_low, regWord_regsAfter_high]

theorem fetchDesc_at (a : HwAddrs) (h : Cdma) (k : Nat) (hbar : bar0 h = a.descChainHWAddr)
    (hk : k < 65536) :
    fetchDesc a h (AXI_PCIE_SG_ADDR + DESCRIPTOR_SIZE * k) = some k := by
  have cSG : AXI_PCIE_SG_ADDR = 2155872256 := rfl
  have cBR : AXI_BRAM_ADDR = 2164260864 := rfl
  have cB : BUF_SIZE = 4194304 := rfl
  have cD : DESCRIPTOR_SIZE = 64 := rfl
  unfold fetchDesc
  rw [hbar]
  have e : a.descChainHWAddr + (AXI_PCIE_SG_ADDR + DESCRIPTOR_SIZE * k - AXI_PCIE_SG_ADDR) -
      a.descChainHWAddr = DESCRIPTOR_SIZE * k := by omega
  rw [e, if_pos (by rw [cD]; omega)]
  congr 1
  rw [cD]
  omega

/-- The execution of a chain of one pair: the translation vector is copied to
the BAR1 translation registers, then the data descriptor is executed. -/
theorem runChain_pair (a : HwAddrs) (regs ddr : Nat → Nat) (m : DmaMem) (fuel : Nat)
    (hbar : bar0 { regs := regs, ddr := ddr } = a.descChainHWAddr)
    (hs0 : (m.descChain 0).srcAddr = AXI_BRAM_ADDR)
    (hd0 : (m.descChain 0).destAddr = AXI_BRAM_ADDR + PCIE_CTL_OFFSET + AXIBAR2PCIEBAR_1U)
    (hc0 : (m.descChain 0).control = 8)
    (hn0 : (m.descChain 0).nextDesc = AXI_PCIE_SG_ADDR + DESCRIPTOR_SIZE * 1) :
    runChain a (fuel + 2) (AXI_PCIE_SG_ADDR + DESCRIPTOR_SIZE * 0)
        (AXI_PCIE_SG_ADDR + DESCRIPTOR_SIZE * 1) ({ regs := regs, ddr := ddr }, m) =
      execDesc a ({ regs := regsAfter regs 8, ddr := ddr }, markDone m 0 (m.descChain 0)) 1 := by
  have cD : DESCRIPTOR_SIZE = 64 := rfl
  have hne : ¬ (AXI_PCIE_SG_ADDR + DESCRIPTOR_SIZE * 0 = AXI_PCIE_SG_ADDR + DESCRIPTOR_SIZE * 1) := by
    omega
  have hbar2 : bar0 { regs := regsAfter regs 8, ddr := ddr } = a.descChainHWAddr := by
    rw [bar0_regsAfter, hbar]
  have e0 : execDesc a ({ regs := regs, ddr := ddr }, m) 0 =
      ({ regs := regsAfter regs 8, ddr := ddr }, markDone m 0 (m.descChain 0)) := by
    simp only [execDesc, hs0, hd0, hc0, axiCopy_vector a regs ddr m 8 (Nat.le_refl 8)]
  simp only [runChain, fetchDesc_at a _ 0 hbar (by decide), if_neg hne, hn0, e0,
    fetchDesc_at a _ 1 hbar2 (by decide), if_true]

end XPDMA

namespace XPDMA

/-- The function `sg_operation` in stages. -/
theorem sg_operation_stages {H : Type} (E : Engine H) (w : World H) (direction : Int)
    (count addr : Nat) :
    sg_operation E w direction count addr =
      if (xpdma_isIdle E w).1 = 0 then
        (CRIT_ERR, xpdma_showInfo E ((xpdma_isIdle E w).2.log (Event.printk Msg.notIdle)))
      else
        match (if PCI_DMA_FROMDEVICE = direction then
            some (usize (sg_setup E (xpdma_isIdle E w).2 direction count addr).st.readHWAddr)
          else if PCI_DMA_TODEVICE = direction then
            some (usize (sg_setup E (xpdma_isIdle E w).2 direction count addr).st.writeHWAddr)
          else none : Option Nat) with
        | none =>
          (CRIT_ERR, (sg_setup E (xpdma_isIdle E w).2 direction count addr).log
            (Event.printk Msg.unknownDirection))
        | some pntr =>
          sg_poll E CDMA_TRANSFER_LOOP
            (sg_start E (sg_setup E (xpdma_isIdle E w).2 direction count addr) pntr) := rfl

theorem create_desc_chain_chainState {H : Type} (w : World H) (direction : Int)
    (size addr : Nat)
    (hdir : direction = PCI_DMA_FROMDEVICE ∨ direction = PCI_DMA_TODEVICE) :
    (create_desc_chain w direction size addr).2 =
      { w with st := chainState w.st direction size addr } := by
  rw [create_desc_chain_ok w direction size addr hdir]
  rfl

theorem writeReg_plain_st (w : World Cdma) (hused : w.st.used = true) (reg val : Nat)
    (h1 : reg ≠ CDMA_OFFSET + CDMA_TDESC_OFFSET) (h2 : reg ≠ CDMA_OFFSET + CDMA_BTT_OFFSET) :
    (xpdma_writeReg faithfulEngine w reg val).st = w.st := by
  rw [writeReg_faithful _ hused, cdmaWrite_plain _ _ _ _ h1 h2]
  rfl

theorem writeReg_plain_hw (w : World Cdma) (hused : w.st.used = true) (reg val : Nat)
    (h1 : reg ≠ CDMA_OFFSET + CDMA_TDESC_OFFSET) (h2 : reg ≠ CDMA_OFFSET + CDMA_BTT_OFFSET) :
    (xpdma_writeReg faithfulEngine w reg val).hw =
      { regs := setRegWord w.hw.regs reg (u32 val), ddr := w.hw.ddr } := by
  rw [writeReg_faithful _ hused, cdmaWrite_plain _ _ _ _ h1 h2]

theorem writeReg_user {H : Type} (E : Engine H) (w : World H) (reg val : Nat) :
    (xpdma_writeReg E w reg val).user = w.user :=
  (opStep_writeReg E w reg val).1

theorem chainState_used (s : xpdma_state) (direction : Int) (size addr : Nat) :
    (chainState s direction size addr).used = s.used := rfl

/-- Steps 1 to 3 of `sg_operation` on the simulated engine. -/
theorem sg_setup_faithful (w : World Cdma) (hused : w.st.used = true) (direction : Int)
    (count addr : Nat)
    (hdir : direction = PCI_DMA_FROMDEVICE ∨ direction = PCI_DMA_TODEVICE) :
    (sg_setup faithfulEngine w direction count addr).st = chainState w.st direction count addr ∧
    (sg_setup faithfulEngine w direction count addr).hw =
      { regs := setupRegs w.hw.regs w.st.descChainHWAddr, ddr := w.hw.ddr } ∧
    (sg_setup faithfulEngine w direction count addr).user = w.user := by
  unfold sg_setup
  have p1 : CDMA_OFFSET + CDMA_CONTROL_OFFSET ≠ CDMA_OFFSET + CDMA_TDESC_OFFSET := by decide
  have p2 : CDMA_OFFSET + CDMA_CONTROL_OFFSET ≠ CDMA_OFFSET + CDMA_BTT_OFFSET := by decide
  have s1 := writeReg_plain_st w hused _ CDMA_CR_SG_EN p1 p2
  have h1 := writeReg_plain_hw w hused _ CDMA_CR_SG_EN p1 p2
  have u1 := writeReg_user faithfulEngine w (CDMA_OFFSET + CDMA_CONTROL_OFFSET) CDMA_CR_SG_EN
  generalize xpdma_writeReg faithfulEngine w (CDMA_OFFSET + CDMA_CONTROL_OFFSET)
    CDMA_CR_SG_EN = w1 at s1 h1 u1 ⊢
  rw [create_desc_chain_chainState w1 direction count addr hdir]
  have hu2 : ({ w1 with st := chainState w1.st direction count addr } : World Cdma).st.used =
      true := by
    show (chainState w1.st direction count addr).used = true
    rw [chainState_used, s1]; exact hused
  have q1 : PCIE_CTL_OFFSET + AXIBAR2PCIEBAR_0L ≠ CDMA_OFFSET + CDMA_TDESC_OFFSET := by decide
  have q2 : PCIE_CTL_OFFSET + AXIBAR2PCIEBAR_0L ≠ CDMA_OFFSET + CDMA_BTT_OFFSET := by decide
  have s3 := writeReg_plain_st _ hu2 _
    (u32 (usize ({ w1 with st := chainState w1.st direction count addr } :
      World Cdma).st.descChainHWAddr)) q1 q2
  have h3 := writeReg_plain_hw _ hu2 _
    (u32 (usize ({ w1 with st := chainState w1.st direction count addr } :
      World Cdma).st.descChainHWAddr)) q1 q2
  have u3 := writeReg_user faithfulEngine
    ({ w1 with st := chainState w1.st direction count addr } : World Cdma)
    (PCIE_CTL_OFFSET + AXIBAR2PCIEBAR_0L)
    (u32 (usize ({ w1 with st := chainState w1.st direction count addr } :
      World Cdma).st.descChainHWAddr))
  generalize xpdma_writeReg faithfulEngine
    ({ w1 with st := chainState w1.st direction count addr } : World Cdma)
    (PCIE_CTL_OFFSET + AXIBAR2PCIEBAR_0L)
    (u32 (usize ({ w1 with st := chainState w1.st direction count addr } :
      World Cdma).st.descChainHWAddr)) = w3 at s3 h3 u3 ⊢
  have hu3 : w3.st.used = true := by rw [s3]; exact hu2
  have r1 : PCIE_CTL_OFFSET + AXIBAR2PCIEBAR_0U ≠ CDMA_OFFSET + CDMA_TDESC_OFFSET := by decide
  have r2 : PCIE_CTL_OFFSET + AXIBAR2PCIEBAR_0U ≠ CDMA_OFFSET + CDMA_BTT_OFFSET := by decide
  rw [writeReg_plain_st w3 hu3 _ _ r1 r2, writeReg_plain_hw w3 hu3 _ _ r1 r2, writeReg_user,
    s3, h3, u3]
  refine ⟨by rw [s1], ?_, u1⟩
  show _ = ({ regs := setupRegs w.hw.regs w.st.descChainHWAddr, ddr := w.hw.ddr } : Cdma)
  simp only [h1, s1, setupRegs]
  rfl

end XPDMA

namespace XPDMA

theorem sg_write_vectors_one {H : Type} (E : Engine H) (w : World H) (pntr : Nat) :
    sg_write_vectors E 1 w pntr 0 =
      xpdma_writeReg E
        (xpdma_writeReg E w (u32 (4 + (BRAM_OFFSET + 0))) (u32 pntr))
        (u32 (0 + (BRAM_OFFSET + 0))) (u32 (pntr / 4294967296)) := rfl

theorem regWord_startRegs_control (regs : Nat → Nat) (p : Nat) :
    regWord (setRegWord (setRegWord (setRegWord regs (u32 (4 + (BRAM_OFFSET + 0))) (u32 (u32 p)))
        (u32 (0 + (BRAM_OFFSET + 0))) (u32 (u32 (p / 4294967296))))
        (CDMA_OFFSET + CDMA_CDESC_OFFSET) (u32 AXI_PCIE_SG_ADDR))
      (CDMA_OFFSET + CDMA_CONTROL_OFFSET) =
    regWord regs (CDMA_OFFSET + CDMA_CONTROL_OFFSET) := by
  rw [regWord_setRegWord_other _ _ _ _ (by decide), regWord_setRegWord_other _ _ _ _ (by decide),
    regWord_setRegWord_other _ _ _ _ (by decide)]

theorem regWord_startRegs_cdesc (regs : Nat → Nat) (p : Nat) :
    regWord (setRegWord (setRegWord (setRegWord regs (u32 (4 + (BRAM_OFFSET + 0))) (u32 (u32 p)))
        (u32 (0 + (BRAM_OFFSET + 0))) (u32 (u32 (p / 4294967296))))
        (CDMA_OFFSET + CDMA_CDESC_OFFSET) (u32 AXI_PCIE_SG_ADDR))
      (CDMA_OFFSET + CDMA_CDESC_OFFSET) = AXI_PCIE_SG_ADDR + DESCRIPTOR_SIZE * 0 := by
  rw [regWord_setRegWord_same]
  decide

theorem bar0_startRegs (regs ddr : Nat → Nat) (p : Nat) :
    bar0 { regs := startRegs regs p, ddr := ddr } = bar0 { regs := regs, ddr := ddr } := by
  simp only [bar0, startRegs]
  rw [regWord_setRegWord_other _ _ _ _ (by decide), regWord_setRegWord_other _ _ _ _ (by decide),
    regWord_setRegWord_other _ _ _ _ (by decide), regWord_setRegWord_other _ _ _ _ (by decide),
    regWord_setRegWord_other _ _ _ _ (by decide), regWord_setRegWord_other _ _ _ _ (by decide),
    regWord_setRegWord_other _ _ _ _ (by decide), regWord_setRegWord_other _ _ _ _ (by decide)]

theorem bar1_startRegs (regs ddr : Nat → Nat) (p : Nat) (hp : p < 18446744073709551616) :
    bar1 { regs := regsAfter (startRegs regs p) 8, ddr := ddr } = p := by
  rw [bar1_regsAfter]
  have e4 : regWord (startRegs regs p) 4 = p % 4294967296 := by
    simp only [startRegs]
    rw [regWord_setRegWord_other _ _ _ _ (by decide),
      regWord_setRegWord_other _ _ _ _ (by decide),
      regWord_setRegWord_other _ _ _ _ (by decide)]
    have : u32 (4 + (BRAM_OFFSET + 0)) = 4 := by decide
    rw [this, regWord_setRegWord_same]
    simp only [u32_eq]
    omega
  have e0 : regWord (startRegs regs p) 0 = p / 4294967296 := by
    simp only [startRegs]
    rw [regWord_setRegWord_other _ _ _ _ (by decide),
      regWord_setRegWord_other _ _ _ _ (by decide)]
    have : u32 (0 + (BRAM_OFFSET + 0)) = 0 := by decide
    rw [this, regWord_setRegWord_same]
    simp only [u32_eq]
    omega
  rw [e4, e0]
  omega

theorem tdesc_value : u32 (u32 (usize (AXI_PCIE_SG_ADDR +
    usize (usize (18446744073709551616 - 1 + 2 * 1) * DESCRIPTOR_SIZE)))) =
    AXI_PCIE_SG_ADDR + DESCRIPTOR_SIZE * 1 := by decide

/-- Steps 4 to 6 of `sg_operation` on the simulated engine, for a chain of one
pair: the engine executes the data descriptor with BAR1 translated to the
vector `pntr`. -/
theorem sg_start_faithful (w : World Cdma) (hused : w.st.used = true)
    (hlen : w.st.descChainLength = 1) (pntr : Nat)
    (hctl : regWord w.hw.regs (CDMA_OFFSET + CDMA_CONTROL_OFFSET) &&& CDMA_CR_SG_EN ≠ 0)
    (hbar : bar0 { regs := w.hw.regs, ddr := w.hw.ddr } = w.st.descChainHWAddr)
    (hs0 : (w.st.descChain 0).srcAddr = AXI_BRAM_ADDR)
    (hd0 : (w.st.descChain 0).destAddr = AXI_BRAM_ADDR + PCIE_CTL_OFFSET + AXIBAR2PCIEBAR_1U)
    (hc0 : (w.st.descChain 0).control = 8)
    (hn0 : (w.st.descChain 0).nextDesc = AXI_PCIE_SG_ADDR + DESCRIPTOR_SIZE * 1) :
    (sg_start faithfulEngine w pntr).st =
      w.st.setDma (execDesc w.st.addrs
        ({ regs := regsAfter (startRegs w.hw.regs pntr) 8, ddr := w.hw.ddr },
          markDone w.st.dma 0 (w.st.descChain 0)) 1).2 ∧
    (sg_start faithfulEngine w pntr).hw =
      (execDesc w.st.addrs
        ({ regs := regsAfter (startRegs w.hw.regs pntr) 8, ddr := w.hw.ddr },
          markDone w.st.dma 0 (w.st.descChain 0)) 1).1 ∧
    (sg_start faithfulEngine w pntr).user = w.user := by
  unfold sg_start
  have hl1 : u32 w.st.descChainLength = 1 := by rw [hlen]; decide
  rw [hl1, sg_write_vectors_one]
  have p1 : u32 (4 + (BRAM_OFFSET + 0)) ≠ CDMA_OFFSET + CDMA_TDESC_OFFSET := by decide
  have p2 : u32 (4 + (BRAM_OFFSET + 0)) ≠ CDMA_OFFSET + CDMA_BTT_OFFSET := by decide
  have s1 := writeReg_plain_st w hused _ (u32 pntr) p1 p2
  have h1 := writeReg_plain_hw w hused _ (u32 pntr) p1 p2
  have u1 := writeReg_user faithfulEngine w (u32 (4 + (BRAM_OFFSET + 0))) (u32 pntr)
  generalize xpdma_writeReg faithfulEngine w (u32 (4 + (BRAM_OFFSET + 0))) (u32 pntr) = w1
    at s1 h1 u1 ⊢
  have hu1 : w1.st.used = true := by rw [s1]; exact hused
  have q1 : u32 (0 + (BRAM_OFFSET + 0)) ≠ CDMA_OFFSET + CDMA_TDESC_OFFSET := by decide
  have q2 : u32 (0 + (BRAM_OFFSET + 0)) ≠ CDMA_OFFSET + CDMA_BTT_OFFSET := by decide
  have s2 := writeReg_plain_st w1 hu1 _ (u32 (pntr / 4294967296)) q1 q2
  have h2 := writeReg_plain_hw w1 hu1 _ (u32 (pntr / 4294967296)) q1 q2
  have u2 := writeReg_user faithfulEngine w1 (u32 (0 + (BRAM_OFFSET + 0)))
    (u32 (pntr / 4294967296))
  generalize xpdma_writeReg faithfulEngine w1 (u32 (0 + (BRAM_OFFSET + 0)))
    (u32 (pntr / 4294967296)) = w2 at s2 h2 u2 ⊢
  have hu2 : w2.st.used = true := by rw [s2]; exact hu1
  have r1 : CDMA_OFFSET + CDMA_CDESC_OFFSET ≠ CDMA_OFFSET + CDMA_TDESC_OFFSET := by decide
  have r2 : CDMA_OFFSET + CDMA_CDESC_OFFSET ≠ CDMA_OFFSET + CDMA_BTT_OFFSET := by decide
  have s3 := writeReg_plain_st w2 hu2 _ AXI_PCIE_SG_ADDR r1 r2
  have h3 := writeReg_plain_hw w2 hu2 _ AXI_PCIE_SG_ADDR r1 r2
  have u3 := writeReg_user faithfulEngine w2 (CDMA_OFFSET + CDMA_CDESC_OFFSET) AXI_PCIE_SG_ADDR
  generalize xpdma_writeReg faithfulEngine w2 (CDMA_OFFSET + CDMA_CDESC_OFFSET)
    AXI_PCIE_SG_ADDR = w3 at s3 h3 u3 ⊢
  have hu3 : w3.st.used = true := by rw [s3]; exact hu2
  have est : w3.st = w.st := by rw [s3, s2, s1]
  have ehw : w3.hw = { regs := (setRegWord (setRegWord (setRegWord w.hw.regs
      (u32 (4 + (BRAM_OFFSET + 0))) (u32 (u32 pntr)))
      (u32 (0 + (BRAM_OFFSET + 0))) (u32 (u32 (pntr / 4294967296))))
      (CDMA_OFFSET + CDMA_CDESC_OFFSET) (u32 AXI_PCIE_SG_ADDR)), ddr := w.hw.ddr } := by
    rw [h3, h2, h1]
  have eus : w3.user = w.user := by rw [u3, u2, u1]
  rw [writeReg_faithful w3 hu3, est, hlen]
  simp only [cdmaWrite, if_true, ehw, regWord_startRegs_control, hctl, ne_eq, not_false_eq_true,
    regWord_startRegs_cdesc, tdesc_value]
  have hrun := runChain_pair w.st.addrs (startRegs w.hw.regs pntr) w.hw.ddr w.st.dma 65534
    (by rw [bar0_startRegs]; exact hbar) hs0 hd0 hc0 hn0
  have hfuel : BUF_SIZE / DESCRIPTOR_SIZE = 65534 + 2 := by decide
  rw [hfuel]
  refine ⟨?_, ?_, eus⟩
  · exact congrArg (fun x => w.st.setDma x.2) hrun
  · exact congrArg (fun x => x.1) hrun

end XPDMA

namespace XPDMA

theorem chainLen_one (count : Nat) (h1 : 1 ≤ count) (h2 : count ≤ BUF_SIZE) :
    chainLen count = 1 := by
  have cB : BUF_SIZE = 4194304 := rfl
  rw [chainLen_small count (by simp only [TRANSFER_SIZE]; omega)]
  simp only [TRANSFER_SIZE]
  omega

theorem chainState_descChain (s : xpdma_state) (direction : Int) (size addr : Nat)
    (hdir : direction = PCI_DMA_FROMDEVICE ∨ direction = PCI_DMA_TODEVICE) :
    (chainState s direction size addr).descChain =
      (create_desc_chain (⟨s, (), ⟨fun _ => 0, 0⟩, []⟩ : World Unit) direction size addr).2.st.descChain := by
  rw [create_desc_chain_chainState _ _ _ _ hdir]

theorem chainState_desc0 (s : xpdma_state) (direction : Int) (count addr : Nat)
    (hdir : direction = PCI_DMA_FROMDEVICE ∨ direction = PCI_DMA_TODEVICE)
    (h1 : 1 ≤ count) (h2 : count ≤ BUF_SIZE) :
    ((chainState s direction count addr).descChain 0).srcAddr = AXI_BRAM_ADDR ∧
    ((chainState s direction count addr).descChain 0).destAddr =
      AXI_BRAM_ADDR + PCIE_CTL_OFFSET + AXIBAR2PCIEBAR_1U ∧
    ((chainState s direction count addr).descChain 0).control = 8 ∧
    ((chainState s direction count addr).descChain 0).nextDesc =
      AXI_PCIE_SG_ADDR + DESCRIPTOR_SIZE * 1 := by
  rw [chainState_descChain s direction count addr hdir]
  have h := create_desc_chain_addr (⟨s, (), ⟨fun _ => 0, 0⟩, []⟩ : World Unit)
    direction count addr hdir 0 (by rw [chainLen_one count h1 h2]; decide)
  rw [h]
  refine ⟨?_, ?_, ?_, ?_⟩
  · show u32 (AXI_BRAM_ADDR + 8 * 0) = AXI_BRAM_ADDR
    decide
  · show u32 (AXI_BRAM_ADDR + PCIE_CTL_OFFSET + AXIBAR2PCIEBAR_1U) = _
    decide
  · rfl
  · show u32 (AXI_PCIE_SG_ADDR + 128 * 0 + 64) = _
    decide

theorem chainState_desc1 (s : xpdma_state) (direction : Int) (count addr : Nat)
    (hdir : direction = PCI_DMA_FROMDEVICE ∨ direction = PCI_DMA_TODEVICE)
    (h1 : 1 ≤ count) (h2 : count ≤ BUF_SIZE) :
    ((chainState s direction count addr).descChain 1).srcAddr =
      (if direction = PCI_DMA_FROMDEVICE then u32 (AXI_DDR3_ADDR + u32 addr)
       else AXI_PCIE_DM_ADDR) ∧
    ((chainState s direction count addr).descChain 1).destAddr =
      (if direction = PCI_DMA_FROMDEVICE then AXI_PCIE_DM_ADDR
       else u32 (AXI_DDR3_ADDR + u32 addr)) ∧
    ((chainState s direction count addr).descChain 1).control = count := by
  rw [chainState_descChain s direction count addr hdir]
  have h := create_desc_chain_data (⟨s, (), ⟨fun _ => 0, 0⟩, []⟩ : World Unit)
    direction count addr hdir 0 (by rw [chainLen_one count h1 h2]; decide)
  rw [show 2 * 0 + 1 = 1 from rfl] at h
  rw [h]
  have cB : BUF_SIZE = 4194304 := rfl
  have cT : TRANSFER_SIZE = 4194304 := rfl
  have cDM : AXI_PCIE_DM_ADDR = 2147483648 := rfl
  refine ⟨?_, ?_, ?_⟩
  · show u32 ((chainStart s.descChain direction count addr).srcAddr +
      min (0 * TRANSFER_SIZE) (chainStart s.descChain direction count addr).unmappedSize) = _
    simp only [chainStart, Nat.zero_mul, Nat.zero_min, Nat.add_zero]
    split
    · simp only [u32_eq]; omega
    · rw [cDM]; decide
  · show u32 ((chainStart s.descChain direction count addr).destAddr +
      min (0 * TRANSFER_SIZE) (chainStart s.descChain direction count addr).unmappedSize) = _
    simp only [chainStart, Nat.zero_mul, Nat.zero_min, Nat.add_zero]
    split
    · rw [cDM]; decide
    · simp only [u32_eq]; omega
  · show min ((chainStart s.descChain direction count addr).unmappedSize - 0 * TRANSFER_SIZE)
      TRANSFER_SIZE = count
    simp only [chainStart, Nat.zero_mul, Nat.sub_zero, u32_eq, cT]
    omega

end XPDMA

namespace XPDMA

theorem udelay_faithful (w : World Cdma) (us : Nat) :
    udelay faithfulEngine w us = { w with trace := w.trace ++ [Event.udelay us] } := rfl

theorem sg_status_class_complete : sg_status_class (u32 SG_DESC_COMPLETE) = SgPoll.complete := by
  decide

/-- The poll loop of `sg_operation` on the simulated engine, once the tail
descriptor of a chain of one pair is marked complete. -/
theorem sg_poll_faithful (w : World Cdma) (hlen : w.st.descChainLength = 1)
    (hst : (w.st.descChain 1).status = SG_DESC_COMPLETE) :
    (sg_poll faithfulEngine CDMA_TRANSFER_LOOP w).1 = SUCCESS ∧
    (sg_poll faithfulEngine CDMA_TRANSFER_LOOP w).2.st = w.st ∧
    (sg_poll faithfulEngine CDMA_TRANSFER_LOOP w).2.hw = w.hw ∧
    (sg_poll faithfulEngine CDMA_TRANSFER_LOOP w).2.user = w.user := by
  have e : CDMA_TRANSFER_LOOP = 999999 + 1 := rfl
  have hi : polledIndex faithfulEngine w = 1 := by
    show usize (18446744073709551616 - 1 + 2 * w.st.descChainLength) = 1
    rw [hlen]
    decide
  have hp : polledStatus faithfulEngine w = u32 SG_DESC_COMPLETE := by
    show u32 (w.st.descChain (polledIndex faithfulEngine w)).status = _
    rw [hi, hst]
  rw [e, sg_poll_step, hp, sg_status_class_complete]
  exact ⟨rfl, rfl, rfl, rfl⟩

theorem markDone_descChain_ne (m : DmaMem) (k j : Nat) (d : sg_desc_t) (h : j ≠ k) :
    (markDone m k d).descChain j = m.descChain j := by
  simp only [markDone]
  rw [Function.update_noteq h]

theorem markDone_status (m : DmaMem) (k : Nat) (d : sg_desc_t) :
    ((markDone m k d).descChain k).status = SG_DESC_COMPLETE := by
  simp only [markDone]
  rw [Function.update_same]

/-- The execution of a data descriptor that moves `n` bytes of the write
staging buffer to the device memory at `dst`. -/
theorem execDesc_to_ddr (a : HwAddrs) (regs ddr : Nat → Nat) (m : DmaMem) (k dst n : Nat)
    (hsrc : (m.descChain k).srcAddr = AXI_PCIE_DM_ADDR)
    (hdst : (m.descChain k).destAddr = dst)
    (hctl : (m.descChain k).control = n)
    (hbar : bar1 { regs := regs, ddr := ddr } = a.writeHWAddr)
    (hdisj : BUF_SIZE + a.writeHWAddr ≤ a.readHWAddr ∨ BUF_SIZE + a.readHWAddr ≤ a.writeHWAddr)
    (hn : n ≤ BUF_SIZE) (hfit : dst + n ≤ AXI_PCIE_DM_ADDR) :
    execDesc a ({ regs := regs, ddr := ddr }, m) k =
      ({ regs := regs, ddr := ddrAfter ddr m.writeBuffer dst n },
        markDone m k (m.descChain k)) := by
  unfold execDesc
  simp only [hsrc, hdst, hctl]
  rw [axiCopy_to_ddr a regs ddr m dst hbar hdisj n hn hfit]

/-- The execution of a data descriptor that moves `n` bytes of the device
memory at `src` to the read staging buffer. -/
theorem execDesc_from_ddr (a : HwAddrs) (h : Cdma) (rb wb : Nat → Nat) (dc : Nat → sg_desc_t)
    (k src n : Nat)
    (hsrc : (dc k).srcAddr = src)
    (hdst : (dc k).destAddr = AXI_PCIE_DM_ADDR)
    (hctl : (dc k).control = n)
    (hbar : bar1 h = a.readHWAddr)
    (hn : n ≤ BUF_SIZE) (hfit : src + n ≤ AXI_PCIE_DM_ADDR) :
    execDesc a (h, ⟨rb, wb, dc⟩) k =
      (h, markDone ⟨bufAfter rb h.ddr src n, wb, dc⟩ k (dc k)) := by
  unfold execDesc
  simp only [hsrc, hdst, hctl]
  rw [axiCopy_from_ddr a h rb wb dc src hbar n hn hfit]

end XPDMA

namespace XPDMA

theorem regWord_setupRegs_control (regs : Nat → Nat) (d : Nat) :
    regWord (setupRegs regs d) (CDMA_OFFSET + CDMA_CONTROL_OFFSET) &&& CDMA_CR_SG_EN ≠ 0 := by
  have e : regWord (setupRegs regs d) (CDMA_OFFSET + CDMA_CONTROL_OFFSET) = u32 CDMA_CR_SG_EN := by
    simp only [setupRegs]
    rw [regWord_setRegWord_other _ _ _ _ (by decide),
      regWord_setRegWord_other _ _ _ _ (by decide), regWord_setRegWord_same]
    decide
  rw [e]
  decide

theorem bar0_setupRegs (regs ddr : Nat → Nat) (d : Nat) (hd : d < 18446744073709551616) :
    bar0 { regs := setupRegs regs d, ddr := ddr } = d := by
  have eU : regWord (setupRegs regs d) (PCIE_CTL_OFFSET + AXIBAR2PCIEBAR_0U) =
      d / 4294967296 := by
    simp only [setupRegs]
    rw [regWord_setRegWord_same]
    simp only [u32_eq, usize_eq]
    omega
  have eL : regWord (setupRegs regs d) (PCIE_CTL_OFFSET + AXIBAR2PCIEBAR_0L) =
      d % 4294967296 := by
    simp only [setupRegs]
    rw [regWord_setRegWord_other _ _ _ _ (by decide), regWord_setRegWord_same]
    simp only [u32_eq, usize_eq]
    omega
  simp only [bar0]
  rw [eU, eL]
  omega

theorem slotOk_of (s t : xpdma_state) (hu : t.used = s.used) (ha : t.addrs = s.addrs)
    (h : SlotOk s) : SlotOk t := by
  have e1 : t.readHWAddr = s.readHWAddr := congrArg HwAddrs.readHWAddr ha
  have e2 : t.writeHWAddr = s.writeHWAddr := congrArg HwAddrs.writeHWAddr ha
  have e3 : t.descChainHWAddr = s.descChainHWAddr := congrArg HwAddrs.descChainHWAddr ha
  unfold SlotOk at h ⊢
  rw [hu, e1, e2, e3]
  exact h

/-- One chunk to the device in scatter gather mode on the simulated engine:
the first `count` bytes of the write staging buffer arrive in the device memory
at `addr`. -/
theorem sg_operation_to_device (w : World Cdma) (hs : SlotOk w.st) (count addr : Nat)
    (h1 : 1 ≤ count) (h2 : count ≤ BUF_SIZE) (hfit : addr + count ≤ AXI_PCIE_DM_ADDR) :
    (sg_operation faithfulEngine w PCI_DMA_TODEVICE count addr).2.hw.ddr =
      ddrAfter w.hw.ddr w.st.writeBuffer addr count ∧
    (sg_operation faithfulEngine w PCI_DMA_TODEVICE count addr).2.st.used = w.st.used ∧
    (sg_operation faithfulEngine w PCI_DMA_TODEVICE count addr).2.st.addrs = w.st.addrs ∧
    (sg_operation faithfulEngine w PCI_DMA_TODEVICE count addr).2.user = w.user := by
  obtain ⟨hused, hdc, hrd, hwr, hdisj⟩ := hs
  have cDM : AXI_PCIE_DM_ADDR = 2147483648 := rfl
  have hdir : PCI_DMA_TODEVICE = PCI_DMA_FROMDEVICE ∨ PCI_DMA_TODEVICE = PCI_DMA_TODEVICE :=
    Or.inr rfl
  rw [sg_operation_stages, isIdle_faithful w hused]
  have hwi : ({ w with trace := w.trace ++
      [Event.readReg (CDMA_OFFSET + CDMA_STATUS_OFFSET) 2] } : World Cdma).st = w.st := rfl
  have hhi : ({ w with trace := w.trace ++
      [Event.readReg (CDMA_OFFSET + CDMA_STATUS_OFFSET) 2] } : World Cdma).hw = w.hw := rfl
  have hui : ({ w with trace := w.trace ++
      [Event.readReg (CDMA_OFFSET + CDMA_STATUS_OFFSET) 2] } : World Cdma).user = w.user := rfl
  generalize ({ w with trace := w.trace ++
      [Event.readReg (CDMA_OFFSET + CDMA_STATUS_OFFSET) 2] } : World Cdma) = wi at hwi hhi hui ⊢
  obtain ⟨s1, g1, u1⟩ := sg_setup_faithful wi (by rw [hwi]; exact hused) PCI_DMA_TODEVICE
    count addr hdir
  rw [hwi] at s1
  rw [hwi, hhi] at g1
  rw [hui] at u1
  generalize sg_setup faithfulEngine wi PCI_DMA_TODEVICE count addr = W1 at s1 g1 u1 ⊢
  obtain ⟨a0, b0, c0, d0⟩ := chainState_desc0 w.st PCI_DMA_TODEVICE count addr hdir h1 h2
  obtain ⟨a1, b1, c1⟩ := chainState_desc1 w.st PCI_DMA_TODEVICE count addr hdir h1 h2
  rw [if_neg (by decide)] at a1 b1
  have hlen : W1.st.descChainLength = 1 := by
    rw [s1]
    exact chainLen_one count h1 h2
  have hwr1 : W1.st.writeHWAddr = w.st.writeHWAddr := by rw [s1]; rfl
  have hp : usize W1.st.writeHWAddr = w.st.writeHWAddr := by
    rw [hwr1, usize_eq]
    omega
  simp only [show ((2 : Nat) = 0) = False from by decide, if_false,
    show (PCI_DMA_FROMDEVICE = PCI_DMA_TODEVICE) = False from by decide, if_true, hp]
  obtain ⟨s2, g2, u2⟩ := sg_start_faithful W1 (by rw [s1]; exact hused) hlen w.st.writeHWAddr
    (by rw [g1]; exact regWord_setupRegs_control _ _)
    (by rw [g1, s1]; exact bar0_setupRegs _ _ _ hdc)
    (by rw [s1]; exact a0) (by rw [s1]; exact b0) (by rw [s1]; exact c0) (by rw [s1]; exact d0)
  have hbuf : (W1.st.dma).writeBuffer = w.st.writeBuffer := by rw [s1]; rfl
  have hex := execDesc_to_ddr W1.st.addrs
    (regsAfter (startRegs W1.hw.regs w.st.writeHWAddr) 8) W1.hw.ddr
    (markDone W1.st.dma 0 (W1.st.descChain 0)) 1 addr count
    (by rw [markDone_descChain_ne _ _ _ _ (by decide)]
        show (W1.st.descChain 1).srcAddr = _
        rw [s1]; exact a1)
    (by rw [markDone_descChain_ne _ _ _ _ (by decide)]
        show (W1.st.descChain 1).destAddr = _
        rw [s1, b1]
        show u32 (0 + u32 addr) = addr
        simp only [u32_eq]; omega)
    (by rw [markDone_descChain_ne _ _ _ _ (by decide)]
        show (W1.st.descChain 1).control = _
        rw [s1]; exact c1)
    (by rw [bar1_startRegs _ _ _ hwr]; show _ = W1.st.writeHWAddr; rw [hwr1])
    (by show BUF_SIZE + W1.st.writeHWAddr ≤ W1.st.readHWAddr ∨
          BUF_SIZE + W1.st.readHWAddr ≤ W1.st.writeHWAddr
        rw [s1]; exact hdisj)
    h2 hfit
  rw [hex] at s2 g2
  generalize sg_start faithfulEngine W1 w.st.writeHWAddr = W2 at s2 g2 u2 ⊢
  obtain ⟨-, p2, p3, p4⟩ := sg_poll_faithful W2 (by rw [s2]; exact hlen)
    (by rw [s2]; exact markDone_status _ _ _)
  rw [p2, p3, p4, s2, g2, u2, u1]
  refine ⟨?_, ?_, ?_, rfl⟩
  · show ddrAfter W1.hw.ddr (W1.st.dma).writeBuffer addr count = _
    rw [hbuf, g1]
  · show W1.st.used = _
    rw [s1]; rfl
  · show W1.st.addrs  = _
    rw [s1]; rfl

/-- One chunk from the device in scatter gather mode on the simulated engine:
`count` bytes of the device memory at `addr` arrive at the start of the read
staging buffer. -/
theorem sg_operation_from_device (w : World Cdma) (hs : SlotOk w.st) (count addr : Nat)
    (h1 : 1 ≤ count) (h2 : count ≤ BUF_SIZE) (hfit : addr + count ≤ AXI_PCIE_DM_ADDR) :
    (sg_operation faithfulEngine w PCI_DMA_FROMDEVICE count addr).2.hw.ddr = w.hw.ddr ∧
    (sg_operation faithfulEngine w PCI_DMA_FROMDEVICE count addr).2.st.readBuffer =
      bufAfter w.st.readBuffer w.hw.ddr addr count ∧
    (sg_operation faithfulEngine w PCI_DMA_FROMDEVICE count addr).2.st.used = w.st.used ∧
    (sg_operation faithfulEngine w PCI_DMA_FROMDEVICE count addr).2.st.addrs = w.st.addrs ∧
    (sg_operation faithfulEngine w PCI_DMA_FROMDEVICE count addr).2.user = w.user := by
  obtain ⟨hused, hdc, hrd, hwr, hdisj⟩ := hs
  have cDM : AXI_PCIE_DM_ADDR = 2147483648 := rfl
  have hdir : PCI_DMA_FROMDEVICE = PCI_DMA_FROMDEVICE ∨ PCI_DMA_FROMDEVICE = PCI_DMA_TODEVICE :=
    Or.inl rfl
  rw [sg_operation_stages, isIdle_faithful w hused]
  have hwi : ({ w with trace := w.trace ++
      [Event.readReg (CDMA_OFFSET + CDMA_STATUS_OFFSET) 2] } : World Cdma).st = w.st := rfl
  have hhi : ({ w with trace := w.trace ++
      [Event.readReg (CDMA_OFFSET + CDMA_STATUS_OFFSET) 2] } : World Cdma).hw = w.hw := rfl
  have hui : ({ w with trace := w.trace ++
      [Event.readReg (CDMA_OFFSET + CDMA_STATUS_OFFSET) 2] } : World Cdma).user = w.user := rfl
  generalize ({ w with trace := w.trace ++
      [Event.readReg (CDMA_OFFSET + CDMA_STATUS_OFFSET) 2] } : World Cdma) = wi at hwi hhi hui ⊢
  obtain ⟨s1, g1, u1⟩ := sg_setup_faithful wi (by rw [hwi]; exact hused) PCI_DMA_FROMDEVICE
    count addr hdir
  rw [hwi] at s1
  rw [hwi, hhi] at g1
  rw [hui] at u1
  generalize sg_setup faithfulEngine wi PCI_DMA_FROMDEVICE count addr = W1 at s1 g1 u1 ⊢
  obtain ⟨a0, b0, c0, d0⟩ := chainState_desc0 w.st PCI_DMA_FROMDEVICE count addr hdir h1 h2
  obtain ⟨a1, b1, c1⟩ := chainState_desc1 w.st PCI_DMA_FROMDEVICE count addr hdir h1 h2
  rw [if_pos rfl] at a1 b1
  have hlen : W1.st.descChainLength = 1 := by
    rw [s1]
    exact chainLen_one count h1 h2
  have hrd1 : W1.st.readHWAddr = w.st.readHWAddr := by rw [s1]; rfl
  have hp : usize W1.st.readHWAddr = w.st.readHWAddr := by
    rw [hrd1, usize_eq]
    omega
  simp only [show ((2 : Nat) = 0) = False from by decide, if_false, if_true, hp]
  obtain ⟨s2, g2, u2⟩ := sg_start_faithful W1 (by rw [s1]; exact hused) hlen w.st.readHWAddr
    (by rw [g1]; exact regWord_setupRegs_control _ _)
    (by rw [g1, s1]; exact bar0_setupRegs _ _ _ hdc)
    (by rw [s1]; exact a0) (by rw [s1]; exact b0) (by rw [s1]; exact c0) (by rw [s1]; exact d0)
  have hex := execDesc_from_ddr W1.st.addrs
    ⟨regsAfter (startRegs W1.hw.regs w.st.readHWAddr) 8, W1.hw.ddr⟩
    W1.st.readBuffer W1.st.writeBuffer (markDone W1.st.dma 0 (W1.st.descChain 0)).descChain
    1 addr count
    (by rw [markDone_descChain_ne _ _ _ _ (by decide)]
        show (W1.st.descChain 1).srcAddr = _
        rw [s1, a1]
        show u32 (0 + u32 addr) = addr
        simp only [u32_eq]; omega)
    (by rw [markDone_descChain_ne _ _ _ _ (by decide)]
        show (W1.st.descChain 1).destAddr = _
        rw [s1]; exact b1)
    (by rw [markDone_descChain_ne _ _ _ _ (by decide)]
        show (W1.st.descChain 1).control = _
        rw [s1]; exact c1)
    (by rw [bar1_startRegs _ _ _ hrd]; show _ = W1.st.readHWAddr; rw [hrd1])
    h2 hfit
  have hex2 : execDesc W1.st.addrs
      (⟨regsAfter (startRegs W1.hw.regs w.st.readHWAddr) 8, W1.hw.ddr⟩,
        markDone W1.st.dma 0 (W1.st.descChain 0)) 1 = _ := hex
  rw [hex2] at s2 g2
  generalize sg_start faithfulEngine W1 w.st.readHWAddr = W2 at s2 g2 u2 ⊢
  obtain ⟨-, p2, p3, p4⟩ := sg_poll_faithful W2 (by rw [s2]; exact hlen)
    (by rw [s2]; exact markDone_status _ _ _)
  rw [p2, p3, p4, s2, g2, u2, u1]
  refine ⟨?_, ?_, ?_, ?_, rfl⟩
  · show W1.hw.ddr = _
    rw [g1]
  · show bufAfter W1.st.readBuffer W1.hw.ddr addr count = _
    rw [s1, g1]
    rfl
  · show W1.st.used = _
    rw [s1]; rfl
  · show W1.st.addrs  = _
    rw [s1]; rfl

end XPDMA

namespace XPDMA

theorem ddrAfter_congr (ddr buf buf2 : Nat → Nat) (dst n : Nat)
    (h : ∀ j, j < n → buf j = buf2 j) : ddrAfter ddr buf dst n = ddrAfter ddr buf2 dst n := by
  funext x
  simp only [ddrAfter]
  split
  · exact h _ (by omega)
  · rfl

theorem ddrAfter_none (ddr buf : Nat → Nat) (dst : Nat) : ddrAfter ddr buf dst 0 = ddr := by
  funext x
  simp only [ddrAfter]
  rw [if_neg (by omega)]

theorem copy_from_user_buffer {H : Type} (w : World H) (src n : Nat)
    (h : src + n ≤ w.user.limit) (j : Nat) (hj : j < n) :
    (copy_from_user w src n).2.st.writeBuffer j = w.user.bytes (src + j) := by
  simp only [copy_from_user]
  rw [if_pos (by omega)]

/-- One iteration of the loop of `dma_block` for `xpdma_send` on the simulated
engine: the chunk of the caller buffer arrives in the device memory. -/
theorem sg_send_body (w : World Cdma) (hs : SlotOk w.st) (curData btt curAddr : Nat)
    (h1 : 1 ≤ btt) (h2 : btt ≤ BUF_SIZE) (hfit : curAddr + btt ≤ AXI_PCIE_DM_ADDR)
    (hcopy : curData + btt ≤ w.user.limit) :
    ∃ w2, dma_block_body faithfulEngine DMA_SG_MODE PCI_DMA_TODEVICE w curData btt curAddr =
        Except.ok w2 ∧
      SlotOk w2.st ∧ w2.user = w.user ∧
      w2.hw.ddr = ddrAfter w.hw.ddr (fun j => w.user.bytes (curData + j)) curAddr btt := by
  have hne : ¬ (PCI_DMA_FROMDEVICE = PCI_DMA_TODEVICE) := by decide
  have heng : ∀ W : World Cdma,
      dma_block_engine faithfulEngine DMA_SG_MODE PCI_DMA_TODEVICE W btt curAddr =
        some (sg_operation faithfulEngine W PCI_DMA_TODEVICE btt curAddr).2 := fun _ => if_pos rfl
  have hs1 : SlotOk ((copy_from_user w curData btt).2.log
      (Event.engineCall DMA_SG_MODE PCI_DMA_TODEVICE btt curAddr)).st :=
    slotOk_of w.st _ rfl rfl hs
  obtain ⟨e1, e2, e3, e4⟩ := sg_operation_to_device _ hs1 btt curAddr h1 h2 hfit
  unfold dma_block_body
  simp only [if_true, copy_from_user_ok w curData btt hcopy, ne_eq, not_true_eq_false,
    if_false, heng, hne]
  refine ⟨_, rfl, ?_, ?_, ?_⟩
  · exact slotOk_of _ _ e2 e3 hs1
  · rw [e4]; rfl
  · rw [e1]
    apply ddrAfter_congr
    intro j hj
    exact copy_from_user_buffer w curData btt hcopy j hj

/-- One iteration of the loop of `dma_block` for `xpdma_recv` on the simulated
engine: the chunk of the device memory arrives in the caller buffer. -/
theorem sg_recv_body (w : World Cdma) (hs : SlotOk w.st) (curData btt curAddr : Nat)
    (h1 : 1 ≤ btt) (h2 : btt ≤ BUF_SIZE) (hfit : curAddr + btt ≤ AXI_PCIE_DM_ADDR)
    (hcopy : curData + btt ≤ w.user.limit) :
    ∃ w2, dma_block_body faithfulEngine DMA_SG_MODE PCI_DMA_FROMDEVICE w curData btt curAddr =
        Except.ok w2 ∧
      SlotOk w2.st ∧ w2.hw.ddr = w.hw.ddr ∧ w2.user.limit = w.user.limit ∧
      w2.user.bytes = fun x =>
        if curData ≤ x ∧ x < curData + btt then w.hw.ddr (curAddr + (x - curData))
        else w.user.bytes x := by
  have hne : ¬ (PCI_DMA_TODEVICE = PCI_DMA_FROMDEVICE) := by decide
  have heng : ∀ W : World Cdma,
      dma_block_engine faithfulEngine DMA_SG_MODE PCI_DMA_FROMDEVICE W btt curAddr =
        some (sg_operation faithfulEngine W PCI_DMA_FROMDEVICE btt curAddr).2 :=
    fun _ => if_pos rfl
  have hs1 : SlotOk (w.log (Event.engineCall DMA_SG_MODE PCI_DMA_FROMDEVICE btt curAddr)).st := hs
  obtain ⟨e1, e2, e3, e4, e5⟩ := sg_operation_from_device _ hs1 btt curAddr h1 h2 hfit
  have hlim : curData + btt ≤ (sg_operation faithfulEngine
      (w.log (Event.engineCall DMA_SG_MODE PCI_DMA_FROMDEVICE btt curAddr))
      PCI_DMA_FROMDEVICE btt curAddr).2.user.limit := by
    rw [e5]; exact hcopy
  unfold dma_block_body
  simp only [if_neg hne, ne_eq, not_true_eq_false, if_false, heng, if_true,
    copy_to_user_ok _ curData btt hlim]
  refine ⟨_, rfl, ?_, ?_, ?_, ?_⟩
  · exact slotOk_of _ _ e3 e4 hs1
  · exact e1
  · show (sg_operation faithfulEngine _ PCI_DMA_FROMDEVICE btt curAddr).2.user.limit = _
    rw [e5]; rfl
  · funext x
    simp only [copy_to_user]
    rw [e5, e2]
    have hm : min btt ((w.log (Event.engineCall DMA_SG_MODE PCI_DMA_FROMDEVICE btt
        curAddr)).user.limit - curData) = btt := by
      have : (w.log (Event.engineCall DMA_SG_MODE PCI_DMA_FROMDEVICE btt
        curAddr)).user.limit = w.user.limit := rfl
      omega
    rw [hm]
    split
    · simp only [bufAfter]
      rw [if_pos (by omega)]
      rfl
    · rfl

end XPDMA

namespace XPDMA

theorem ddrAfter_chunks (ddr bytes : Nat → Nat) (curData curAddr unsended : Nat)
    (h : BUF_SIZE < unsended) :
    ddrAfter (ddrAfter ddr (fun j => bytes (curData + j)) curAddr BUF_SIZE)
        (fun j => bytes (BUF_SIZE + curData + j)) (BUF_SIZE + curAddr) (unsended - BUF_SIZE) =
      ddrAfter ddr (fun j => bytes (curData + j)) curAddr unsended := by
  have cB : BUF_SIZE = 4194304 := rfl
  funext x
  simp only [ddrAfter]
  by_cases hx : BUF_SIZE + curAddr ≤ x ∧ x < BUF_SIZE + curAddr + (unsended - BUF_SIZE)
  · rw [if_pos hx, if_pos (by omega)]
    congr 1
    omega
  · rw [if_neg hx]
    by_cases hy : curAddr ≤ x ∧ x < curAddr + BUF_SIZE
    · rw [if_pos hy, if_pos (by omega)]
    · rw [if_neg hy, if_neg (by omega)]

/-- The loop of `dma_block` for `xpdma_send` on the simulated engine: the
caller buffer arrives in the device memory from `curAddr` on. -/
theorem sg_send_loop (fuel : Nat) :
    ∀ (w : World Cdma) (curData unsended curAddr : Nat), SlotOk w.st → unsended ≤ fuel →
      unsended < 18446744073709551616 →
      (unsended ≠ 0 →
        curAddr + unsended ≤ AXI_PCIE_DM_ADDR ∧ curData + unsended ≤ w.user.limit) →
      (dma_block_loop faithfulEngine DMA_SG_MODE PCI_DMA_TODEVICE fuel w curData unsended
        curAddr).1 = SUCCESS ∧
      SlotOk (dma_block_loop faithfulEngine DMA_SG_MODE PCI_DMA_TODEVICE fuel w curData unsended
        curAddr).2.st ∧
      (dma_block_loop faithfulEngine DMA_SG_MODE PCI_DMA_TODEVICE fuel w curData unsended
        curAddr).2.user = w.user ∧
      (dma_block_loop faithfulEngine DMA_SG_MODE PCI_DMA_TODEVICE fuel w curData unsended
        curAddr).2.hw.ddr =
        ddrAfter w.hw.ddr (fun j => w.user.bytes (curData + j)) curAddr unsended := by
  have cB : BUF_SIZE = 4194304 := rfl
  have cDM : AXI_PCIE_DM_ADDR = 2147483648 := rfl
  induction fuel with
  | zero =>
    intro w curData unsended curAddr hs hf _ _
    have h0 : unsended = 0 := by omega
    subst h0
    exact ⟨rfl, hs, rfl, (ddrAfter_none _ _ _).symm⟩
  | succ fuel ih =>
    intro w curData unsended curAddr hs hf h64 hfit
    rw [dma_block_loop_succ]
    by_cases h0 : unsended = 0
    · subst h0
      rw [if_pos rfl]
      exact ⟨rfl, hs, rfl, (ddrAfter_none _ _ _).symm⟩
    · rw [if_neg h0]
      obtain ⟨hfit1, hfit2⟩ := hfit h0
      by_cases hlt : unsended < BUF_SIZE
      · have hb : u32 (if unsended < BUF_SIZE then unsended else BUF_SIZE) = unsended := by
          rw [if_pos hlt, u32_eq]
          omega
        rw [hb]
        obtain ⟨w2, hw2, hs2, hu2, hd2⟩ := sg_send_body w hs curData unsended curAddr
          (by omega) (by omega) hfit1 hfit2
        rw [hw2]
        have hz : usize (18446744073709551616 + unsended - unsended) = 0 := by
          rw [usize_eq]
          omega
        obtain ⟨r1, r2, r3, r4⟩ := ih w2 (BUF_SIZE + curData)
          (usize (18446744073709551616 + unsended - unsended)) (u32 (BUF_SIZE + curAddr)) hs2
          (by rw [hz]; omega) (by rw [hz]; omega) (by rw [hz]; intro h; exact absurd rfl h)
        refine ⟨r1, r2, r3.trans hu2, ?_⟩
        rw [r4, hz, ddrAfter_none, hd2]
      · have hb : u32 (if unsended < BUF_SIZE then unsended else BUF_SIZE) = BUF_SIZE := by
          rw [if_neg hlt]
          rfl
        rw [hb]
        obtain ⟨w2, hw2, hs2, hu2, hd2⟩ := sg_send_body w hs curData BUF_SIZE curAddr
          (by omega) (by omega) (by omega) (by omega)
        rw [hw2]
        have hz : usize (18446744073709551616 + unsended - BUF_SIZE) = unsended - BUF_SIZE := by
          rw [usize_eq]
          omega
        have ha : u32 (BUF_SIZE + curAddr) = BUF_SIZE + curAddr := by
          rw [u32_eq]
          omega
        obtain ⟨r1, r2, r3, r4⟩ := ih w2 (BUF_SIZE + curData)
          (usize (18446744073709551616 + unsended - BUF_SIZE)) (u32 (BUF_SIZE + curAddr)) hs2
          (by rw [hz]; omega) (by rw [hz]; omega)
          (by rw [hz, ha, hu2]; intro h; omega)
        refine ⟨r1, r2, r3.trans hu2, ?_⟩
        rw [r4, hz, ha, hd2, hu2]
        by_cases he : unsended = BUF_SIZE
        · subst he
          rw [Nat.sub_self, ddrAfter_none]
        · exact ddrAfter_chunks _ _ _ _ _ (by omega)

end XPDMA

namespace XPDMA

theorem userAfter_chunks (ddr bytes : Nat → Nat) (curData curAddr unsended : Nat)
    (h : BUF_SIZE < unsended) :
    (fun x => if BUF_SIZE + curData ≤ x ∧ x < BUF_SIZE + curData + (unsended - BUF_SIZE) then
        ddr (BUF_SIZE + curAddr + (x - (BUF_SIZE + curData)))
      else (fun y => if curData ≤ y ∧ y < curData + BUF_SIZE then ddr (curAddr + (y - curData))
        else bytes y) x) =
    fun x => if curData ≤ x ∧ x < curData + unsended then ddr (curAddr + (x - curData))
      else bytes x := by
  have cB : BUF_SIZE = 4194304 := rfl
  funext x
  by_cases hx : BUF_SIZE + curData ≤ x ∧ x < BUF_SIZE + curData + (unsended - BUF_SIZE)
  · rw [if_pos hx, if_pos (by omega)]
    congr 1
    omega
  · rw [if_neg hx]
    show (if curData ≤ x ∧ x < curData + BUF_SIZE then ddr (curAddr + (x - curData))
      else bytes x) = _
    by_cases hy : curData ≤ x ∧ x < curData + BUF_SIZE
    · rw [if_pos hy, if_pos (by omega)]
    · rw [if_neg hy, if_neg (by omega)]

/-- The loop of `dma_block` for `xpdma_recv` on the simulated engine: the
device memory from `curAddr` on arrives in the caller buffer. -/
theorem sg_recv_loop (fuel : Nat) :
    ∀ (w : World Cdma) (curData unsended curAddr : Nat), SlotOk w.st → unsended ≤ fuel →
      unsended < 18446744073709551616 →
      (unsended ≠ 0 →
        curAddr + unsended ≤ AXI_PCIE_DM_ADDR ∧ curData + unsended ≤ w.user.limit) →
      (dma_block_loop faithfulEngine DMA_SG_MODE PCI_DMA_FROMDEVICE fuel w curData unsended
        curAddr).1 = SUCCESS ∧
      SlotOk (dma_block_loop faithfulEngine DMA_SG_MODE PCI_DMA_FROMDEVICE fuel w curData
        unsended curAddr).2.st ∧
      (dma_block_loop faithfulEngine DMA_SG_MODE PCI_DMA_FROMDEVICE fuel w curData unsended
        curAddr).2.hw.ddr = w.hw.ddr ∧
      (dma_block_loop faithfulEngine DMA_SG_MODE PCI_DMA_FROMDEVICE fuel w curData unsended
        curAddr).2.user.limit = w.user.limit ∧
      (dma_block_loop faithfulEngine DMA_SG_MODE PCI_DMA_FROMDEVICE fuel w curData unsended
        curAddr).2.user.bytes =
        fun x => if curData ≤ x ∧ x < curData + unsended then w.hw.ddr (curAddr + (x - curData))
          else w.user.bytes x := by
  have cB : BUF_SIZE = 4194304 := rfl
  have cDM : AXI_PCIE_DM_ADDR = 2147483648 := rfl
  have hnone : ∀ (bytes ddr : Nat → Nat) (p q : Nat),
      bytes = fun x => if p ≤ x ∧ x < p + 0 then ddr (q + (x - p)) else bytes x := by
    intro bytes ddr p q
    funext x
    rw [if_neg (by omega)]
  induction fuel with
  | zero =>
    intro w curData unsended curAddr hs hf _ _
    have h0 : unsended = 0 := by omega
    subst h0
    exact ⟨rfl, hs, rfl, rfl, hnone _ _ _ _⟩
  | succ fuel ih =>
    intro w curData unsended curAddr hs hf h64 hfit
    rw [dma_block_loop_succ]
    by_cases h0 : unsended = 0
    · subst h0
      rw [if_pos rfl]
      exact ⟨rfl, hs, rfl, rfl, hnone _ _ _ _⟩
    · rw [if_neg h0]
      obtain ⟨hfit1, hfit2⟩ := hfit h0
      by_cases hlt : unsended < BUF_SIZE
      · have hb : u32 (if unsended < BUF_SIZE then unsended else BUF_SIZE) = unsended := by
          rw [if_pos hlt, u32_eq]
          omega
        rw [hb]
        obtain ⟨w2, hw2, hs2, hd2, hl2, hu2⟩ := sg_recv_body w hs curData unsended curAddr
          (by omega) (by omega) hfit1 hfit2
        rw [hw2]
        have hz : usize (18446744073709551616 + unsended - unsended) = 0 := by
          rw [usize_eq]
          omega
        obtain ⟨r1, r2, r3, r4, r5⟩ := ih w2 (BUF_SIZE + curData)
          (usize (18446744073709551616 + unsended - unsended)) (u32 (BUF_SIZE + curAddr)) hs2
          (by rw [hz]; omega) (by rw [hz]; omega) (by rw [hz]; intro h; exact absurd rfl h)
        refine ⟨r1, r2, r3.trans hd2, r4.trans hl2, ?_⟩
        rw [r5, hz, ← hnone, hu2]
      · have hb : u32 (if unsended < BUF_SIZE then unsended else BUF_SIZE) = BUF_SIZE := by
          rw [if_neg hlt]
          rfl
        rw [hb]
        obtain ⟨w2, hw2, hs2, hd2, hl2, hu2⟩ := sg_recv_body w hs curData BUF_SIZE curAddr
          (by omega) (by omega) (by omega) (by omega)
        rw [hw2]
        have hz : usize (18446744073709551616 + unsended - BUF_SIZE) = unsended - BUF_SIZE := by
          rw [usize_eq]
          omega
        have ha : u32 (BUF_SIZE + curAddr) = BUF_SIZE + curAddr := by
          rw [u32_eq]
          omega
        obtain ⟨r1, r2, r3, r4, r5⟩ := ih w2 (BUF_SIZE + curData)
          (usize (18446744073709551616 + unsended - BUF_SIZE)) (u32 (BUF_SIZE + curAddr)) hs2
          (by rw [hz]; omega) (by rw [hz]; omega)
          (by rw [hz, ha, hl2]; intro h; omega)
        refine ⟨r1, r2, r3.trans hd2, r4.trans hl2, ?_⟩
        rw [r5, hz, ha, hd2, hu2]
        by_cases he : unsended = BUF_SIZE
        · subst he
          rw [Nat.sub_self, ← hnone]
        · exact userAfter_chunks _ _ _ _ _ (by omega)

/-- The function `dma_block` in scatter gather mode on the simulated engine,
to the device: the `count` bytes of the caller buffer arrive in the device
memory at `addr`. -/
theorem dma_block_send (w : World Cdma) (hs : SlotOk w.st) (data count addr : Nat)
    (hc : count < 18446744073709551616) (ha : addr % 4 = 0)
    (hfit : addr + count ≤ AXI_PCIE_DM_ADDR) (hdata : data + count ≤ w.user.limit) :
    SlotOk (dma_block faithfulEngine w DMA_SG_MODE PCI_DMA_TODEVICE data count addr).2.st ∧
    (dma_block faithfulEngine w DMA_SG_MODE PCI_DMA_TODEVICE data count addr).2.user = w.user ∧
    (dma_block faithfulEngine w DMA_SG_MODE PCI_DMA_TODEVICE data count addr).2.hw.ddr =
      ddrAfter w.hw.ddr (fun j => w.user.bytes (data + j)) addr count := by
  have cDM : AXI_PCIE_DM_ADDR = 2147483648 := rfl
  have e1 : usize count = count := by rw [usize_eq]; omega
  have e2 : u32 addr = addr := by rw [u32_eq]; omega
  unfold dma_block
  simp only [e1, e2, ha, ne_eq, not_true_eq_false, if_false]
  obtain ⟨-, r2, r3, r4⟩ := sg_send_loop count w data count addr hs (Nat.le_refl _) hc
    (fun _ => ⟨hfit, hdata⟩)
  exact ⟨r2, r3, r4⟩

/-- The function `dma_block` in scatter gather mode on the simulated engine,
from the device: the `count` bytes of the device memory at `addr` arrive in the
caller buffer. -/
theorem dma_block_recv (w : World Cdma) (hs : SlotOk w.st) (data count addr : Nat)
    (hc : count < 18446744073709551616) (ha : addr % 4 = 0)
    (hfit : addr + count ≤ AXI_PCIE_DM_ADDR) (hdata : data + count ≤ w.user.limit)
    (j : Nat) (hj : j < count) :
    (dma_block faithfulEngine w DMA_SG_MODE PCI_DMA_FROMDEVICE data count addr).2.user.bytes
      (data + j) = w.hw.ddr (addr + j) := by
  have cDM : AXI_PCIE_DM_ADDR = 2147483648 := rfl
  have e1 : usize count = count := by rw [usize_eq]; omega
  have e2 : u32 addr = addr := by rw [u32_eq]; omega
  unfold dma_block
  simp only [e1, e2, ha, ne_eq, not_true_eq_false, if_false]
  obtain ⟨-, -, -, -, r5⟩ := sg_recv_loop count w data count addr hs (Nat.le_refl _) hc
    (fun _ => ⟨hfit, hdata⟩)
  rw [r5]
  simp only []
  rw [if_pos (by omega)]
  congr 1
  omega

end XPDMA

namespace XPDMA

/-! ## Round trip in scatter gather mode -/

set_option maxRecDepth 100000 in
/-- C4 (counterexample): device address `0x80000000` is 4-aligned and
`0x80000000 + 1 <= 2^32`, but `xpdma_send` of one byte (0x41, at user address 0)
to it followed by `xpdma_recv` of one byte from it (to user address `BUF_SIZE`)
on the simulated engine leaves 0 in the output buffer.  The data descriptor of
the send has the same source and destination address, the window of the
staging buffers at `AXI_PCIE_DM_ADDR`, and the device memory is not written. -/
theorem C4_counterexample :
    2147483648 % 4 = 0 ∧ 2147483648 + 1 ≤ 4294967296 ∧
    world1.user.bytes 0 = 0x41 ∧
    (xpdma_send faithfulEngine world1 0 1 2147483648).1 = SUCCESS ∧
    ((xpdma_send faithfulEngine world1 0 1 2147483648).2.st.descChain 1).srcAddr =
      ((xpdma_send faithfulEngine world1 0 1 2147483648).2.st.descChain 1).destAddr ∧
    (xpdma_recv faithfulEngine (xpdma_send faithfulEngine world1 0 1 2147483648).2
      BUF_SIZE 1 2147483648).1 = SUCCESS ∧
    (xpdma_recv faithfulEngine (xpdma_send faithfulEngine world1 0 1 2147483648).2
      BUF_SIZE 1 2147483648).2.user.bytes BUF_SIZE = 0 := by
  decide

/-- C4: scatter gather round trip on the simulated engine (status always idle,
the programmed chain executed at the write of the tail descriptor pointer, each
descriptor marked complete).  For a slot in use with disjoint staging buffers,
every user memory content, every length `L` below `2^64` (also no multiple of
`BUF_SIZE`, also above `BUF_SIZE`) and every device address `a` with
`a % 4 = 0` and `a + L <= AXI_PCIE_DM_ADDR = 0x80000000`, with both caller
buffers accessible: `xpdma_send (data, L, a)` followed by `xpdma_recv (out, L, a)`
returns `SUCCESS` twice and leaves in `out` the `L` bytes `data` held. -/
theorem C4_sg_round_trip (w : World Cdma) (data out L a : Nat) (hs : SlotOk w.st)
    (hL : L < 18446744073709551616) (ha : a % 4 = 0) (hfit : a + L ≤ AXI_PCIE_DM_ADDR)
    (hdata : data + L ≤ w.user.limit) (hout : out + L ≤ w.user.limit) :
    (xpdma_send faithfulEngine w data L a).1 = SUCCESS ∧
    (xpdma_recv faithfulEngine (xpdma_send faithfulEngine w data L a).2 out L a).1 = SUCCESS ∧
    ∀ j, j < L →
      (xpdma_recv faithfulEngine (xpdma_send faithfulEngine w data L a).2 out L a).2.user.bytes
        (out + j) = w.user.bytes (data + j) := by
  obtain ⟨s1, s2, s3⟩ := dma_block_send w hs data L a hL ha hfit hdata
  have hsend : xpdma_send faithfulEngine w data L a =
      (SUCCESS, (dma_block faithfulEngine w DMA_SG_MODE PCI_DMA_TODEVICE data L a).2) := by
    simp only [xpdma_send, hs.1, Bool.not_true, Bool.false_eq_true, if_false]
  rw [hsend]
  have hrecv : xpdma_recv faithfulEngine
      (dma_block faithfulEngine w DMA_SG_MODE PCI_DMA_TODEVICE data L a).2 out L a =
      (SUCCESS, (dma_block faithfulEngine
        (dma_block faithfulEngine w DMA_SG_MODE PCI_DMA_TODEVICE data L a).2
        DMA_SG_MODE PCI_DMA_FROMDEVICE out L a).2) := by
    simp only [xpdma_recv, s1.1, Bool.not_true, Bool.false_eq_true, if_false]
  refine ⟨rfl, ?_, ?_⟩
  · show (xpdma_recv faithfulEngine
      (dma_block faithfulEngine w DMA_SG_MODE PCI_DMA_TODEVICE data L a).2 out L a).1 = SUCCESS
    rw [hrecv]
  · intro j hj
    show (xpdma_recv faithfulEngine
      (dma_block faithfulEngine w DMA_SG_MODE PCI_DMA_TODEVICE data L a).2 out L a).2.user.bytes
        (out + j) = _
    rw [hrecv]
    show (dma_block faithfulEngine _ DMA_SG_MODE PCI_DMA_FROMDEVICE out L a).2.user.bytes
      (out + j) = _
    rw [dma_block_recv _ s1 out L a hL ha hfit (by rw [s2]; exact hout) j hj, s3]
    simp only [ddrAfter]
    rw [if_pos (by omega)]
    congr 1
    omega

/-- C4 (witness): on `world1`, a send of `2 * BUF_SIZE + 5` bytes from user
address 0 to device address 16 and a receive to user address `4 * BUF_SIZE`
reproduce the byte at offset `BUF_SIZE + 3`. -/
theorem C4_sg_round_trip_witness :
    SlotOk world1.st ∧ 2 * BUF_SIZE + 5 < 18446744073709551616 ∧ 16 % 4 = 0 ∧
    16 + (2 * BUF_SIZE + 5) ≤ AXI_PCIE_DM_ADDR ∧
    0 + (2 * BUF_SIZE + 5) ≤ world1.user.limit ∧
    4 * BUF_SIZE + (2 * BUF_SIZE + 5) ≤ world1.user.limit ∧
    (xpdma_recv faithfulEngine (xpdma_send faithfulEngine world1 0 (2 * BUF_SIZE + 5) 16).2
      (4 * BUF_SIZE) (2 * BUF_SIZE + 5) 16).2.user.bytes (4 * BUF_SIZE + (BUF_SIZE + 3)) =
      world1.user.bytes (0 + (BUF_SIZE + 3)) :=
  ⟨by decide, by decide, by decide, by decide, by decide, by decide,
    (C4_sg_round_trip world1 0 (4 * BUF_SIZE) (2 * BUF_SIZE + 5) 16 (by decide) (by decide)
      (by decide) (by decide) (by decide) (by decide)).2.2 (BUF_SIZE + 3) (by decide)⟩

end XPDMA

namespace XPDMA

/-! ## Simple mode on the simulated engine -/

/-- The function `simple_operation` in stages. -/
theorem simple_operation_stages {H : Type} (E : Engine H) (w : World H) (direction : Int)
    (count addr : Nat) :
    simple_operation E w direction count addr =
      match (if PCI_DMA_FROMDEVICE = direction then
          some (w.st.readHWAddr, AXI_DDR3_ADDR, AXI_PCIE_DM_ADDR)
        else if PCI_DMA_TODEVICE = direction then
          some (w.st.writeHWAddr, AXI_PCIE_DM_ADDR, AXI_DDR3_ADDR)
        else none : Option (Nat × Nat × Nat)) with
      | none => (CRIT_ERR, w.log (Event.printk Msg.unknownDirection))
      | some (pntr, src_pntr, dst_pntr) =>
        if (xpdma_isIdle E w).1 = 0 then
          (CRIT_ERR, xpdma_showInfo E ((xpdma_isIdle E w).2.log (Event.printk Msg.notIdle)))
        else
          if (xpdma_isIdle E (simple_poll E CDMA_TRANSFER_LOOP
              (xpdma_writeReg E (simple_setup E (xpdma_isIdle E w).2 pntr src_pntr dst_pntr)
                (CDMA_OFFSET + CDMA_BTT_OFFSET) count))).1 = 0 then
            (CRIT_ERR, (xpdma_isIdle E (simple_poll E CDMA_TRANSFER_LOOP
              (xpdma_writeReg E (simple_setup E (xpdma_isIdle E w).2 pntr src_pntr dst_pntr)
                (CDMA_OFFSET + CDMA_BTT_OFFSET) count))).2.log (Event.printk Msg.simpleTimeout))
          else
            (SUCCESS, (xpdma_isIdle E (simple_poll E CDMA_TRANSFER_LOOP
              (xpdma_writeReg E (simple_setup E (xpdma_isIdle E w).2 pntr src_pntr dst_pntr)
                (CDMA_OFFSET + CDMA_BTT_OFFSET) count))).2) := rfl

/-- The device address argument of `simple_operation` is not used. -/
theorem simple_operation_addr {H : Type} (E : Engine H) (w : World H) (direction : Int)
    (count addr : Nat) :
    simple_operation E w direction count addr = simple_operation E w direction count 0 := rfl

theorem writeReg_plain (w : World Cdma) (hused : w.st.used = true) (reg val : Nat)
    (h1 : reg ≠ CDMA_OFFSET + CDMA_TDESC_OFFSET) (h2 : reg ≠ CDMA_OFFSET + CDMA_BTT_OFFSET)
    (s : xpdma_state) (regs ddr : Nat → Nat) (u : UserMem)
    (hs : w.st = s) (hh : w.hw = { regs := regs, ddr := ddr }) (hu : w.user = u) :
    (xpdma_writeReg faithfulEngine w reg val).st = s ∧
    (xpdma_writeReg faithfulEngine w reg val).hw =
      { regs := setRegWord regs reg (u32 val), ddr := ddr } ∧
    (xpdma_writeReg faithfulEngine w reg val).user = u := by
  refine ⟨?_, ?_, ?_⟩
  · rw [writeReg_plain_st w hused reg val h1 h2, hs]
  · rw [writeReg_plain_hw w hused reg val h1 h2, hh]
  · rw [writeReg_user, hu]

theorem simple_setup_faithful (w : World Cdma) (hused : w.st.used = true) (p src dst : Nat) :
    (simple_setup faithfulEngine w p src dst).st = w.st ∧
    (simple_setup faithfulEngine w p src dst).hw =
      { regs := simpleRegs w.hw.regs p src dst, ddr := w.hw.ddr } ∧
    (simple_setup faithfulEngine w p src dst).user = w.user := by
  unfold simple_setup simpleRegs
  have k1 := writeReg_plain w hused (CDMA_OFFSET + CDMA_CONTROL_OFFSET) 0 (by decide)
    (by decide) w.st w.hw.regs w.hw.ddr w.user rfl rfl rfl
  generalize xpdma_writeReg faithfulEngine w (CDMA_OFFSET + CDMA_CONTROL_OFFSET) 0 = w1
    at k1 ⊢
  have k2 := writeReg_plain w1 (by rw [k1.1]; exact hused) (PCIE_CTL_OFFSET + AXIBAR2PCIEBAR_1L)
    (u32 p) (by decide) (by decide) _ _ _ _ k1.1 k1.2.1 k1.2.2
  generalize xpdma_writeReg faithfulEngine w1 (PCIE_CTL_OFFSET + AXIBAR2PCIEBAR_1L) (u32 p) = w2
    at k2 ⊢
  have k3 := writeReg_plain w2 (by rw [k2.1]; exact hused) (PCIE_CTL_OFFSET + AXIBAR2PCIEBAR_1U)
    (u32 (p / 4294967296)) (by decide) (by decide) _ _ _ _ k2.1 k2.2.1 k2.2.2
  generalize xpdma_writeReg faithfulEngine w2 (PCIE_CTL_OFFSET + AXIBAR2PCIEBAR_1U)
    (u32 (p / 4294967296)) = w3 at k3 ⊢
  have k4 := writeReg_plain w3 (by rw [k3.1]; exact hused) (CDMA_OFFSET + CDMA_SRCADDR_OFFSET)
    (u32 src) (by decide) (by decide) _ _ _ _ k3.1 k3.2.1 k3.2.2
  generalize xpdma_writeReg faithfulEngine w3 (CDMA_OFFSET + CDMA_SRCADDR_OFFSET) (u32 src) = w4
    at k4 ⊢
  have k5 := writeReg_plain w4 (by rw [k4.1]; exact hused)
    (CDMA_OFFSET + CDMA_SRCADDR_MSB_OFFSET) (u32 (src / 4294967296)) (by decide) (by decide)
    _ _ _ _ k4.1 k4.2.1 k4.2.2
  generalize xpdma_writeReg faithfulEngine w4 (CDMA_OFFSET + CDMA_SRCADDR_MSB_OFFSET)
    (u32 (src / 4294967296)) = w5 at k5 ⊢
  have k6 := writeReg_plain w5 (by rw [k5.1]; exact hused) (CDMA_OFFSET + CDMA_DSTADDR_OFFSET)
    (u32 dst) (by decide) (by decide) _ _ _ _ k5.1 k5.2.1 k5.2.2
  generalize xpdma_writeReg faithfulEngine w5 (CDMA_OFFSET + CDMA_DSTADDR_OFFSET) (u32 dst) = w6
    at k6 ⊢
  exact writeReg_plain w6 (by rw [k6.1]; exact hused) (CDMA_OFFSET + CDMA_DSTADDR_MSB_OFFSET)
    (u32 (dst / 4294967296)) (by decide) (by decide) _ _ _ _ k6.1 k6.2.1 k6.2.2

theorem regWord_simpleRegs_control (regs : Nat → Nat) (p src dst : Nat) :
    regWord (simpleRegs regs p src dst) (CDMA_OFFSET + CDMA_CONTROL_OFFSET) = 0 := by
  simp only [simpleRegs]
  rw [regWord_setRegWord_other _ _ _ _ (by decide), regWord_setRegWord_other _ _ _ _ (by decide),
    regWord_setRegWord_other _ _ _ _ (by decide), regWord_setRegWord_other _ _ _ _ (by decide),
    regWord_setRegWord_other _ _ _ _ (by decide), regWord_setRegWord_other _ _ _ _ (by decide),
    regWord_setRegWord_same]
  decide

theorem regWord_simpleRegs_src (regs : Nat → Nat) (p src dst : Nat) :
    regWord (simpleRegs regs p src dst) (CDMA_OFFSET + CDMA_SRCADDR_OFFSET) = u32 src := by
  simp only [simpleRegs]
  rw [regWord_setRegWord_other _ _ _ _ (by decide), regWord_setRegWord_other _ _ _ _ (by decide),
    regWord_setRegWord_other _ _ _ _ (by decide), regWord_setRegWord_same]
  simp only [u32_eq]
  omega

theorem regWord_simpleRegs_dst (regs : Nat → Nat) (p src dst : Nat) :
    regWord (simpleRegs regs p src dst) (CDMA_OFFSET + CDMA_DSTADDR_OFFSET) = u32 dst := by
  simp only [simpleRegs]
  rw [regWord_setRegWord_other _ _ _ _ (by decide), regWord_setRegWord_same]
  simp only [u32_eq]
  omega

theorem bar1_simpleRegs (regs ddr : Nat → Nat) (p src dst v : Nat)
    (hp : p < 18446744073709551616) :
    bar1 { regs := setRegWord (simpleRegs regs p src dst) (CDMA_OFFSET + CDMA_BTT_OFFSET) v,
           ddr := ddr } = p := by
  have eL : regWord (setRegWord (simpleRegs regs p src dst) (CDMA_OFFSET + CDMA_BTT_OFFSET) v)
      (PCIE_CTL_OFFSET + AXIBAR2PCIEBAR_1L) = p % 4294967296 := by
    simp only [simpleRegs]
    rw [regWord_setRegWord_other _ _ _ _ (by decide),
      regWord_setRegWord_other _ _ _ _ (by decide), regWord_setRegWord_other _ _ _ _ (by decide),
      regWord_setRegWord_other _ _ _ _ (by decide), regWord_setRegWord_other _ _ _ _ (by decide),
      regWord_setRegWord_other _ _ _ _ (by decide), regWord_setRegWord_same]
    simp only [u32_eq]
    omega
  have eU : regWord (setRegWord (simpleRegs regs p src dst) (CDMA_OFFSET + CDMA_BTT_OFFSET) v)
      (PCIE_CTL_OFFSET + AXIBAR2PCIEBAR_1U) = p / 4294967296 := by
    simp only [simpleRegs]
    rw [regWord_setRegWord_other _ _ _ _ (by decide),
      regWord_setRegWord_other _ _ _ _ (by decide), regWord_setRegWord_other _ _ _ _ (by decide),
      regWord_setRegWord_other _ _ _ _ (by decide), regWord_setRegWord_other _ _ _ _ (by decide),
      regWord_setRegWord_same]
    simp only [u32_eq]
    omega
  simp only [bar1]
  rw [eL, eU]
  omega

end XPDMA

namespace XPDMA

theorem cdmaWrite_btt_simple (a : HwAddrs) (regs ddr : Nat → Nat) (m : DmaMem) (v : Nat)
    (hc : regWord regs (CDMA_OFFSET + CDMA_CONTROL_OFFSET) = 0) :
    cdmaWrite a ({ regs := regs, ddr := ddr }, m) (CDMA_OFFSET + CDMA_BTT_OFFSET) v =
      axiCopy a (regWord regs (CDMA_OFFSET + CDMA_SRCADDR_OFFSET))
        (regWord regs (CDMA_OFFSET + CDMA_DSTADDR_OFFSET)) (u32 v)
        ({ regs := setRegWord regs (CDMA_OFFSET + CDMA_BTT_OFFSET) v, ddr := ddr }, m) := by
  unfold cdmaWrite
  rw [if_neg (by decide), if_pos rfl]
  simp only [hc]
  rw [if_neg (by decide)]

theorem isIdle_faithful_fields (w : World Cdma) (hused : w.st.used = true) :
    (xpdma_isIdle faithfulEngine w).1 = 2 ∧ (xpdma_isIdle faithfulEngine w).2.st = w.st ∧
    (xpdma_isIdle faithfulEngine w).2.hw = w.hw ∧
    (xpdma_isIdle faithfulEngine w).2.user = w.user := by
  rw [isIdle_faithful w hused]
  exact ⟨rfl, rfl, rfl, rfl⟩

/-- The poll loop and the final status check of `simple_operation` on the
simulated engine. -/
theorem simple_finish_faithful (w : World Cdma) (hused : w.st.used = true) :
    (xpdma_isIdle faithfulEngine (simple_poll faithfulEngine CDMA_TRANSFER_LOOP w)).1 = 2 ∧
    (xpdma_isIdle faithfulEngine (simple_poll faithfulEngine CDMA_TRANSFER_LOOP w)).2.st = w.st ∧
    (xpdma_isIdle faithfulEngine (simple_poll faithfulEngine CDMA_TRANSFER_LOOP w)).2.hw = w.hw ∧
    (xpdma_isIdle faithfulEngine (simple_poll faithfulEngine CDMA_TRANSFER_LOOP w)).2.user =
      w.user := by
  have e : CDMA_TRANSFER_LOOP = 999999 + 1 := rfl
  obtain ⟨i1, i2, i3, i4⟩ := isIdle_faithful_fields w hused
  have hp : simple_poll faithfulEngine CDMA_TRANSFER_LOOP w = (xpdma_isIdle faithfulEngine w).2 := by
    rw [e, simple_poll_succ, if_pos (by rw [i1]; decide)]
  rw [hp]
  obtain ⟨j1, j2, j3, j4⟩ := isIdle_faithful_fields (xpdma_isIdle faithfulEngine w).2
    (by rw [i2]; exact hused)
  exact ⟨j1, j2.trans i2, j3.trans i3, j4.trans i4⟩

/-- One chunk to the device in simple mode on the simulated engine: the first
`count` bytes of the write staging buffer arrive in the device memory at
address 0, whatever `addr` is. -/
theorem simple_operation_to_device (w : World Cdma) (hs : SlotOk w.st) (count addr : Nat)
    (h2 : count ≤ BUF_SIZE) :
    (simple_operation faithfulEngine w PCI_DMA_TODEVICE count addr).2.hw.ddr =
      ddrAfter w.hw.ddr w.st.writeBuffer 0 count ∧
    (simple_operation faithfulEngine w PCI_DMA_TODEVICE count addr).2.st.used = w.st.used ∧
    (simple_operation faithfulEngine w PCI_DMA_TODEVICE count addr).2.st.addrs = w.st.addrs ∧
    (simple_operation faithfulEngine w PCI_DMA_TODEVICE count addr).2.user = w.user := by
  obtain ⟨hused, hdc, hrd, hwr, hdisj⟩ := hs
  have cDM : AXI_PCIE_DM_ADDR = 2147483648 := rfl
  have cB : BUF_SIZE = 4194304 := rfl
  rw [simple_operation_stages]
  simp only [show (PCI_DMA_FROMDEVICE = PCI_DMA_TODEVICE) = False from by decide, if_false,
    if_true]
  rw [isIdle_faithful w hused]
  have hwi : ({ w with trace := w.trace ++
      [Event.readReg (CDMA_OFFSET + CDMA_STATUS_OFFSET) 2] } : World Cdma).st = w.st := rfl
  have hhi : ({ w with trace := w.trace ++
      [Event.readReg (CDMA_OFFSET + CDMA_STATUS_OFFSET) 2] } : World Cdma).hw = w.hw := rfl
  have hui : ({ w with trace := w.trace ++
      [Event.readReg (CDMA_OFFSET + CDMA_STATUS_OFFSET) 2] } : World Cdma).user = w.user := rfl
  generalize ({ w with trace := w.trace ++
      [Event.readReg (CDMA_OFFSET + CDMA_STATUS_OFFSET) 2] } : World Cdma) = wi at hwi hhi hui ⊢
  obtain ⟨s1, g1, u1⟩ := simple_setup_faithful wi (by rw [hwi]; exact hused) w.st.writeHWAddr
    AXI_PCIE_DM_ADDR AXI_DDR3_ADDR
  rw [hwi] at s1
  rw [hhi] at g1
  rw [hui] at u1
  generalize simple_setup faithfulEngine wi w.st.writeHWAddr AXI_PCIE_DM_ADDR AXI_DDR3_ADDR = W1
    at s1 g1 u1 ⊢
  have hu1 : W1.st.used = true := by rw [s1]; exact hused
  have hcopy : cdmaWrite W1.st.addrs (W1.hw, W1.st.dma) (CDMA_OFFSET + CDMA_BTT_OFFSET)
      (u32 count) =
      ({ regs := setRegWord (simpleRegs w.hw.regs w.st.writeHWAddr AXI_PCIE_DM_ADDR
            AXI_DDR3_ADDR) (CDMA_OFFSET + CDMA_BTT_OFFSET) (u32 count),
         ddr := ddrAfter w.hw.ddr w.st.writeBuffer 0 count }, W1.st.dma) := by
    rw [g1, cdmaWrite_btt_simple _ _ _ _ _ (regWord_simpleRegs_control _ _ _ _),
      regWord_simpleRegs_src, regWord_simpleRegs_dst]
    have e1 : u32 AXI_PCIE_DM_ADDR = AXI_PCIE_DM_ADDR := by decide
    have e2 : u32 AXI_DDR3_ADDR = 0 := by decide
    have e3 : u32 (u32 count) = count := by
      simp only [u32_eq]
      omega
    rw [e1, e2, e3]
    have hcp := axiCopy_to_ddr W1.st.addrs
      (setRegWord (simpleRegs w.hw.regs w.st.writeHWAddr AXI_PCIE_DM_ADDR AXI_DDR3_ADDR)
        (CDMA_OFFSET + CDMA_BTT_OFFSET) (u32 count))
      w.hw.ddr W1.st.dma 0
      (by rw [bar1_simpleRegs _ _ _ _ _ _ hwr]; show _ = W1.st.writeHWAddr; rw [s1])
      (by show BUF_SIZE + W1.st.writeHWAddr ≤ W1.st.readHWAddr ∨
            BUF_SIZE + W1.st.readHWAddr ≤ W1.st.writeHWAddr
          rw [s1]; exact hdisj)
      count h2 (by omega)
    rw [hcp]
    have hb : (W1.st.dma).writeBuffer = w.st.writeBuffer := by rw [s1]; rfl
    rw [hb]
  have k8 := writeReg_faithful W1 hu1 (CDMA_OFFSET + CDMA_BTT_OFFSET) count
  rw [hcopy] at k8
  generalize xpdma_writeReg faithfulEngine W1 (CDMA_OFFSET + CDMA_BTT_OFFSET) count = W2
    at k8 ⊢
  have hu2 : W2.st.used = true := by rw [k8]; exact hu1
  obtain ⟨f1, f2, f3, f4⟩ := simple_finish_faithful W2 hu2
  simp only [f1, show ((2 : Nat) = 0) = False from by decide, if_false]
  rw [f2, f3, f4, k8]
  refine ⟨rfl, ?_, ?_, u1⟩
  · show W1.st.used = _
    rw [s1]
  · show W1.st.addrs = _
    rw [s1]

/-- One chunk from the device in simple mode on the simulated engine: `count`
bytes of the device memory at address 0 arrive at the start of the read staging
buffer, whatever `addr` is. -/
theorem simple_operation_from_device (w : World Cdma) (hs : SlotOk w.st) (count addr : Nat)
    (h2 : count ≤ BUF_SIZE) :
    (simple_operation faithfulEngine w PCI_DMA_FROMDEVICE count addr).2.hw.ddr = w.hw.ddr ∧
    (simple_operation faithfulEngine w PCI_DMA_FROMDEVICE count addr).2.st.readBuffer =
      bufAfter w.st.readBuffer w.hw.ddr 0 count ∧
    (simple_operation faithfulEngine w PCI_DMA_FROMDEVICE count addr).2.st.used = w.st.used ∧
    (simple_operation faithfulEngine w PCI_DMA_FROMDEVICE count addr).2.st.addrs = w.st.addrs ∧
    (simple_operation faithfulEngine w PCI_DMA_FROMDEVICE count addr).2.user = w.user := by
  obtain ⟨hused, hdc, hrd, hwr, hdisj⟩ := hs
  have cDM : AXI_PCIE_DM_ADDR = 2147483648 := rfl
  have cB : BUF_SIZE = 4194304 := rfl
  rw [simple_operation_stages]
  simp only [if_true]
  rw [isIdle_faithful w hused]
  have hwi : ({ w with trace := w.trace ++
      [Event.readReg (CDMA_OFFSET + CDMA_STATUS_OFFSET) 2] } : World Cdma).st = w.st := rfl
  have hhi : ({ w with trace := w.trace ++
      [Event.readReg (CDMA_OFFSET + CDMA_STATUS_OFFSET) 2] } : World Cdma).hw = w.hw := rfl
  have hui : ({ w with trace := w.trace ++
      [Event.readReg (CDMA_OFFSET + CDMA_STATUS_OFFSET) 2] } : World Cdma).user = w.user := rfl
  generalize ({ w with trace := w.trace ++
      [Event.readReg (CDMA_OFFSET + CDMA_STATUS_OFFSET) 2] } : World Cdma) = wi at hwi hhi hui ⊢
  obtain ⟨s1, g1, u1⟩ := simple_setup_faithful wi (by rw [hwi]; exact hused) w.st.readHWAddr
    AXI_DDR3_ADDR AXI_PCIE_DM_ADDR
  rw [hwi] at s1
  rw [hhi] at g1
  rw [hui] at u1
  generalize simple_setup faithfulEngine wi w.st.readHWAddr AXI_DDR3_ADDR AXI_PCIE_DM_ADDR = W1
    at s1 g1 u1 ⊢
  have hu1 : W1.st.used = true := by rw [s1]; exact hused
  have hcopy : cdmaWrite W1.st.addrs (W1.hw, W1.st.dma) (CDMA_OFFSET + CDMA_BTT_OFFSET)
      (u32 count) =
      ({ regs := setRegWord (simpleRegs w.hw.regs w.st.readHWAddr AXI_DDR3_ADDR
            AXI_PCIE_DM_ADDR) (CDMA_OFFSET + CDMA_BTT_OFFSET) (u32 count),
         ddr := w.hw.ddr },
        ⟨bufAfter w.st.readBuffer w.hw.ddr 0 count, w.st.writeBuffer, w.st.descChain⟩) := by
    rw [g1, cdmaWrite_btt_simple _ _ _ _ _ (regWord_simpleRegs_control _ _ _ _),
      regWord_simpleRegs_src, regWord_simpleRegs_dst]
    have e1 : u32 AXI_PCIE_DM_ADDR = AXI_PCIE_DM_ADDR := by decide
    have e2 : u32 AXI_DDR3_ADDR = 0 := by decide
    have e3 : u32 (u32 count) = count := by
      simp only [u32_eq]
      omega
    rw [e1, e2, e3]
    have hcp := axiCopy_from_ddr W1.st.addrs
      ⟨setRegWord (simpleRegs w.hw.regs w.st.readHWAddr AXI_DDR3_ADDR AXI_PCIE_DM_ADDR)
        (CDMA_OFFSET + CDMA_BTT_OFFSET) (u32 count), w.hw.ddr⟩
      W1.st.readBuffer W1.st.writeBuffer W1.st.descChain 0
      (by rw [bar1_simpleRegs _ _ _ _ _ _ hrd]; show _ = W1.st.readHWAddr; rw [s1])
      count h2 (by omega)
    rw [s1] at hcp ⊢
    exact hcp
  have k8 := writeReg_faithful W1 hu1 (CDMA_OFFSET + CDMA_BTT_OFFSET) count
  rw [hcopy] at k8
  generalize xpdma_writeReg faithfulEngine W1 (CDMA_OFFSET + CDMA_BTT_OFFSET) count = W2
    at k8 ⊢
  have hu2 : W2.st.used = true := by rw [k8]; exact hu1
  obtain ⟨f1, f2, f3, f4⟩ := simple_finish_faithful W2 hu2
  simp only [f1, show ((2 : Nat) = 0) = False from by decide, if_false]
  rw [f2, f3, f4, k8]
  refine ⟨rfl, rfl, ?_, ?_, u1⟩
  · show W1.st.used = _
    rw [s1]
  · show W1.st.addrs = _
    rw [s1]

end XPDMA

namespace XPDMA

/-- One iteration of the loop of `dma_block` for `xpdma_write` on the simulated
engine: the chunk of the caller buffer arrives in the device memory at address
0, whatever the current device address is. -/
theorem simple_send_body (w : World Cdma) (hs : SlotOk w.st) (curData btt curAddr : Nat)
    (h2 : btt ≤ BUF_SIZE) (hcopy : curData + btt ≤ w.user.limit) :
    ∃ w2, dma_block_body faithfulEngine DMA_SIMPLE_MODE PCI_DMA_TODEVICE w curData btt curAddr =
        Except.ok w2 ∧
      SlotOk w2.st ∧ w2.user = w.user ∧
      w2.hw.ddr = ddrAfter w.hw.ddr (fun j => w.user.bytes (curData + j)) 0 btt := by
  have hne : ¬ (PCI_DMA_FROMDEVICE = PCI_DMA_TODEVICE) := by decide
  have heng : ∀ W : World Cdma,
      dma_block_engine faithfulEngine DMA_SIMPLE_MODE PCI_DMA_TODEVICE W btt curAddr =
        some (simple_operation faithfulEngine W PCI_DMA_TODEVICE btt curAddr).2 := by
    intro W
    unfold dma_block_engine
    rw [if_neg (by decide), if_pos rfl]
  have hs1 : SlotOk ((copy_from_user w curData btt).2.log
      (Event.engineCall DMA_SIMPLE_MODE PCI_DMA_TODEVICE btt curAddr)).st :=
    slotOk_of w.st _ rfl rfl hs
  obtain ⟨e1, e2, e3, e4⟩ := simple_operation_to_device _ hs1 btt curAddr h2
  unfold dma_block_body
  simp only [if_true, copy_from_user_ok w curData btt hcopy, ne_eq, not_true_eq_false,
    if_false, heng, hne]
  refine ⟨_, rfl, ?_, ?_, ?_⟩
  · exact slotOk_of _ _ e2 e3 hs1
  · rw [e4]; rfl
  · rw [e1]
    apply ddrAfter_congr
    intro j hj
    exact copy_from_user_buffer w curData btt hcopy j hj

/-- One iteration of the loop of `dma_block` for `xpdma_read` on the simulated
engine: the device memory from address 0 on arrives in the chunk of the caller
buffer, whatever the current device address is. -/
theorem simple_recv_body (w : World Cdma) (hs : SlotOk w.st) (curData btt curAddr : Nat)
    (h2 : btt ≤ BUF_SIZE) (hcopy : curData + btt ≤ w.user.limit) :
    ∃ w2, dma_block_body faithfulEngine DMA_SIMPLE_MODE PCI_DMA_FROMDEVICE w curData btt
        curAddr = Except.ok w2 ∧
      SlotOk w2.st ∧ w2.hw.ddr = w.hw.ddr ∧ w2.user.limit = w.user.limit ∧
      w2.user.bytes = fun x =>
        if curData ≤ x ∧ x < curData + btt then w.hw.ddr (0 + (x - curData))
        else w.user.bytes x := by
  have hne : ¬ (PCI_DMA_TODEVICE = PCI_DMA_FROMDEVICE) := by decide
  have heng : ∀ W : World Cdma,
      dma_block_engine faithfulEngine DMA_SIMPLE_MODE PCI_DMA_FROMDEVICE W btt curAddr =
        some (simple_operation faithfulEngine W PCI_DMA_FROMDEVICE btt curAddr).2 := by
    intro W
    unfold dma_block_engine
    rw [if_neg (by decide), if_pos rfl]
  have hs1 : SlotOk (w.log (Event.engineCall DMA_SIMPLE_MODE PCI_DMA_FROMDEVICE btt
      curAddr)).st := hs
  obtain ⟨e1, e2, e3, e4, e5⟩ := simple_operation_from_device _ hs1 btt curAddr h2
  have hlim : curData + btt ≤ (simple_operation faithfulEngine
      (w.log (Event.engineCall DMA_SIMPLE_MODE PCI_DMA_FROMDEVICE btt curAddr))
      PCI_DMA_FROMDEVICE btt curAddr).2.user.limit := by
    rw [e5]; exact hcopy
  unfold dma_block_body
  simp only [if_neg hne, ne_eq, not_true_eq_false, if_false, heng, if_true,
    copy_to_user_ok _ curData btt hlim]
  refine ⟨_, rfl, ?_, ?_, ?_, ?_⟩
  · exact slotOk_of _ _ e3 e4 hs1
  · exact e1
  · show (simple_operation faithfulEngine _ PCI_DMA_FROMDEVICE btt curAddr).2.user.limit = _
    rw [e5]; rfl
  · funext x
    simp only [copy_to_user]
    rw [e5, e2]
    have hm : min btt ((w.log (Event.engineCall DMA_SIMPLE_MODE PCI_DMA_FROMDEVICE btt
        curAddr)).user.limit - curData) = btt := by
      have : (w.log (Event.engineCall DMA_SIMPLE_MODE PCI_DMA_FROMDEVICE btt
        curAddr)).user.limit = w.user.limit := rfl
      omega
    rw [hm]
    split
    · simp only [bufAfter]
      rw [if_pos (by omega)]
      rfl
    · rfl

theorem dma_block_loop_done {H : Type} (E : Engine H) (mode direction : Int) (fuel : Nat)
    (w : World H) (curData curAddr : Nat) :
    dma_block_loop E mode direction fuel w curData 0 curAddr = (SUCCESS, w) := by
  cases fuel with
  | zero => rfl
  | succ n => rw [dma_block_loop_succ, if_pos rfl]

/-- The loop of `dma_block` in a supported mode takes two iterations for a
count above `BUF_SIZE` and up to `2 * BUF_SIZE`, of `BUF_SIZE` and of
`unsended - BUF_SIZE` bytes. -/
theorem dma_block_loop_two {H : Type} (E : Engine H) (mode direction : Int) (fuel : Nat)
    (w w2 w3 : World H) (curData unsended curAddr : Nat)
    (h1 : BUF_SIZE < unsended) (h2 : unsended ≤ 2 * BUF_SIZE)
    (hb1 : dma_block_body E mode direction w curData BUF_SIZE curAddr = Except.ok w2)
    (hb2 : dma_block_body E mode direction w2 (BUF_SIZE + curData) (unsended - BUF_SIZE)
      (u32 (BUF_SIZE + curAddr)) = Except.ok w3) :
    dma_block_loop E mode direction (fuel + 2) w curData unsended curAddr = (SUCCESS, w3) := by
  have cB : BUF_SIZE = 4194304 := rfl
  have e1 : u32 (if unsended < BUF_SIZE then unsended else BUF_SIZE) = BUF_SIZE := by
    rw [if_neg (by omega)]
    rfl
  have e2 : usize (18446744073709551616 + unsended - BUF_SIZE) = unsended - BUF_SIZE := by
    rw [usize_eq]
    omega
  have e3 : u32 (if unsended - BUF_SIZE < BUF_SIZE then unsended - BUF_SIZE else BUF_SIZE) =
      unsended - BUF_SIZE := by
    rw [u32_eq]
    split <;> omega
  have e4 : usize (18446744073709551616 + (unsended - BUF_SIZE) - (unsended - BUF_SIZE)) = 0 := by
    rw [usize_eq]
    omega
  rw [dma_block_loop_succ, if_neg (by omega), e1, hb1]
  simp only [e2]
  rw [dma_block_loop_succ, if_neg (by omega), e3, hb2]
  simp only [e4]
  rw [dma_block_loop_done]

end XPDMA

namespace XPDMA

/-- The function `dma_block` in simple mode on the simulated engine, to the
device, for a count of two chunks: both chunks are written from device address
0 on, the second over the first. -/
theorem simple_write_two (w : World Cdma) (hs : SlotOk w.st) (data L : Nat)
    (h1 : BUF_SIZE < L) (h2 : L ≤ 2 * BUF_SIZE) (hdata : data + L ≤ w.user.limit) :
    SlotOk (dma_block faithfulEngine w DMA_SIMPLE_MODE PCI_DMA_TODEVICE data L 0).2.st ∧
    (dma_block faithfulEngine w DMA_SIMPLE_MODE PCI_DMA_TODEVICE data L 0).2.user = w.user ∧
    (dma_block faithfulEngine w DMA_SIMPLE_MODE PCI_DMA_TODEVICE data L 0).2.hw.ddr =
      ddrAfter (ddrAfter w.hw.ddr (fun j => w.user.bytes (data + j)) 0 BUF_SIZE)
        (fun j => w.user.bytes (BUF_SIZE + data + j)) 0 (L - BUF_SIZE) := by
  have cB : BUF_SIZE = 4194304 := rfl
  have e1 : usize L = L := by rw [usize_eq]; omega
  obtain ⟨w2, b1, s2, u2, d2⟩ := simple_send_body w hs data BUF_SIZE 0 (Nat.le_refl _)
    (by omega)
  obtain ⟨w3, b2, s3, u3, d3⟩ := simple_send_body w2 s2 (BUF_SIZE + data) (L - BUF_SIZE)
    (u32 (BUF_SIZE + 0)) (by omega) (by rw [u2]; omega)
  have hloop := dma_block_loop_two faithfulEngine DMA_SIMPLE_MODE PCI_DMA_TODEVICE (L - 2)
    w w2 w3 data L 0 h1 h2 b1 b2
  rw [show L - 2 + 2 = L from by omega] at hloop
  have hblock : dma_block faithfulEngine w DMA_SIMPLE_MODE PCI_DMA_TODEVICE data L 0 =
      (SUCCESS, w3) := by
    unfold dma_block
    simp only [e1]
    rw [if_neg (by decide)]
    exact hloop
  rw [hblock]
  refine ⟨s3, u3.trans u2, ?_⟩
  show w3.hw.ddr = _
  rw [d3, d2, u2]

/-- The function `dma_block` in simple mode on the simulated engine, from the
device, for a count of two chunks: the first chunk of the caller buffer
receives the device memory from address 0 on. -/
theorem simple_read_two (w : World Cdma) (hs : SlotOk w.st) (out L : Nat)
    (h1 : BUF_SIZE < L) (h2 : L ≤ 2 * BUF_SIZE) (hout : out + L ≤ w.user.limit)
    (j : Nat) (hj : j < BUF_SIZE) :
    (dma_block faithfulEngine w DMA_SIMPLE_MODE PCI_DMA_FROMDEVICE out L 0).2.user.bytes
      (out + j) = w.hw.ddr j := by
  have cB : BUF_SIZE = 4194304 := rfl
  have e1 : usize L = L := by rw [usize_eq]; omega
  obtain ⟨w2, b1, s2, d2, l2, u2⟩ := simple_recv_body w hs out BUF_SIZE 0 (Nat.le_refl _)
    (by omega)
  obtain ⟨w3, b2, s3, d3, l3, u3⟩ := simple_recv_body w2 s2 (BUF_SIZE + out) (L - BUF_SIZE)
    (u32 (BUF_SIZE + 0)) (by omega) (by rw [l2]; omega)
  have hloop := dma_block_loop_two faithfulEngine DMA_SIMPLE_MODE PCI_DMA_FROMDEVICE (L - 2)
    w w2 w3 out L 0 h1 h2 b1 b2
  rw [show L - 2 + 2 = L from by omega] at hloop
  have hblock : dma_block faithfulEngine w DMA_SIMPLE_MODE PCI_DMA_FROMDEVICE out L 0 =
      (SUCCESS, w3) := by
    unfold dma_block
    simp only [e1]
    rw [if_neg (by decide)]
    exact hloop
  rw [hblock]
  show w3.user.bytes (out + j) = _
  rw [u3]
  simp only []
  rw [if_neg (by omega), u2]
  simp only []
  rw [if_pos (by omega)]
  exact congrArg w.hw.ddr (by omega)

/-- Simple mode on the simulated engine, two chunks: after `xpdma_write` of
`L` bytes and `xpdma_read` of `L` bytes, the start of the output buffer holds
the second chunk of the data. -/
theorem simple_round_trip_two (w : World Cdma) (hs : SlotOk w.st) (data out L : Nat)
    (h1 : BUF_SIZE < L) (h2 : L ≤ 2 * BUF_SIZE) (hdata : data + L ≤ w.user.limit)
    (hout : out + L ≤ w.user.limit) (j : Nat) (hj : j < L - BUF_SIZE) :
    (xpdma_write faithfulEngine w data L).1 = SUCCESS ∧
    (xpdma_read faithfulEngine (xpdma_write faithfulEngine w data L).2 out L).1 = SUCCESS ∧
    (xpdma_read faithfulEngine (xpdma_write faithfulEngine w data L).2 out L).2.user.bytes
      (out + j) = w.user.bytes (BUF_SIZE + data + j) := by
  have cB : BUF_SIZE = 4194304 := rfl
  obtain ⟨s1, s2, s3⟩ := simple_write_two w hs data L h1 h2 hdata
  have hwrite : xpdma_write faithfulEngine w data L =
      (SUCCESS, (dma_block faithfulEngine w DMA_SIMPLE_MODE PCI_DMA_TODEVICE data L 0).2) := by
    simp only [xpdma_write, hs.1, Bool.not_true, Bool.false_eq_true, if_false]
  have hread : xpdma_read faithfulEngine
      (dma_block faithfulEngine w DMA_SIMPLE_MODE PCI_DMA_TODEVICE data L 0).2 out L =
      (SUCCESS, (dma_block faithfulEngine
        (dma_block faithfulEngine w DMA_SIMPLE_MODE PCI_DMA_TODEVICE data L 0).2
        DMA_SIMPLE_MODE PCI_DMA_FROMDEVICE out L 0).2) := by
    simp only [xpdma_read, s1.1, Bool.not_true, Bool.false_eq_true, if_false]
  rw [hwrite]
  refine ⟨rfl, ?_, ?_⟩
  · show (xpdma_read faithfulEngine
      (dma_block faithfulEngine w DMA_SIMPLE_MODE PCI_DMA_TODEVICE data L 0).2 out L).1 = SUCCESS
    rw [hread]
  · show (xpdma_read faithfulEngine
      (dma_block faithfulEngine w DMA_SIMPLE_MODE PCI_DMA_TODEVICE data L 0).2 out
        L).2.user.bytes (out + j) = _
    rw [hread]
    show (dma_block faithfulEngine _ DMA_SIMPLE_MODE PCI_DMA_FROMDEVICE out L 0).2.user.bytes
      (out + j) = _
    rw [simple_read_two _ s1 out L h1 h2 (by rw [s2]; exact hout) j (by omega), s3]
    simp only [ddrAfter]
    rw [if_pos (by omega)]
    rfl

/-! ## Round trip in simple mode -/

/-- C5: in simple mode the current device address `dma_block` passes is not
used: `simple_operation` gives the same result for every `addr` as for
`addr = 0`, on every engine.  On the simulated engine every chunk is therefore
moved to and from device address 0, and a transfer of more than one chunk does
not round trip: on `world1`, whose data buffer (user address 0) holds 0x41 in
its first `BUF_SIZE` bytes and 0x42 at offset `BUF_SIZE`, `xpdma_write` of
`BUF_SIZE + 1` bytes followed by `xpdma_read` of `BUF_SIZE + 1` bytes to user
address `4 * BUF_SIZE` returns `SUCCESS` twice and leaves 0x42, not 0x41, in the
first byte of the output buffer. -/
theorem C5_simple_mode_ignores_address :
    (∀ (H : Type) (E : Engine H) (w : World H) (direction : Int) (count addr : Nat),
      simple_operation E w direction count addr = simple_operation E w direction count 0) ∧
    world1.user.bytes 0 = 0x41 ∧
    (xpdma_write faithfulEngine world1 0 (BUF_SIZE + 1)).1 = SUCCESS ∧
    (xpdma_read faithfulEngine (xpdma_write faithfulEngine world1 0 (BUF_SIZE + 1)).2
      (4 * BUF_SIZE) (BUF_SIZE + 1)).1 = SUCCESS ∧
    (xpdma_read faithfulEngine (xpdma_write faithfulEngine world1 0 (BUF_SIZE + 1)).2
      (4 * BUF_SIZE) (BUF_SIZE + 1)).2.user.bytes (4 * BUF_SIZE + 0) = 0x42 := by
  obtain ⟨r1, r2, r3⟩ := simple_round_trip_two world1 (by decide) 0 (4 * BUF_SIZE)
    (BUF_SIZE + 1) (by decide) (by decide) (by decide) (by decide) 0 (by decide)
  refine ⟨fun _ E w direction count addr => simple_operation_addr E w direction count addr,
    by decide, r1, r2, ?_⟩
  rw [r3]
  decide

end XPDMA

namespace XPDMA

/-! ## Observations on the trace: register accesses and status reads -/

theorem regWrites_append (l1 l2 : List Event) :
    regWrites (l1 ++ l2) = regWrites l1 ++ regWrites l2 := by
  induction l1 with
  | nil => rfl
  | cons e t ih => cases e <;> simp [regWrites, ih]

theorem regReads_append (l1 l2 : List Event) :
    regReads (l1 ++ l2) = regReads l1 ++ regReads l2 := by
  induction l1 with
  | nil => rfl
  | cons e t ih => cases e <;> simp [regReads, ih]

theorem statusReads_append (l1 l2 : List Event) :
    statusReads (l1 ++ l2) = statusReads l1 ++ statusReads l2 := by
  induction l1 with
  | nil => rfl
  | cons e t ih => cases e <;> simp [statusReads, ih]

theorem regWrites_passive (t : List Event) (h : ∀ e ∈ t, e.passive = true) :
    regWrites t = [] := by
  induction t with
  | nil => rfl
  | cons e t ih =>
    have he := h e (List.mem_cons_self _ _)
    have ht := ih (fun x hx => h x (List.mem_cons_of_mem _ hx))
    cases e <;> simp [Event.passive] at he <;> simpa [regWrites] using ht

theorem statusReads_passive (t : List Event) (h : ∀ e ∈ t, e.passive = true) :
    statusReads t = [] := by
  induction t with
  | nil => rfl
  | cons e t ih =>
    have he := h e (List.mem_cons_self _ _)
    have ht := ih (fun x hx => h x (List.mem_cons_of_mem _ hx))
    cases e <;> simp [Event.passive] at he <;> simpa [statusReads] using ht

theorem Quiet.regWrites {H : Type} {w w2 : World H} (h : Quiet w w2) :
    regWrites w2.trace = regWrites w.trace := by
  obtain ⟨-, -, t, ht, hp⟩ := h
  rw [ht, regWrites_append, regWrites_passive t hp, List.append_nil]

theorem Quiet.statusReads {H : Type} {w w2 : World H} (h : Quiet w w2) :
    statusReads w2.trace = statusReads w.trace := by
  obtain ⟨-, -, t, ht, hp⟩ := h
  rw [ht, statusReads_append, statusReads_passive t hp, List.append_nil]

theorem sameSlot_refl (s : xpdma_state) : SameSlot s s := ⟨rfl, rfl, rfl, rfl, rfl⟩

theorem sameSlot_trans {s t u : xpdma_state} (h1 : SameSlot s t) (h2 : SameSlot t u) :
    SameSlot s u :=
  ⟨h2.1.trans h1.1, h2.2.1.trans h1.2.1, h2.2.2.1.trans h1.2.2.1,
    h2.2.2.2.1.trans h1.2.2.2.1, h2.2.2.2.2.trans h1.2.2.2.2⟩

theorem sameSlot_setDma (s : xpdma_state) (m : DmaMem) : SameSlot s (s.setDma m) :=
  ⟨rfl, rfl, rfl, rfl, rfl⟩

theorem quiet_refl {H : Type} (w : World H) : Quiet w w :=
  ⟨sameSlot_refl _, rfl, [], by simp, by simp⟩

theorem quiet_trans {H : Type} {w1 w2 w3 : World H} (h12 : Quiet w1 w2) (h23 : Quiet w2 w3) :
    Quiet w1 w3 := by
  obtain ⟨a1, b1, t1, d1, e1⟩ := h12
  obtain ⟨a2, b2, t2, d2, e2⟩ := h23
  refine ⟨sameSlot_trans a1 a2, b2.trans b1, t1 ++ t2, ?_, ?_⟩
  · rw [d2, d1, List.append_assoc]
  · intro e he
    rcases List.mem_append.mp he with h | h
    · exact e1 e h
    · exact e2 e h

theorem quiet_log {H : Type} (w : World H) (m : Msg) : Quiet w (w.log (Event.printk m)) :=
  ⟨sameSlot_refl _, rfl, [_], rfl, by simp [Event.passive]⟩

theorem quiet_readReg {H : Type} (E : Engine H) (w : World H) (reg : Nat) :
    Quiet w (xpdma_readReg E w reg).2 := by
  unfold xpdma_readReg
  split
  · exact quiet_log w Msg.notInitialized
  · exact ⟨sameSlot_setDma _ _, rfl, [_], rfl, by simp [Event.passive]⟩

theorem quiet_udelay {H : Type} (E : Engine H) (w : World H) (us : Nat) :
    Quiet w (udelay E w us) :=
  ⟨sameSlot_setDma _ _, rfl, [_], rfl, by simp [Event.passive]⟩

theorem quiet_dump_regs {H : Type} (E : Engine H) (regs : List Nat) :
    ∀ w : World H, Quiet w (dump_regs E w regs) := by
  induction regs with
  | nil => intro w; exact quiet_refl w
  | cons r rs ih => intro w; exact quiet_trans (quiet_readReg E w r) (ih _)

theorem quiet_showInfo {H : Type} (E : Engine H) (w : World H) :
    Quiet w (xpdma_showInfo E w) := by
  unfold xpdma_showInfo
  split
  · exact quiet_log w Msg.notInitialized
  · exact quiet_dump_regs E _ w

theorem quiet_show_descriptors {H : Type} (E : Engine H) (w : World H) :
    Quiet w (show_descriptors E w) := by
  unfold show_descriptors
  split
  · exact quiet_log w Msg.notInitialized
  · exact quiet_dump_regs E _ w

theorem quiet_isIdle {H : Type} (E : Engine H) (w : World H) :
    Quiet w (xpdma_isIdle E w).2 := by
  unfold xpdma_isIdle
  split
  · exact quiet_log w Msg.notInitialized
  · exact quiet_readReg E w _

theorem quiet_simple_poll {H : Type} (E : Engine H) (n : Nat) :
    ∀ w : World H, Quiet w (simple_poll E n w) := by
  induction n with
  | zero => intro w; exact quiet_refl w
  | succ n ih =>
    intro w
    rw [simple_poll_succ]
    split
    · exact quiet_isIdle E w
    · exact quiet_trans (quiet_isIdle E w) (quiet_trans (quiet_udelay E _ 10) (ih _))

/-- A register write on an initialised slot: one write event, and the slot
fields out of reach of the hardware are kept. -/
theorem writeReg_used {H : Type} (E : Engine H) (w : World H) (reg val : Nat)
    (hused : w.st.used = true) :
    SameSlot w.st (xpdma_writeReg E w reg val).st ∧
    (xpdma_writeReg E w reg val).user = w.user ∧
    (xpdma_writeReg E w reg val).trace = w.trace ++ [Event.writeReg reg (u32 val)] := by
  unfold xpdma_writeReg
  rw [if_neg (by simp [hused])]
  exact ⟨sameSlot_setDma _ _, rfl, rfl⟩

/-- The idle check succeeds on initialised slots only. -/
theorem isIdle_used {H : Type} (E : Engine H) (w : World H) (h : (xpdma_isIdle E w).1 ≠ 0) :
    w.st.used = true := by
  unfold xpdma_isIdle at h
  cases hu : w.st.used with
  | true => rfl
  | false => simp [hu] at h

end XPDMA

namespace XPDMA

/-! ## Register access on a slot that is not initialised -/

/-- C17: on a slot whose `used` flag is false, for every engine, every register
offset and every value: `xpdma_readReg` returns 0 and only logs (no register
read is made, hardware and slot are unchanged); `xpdma_writeReg` only logs (no
register write is made, hardware and slot are unchanged); and `xpdma_isIdle`
returns 0. -/
theorem C17_uninitialised_register_access {H : Type} (E : Engine H) (w : World H)
    (reg val : Nat) (hused : w.st.used = false) :
    xpdma_readReg E w reg = (0, w.log (Event.printk Msg.notInitialized)) ∧
    regReads (xpdma_readReg E w reg).2.trace = regReads w.trace ∧
    (xpdma_readReg E w reg).2.hw = w.hw ∧ (xpdma_readReg E w reg).2.st = w.st ∧
    xpdma_writeReg E w reg val = w.log (Event.printk Msg.notInitialized) ∧
    regWrites (xpdma_writeReg E w reg val).trace = regWrites w.trace ∧
    (xpdma_writeReg E w reg val).hw = w.hw ∧ (xpdma_writeReg E w reg val).st = w.st ∧
    (xpdma_isIdle E w).1 = 0 := by
  have hr : xpdma_readReg E w reg = (0, w.log (Event.printk Msg.notInitialized)) := by
    unfold xpdma_readReg
    rw [if_pos (by simp [hused])]
  have hw : xpdma_writeReg E w reg val = w.log (Event.printk Msg.notInitialized) := by
    unfold xpdma_writeReg
    rw [if_pos (by simp [hused])]
  have hi : (xpdma_isIdle E w).1 = 0 := by
    unfold xpdma_isIdle
    rw [if_pos (by simp [hused])]
  refine ⟨hr, ?_, ?_, ?_, hw, ?_, ?_, ?_, hi⟩
  · rw [hr]
    show regReads (w.trace ++ [Event.printk Msg.notInitialized]) = _
    rw [regReads_append]
    exact List.append_nil _
  · rw [hr]; rfl
  · rw [hr]; rfl
  · rw [hw]
    show regWrites (w.trace ++ [Event.printk Msg.notInitialized]) = _
    rw [regWrites_append]
    exact List.append_nil _
  · rw [hw]; rfl
  · rw [hw]; rfl

/-- C17 (witness): on `world0off` a read of register 4 returns 0 and a write of
7 to it leaves the slot as it is, on an engine whose registers read 2. -/
theorem C17_uninitialised_register_access_witness :
    world0off.st.used = false ∧
    (xpdma_readReg (constEngine 2) world0off 4).1 = 0 ∧
    (xpdma_writeReg (constEngine 2) world0off 4 7).st = world0off.st ∧
    (xpdma_isIdle (constEngine 2) world0off).1 = 0 :=
  ⟨rfl,
    congrArg Prod.fst (C17_uninitialised_register_access (constEngine 2) world0off 4 7 rfl).1,
    (C17_uninitialised_register_access (constEngine 2) world0off 4 7 rfl).2.2.2.2.2.2.2.1,
    (C17_uninitialised_register_access (constEngine 2) world0off 4 7 rfl).2.2.2.2.2.2.2.2⟩

/-! ## Result of the descriptor chain builder -/

/-- C18: `create_desc_chain` returns `CRIT_ERR` exactly when `direction` is
neither `PCI_DMA_FROMDEVICE` nor `PCI_DMA_TODEVICE`, and `SUCCESS` exactly when
it is one of the two, for every size and every address. -/
theorem C18_chain_builder_result {H : Type} (w : World H) (direction : Int)
    (size addr : Nat) :
    ((create_desc_chain w direction size addr).1 = CRIT_ERR ↔
      (direction ≠ PCI_DMA_FROMDEVICE ∧ direction ≠ PCI_DMA_TODEVICE)) ∧
    ((create_desc_chain w direction size addr).1 = SUCCESS ↔
      (direction = PCI_DMA_FROMDEVICE ∨ direction = PCI_DMA_TODEVICE)) := by
  refine ⟨?_, create_desc_chain_success_iff w direction size addr⟩
  constructor
  · intro h
    by_contra hn
    have hd : direction = PCI_DMA_FROMDEVICE ∨ direction = PCI_DMA_TODEVICE := by
      by_cases h1 : direction = PCI_DMA_FROMDEVICE
      · exact Or.inl h1
      · by_cases h2 : direction = PCI_DMA_TODEVICE
        · exact Or.inr h2
        · exact absurd ⟨h1, h2⟩ hn
    rw [(create_desc_chain_success_iff w direction size addr).mpr hd] at h
    exact absurd h (by decide)
  · intro h
    rw [create_desc_chain_bad w direction size addr h.1 h.2]

end XPDMA

namespace XPDMA

/-! ## Residual state in the descriptor chain -/

/-- C20 (counterexample): `create_desc_chain` for the same direction, size 1 and
address 0 on two descriptor buffers, a zeroed one and one full of `usedDesc`,
builds a chain of length 1 in both, whose first descriptors differ: the words
`na1`, `na2`, `na3` keep what the buffer held before. -/
theorem C20_counterexample :
    (create_desc_chain world0 PCI_DMA_TODEVICE 1 0).2.st.descChainLength = 1 ∧
    (create_desc_chain world0used PCI_DMA_TODEVICE 1 0).2.st.descChainLength = 1 ∧
    (create_desc_chain world0 PCI_DMA_TODEVICE 1 0).2.st.descChain 0 ≠
      (create_desc_chain world0used PCI_DMA_TODEVICE 1 0).2.st.descChain 0 ∧
    ((create_desc_chain world0 PCI_DMA_TODEVICE 1 0).2.st.descChain 0).na1 = 0 ∧
    ((create_desc_chain world0used PCI_DMA_TODEVICE 1 0).2.st.descChain 0).na1 = 0x22 := by
  decide

/-- C20: for a recognised direction, every size and every address, and every
descriptor index `k` below twice the chain length: the chain length and the
fields `nextDesc`, `srcAddr`, `destAddr`, `control` and `status` of descriptor
`k` after `create_desc_chain` are the same whatever the slot (and its
descriptor buffer) was before, so they depend on direction, size and address
only; the status word is 0; the words `na1`, `na2`, `na3` are not written and
keep their previous content. -/
theorem C20_no_residual_state {H1 H2 : Type} (w : World H1) (w2 : World H2) (direction : Int)
    (size addr k : Nat)
    (hdir : direction = PCI_DMA_FROMDEVICE ∨ direction = PCI_DMA_TODEVICE)
    (hk : k < 2 * chainLen size) :
    (create_desc_chain w direction size addr).2.st.descChainLength = chainLen size ∧
    (create_desc_chain w2 direction size addr).2.st.descChainLength = chainLen size ∧
    ((create_desc_chain w direction size addr).2.st.descChain k).nextDesc =
      ((create_desc_chain w2 direction size addr).2.st.descChain k).nextDesc ∧
    ((create_desc_chain w direction size addr).2.st.descChain k).srcAddr =
      ((create_desc_chain w2 direction size addr).2.st.descChain k).srcAddr ∧
    ((create_desc_chain w direction size addr).2.st.descChain k).destAddr =
      ((create_desc_chain w2 direction size addr).2.st.descChain k).destAddr ∧
    ((create_desc_chain w direction size addr).2.st.descChain k).control =
      ((create_desc_chain w2 direction size addr).2.st.descChain k).control ∧
    ((create_desc_chain w direction size addr).2.st.descChain k).status = 0 ∧
    ((create_desc_chain w2 direction size addr).2.st.descChain k).status = 0 ∧
    ((create_desc_chain w direction size addr).2.st.descChain k).na1 = (w.st.descChain k).na1 ∧
    ((create_desc_chain w direction size addr).2.st.descChain k).na2 = (w.st.descChain k).na2 ∧
    ((create_desc_chain w direction size addr).2.st.descChain k).na3 = (w.st.descChain k).na3 := by
  have hl1 : (create_desc_chain w direction size addr).2.st.descChainLength = chainLen size := by
    rw [create_desc_chain_ok w direction size addr hdir]
  have hl2 : (create_desc_chain w2 direction size addr).2.st.descChainLength =
      chainLen size := by
    rw [create_desc_chain_ok w2 direction size addr hdir]
  refine ⟨hl1, hl2, ?_⟩
  rcases Nat.even_or_odd' k with ⟨i, hi | hi⟩
  · subst hi
    have hlt : i < chainLen size := by omega
    rw [create_desc_chain_addr w direction size addr hdir i hlt,
      create_desc_chain_addr w2 direction size addr hdir i hlt]
    exact ⟨rfl, rfl, rfl, rfl, rfl, rfl, rfl, rfl, rfl⟩
  · subst hi
    have hlt : i < chainLen size := by omega
    rw [create_desc_chain_data w direction size addr hdir i hlt,
      create_desc_chain_data w2 direction size addr hdir i hlt]
    exact ⟨rfl, rfl, rfl, rfl, rfl, rfl, rfl, rfl, rfl⟩

/-- C20 (witness): for a transfer of `2 * TRANSFER_SIZE + 5` bytes to device
address 16, descriptor 3 has the same control word on the zeroed and on the
used descriptor buffer, and status 0. -/
theorem C20_no_residual_state_witness :
    (PCI_DMA_TODEVICE = PCI_DMA_FROMDEVICE ∨ PCI_DMA_TODEVICE = PCI_DMA_TODEVICE) ∧
    3 < 2 * chainLen (2 * TRANSFER_SIZE + 5) ∧
    ((create_desc_chain world0 PCI_DMA_TODEVICE (2 * TRANSFER_SIZE + 5) 16).2.st.descChain
      3).control =
    ((create_desc_chain world0used PCI_DMA_TODEVICE (2 * TRANSFER_SIZE + 5) 16).2.st.descChain
      3).control ∧
    ((create_desc_chain world0used PCI_DMA_TODEVICE (2 * TRANSFER_SIZE + 5) 16).2.st.descChain
      3).status = 0 :=
  ⟨by decide, by decide,
    (C20_no_residual_state world0 world0used PCI_DMA_TODEVICE (2 * TRANSFER_SIZE + 5) 16 3
      (by decide) (by decide)).2.2.2.2.2.1,
    (C20_no_residual_state world0 world0used PCI_DMA_TODEVICE (2 * TRANSFER_SIZE + 5) 16 3
      (by decide) (by decide)).2.2.2.2.2.2.2.1⟩

end XPDMA

namespace XPDMA

/-! ## The idle gate of the engine operations -/

theorem pure_readReg {H : Type} (E : Engine H) (hp : E.readsPure) (w : World H) (reg : Nat) :
    (xpdma_readReg E w reg).2.hw = w.hw ∧ (xpdma_readReg E w reg).2.st = w.st := by
  unfold xpdma_readReg
  split
  · exact ⟨rfl, rfl⟩
  · have h := hp w.st.addrs w.hw w.st.dma reg
    constructor
    · show (E.readl w.st.addrs w.hw w.st.dma reg).2.1 = w.hw
      rw [h]
    · show w.st.setDma (E.readl w.st.addrs w.hw w.st.dma reg).2.2 = w.st
      rw [h]
      rfl

theorem pure_dump_regs {H : Type} (E : Engine H) (hp : E.readsPure) (regs : List Nat) :
    ∀ w : World H, (dump_regs E w regs).hw = w.hw ∧ (dump_regs E w regs).st = w.st := by
  induction regs with
  | nil => intro w; exact ⟨rfl, rfl⟩
  | cons r rs ih =>
    intro w
    have h1 := pure_readReg E hp w r
    have h2 := ih (xpdma_readReg E w r).2
    exact ⟨h2.1.trans h1.1, h2.2.trans h1.2⟩

theorem pure_showInfo {H : Type} (E : Engine H) (hp : E.readsPure) (w : World H) :
    (xpdma_showInfo E w).hw = w.hw ∧ (xpdma_showInfo E w).st = w.st := by
  unfold xpdma_showInfo
  split
  · exact ⟨rfl, rfl⟩
  · exact pure_dump_regs E hp _ w

theorem pure_isIdle {H : Type} (E : Engine H) (hp : E.readsPure) (w : World H) :
    (xpdma_isIdle E w).2.hw = w.hw ∧ (xpdma_isIdle E w).2.st = w.st := by
  unfold xpdma_isIdle
  split
  · exact ⟨rfl, rfl⟩
  · exact pure_readReg E hp w _

/-- The world the engine operations return when the idle check fails. -/
theorem not_idle_world {H : Type} (E : Engine H) (w : World H) :
    Quiet w (xpdma_showInfo E ((xpdma_isIdle E w).2.log (Event.printk Msg.notIdle))) ∧
    (E.readsPure →
      (xpdma_showInfo E ((xpdma_isIdle E w).2.log (Event.printk Msg.notIdle))).hw = w.hw ∧
      (xpdma_showInfo E ((xpdma_isIdle E w).2.log (Event.printk Msg.notIdle))).st = w.st) := by
  constructor
  · exact quiet_trans (quiet_isIdle E w) (quiet_trans (quiet_log _ _) (quiet_showInfo E _))
  · intro hp
    have h1 := pure_isIdle E hp w
    have h2 := pure_showInfo E hp ((xpdma_isIdle E w).2.log (Event.printk Msg.notIdle))
    exact ⟨h2.1.trans h1.1, h2.2.trans h1.2⟩

theorem simple_operation_not_idle {H : Type} (E : Engine H) (w : World H) (direction : Int)
    (count addr : Nat) (hidle : (xpdma_isIdle E w).1 = 0) :
    (simple_operation E w direction count addr).1 = CRIT_ERR ∧
    Quiet w (simple_operation E w direction count addr).2 ∧
    (E.readsPure → (simple_operation E w direction count addr).2.hw = w.hw ∧
      (simple_operation E w direction count addr).2.st = w.st) := by
  rw [simple_operation_stages]
  split
  · exact ⟨rfl, quiet_log _ _, fun _ => ⟨rfl, rfl⟩⟩
  · rw [if_pos hidle]
    exact ⟨rfl, (not_idle_world E w).1, (not_idle_world E w).2⟩

theorem sg_operation_not_idle {H : Type} (E : Engine H) (w : World H) (direction : Int)
    (count addr : Nat) (hidle : (xpdma_isIdle E w).1 = 0) :
    (sg_operation E w direction count addr).1 = CRIT_ERR ∧
    Quiet w (sg_operation E w direction count addr).2 ∧
    (E.readsPure → (sg_operation E w direction count addr).2.hw = w.hw ∧
      (sg_operation E w direction count addr).2.st = w.st) := by
  rw [sg_operation_stages, if_pos hidle]
  exact ⟨rfl, (not_idle_world E w).1, (not_idle_world E w).2⟩

/-- C12: when the idle check fails at the start of `simple_operation` (the
status register reads with `CDMA_CR_IDLE_MASK` clear), the function returns
`CRIT_ERR` and makes no register write; the same holds for `sg_operation`.
Both only log and read registers for the log, so on an engine whose register
reads have no side effect the hardware state and the whole slot (staging
buffers, descriptor chain, `descChainLength`) are unchanged; on every engine
`descChainLength` is unchanged. -/
theorem C12_idle_gate {H : Type} (E : Engine H) (w : World H) (direction : Int)
    (count addr : Nat) (hidle : (xpdma_isIdle E w).1 = 0) :
    (simple_operation E w direction count addr).1 = CRIT_ERR ∧
    regWrites (simple_operation E w direction count addr).2.trace = regWrites w.trace ∧
    (sg_operation E w direction count addr).1 = CRIT_ERR ∧
    regWrites (sg_operation E w direction count addr).2.trace = regWrites w.trace ∧
    (sg_operation E w direction count addr).2.st.descChainLength = w.st.descChainLength ∧
    (E.readsPure →
      (simple_operation E w direction count addr).2.hw = w.hw ∧
      (simple_operation E w direction count addr).2.st = w.st ∧
      (sg_operation E w direction count addr).2.hw = w.hw ∧
      (sg_operation E w direction count addr).2.st = w.st) := by
  obtain ⟨a1, a2, a3⟩ := simple_operation_not_idle E w direction count addr hidle
  obtain ⟨b1, b2, b3⟩ := sg_operation_not_idle E w direction count addr hidle
  exact ⟨a1, a2.regWrites, b1, b2.regWrites, b2.1.2.2.2.2,
    fun hp => ⟨(a3 hp).1, (a3 hp).2, (b3 hp).1, (b3 hp).2⟩⟩

/-- C12 (witness): on `world0` with an engine whose registers all read 0 the
idle check fails, and `sg_operation` returns `CRIT_ERR` without a register
write. -/
theorem C12_idle_gate_witness :
    (xpdma_isIdle (constEngine 0) world0).1 = 0 ∧
    (sg_operation (constEngine 0) world0 PCI_DMA_TODEVICE 1024 0).1 = CRIT_ERR ∧
    regWrites (sg_operation (constEngine 0) world0 PCI_DMA_TODEVICE 1024 0).2.trace =
      regWrites world0.trace :=
  ⟨by decide,
    (C12_idle_gate (constEngine 0) world0 PCI_DMA_TODEVICE 1024 0 (by decide)).2.2.1,
    (C12_idle_gate (constEngine 0) world0 PCI_DMA_TODEVICE 1024 0 (by decide)).2.2.2.1⟩

end XPDMA

namespace XPDMA

/-! ## Register write sequences -/

theorem wrote_refl {H : Type} (w : World H) : Wrote w w [] :=
  ⟨sameSlot_refl _, rfl, (List.append_nil _).symm, rfl⟩

theorem wrote_trans {H : Type} {w1 w2 w3 : World H} {l1 l2 : List (Nat × Nat)}
    (h12 : Wrote w1 w2 l1) (h23 : Wrote w2 w3 l2) : Wrote w1 w3 (l1 ++ l2) := by
  obtain ⟨a1, b1, c1, d1⟩ := h12
  obtain ⟨a2, b2, c2, d2⟩ := h23
  refine ⟨sameSlot_trans a1 a2, b2.trans b1, ?_, d2.trans d1⟩
  rw [c2, c1, List.append_assoc]

theorem wrote_of_quiet {H : Type} {w w2 : World H} (h : Quiet w w2) : Wrote w w2 [] :=
  ⟨h.1, h.2.1, by rw [h.regWrites, List.append_nil], h.statusReads⟩

theorem wrote_quiet {H : Type} {w w2 w3 : World H} {l : List (Nat × Nat)}
    (h12 : Wrote w w2 l) (h23 : Quiet w2 w3) : Wrote w w3 l := by
  have h := wrote_trans h12 (wrote_of_quiet h23)
  rwa [List.append_nil] at h

theorem wrote_writeReg {H : Type} (E : Engine H) (w : World H) (reg val : Nat)
    (hused : w.st.used = true) : Wrote w (xpdma_writeReg E w reg val) [(reg, u32 val)] := by
  obtain ⟨a, b, c⟩ := writeReg_used E w reg val hused
  refine ⟨a, b, ?_, ?_⟩
  · rw [c, regWrites_append]
    rfl
  · rw [c, statusReads_append]
    exact List.append_nil _

/-- One more register write after the writes `l`. -/
theorem wrote_step {H : Type} (E : Engine H) {w0 w : World H} {l : List (Nat × Nat)}
    (h : Wrote w0 w l) (hused : w0.st.used = true) (reg val : Nat) :
    Wrote w0 (xpdma_writeReg E w reg val) (l ++ [(reg, u32 val)]) :=
  wrote_trans h (wrote_writeReg E w reg val (h.1.1.trans hused))

/-- The register writes of steps 1 to 4 of `simple_operation`. -/
theorem wrote_simple_setup {H : Type} (E : Engine H) (w : World H) (hused : w.st.used = true)
    (p src dst : Nat) :
    Wrote w (simple_setup E w p src dst)
      [(CDMA_OFFSET + CDMA_CONTROL_OFFSET, u32 0),
       (PCIE_CTL_OFFSET + AXIBAR2PCIEBAR_1L, u32 (u32 p)),
       (PCIE_CTL_OFFSET + AXIBAR2PCIEBAR_1U, u32 (u32 (p / 4294967296))),
       (CDMA_OFFSET + CDMA_SRCADDR_OFFSET, u32 (u32 src)),
       (CDMA_OFFSET + CDMA_SRCADDR_MSB_OFFSET, u32 (u32 (src / 4294967296))),
       (CDMA_OFFSET + CDMA_DSTADDR_OFFSET, u32 (u32 dst)),
       (CDMA_OFFSET + CDMA_DSTADDR_MSB_OFFSET, u32 (u32 (dst / 4294967296)))] := by
  unfold simple_setup
  exact wrote_step E (wrote_step E (wrote_step E (wrote_step E (wrote_step E (wrote_step E
    (wrote_step E (wrote_refl w) hused _ _) hused _ _) hused _ _) hused _ _) hused _ _)
    hused _ _) hused _ _

/-- The register writes of `simple_operation` once the idle check has
succeeded, for the translation target `p`, the source `src` and the
destination `dst`. -/
theorem wrote_simple_run {H : Type} (E : Engine H) (w : World H) (p src dst count : Nat)
    (hidle : (xpdma_isIdle E w).1 ≠ 0) :
    Wrote w (xpdma_isIdle E (simple_poll E CDMA_TRANSFER_LOOP
        (xpdma_writeReg E (simple_setup E (xpdma_isIdle E w).2 p src dst)
          (CDMA_OFFSET + CDMA_BTT_OFFSET) count))).2
      [(CDMA_OFFSET + CDMA_CONTROL_OFFSET, u32 0),
       (PCIE_CTL_OFFSET + AXIBAR2PCIEBAR_1L, u32 (u32 p)),
       (PCIE_CTL_OFFSET + AXIBAR2PCIEBAR_1U, u32 (u32 (p / 4294967296))),
       (CDMA_OFFSET + CDMA_SRCADDR_OFFSET, u32 (u32 src)),
       (CDMA_OFFSET + CDMA_SRCADDR_MSB_OFFSET, u32 (u32 (src / 4294967296))),
       (CDMA_OFFSET + CDMA_DSTADDR_OFFSET, u32 (u32 dst)),
       (CDMA_OFFSET + CDMA_DSTADDR_MSB_OFFSET, u32 (u32 (dst / 4294967296))),
       (CDMA_OFFSET + CDMA_BTT_OFFSET, u32 count)] := by
  have hused := isIdle_used E w hidle
  have hq := quiet_isIdle E w
  have hu1 : (xpdma_isIdle E w).2.st.used = true := hq.1.1.trans hused
  have h1 := wrote_trans (wrote_of_quiet hq)
    (wrote_step E (wrote_simple_setup E (xpdma_isIdle E w).2 hu1 p src dst) hu1
      (CDMA_OFFSET + CDMA_BTT_OFFSET) count)
  exact wrote_quiet (wrote_quiet h1 (quiet_simple_poll E _ _)) (quiet_isIdle E _)

theorem u32_u32 (x : Nat) : u32 (u32 x) = x % 4294967296 := by
  simp only [u32_eq]
  omega

/-- C13: on an engine the idle check finds idle and for a recognised direction,
`simple_operation` makes exactly eight register writes, in this order: the
control register takes 0; `AXIBAR2PCIEBAR_1L` and `AXIBAR2PCIEBAR_1U` take the
low and the high 32 bits of the bus address of the staging buffer
(`readHWAddr` from the device, `writeHWAddr` to the device); the source
address register pair takes `AXI_DDR3_ADDR` (from the device) or
`AXI_PCIE_DM_ADDR` (to the device) with high word 0, the destination pair the
other one; and last the bytes to transfer register takes `count` as a 32 bit
value.  No register is written after that, whether the poll that follows ends
in success or in the timeout. -/
theorem C13_simple_write_sequence {H : Type} (E : Engine H) (w : World H) (direction : Int)
    (count addr : Nat) (hidle : (xpdma_isIdle E w).1 ≠ 0)
    (hdir : direction = PCI_DMA_FROMDEVICE ∨ direction = PCI_DMA_TODEVICE) :
    regWrites (simple_operation E w direction count addr).2.trace = regWrites w.trace ++
      [(CDMA_OFFSET + CDMA_CONTROL_OFFSET, 0),
       (PCIE_CTL_OFFSET + AXIBAR2PCIEBAR_1L,
         (if direction = PCI_DMA_FROMDEVICE then w.st.readHWAddr else w.st.writeHWAddr) %
           4294967296),
       (PCIE_CTL_OFFSET + AXIBAR2PCIEBAR_1U,
         (if direction = PCI_DMA_FROMDEVICE then w.st.readHWAddr else w.st.writeHWAddr) /
           4294967296 % 4294967296),
       (CDMA_OFFSET + CDMA_SRCADDR_OFFSET,
         if direction = PCI_DMA_FROMDEVICE then AXI_DDR3_ADDR else AXI_PCIE_DM_ADDR),
       (CDMA_OFFSET + CDMA_SRCADDR_MSB_OFFSET, 0),
       (CDMA_OFFSET + CDMA_DSTADDR_OFFSET,
         if direction = PCI_DMA_FROMDEVICE then AXI_PCIE_DM_ADDR else AXI_DDR3_ADDR),
       (CDMA_OFFSET + CDMA_DSTADDR_MSB_OFFSET, 0),
       (CDMA_OFFSET + CDMA_BTT_OFFSET, count % 4294967296)] ∧
    (count < 4294967296 → count % 4294967296 = count) := by
  refine ⟨?_, fun h => Nat.mod_eq_of_lt h⟩
  have e0 : u32 0 = 0 := rfl
  have e1 : u32 (u32 AXI_DDR3_ADDR) = AXI_DDR3_ADDR := by decide
  have e2 : u32 (u32 (AXI_DDR3_ADDR / 4294967296)) = 0 := by decide
  have e3 : u32 (u32 AXI_PCIE_DM_ADDR) = AXI_PCIE_DM_ADDR := by decide
  have e4 : u32 (u32 (AXI_PCIE_DM_ADDR / 4294967296)) = 0 := by decide
  rw [simple_operation_stages]
  rcases hdir with h | h
  · subst h
    simp only [if_true]
    rw [if_neg hidle]
    have hw := (wrote_simple_run E w w.st.readHWAddr AXI_DDR3_ADDR AXI_PCIE_DM_ADDR count
      hidle).2.2.1
    rw [e0, e1, e2, e3, e4, u32_u32, u32_u32, u32_eq] at hw
    split
    · show regWrites (_ ++ [Event.printk Msg.simpleTimeout]) = _
      rw [regWrites_append, hw]
      exact List.append_nil _
    · exact hw
  · subst h
    simp only [show (PCI_DMA_FROMDEVICE = PCI_DMA_TODEVICE) = False from by decide,
      show (PCI_DMA_TODEVICE = PCI_DMA_FROMDEVICE) = False from by decide, if_false, if_true]
    rw [if_neg hidle]
    have hw := (wrote_simple_run E w w.st.writeHWAddr AXI_PCIE_DM_ADDR AXI_DDR3_ADDR count
      hidle).2.2.1
    rw [e0, e1, e2, e3, e4, u32_u32, u32_u32, u32_eq] at hw
    split
    · show regWrites (_ ++ [Event.printk Msg.simpleTimeout]) = _
      rw [regWrites_append, hw]
      exact List.append_nil _
    · exact hw

/-- C13 (witness): on `world0` with an engine whose registers all read 2 (idle),
`simple_operation` to the device with `count = 1024` writes the eight
registers, the address of the write staging buffer in `AXIBAR2PCIEBAR_1L`. -/
theorem C13_simple_write_sequence_witness :
    (xpdma_isIdle (constEngine 2) world0).1 ≠ 0 ∧
    (PCI_DMA_TODEVICE = PCI_DMA_FROMDEVICE ∨ PCI_DMA_TODEVICE = PCI_DMA_TODEVICE) ∧
    regWrites (simple_operation (constEngine 2) world0 PCI_DMA_TODEVICE 1024 0).2.trace =
      [(0xc000, 0), (0x8214, 0x10400000), (0x8210, 0), (0xc018, 0x80000000), (0xc01c, 0),
       (0xc020, 0), (0xc024, 0), (0xc028, 1024)] :=
  ⟨by decide, by decide,
    (C13_simple_write_sequence (constEngine 2) world0 PCI_DMA_TODEVICE 1024 0 (by decide)
      (by decide)).1.trans (by decide)⟩

end XPDMA

namespace XPDMA

/-! ## The completion poll of `sg_operation` -/

theorem polledIndex_eq {H : Type} (E : Engine H) (w : World H) :
    polledIndex E w = tailIndex w.st.descChainLength := rfl

theorem polledWorld_sameSlot {H : Type} (E : Engine H) (w : World H) :
    SameSlot w.st (polledWorld E w).st := sameSlot_setDma _ _

theorem polledWorld_regWrites {H : Type} (E : Engine H) (w : World H) :
    regWrites (polledWorld E w).trace = regWrites w.trace := by
  show regWrites (w.trace ++ [Event.udelay 10] ++ [Event.readStatus _ _]) = _
  rw [regWrites_append, regWrites_append]
  exact (List.append_nil _).trans (List.append_nil _)

theorem polledWorld_statusReads {H : Type} (E : Engine H) (w : World H) :
    statusReads (polledWorld E w).trace =
      statusReads w.trace ++ [(polledIndex E w, polledStatus E w)] := by
  show statusReads (w.trace ++ [Event.udelay 10] ++ [Event.readStatus _ _]) = _
  rw [statusReads_append, statusReads_append]
  show statusReads w.trace ++ [] ++ [(polledIndex E w, polledStatus E w)] = _
  rw [List.append_nil]

/-- The world of an error return of the poll loop. -/
theorem poll_error_world {H : Type} (E : Engine H) (w : World H) (m : Msg) :
    regWrites (show_descriptors E ((polledWorld E w).log (Event.printk m))).trace =
      regWrites w.trace ∧
    statusReads (show_descriptors E ((polledWorld E w).log (Event.printk m))).trace =
      statusReads w.trace ++ [(polledIndex E w, polledStatus E w)] := by
  have hq : Quiet (polledWorld E w)
      (show_descriptors E ((polledWorld E w).log (Event.printk m))) :=
    quiet_trans (quiet_log _ _) (quiet_show_descriptors E _)
  exact ⟨hq.regWrites.trans (polledWorld_regWrites E w),
    hq.statusReads.trans (polledWorld_statusReads E w)⟩

theorem timeout_logged {H : Type} (E : Engine H) (w : World H) :
    Event.printk Msg.sgTimeout ∈
      (show_descriptors E (w.log (Event.printk Msg.sgTimeout))).trace := by
  obtain ⟨-, -, t, ht, -⟩ := quiet_show_descriptors E (w.log (Event.printk Msg.sgTimeout))
  rw [ht]
  show Event.printk Msg.sgTimeout ∈ w.trace ++ [Event.printk Msg.sgTimeout] ++ t
  simp

/-- The poll loop of `sg_operation` with budget `k`: it reads the status word
of the tail descriptor at most `k` times and writes no register; it returns
`SUCCESS` only after a read that classifies as complete; and when every read
classifies as none yet, it makes all `k` reads and returns `CRIT_ERR` with the
timeout line logged. -/
theorem sg_poll_spec {H : Type} (E : Engine H) (k : Nat) :
    ∀ w : World H, ∃ rs : List (Nat × Nat),
      statusReads (sg_poll E k w).2.trace = statusReads w.trace ++ rs ∧
      regWrites (sg_poll E k w).2.trace = regWrites w.trace ∧
      rs.length ≤ k ∧
      (∀ r ∈ rs, r.1 = tailIndex w.st.descChainLength) ∧
      ((sg_poll E k w).1 = SUCCESS → ∃ r ∈ rs, sg_status_class r.2 = SgPoll.complete) ∧
      ((∀ r ∈ rs, sg_status_class r.2 = SgPoll.noneYet) →
        (sg_poll E k w).1 = CRIT_ERR ∧ rs.length = k ∧
        Event.printk Msg.sgTimeout ∈ (sg_poll E k w).2.trace) := by
  have hne : CRIT_ERR ≠ SUCCESS := by decide
  induction k with
  | zero =>
    intro w
    have hq : Quiet w (sg_poll E 0 w).2 :=
      quiet_trans (quiet_log w Msg.sgTimeout) (quiet_show_descriptors E _)
    refine ⟨[], ?_, hq.regWrites, Nat.le_refl _, ?_, ?_, ?_⟩
    · rw [hq.statusReads, List.append_nil]
    · intro r hr; exact absurd hr (List.not_mem_nil _)
    · intro h; exact absurd h hne
    · intro _; exact ⟨rfl, rfl, timeout_logged E w⟩
  | succ k ih =>
    intro w
    rw [sg_poll_step]
    cases hc : sg_status_class (polledStatus E w) with
    | decodeError =>
      refine ⟨[(polledIndex E w, polledStatus E w)], (poll_error_world E w _).2,
        (poll_error_world E w _).1, by simp, ?_, ?_, ?_⟩
      · intro r hr
        rw [List.mem_singleton.mp hr]
        rfl
      · intro h; exact absurd h hne
      · intro h
        have := h _ (List.mem_singleton.mpr rfl)
        rw [hc] at this
        exact absurd this (by decide)
    | slaveError =>
      refine ⟨[(polledIndex E w, polledStatus E w)], (poll_error_world E w _).2,
        (poll_error_world E w _).1, by simp, ?_, ?_, ?_⟩
      · intro r hr
        rw [List.mem_singleton.mp hr]
        rfl
      · intro h; exact absurd h hne
      · intro h
        have := h _ (List.mem_singleton.mpr rfl)
        rw [hc] at this
        exact absurd this (by decide)
    | internalError =>
      refine ⟨[(polledIndex E w, polledStatus E w)], (poll_error_world E w _).2,
        (poll_error_world E w _).1, by simp, ?_, ?_, ?_⟩
      · intro r hr
        rw [List.mem_singleton.mp hr]
        rfl
      · intro h; exact absurd h hne
      · intro h
        have := h _ (List.mem_singleton.mpr rfl)
        rw [hc] at this
        exact absurd this (by decide)
    | complete =>
      refine ⟨[(polledIndex E w, polledStatus E w)], polledWorld_statusReads E w,
        polledWorld_regWrites E w, by simp, ?_, ?_, ?_⟩
      · intro r hr
        rw [List.mem_singleton.mp hr]
        rfl
      · intro _; exact ⟨_, List.mem_singleton.mpr rfl, hc⟩
      · intro h
        have := h _ (List.mem_singleton.mpr rfl)
        rw [hc] at this
        exact absurd this (by decide)
    | noneYet =>
      obtain ⟨rs, h1, h2, h3, h4, h5, h6⟩ := ih (polledWorld E w)
      have hlen : (polledWorld E w).st.descChainLength = w.st.descChainLength :=
        (polledWorld_sameSlot E w).2.2.2.2
      refine ⟨(polledIndex E w, polledStatus E w) :: rs, ?_, ?_, ?_, ?_, ?_, ?_⟩
      · show statusReads (sg_poll E k (polledWorld E w)).2.trace = _
        rw [h1, polledWorld_statusReads, List.append_assoc]
        rfl
      · show regWrites (sg_poll E k (polledWorld E w)).2.trace = _
        rw [h2, polledWorld_regWrites]
      · simp only [List.length_cons]
        omega
      · intro r hr
        rcases List.mem_cons.mp hr with h | h
        · rw [h]; rfl
        · rw [h4 r h, hlen]
      · intro h
        obtain ⟨r, hr, hcl⟩ := h5 h
        exact ⟨r, List.mem_cons_of_mem _ hr, hcl⟩
      · intro h
        obtain ⟨g1, g2, g3⟩ := h6 (fun r hr => h r (List.mem_cons_of_mem _ hr))
        refine ⟨g1, ?_, g3⟩
        simp only [List.length_cons]
        omega

end XPDMA

namespace XPDMA

/-! ## Register writes of `sg_operation` -/

theorem wrote_sg_write_vectors {H : Type} (E : Engine H) (k : Nat) :
    ∀ (w : World H) (pntr bramOffset : Nat), w.st.used = true →
      Wrote w (sg_write_vectors E k w pntr bramOffset) (vectorWrites k pntr bramOffset) := by
  induction k with
  | zero => intro w _ _ _; exact wrote_refl w
  | succ k ih =>
    intro w pntr bramOffset hused
    rw [sg_write_vectors_succ]
    have h2 := wrote_step E (wrote_step E (wrote_refl w) hused
      (u32 (4 + (BRAM_OFFSET + bramOffset))) (u32 pntr)) hused
      (u32 (0 + (BRAM_OFFSET + bramOffset))) (u32 (pntr / 4294967296))
    exact wrote_trans h2 (ih _ _ _ (h2.1.1.trans hused))

/-- The table writes of `sg_write_vectors` slot by slot. -/
theorem vectorWrites_eq (p : Nat) (n : Nat) :
    ∀ j, j + n ≤ 1024 →
      vectorWrites n (usize (p + TRANSFER_SIZE * j)) (8 * j) =
        (List.range' j n).flatMap (slotWrites p) := by
  induction n with
  | zero => intro j _; rfl
  | succ n ih =>
    intro j hj
    have e1 : usize (TRANSFER_SIZE + usize (p + TRANSFER_SIZE * j)) =
        usize (p + TRANSFER_SIZE * (j + 1)) := by
      simp only [usize_eq, TRANSFER_SIZE]
      omega
    have e2 : usize (BRAM_STEP + 8 * j) = 8 * (j + 1) := by
      simp only [usize_eq, BRAM_STEP]
      omega
    have e3 : u32 (4 + (BRAM_OFFSET + 8 * j)) = BRAM_OFFSET + 8 * j + 4 := by
      simp only [u32_eq, BRAM_OFFSET]
      omega
    have e4 : u32 (0 + (BRAM_OFFSET + 8 * j)) = BRAM_OFFSET + 8 * j := by
      simp only [u32_eq, BRAM_OFFSET]
      omega
    have e5 : u32 (u32 (usize (p + TRANSFER_SIZE * j))) =
        usize (p + TRANSFER_SIZE * j) % 4294967296 := u32_u32 _
    have e6 : u32 (u32 (usize (p + TRANSFER_SIZE * j) / 4294967296)) =
        usize (p + TRANSFER_SIZE * j) / 4294967296 := by
      simp only [u32_eq, usize_eq]
      omega
    show (u32 (4 + (BRAM_OFFSET + 8 * j)), u32 (u32 (usize (p + TRANSFER_SIZE * j)))) ::
        (u32 (0 + (BRAM_OFFSET + 8 * j)),
          u32 (u32 (usize (p + TRANSFER_SIZE * j) / 4294967296))) ::
        vectorWrites n (usize (TRANSFER_SIZE + usize (p + TRANSFER_SIZE * j)))
          (usize (BRAM_STEP + 8 * j)) = _
    rw [e1, e2, e3, e4, e5, e6, ih (j + 1) (by omega), List.range'_succ, List.flatMap_cons]
    rfl

theorem vectorWrites_slots (p n : Nat) (hn : n ≤ 1024) :
    vectorWrites n (usize p) 0 = (List.range n).flatMap (slotWrites p) := by
  have h := vectorWrites_eq p n 0 (by omega)
  rw [List.range_eq_range']
  exact h

/-- Steps 1 to 3 of `sg_operation` on every engine: three register writes, and
the chain length `create_desc_chain` has set. -/
theorem sg_setup_wrote {H : Type} (E : Engine H) (w : World H) (direction : Int)
    (count addr : Nat) (hused : w.st.used = true)
    (hdir : direction = PCI_DMA_FROMDEVICE ∨ direction = PCI_DMA_TODEVICE) :
    (sg_setup E w direction count addr).st.used = true ∧
    (sg_setup E w direction count addr).st.readHWAddr = w.st.readHWAddr ∧
    (sg_setup E w direction count addr).st.writeHWAddr = w.st.writeHWAddr ∧
    (sg_setup E w direction count addr).st.descChainLength = chainLen count ∧
    (sg_setup E w direction count addr).user = w.user ∧
    regWrites (sg_setup E w direction count addr).trace = regWrites w.trace ++
      [(CDMA_OFFSET + CDMA_CONTROL_OFFSET, u32 CDMA_CR_SG_EN),
       (PCIE_CTL_OFFSET + AXIBAR2PCIEBAR_0L, u32 (u32 (usize w.st.descChainHWAddr))),
       (PCIE_CTL_OFFSET + AXIBAR2PCIEBAR_0U,
         u32 (u32 (usize w.st.descChainHWAddr / 4294967296)))] ∧
    statusReads (sg_setup E w direction count addr).trace = statusReads w.trace := by
  unfold sg_setup
  have h1 := wrote_writeReg E w (CDMA_OFFSET + CDMA_CONTROL_OFFSET) CDMA_CR_SG_EN hused
  generalize xpdma_writeReg E w (CDMA_OFFSET + CDMA_CONTROL_OFFSET) CDMA_CR_SG_EN = W1
    at h1 ⊢
  rw [create_desc_chain_chainState W1 direction count addr hdir]
  obtain ⟨⟨a1, a2, a3, a4, a5⟩, b1, c1, d1⟩ := h1
  have hu2 : ({ W1 with st := chainState W1.st direction count addr } : World H).st.used =
      true := a1.trans hused
  have hd2 : ({ W1 with st := chainState W1.st direction count addr } :
      World H).st.descChainHWAddr = w.st.descChainHWAddr := a4
  have hr2 : ({ W1 with st := chainState W1.st direction count addr } :
      World H).st.readHWAddr = w.st.readHWAddr := a2
  have hw2 : ({ W1 with st := chainState W1.st direction count addr } :
      World H).st.writeHWAddr = w.st.writeHWAddr := a3
  have hl2 : ({ W1 with st := chainState W1.st direction count addr } :
      World H).st.descChainLength = chainLen count := rfl
  have ht2 : ({ W1 with st := chainState W1.st direction count addr } : World H).trace =
      W1.trace := rfl
  have hs2 : ({ W1 with st := chainState W1.st direction count addr } : World H).user =
      W1.user := rfl
  generalize ({ W1 with st := chainState W1.st direction count addr } : World H) = W2
    at hu2 hd2 hr2 hw2 hl2 ht2 hs2 ⊢
  rw [hd2]
  obtain ⟨⟨e1, e2, e3, e4, e5⟩, f1, g1, k1⟩ := wrote_step E (wrote_step E (wrote_refl W2) hu2
    (PCIE_CTL_OFFSET + AXIBAR2PCIEBAR_0L) (u32 (usize w.st.descChainHWAddr))) hu2
    (PCIE_CTL_OFFSET + AXIBAR2PCIEBAR_0U) (u32 (usize w.st.descChainHWAddr / 4294967296))
  refine ⟨e1.trans hu2, e2.trans hr2, e3.trans hw2, e5.trans hl2, (f1.trans hs2).trans b1,
    ?_, ?_⟩
  · rw [g1, ht2, c1, List.append_assoc]
    rfl
  · rw [k1, ht2, d1]

/-- Steps 4 to 6 of `sg_operation` on every engine: the translation vectors,
the current and the tail descriptor pointer. -/
theorem sg_start_wrote {H : Type} (E : Engine H) (w : World H) (pntr : Nat)
    (hused : w.st.used = true) :
    Wrote w (sg_start E w pntr)
      (vectorWrites (u32 w.st.descChainLength) pntr 0 ++
        [(CDMA_OFFSET + CDMA_CDESC_OFFSET, u32 AXI_PCIE_SG_ADDR),
         (CDMA_OFFSET + CDMA_TDESC_OFFSET,
           u32 (usize (AXI_PCIE_SG_ADDR +
             usize (usize (18446744073709551616 - 1 + 2 * w.st.descChainLength) *
               DESCRIPTOR_SIZE))))]) := by
  unfold sg_start
  have h1 := wrote_step E (wrote_sg_write_vectors E (u32 w.st.descChainLength) w pntr 0 hused)
    hused (CDMA_OFFSET + CDMA_CDESC_OFFSET) AXI_PCIE_SG_ADDR
  have hl : (xpdma_writeReg E (sg_write_vectors E (u32 w.st.descChainLength) w pntr 0)
      (CDMA_OFFSET + CDMA_CDESC_OFFSET) AXI_PCIE_SG_ADDR).st.descChainLength =
      w.st.descChainLength := h1.1.2.2.2.2
  rw [hl]
  have h2 := wrote_step E h1 hused (CDMA_OFFSET + CDMA_TDESC_OFFSET)
    (usize (AXI_PCIE_SG_ADDR +
      usize (usize (18446744073709551616 - 1 + 2 * w.st.descChainLength) * DESCRIPTOR_SIZE)))
  rw [List.append_assoc] at h2
  exact h2

end XPDMA

namespace XPDMA

theorem statusReads_writeReg {H : Type} (E : Engine H) (w : World H) (reg val : Nat) :
    statusReads (xpdma_writeReg E w reg val).trace = statusReads w.trace := by
  unfold xpdma_writeReg
  split
  · exact (quiet_log w Msg.notInitialized).statusReads
  · show statusReads (w.trace ++ [Event.writeReg reg (u32 val)]) = _
    rw [statusReads_append]
    exact List.append_nil _

theorem statusReads_create_desc_chain {H : Type} (w : World H) (direction : Int)
    (size addr : Nat) :
    statusReads (create_desc_chain w direction size addr).2.trace = statusReads w.trace := by
  by_cases h : direction = PCI_DMA_FROMDEVICE ∨ direction = PCI_DMA_TODEVICE
  · rw [create_desc_chain_ok w direction size addr h]
  · push_neg at h
    rw [create_desc_chain_bad w direction size addr h.1 h.2]
    show statusReads (w.trace ++ [Event.printk Msg.chainUnknownDirection]) = _
    rw [statusReads_append]
    exact List.append_nil _

theorem statusReads_sg_setup {H : Type} (E : Engine H) (w : World H) (direction : Int)
    (count addr : Nat) :
    statusReads (sg_setup E w direction count addr).trace = statusReads w.trace := by
  unfold sg_setup
  rw [statusReads_writeReg, statusReads_writeReg, statusReads_create_desc_chain,
    statusReads_writeReg]

/-- The register writes and the status reads of `sg_operation` when the idle
check succeeds and the direction is recognised; `p` is the bus address of the
staging buffer of the direction. -/
theorem sg_operation_run {H : Type} (E : Engine H) (w : World H) (direction : Int)
    (count addr : Nat) (hidle : (xpdma_isIdle E w).1 ≠ 0)
    (hdir : direction = PCI_DMA_FROMDEVICE ∨ direction = PCI_DMA_TODEVICE) :
    ∃ rs : List (Nat × Nat),
      regWrites (sg_operation E w direction count addr).2.trace = regWrites w.trace ++
        ([(CDMA_OFFSET + CDMA_CONTROL_OFFSET, u32 CDMA_CR_SG_EN),
          (PCIE_CTL_OFFSET + AXIBAR2PCIEBAR_0L, u32 (u32 (usize w.st.descChainHWAddr))),
          (PCIE_CTL_OFFSET + AXIBAR2PCIEBAR_0U,
            u32 (u32 (usize w.st.descChainHWAddr / 4294967296)))] ++
        (vectorWrites (u32 (chainLen count))
            (usize (if direction = PCI_DMA_FROMDEVICE then w.st.readHWAddr
              else w.st.writeHWAddr)) 0 ++
          [(CDMA_OFFSET + CDMA_CDESC_OFFSET, u32 AXI_PCIE_SG_ADDR),
           (CDMA_OFFSET + CDMA_TDESC_OFFSET,
             u32 (usize (AXI_PCIE_SG_ADDR +
               usize (usize (18446744073709551616 - 1 + 2 * chainLen count) *
                 DESCRIPTOR_SIZE))))])) ∧
      statusReads (sg_operation E w direction count addr).2.trace =
        statusReads w.trace ++ rs ∧
      rs.length ≤ CDMA_TRANSFER_LOOP ∧
      (∀ r ∈ rs, r.1 = tailIndex (chainLen count)) ∧
      ((sg_operation E w direction count addr).1 = SUCCESS →
        ∃ r ∈ rs, sg_status_class r.2 = SgPoll.complete) ∧
      ((∀ r ∈ rs, sg_status_class r.2 = SgPoll.noneYet) →
        (sg_operation E w direction count addr).1 = CRIT_ERR ∧
        rs.length = CDMA_TRANSFER_LOOP ∧
        Event.printk Msg.sgTimeout ∈ (sg_operation E w direction count addr).2.trace) := by
  have hused := isIdle_used E w hidle
  have hq := quiet_isIdle E w
  obtain ⟨⟨q1, q2, q3, q4, q5⟩, qu, -⟩ := quiet_isIdle E w
  obtain ⟨s1, s2, s3, s4, s5, s6, s7⟩ := sg_setup_wrote E (xpdma_isIdle E w).2 direction count
    addr (q1.trans hused) hdir
  rw [q4, hq.regWrites] at s6
  rw [hq.statusReads] at s7
  rw [q2] at s2
  rw [q3] at s3
  have key : ∀ pntr : Nat,
      pntr = usize (if direction = PCI_DMA_FROMDEVICE then w.st.readHWAddr
        else w.st.writeHWAddr) →
      sg_operation E w direction count addr =
        sg_poll E CDMA_TRANSFER_LOOP
          (sg_start E (sg_setup E (xpdma_isIdle E w).2 direction count addr) pntr) := by
    intro pntr hp
    rw [sg_operation_stages, if_neg hidle, hp]
    rcases hdir with h | h
    · subst h
      simp only [if_true]
      rw [s2]
    · subst h
      simp only [show (PCI_DMA_FROMDEVICE = PCI_DMA_TODEVICE) = False from by decide,
        show (PCI_DMA_TODEVICE = PCI_DMA_FROMDEVICE) = False from by decide, if_false, if_true]
      rw [s3]
  rw [key _ rfl]
  generalize usize (if direction = PCI_DMA_FROMDEVICE then w.st.readHWAddr
    else w.st.writeHWAddr) = pntr
  obtain ⟨t1, t2, t3, t4⟩ := sg_start_wrote E
    (sg_setup E (xpdma_isIdle E w).2 direction count addr) pntr s1
  rw [s4] at t3
  obtain ⟨rs, p1, p2, p3, p4, p5, p6⟩ := sg_poll_spec E CDMA_TRANSFER_LOOP
    (sg_start E (sg_setup E (xpdma_isIdle E w).2 direction count addr) pntr)
  refine ⟨rs, ?_, ?_, p3, ?_, p5, p6⟩
  · rw [p2, t3, s6, List.append_assoc]
  · rw [p1, t4, s7]
  · intro r hr
    rw [p4 r hr, t1.2.2.2.2, s4]

end XPDMA

namespace XPDMA

theorem mem_slots (p n : Nat) (r : Nat × Nat)
    (h : r ∈ (List.range n).flatMap (slotWrites p)) :
    ∃ j, j < n ∧ (r.1 = BRAM_OFFSET + 8 * j + 4 ∨ r.1 = BRAM_OFFSET + 8 * j) := by
  obtain ⟨j, hj, hr⟩ := List.mem_flatMap.mp h
  refine ⟨j, List.mem_range.mp hj, ?_⟩
  simp only [slotWrites, List.mem_cons, List.mem_singleton, List.not_mem_nil, or_false] at hr
  rcases hr with h1 | h1
  · left; rw [h1]
  · right; rw [h1]

theorem tdesc_value_eq (n : Nat) (h1 : 1 ≤ n) (h2 : n ≤ 1023) :
    u32 (usize (AXI_PCIE_SG_ADDR +
      usize (usize (18446744073709551616 - 1 + 2 * n) * DESCRIPTOR_SIZE))) =
    AXI_PCIE_SG_ADDR + 64 * (2 * n - 1) := by
  simp only [u32_eq, usize_eq, AXI_PCIE_SG_ADDR, DESCRIPTOR_SIZE]
  omega

/-- The register writes of `sg_operation` in closed form. -/
theorem sg_operation_writes {H : Type} (E : Engine H) (w : World H) (direction : Int)
    (count addr : Nat) (hidle : (xpdma_isIdle E w).1 ≠ 0)
    (hdir : direction = PCI_DMA_FROMDEVICE ∨ direction = PCI_DMA_TODEVICE) :
    regWrites (sg_operation E w direction count addr).2.trace = regWrites w.trace ++
      ([(CDMA_OFFSET + CDMA_CONTROL_OFFSET, CDMA_CR_SG_EN),
        (PCIE_CTL_OFFSET + AXIBAR2PCIEBAR_0L, w.st.descChainHWAddr % 4294967296),
        (PCIE_CTL_OFFSET + AXIBAR2PCIEBAR_0U,
          w.st.descChainHWAddr / 4294967296 % 4294967296)] ++
      ((List.range (chainLen count)).flatMap
          (slotWrites (if direction = PCI_DMA_FROMDEVICE then w.st.readHWAddr
            else w.st.writeHWAddr)) ++
        [(CDMA_OFFSET + CDMA_CDESC_OFFSET, AXI_PCIE_SG_ADDR),
         (CDMA_OFFSET + CDMA_TDESC_OFFSET,
           u32 (usize (AXI_PCIE_SG_ADDR +
             usize (usize (18446744073709551616 - 1 + 2 * chainLen count) *
               DESCRIPTOR_SIZE))))])) := by
  obtain ⟨rs, h, -⟩ := sg_operation_run E w direction count addr hidle hdir
  have hl := chainLen_le count
  have e1 : u32 CDMA_CR_SG_EN = CDMA_CR_SG_EN := by decide
  have e2 : u32 (u32 (usize w.st.descChainHWAddr)) = w.st.descChainHWAddr % 4294967296 := by
    simp only [u32_eq, usize_eq]
    omega
  have e3 : u32 (u32 (usize w.st.descChainHWAddr / 4294967296)) =
      w.st.descChainHWAddr / 4294967296 % 4294967296 := by
    simp only [u32_eq, usize_eq]
    omega
  have e4 : u32 (chainLen count) = chainLen count := by
    rw [u32_eq]
    omega
  have e5 : u32 AXI_PCIE_SG_ADDR = AXI_PCIE_SG_ADDR := by decide
  rw [e1, e2, e3, e4, e5, vectorWrites_slots _ _ (by omega)] at h
  exact h

/-! ## Claims on the register sequence of `sg_operation` -/

/-- C14: for `sg_operation` on an engine the idle check finds idle, with a
recognised direction and a chain of length `n >= 1`, the register writes are,
in this order: the control register takes `CDMA_CR_SG_EN`; `AXIBAR2PCIEBAR_0L`
and `AXIBAR2PCIEBAR_0U` take the low and the high 32 bits of
`descChainHWAddr`; the `n` slots of the translation vector table; the current
descriptor pointer takes `AXI_PCIE_SG_ADDR`; and last the tail descriptor
pointer takes `AXI_PCIE_SG_ADDR + 64 * (2n - 1)`.  Descriptor `2n - 1` is the
one whose `nextDesc` `create_desc_chain` sets to `AXI_PCIE_SG_ADDR`, and every
status read of the poll that follows is of descriptor `2n - 1`.  The list is
complete: no register is written after the tail pointer. -/
theorem C14_sg_write_sequence {H : Type} (E : Engine H) (w : World H) (direction : Int)
    (count addr : Nat) (hidle : (xpdma_isIdle E w).1 ≠ 0)
    (hdir : direction = PCI_DMA_FROMDEVICE ∨ direction = PCI_DMA_TODEVICE)
    (hn : 1 ≤ chainLen count) :
    regWrites (sg_operation E w direction count addr).2.trace = regWrites w.trace ++
      ([(CDMA_OFFSET + CDMA_CONTROL_OFFSET, CDMA_CR_SG_EN),
        (PCIE_CTL_OFFSET + AXIBAR2PCIEBAR_0L, w.st.descChainHWAddr % 4294967296),
        (PCIE_CTL_OFFSET + AXIBAR2PCIEBAR_0U,
          w.st.descChainHWAddr / 4294967296 % 4294967296)] ++
      ((List.range (chainLen count)).flatMap
          (slotWrites (if direction = PCI_DMA_FROMDEVICE then w.st.readHWAddr
            else w.st.writeHWAddr)) ++
        [(CDMA_OFFSET + CDMA_CDESC_OFFSET, AXI_PCIE_SG_ADDR),
         (CDMA_OFFSET + CDMA_TDESC_OFFSET,
           AXI_PCIE_SG_ADDR + 64 * (2 * chainLen count - 1))])) ∧
    (∀ W : World H,
      ((create_desc_chain W direction count addr).2.st.descChain
        (2 * chainLen count - 1)).nextDesc = AXI_PCIE_SG_ADDR) ∧
    (∃ rs, statusReads (sg_operation E w direction count addr).2.trace =
        statusReads w.trace ++ rs ∧ ∀ r ∈ rs, r.1 = 2 * chainLen count - 1) := by
  have hl := chainLen_le count
  refine ⟨?_, ?_, ?_⟩
  · have h := sg_operation_writes E w direction count addr hidle hdir
    rw [tdesc_value_eq _ hn hl] at h
    exact h
  · intro W
    have h := create_desc_chain_data W direction count addr hdir (chainLen count - 1)
      (by omega)
    rw [show 2 * (chainLen count - 1) + 1 = 2 * chainLen count - 1 from by omega] at h
    rw [h]
    show (if chainLen count - 1 + 1 = chainLen count then AXI_PCIE_SG_ADDR else _) = _
    rw [if_pos (by omega)]
  · obtain ⟨rs, -, h2, -, h4, -⟩ := sg_operation_run E w direction count addr hidle hdir
    refine ⟨rs, h2, ?_⟩
    intro r hr
    rw [h4 r hr, tailIndex_pos _ hn hl]

/-- C14 (witness): on `world0` with an engine whose registers all read 2,
`sg_operation` to the device for `2 * TRANSFER_SIZE + 5` bytes (a chain of
three pairs) writes the control register, the BAR0 pair, three slots, the
current descriptor pointer and the tail descriptor pointer
`AXI_PCIE_SG_ADDR + 64 * 5`. -/
theorem C14_sg_write_sequence_witness :
    (xpdma_isIdle (constEngine 2) world0).1 ≠ 0 ∧
    (PCI_DMA_TODEVICE = PCI_DMA_FROMDEVICE ∨ PCI_DMA_TODEVICE = PCI_DMA_TODEVICE) ∧
    1 ≤ chainLen (2 * TRANSFER_SIZE + 5) ∧
    regWrites (sg_operation (constEngine 2) world0 PCI_DMA_TODEVICE (2 * TRANSFER_SIZE + 5)
        0).2.trace =
      [(0xc000, 8), (0x820c, 0x10800000), (0x8208, 0),
       (4, 0x10400000), (0, 0), (12, 0x10800000), (8, 0), (20, 0x10c00000), (16, 0),
       (0xc008, 0x80800000), (0xc010, 0x80800140)] :=
  ⟨by decide, by decide, by decide,
    (C14_sg_write_sequence (constEngine 2) world0 PCI_DMA_TODEVICE (2 * TRANSFER_SIZE + 5) 0
      (by decide) (by decide) (by decide)).1.trans (by decide)⟩

end XPDMA

namespace XPDMA

/-- C15: for `sg_operation` on an engine the idle check finds idle, with a
recognised direction and chain length `n`, the register writes to the
translation vector table (the offsets below `PCIE_CTL_OFFSET`) are exactly
those of the slots `i = 0 .. n-1`, in this order: for slot `i` the low 32 bits
of `P + i * TRANSFER_SIZE` (a `size_t`) at offset `BRAM_OFFSET + 8i + 4`, then
its high 32 bits at offset `BRAM_OFFSET + 8i`, where `P` is `readHWAddr` from
the device and `writeHWAddr` to the device.  No slot `i >= n` of the table is
written. -/
theorem C15_translation_vectors {H : Type} (E : Engine H) (w : World H) (direction : Int)
    (count addr : Nat) (hidle : (xpdma_isIdle E w).1 ≠ 0)
    (hdir : direction = PCI_DMA_FROMDEVICE ∨ direction = PCI_DMA_TODEVICE) :
    ∃ l : List (Nat × Nat),
      regWrites (sg_operation E w direction count addr).2.trace = regWrites w.trace ++ l ∧
      l.filter (fun r => decide (r.1 < PCIE_CTL_OFFSET)) =
        (List.range (chainLen count)).flatMap
          (slotWrites (if direction = PCI_DMA_FROMDEVICE then w.st.readHWAddr
            else w.st.writeHWAddr)) ∧
      (∀ p i, slotWrites p i =
        [(BRAM_OFFSET + 8 * i + 4,
            (p + TRANSFER_SIZE * i) % 18446744073709551616 % 4294967296),
         (BRAM_OFFSET + 8 * i,
            (p + TRANSFER_SIZE * i) % 18446744073709551616 / 4294967296)]) ∧
      (∀ r ∈ l, ∀ i, chainLen count ≤ i → i < 4096 →
        r.1 ≠ BRAM_OFFSET + 8 * i ∧ r.1 ≠ BRAM_OFFSET + 8 * i + 4) := by
  have hl := chainLen_le count
  have cP : PCIE_CTL_OFFSET = 32768 := rfl
  have cB : BRAM_OFFSET = 0 := rfl
  have c1 : CDMA_OFFSET + CDMA_CONTROL_OFFSET = 49152 := rfl
  have c2 : PCIE_CTL_OFFSET + AXIBAR2PCIEBAR_0L = 33292 := rfl
  have c3 : PCIE_CTL_OFFSET + AXIBAR2PCIEBAR_0U = 33288 := rfl
  have c4 : CDMA_OFFSET + CDMA_CDESC_OFFSET = 49160 := rfl
  have c5 : CDMA_OFFSET + CDMA_TDESC_OFFSET = 49168 := rfl
  refine ⟨_, sg_operation_writes E w direction count addr hidle hdir, ?_, fun _ _ => rfl, ?_⟩
  · rw [List.filter_append, List.filter_append]
    have hpre : ∀ a b c : Nat,
        List.filter (fun r : Nat × Nat => decide (r.1 < PCIE_CTL_OFFSET))
          [(CDMA_OFFSET + CDMA_CONTROL_OFFSET, a), (PCIE_CTL_OFFSET + AXIBAR2PCIEBAR_0L, b),
           (PCIE_CTL_OFFSET + AXIBAR2PCIEBAR_0U, c)] = [] := by
      intro a b c
      rw [c1, c2, c3, cP]
      rfl
    have hpost : ∀ a b : Nat,
        List.filter (fun r : Nat × Nat => decide (r.1 < PCIE_CTL_OFFSET))
          [(CDMA_OFFSET + CDMA_CDESC_OFFSET, a), (CDMA_OFFSET + CDMA_TDESC_OFFSET, b)] = [] := by
      intro a b
      rw [c4, c5, cP]
      rfl
    rw [hpre, hpost, List.nil_append, List.append_nil]
    apply List.filter_eq_self.mpr
    intro r hr
    obtain ⟨j, hj, h⟩ := mem_slots _ _ r hr
    apply decide_eq_true
    rcases h with h | h <;> omega
  · intro r hr i hi1 hi2
    rcases List.mem_append.mp hr with h | h
    · simp only [List.mem_cons, List.mem_singleton, List.not_mem_nil, or_false] at h
      rcases h with h | h | h <;> rw [h] <;> constructor <;> show _ ≠ _ <;> omega
    · rcases List.mem_append.mp h with h | h
      · obtain ⟨j, hj, h⟩ := mem_slots _ _ r h
        rcases h with h | h <;> constructor <;> omega
      · simp only [List.mem_cons, List.mem_singleton, List.not_mem_nil, or_false] at h
        rcases h with h | h <;> rw [h] <;> constructor <;> show _ ≠ _ <;> omega

/-- C15 (witness): on `world0` with an engine whose registers all read 2,
`sg_operation` from the device for `TRANSFER_SIZE + 1` bytes (a chain of two
pairs) writes the table slots 0 and 1 with `readHWAddr` and
`readHWAddr + TRANSFER_SIZE`, and no other table offset. -/
theorem C15_translation_vectors_witness :
    (xpdma_isIdle (constEngine 2) world0).1 ≠ 0 ∧
    (PCI_DMA_FROMDEVICE = PCI_DMA_FROMDEVICE ∨ PCI_DMA_FROMDEVICE = PCI_DMA_TODEVICE) ∧
    ∃ l : List (Nat × Nat),
      regWrites (sg_operation (constEngine 2) world0 PCI_DMA_FROMDEVICE (TRANSFER_SIZE + 1)
        0).2.trace = regWrites world0.trace ++ l ∧
      l.filter (fun r => decide (r.1 < PCIE_CTL_OFFSET)) =
        [(4, 0x10000000), (0, 0), (12, 0x10400000), (8, 0)] := by
  refine ⟨by decide, by decide, ?_⟩
  obtain ⟨l, h1, h2, -⟩ := C15_translation_vectors (constEngine 2) world0 PCI_DMA_FROMDEVICE
    (TRANSFER_SIZE + 1) 0 (by decide) (by decide)
  exact ⟨l, h1, h2.trans (by decide)⟩

end XPDMA

namespace XPDMA

/-! ## Termination of the completion poll -/

theorem sg_operation_unknown_direction {H : Type} (E : Engine H) (w : World H)
    (direction : Int) (count addr : Nat) (hidle : (xpdma_isIdle E w).1 ≠ 0)
    (h1 : direction ≠ PCI_DMA_FROMDEVICE) (h2 : direction ≠ PCI_DMA_TODEVICE) :
    sg_operation E w direction count addr =
      (CRIT_ERR, (sg_setup E (xpdma_isIdle E w).2 direction count addr).log
        (Event.printk Msg.unknownDirection)) := by
  rw [sg_operation_stages, if_neg hidle, if_neg (fun h => h1 h.symm),
    if_neg (fun h => h2 h.symm)]

/-- C19: the completion poll of `sg_operation` is bounded: on every engine and
for all arguments, `sg_operation` returns after at most `CDMA_TRANSFER_LOOP`
reads of a descriptor status word.  It returns `SUCCESS` only if one of these
reads shows bit 31 (complete) with bits 28 to 30 (the error bits) clear.  If
every read shows bits 28 to 31 clear it returns `CRIT_ERR`; when the poll was
reached (idle engine, recognised direction) that is after exactly
`CDMA_TRANSFER_LOOP` reads, with the timeout line logged. -/
theorem C19_poll_budget {H : Type} (E : Engine H) (w : World H) (direction : Int)
    (count addr : Nat) :
    ∃ rs : List (Nat × Nat),
      statusReads (sg_operation E w direction count addr).2.trace =
        statusReads w.trace ++ rs ∧
      rs.length ≤ CDMA_TRANSFER_LOOP ∧
      ((sg_operation E w direction count addr).1 = SUCCESS →
        ∃ r ∈ rs, r.2.testBit 31 = true ∧ r.2.testBit 30 = false ∧
          r.2.testBit 29 = false ∧ r.2.testBit 28 = false) ∧
      ((∀ r ∈ rs, r.2.testBit 31 = false ∧ r.2.testBit 30 = false ∧
          r.2.testBit 29 = false ∧ r.2.testBit 28 = false) →
        (sg_operation E w direction count addr).1 = CRIT_ERR) ∧
      ((xpdma_isIdle E w).1 ≠ 0 →
        (direction = PCI_DMA_FROMDEVICE ∨ direction = PCI_DMA_TODEVICE) →
        (∀ r ∈ rs, r.2.testBit 31 = false ∧ r.2.testBit 30 = false ∧
          r.2.testBit 29 = false ∧ r.2.testBit 28 = false) →
        rs.length = CDMA_TRANSFER_LOOP ∧
        Event.printk Msg.sgTimeout ∈ (sg_operation E w direction count addr).2.trace) := by
  have hne : CRIT_ERR ≠ SUCCESS := by decide
  by_cases hidle : (xpdma_isIdle E w).1 = 0
  · obtain ⟨a1, a2, -⟩ := sg_operation_not_idle E w direction count addr hidle
    refine ⟨[], by rw [a2.statusReads, List.append_nil], Nat.zero_le _, ?_, fun _ => a1, ?_⟩
    · intro h
      rw [a1] at h
      exact absurd h hne
    · intro h
      exact absurd hidle h
  · by_cases hdir : direction = PCI_DMA_FROMDEVICE ∨ direction = PCI_DMA_TODEVICE
    · obtain ⟨rs, -, b2, b3, -, b5, b6⟩ := sg_operation_run E w direction count addr hidle hdir
      have hall : (∀ r ∈ rs, r.2.testBit 31 = false ∧ r.2.testBit 30 = false ∧
          r.2.testBit 29 = false ∧ r.2.testBit 28 = false) →
          ∀ r ∈ rs, sg_status_class r.2 = SgPoll.noneYet := by
        intro h r hr
        obtain ⟨g31, g30, g29, g28⟩ := h r hr
        exact (sg_status_class_spec r.2).2.2.2.2.mpr ⟨g30, g29, g28, g31⟩
      refine ⟨rs, b2, b3, ?_, fun h => (b6 (hall h)).1, fun _ _ h => (b6 (hall h)).2⟩
      intro h
      obtain ⟨r, hr, hc⟩ := b5 h
      obtain ⟨g30, g29, g28, g31⟩ := (sg_status_class_spec r.2).2.2.2.1.mp hc
      exact ⟨r, hr, g31, g30, g29, g28⟩
    · push_neg at hdir
      have hres := sg_operation_unknown_direction E w direction count addr hidle hdir.1 hdir.2
      refine ⟨[], ?_, Nat.zero_le _, ?_, ?_, ?_⟩
      · rw [hres]
        show statusReads ((sg_setup E (xpdma_isIdle E w).2 direction count addr).trace ++
          [Event.printk Msg.unknownDirection]) = _
        rw [statusReads_append, statusReads_sg_setup, (quiet_isIdle E w).statusReads]
        rfl
      · intro h
        rw [hres] at h
        exact absurd h hne
      · intro _
        rw [hres]
      · intro _ h
        rcases h with h | h
        · exact absurd h hdir.1
        · exact absurd h hdir.2

end XPDMA

namespace XPDMA

/-! ## Reset -/

/-- A register read on an initialised slot: a 32 bit value, and one read event. -/
theorem readReg_used {H : Type} (E : Engine H) (w : World H) (reg : Nat)
    (hused : w.st.used = true) :
    (xpdma_readReg E w reg).1 < 4294967296 ∧
    (xpdma_readReg E w reg).2.trace =
      w.trace ++ [Event.readReg reg (xpdma_readReg E w reg).1] ∧
    (xpdma_readReg E w reg).2.st.used = true := by
  unfold xpdma_readReg
  rw [if_neg (by simp [hused])]
  exact ⟨Nat.mod_lt _ (by decide), rfl, hused⟩

theorem reset_poll_succ {H : Type} (E : Engine H) (n tmp : Nat) (w : World H) :
    reset_poll E (n + 1) tmp w =
      if tmp = 0 then (n + 1, tmp, w)
      else
        reset_poll E n
          ((xpdma_readReg E w (CDMA_OFFSET + CDMA_CONTROL_OFFSET)).1 &&& CDMA_CR_RESET_MASK)
          (xpdma_readReg E w (CDMA_OFFSET + CDMA_CONTROL_OFFSET)).2 := rfl

end XPDMA

namespace XPDMA

/-- The timeout report of `xpdma_reset`, in either order of its two register
reads: no register write, and the timeout line. -/
theorem reset_report_spec {H : Type} (E : Engine H) (statusFirst : Bool) (w : World H) :
    ∃ t : List Event,
      (reset_report E statusFirst w).trace = w.trace ++ t ∧
      regWrites t = [] ∧ Event.printk Msg.resetTimeout ∈ t := by
  have key : ∀ r1 r2 : Nat, ∃ t : List Event,
      ((xpdma_readReg E (xpdma_readReg E w r1).2 r2).2.log
        (Event.printk Msg.resetTimeout)).trace = w.trace ++ t ∧
      regWrites t = [] ∧ Event.printk Msg.resetTimeout ∈ t := by
    intro r1 r2
    obtain ⟨-, -, t, ht, hp⟩ :=
      quiet_trans (quiet_readReg E w r1) (quiet_readReg E (xpdma_readReg E w r1).2 r2)
    refine ⟨t ++ [Event.printk Msg.resetTimeout], ?_, ?_,
      List.mem_append_right _ (List.mem_singleton.mpr rfl)⟩
    · show _ ++ [Event.printk Msg.resetTimeout] = _
      rw [ht, List.append_assoc]
    · rw [regWrites_append, regWrites_passive t hp]
      rfl
  unfold reset_report
  cases statusFirst with
  | true => exact key _ _
  | false => exact key _ _

/-- The function `xpdma_reset` on an initialised slot, by the outcome of the
wait. -/
theorem xpdma_reset_used {H : Type} (E : Engine H) (statusFirst : Bool) (w : World H)
    (hused : w.st.used = true) :
    xpdma_reset E statusFirst w =
      if (reset_wait E (reset_arm E w)).1 = 0 then
        (CRIT_ERR, reset_report E statusFirst (reset_wait E (reset_arm E w)).2.2)
      else
        (SUCCESS, xpdma_writeReg E (reset_wait E (reset_arm E w)).2.2
          (CDMA_OFFSET + CDMA_CONTROL_OFFSET)
          ((reset_wait E (reset_arm E w)).2.1 ||| CDMA_CR_SG_EN)) := by
  unfold xpdma_reset
  rw [if_neg (by simp [hused])]

end XPDMA

namespace XPDMA

/-! ## The reset of the engine -/

theorem logs_logs {H : Type} (w : World H) (a b : List Event) :
    (w.logs a).logs b = w.logs (a ++ b) := by
  show (⟨w.st, w.hw, w.user, (w.trace ++ a) ++ b⟩ : World H) = ⟨w.st, w.hw, w.user, _⟩
  rw [List.append_assoc]

theorem readReg_const (v : Nat) (w : World Unit) (reg : Nat) (hused : w.st.used = true) :
    (xpdma_readReg (constEngine v) w reg).1 = u32 v ∧
    (xpdma_readReg (constEngine v) w reg).2 = w.logs [Event.readReg reg (u32 v)] := by
  unfold xpdma_readReg
  rw [if_neg (by simp [hused])]
  exact ⟨rfl, rfl⟩

theorem writeReg_const (v : Nat) (w : World Unit) (reg val : Nat) (hused : w.st.used = true) :
    xpdma_writeReg (constEngine v) w reg val = w.logs [Event.writeReg reg (u32 val)] := by
  unfold xpdma_writeReg
  rw [if_neg (by simp [hused])]
  rfl

/-- The loop of `xpdma_reset` on an engine whose control register always reads
4 (reset bit set): all `n` reads are made. -/
theorem reset_poll_stuck (n : Nat) :
    ∀ w : World Unit, w.st.used = true →
      reset_poll (constEngine 4) n 4 w =
        (0, 4, w.logs (List.replicate n (Event.readReg (CDMA_OFFSET + CDMA_CONTROL_OFFSET) 4))) := by
  induction n with
  | zero =>
    intro w _
    show (0, 4, w) = (0, 4, (⟨w.st, w.hw, w.user, w.trace ++ []⟩ : World Unit))
    rw [List.append_nil]
  | succ n ih =>
    intro w hused
    obtain ⟨r1, r2⟩ := readReg_const 4 w (CDMA_OFFSET + CDMA_CONTROL_OFFSET) hused
    have e : u32 4 &&& CDMA_CR_RESET_MASK = 4 := by decide
    have e2 : u32 4 = 4 := rfl
    rw [reset_poll_succ, if_neg (by decide), r1, r2, e, e2,
      ih (w.logs [Event.readReg (CDMA_OFFSET + CDMA_CONTROL_OFFSET) 4]) hused, logs_logs,
      List.replicate_succ]
    rfl

/-- The reset on an engine whose control register always reads 4 (reset bit
set): the loop makes all its `CDMA_RESET_LOOP` reads after the read before it,
and the reset times out. -/
theorem xpdma_reset_stuck (statusFirst : Bool) (w : World Unit) (hused : w.st.used = true) :
    (xpdma_reset (constEngine 4) statusFirst w).1 = CRIT_ERR ∧
    ∃ tail : List Event,
      (xpdma_reset (constEngine 4) statusFirst w).2.trace = w.trace ++
        ([Event.readReg (CDMA_OFFSET + CDMA_CONTROL_OFFSET) 4,
            Event.writeReg (CDMA_OFFSET + CDMA_CONTROL_OFFSET) 4] ++
          ([Event.readReg (CDMA_OFFSET + CDMA_CONTROL_OFFSET) 4] ++
            List.replicate CDMA_RESET_LOOP
              (Event.readReg (CDMA_OFFSET + CDMA_CONTROL_OFFSET) 4))) ++ tail ∧
      regWrites tail = [] ∧ Event.printk Msg.resetTimeout ∈ tail := by
  have e2 : u32 4 = 4 := rfl
  have e3 : 4 &&& CDMA_CR_RESET_MASK = 4 := by decide
  have e4 : u32 (4 ||| CDMA_CR_RESET_MASK) = 4 := by decide
  have hrd : ∀ (x : World Unit) (reg : Nat), x.st.used = true →
      (xpdma_readReg (constEngine 4) x reg).1 = 4 ∧
      (xpdma_readReg (constEngine 4) x reg).2 = x.logs [Event.readReg reg 4] :=
    fun x reg hx => readReg_const 4 x reg hx
  have hu : ∀ t : List Event, (w.logs t).st.used = true := fun _ => hused
  have harm : reset_arm (constEngine 4) w =
      w.logs [Event.readReg (CDMA_OFFSET + CDMA_CONTROL_OFFSET) 4,
        Event.writeReg (CDMA_OFFSET + CDMA_CONTROL_OFFSET) 4] := by
    unfold reset_arm
    rw [(hrd w _ hused).1, (hrd w _ hused).2, writeReg_const 4 (w.logs _) _ _ (hu _), e4,
      logs_logs]
    rfl
  have hwait : reset_wait (constEngine 4) (reset_arm (constEngine 4) w) =
      (0, 4, w.logs
        ([Event.readReg (CDMA_OFFSET + CDMA_CONTROL_OFFSET) 4,
            Event.writeReg (CDMA_OFFSET + CDMA_CONTROL_OFFSET) 4] ++
          ([Event.readReg (CDMA_OFFSET + CDMA_CONTROL_OFFSET) 4] ++
            List.replicate CDMA_RESET_LOOP
              (Event.readReg (CDMA_OFFSET + CDMA_CONTROL_OFFSET) 4)))) := by
    unfold reset_wait
    generalize CDMA_RESET_LOOP = N
    rw [harm, (hrd (w.logs _) _ (hu _)).1, (hrd (w.logs _) _ (hu _)).2, e3, logs_logs,
      reset_poll_stuck N (w.logs _) (hu _), logs_logs, List.append_assoc]
  rw [xpdma_reset_used _ statusFirst w hused, hwait, if_pos rfl]
  obtain ⟨t, t1, t2, t3⟩ := reset_report_spec (constEngine 4) statusFirst
    (w.logs ([Event.readReg (CDMA_OFFSET + CDMA_CONTROL_OFFSET) 4,
        Event.writeReg (CDMA_OFFSET + CDMA_CONTROL_OFFSET) 4] ++
      ([Event.readReg (CDMA_OFFSET + CDMA_CONTROL_OFFSET) 4] ++
        List.replicate CDMA_RESET_LOOP
          (Event.readReg (CDMA_OFFSET + CDMA_CONTROL_OFFSET) 4))))
  exact ⟨rfl, t, t1, t2, t3⟩

end XPDMA

namespace XPDMA

/-! ## A send of one chunk -/

theorem markDone_control (m : DmaMem) (k : Nat) (d : sg_desc_t) :
    ((markDone m k d).descChain k).control = d.control := by
  simp only [markDone]
  rw [Function.update_same]

/-- One chunk to the device in scatter gather mode on the simulated engine:
the operation succeeds on a chain of one pair, whose data descriptor carries
`count` bytes and is marked complete. -/
theorem sg_operation_to_device_chain (w : World Cdma) (hs : SlotOk w.st) (count addr : Nat)
    (h1 : 1 ≤ count) (h2 : count ≤ BUF_SIZE) (hfit : addr + count ≤ AXI_PCIE_DM_ADDR) :
    (sg_operation faithfulEngine w PCI_DMA_TODEVICE count addr).1 = SUCCESS ∧
    (sg_operation faithfulEngine w PCI_DMA_TODEVICE count addr).2.st.descChainLength = 1 ∧
    ((sg_operation faithfulEngine w PCI_DMA_TODEVICE count addr).2.st.descChain 1).control =
      count ∧
    ((sg_operation faithfulEngine w PCI_DMA_TODEVICE count addr).2.st.descChain 0).control =
      ADDR_BTT ∧
    ((sg_operation faithfulEngine w PCI_DMA_TODEVICE count addr).2.st.descChain 1).status =
      SG_DESC_COMPLETE := by
  obtain ⟨hused, hdc, hrd, hwr, hdisj⟩ := hs
  have cDM : AXI_PCIE_DM_ADDR = 2147483648 := rfl
  have hdir : PCI_DMA_TODEVICE = PCI_DMA_FROMDEVICE ∨ PCI_DMA_TODEVICE = PCI_DMA_TODEVICE :=
    Or.inr rfl
  rw [sg_operation_stages, isIdle_faithful w hused]
  have hwi : ({ w with trace := w.trace ++
      [Event.readReg (CDMA_OFFSET + CDMA_STATUS_OFFSET) 2] } : World Cdma).st = w.st := rfl
  have hhi : ({ w with trace := w.trace ++
      [Event.readReg (CDMA_OFFSET + CDMA_STATUS_OFFSET) 2] } : World Cdma).hw = w.hw := rfl
  have hui : ({ w with trace := w.trace ++
      [Event.readReg (CDMA_OFFSET + CDMA_STATUS_OFFSET) 2] } : World Cdma).user = w.user := rfl
  generalize ({ w with trace := w.trace ++
      [Event.readReg (CDMA_OFFSET + CDMA_STATUS_OFFSET) 2] } : World Cdma) = wi at hwi hhi hui ⊢
  obtain ⟨s1, g1, u1⟩ := sg_setup_faithful wi (by rw [hwi]; exact hused) PCI_DMA_TODEVICE
    count addr hdir
  rw [hwi] at s1
  rw [hwi, hhi] at g1
  rw [hui] at u1
  generalize sg_setup faithfulEngine wi PCI_DMA_TODEVICE count addr = W1 at s1 g1 u1 ⊢
  obtain ⟨a0, b0, c0, d0⟩ := chainState_desc0 w.st PCI_DMA_TODEVICE count addr hdir h1 h2
  obtain ⟨a1, b1, c1⟩ := chainState_desc1 w.st PCI_DMA_TODEVICE count addr hdir h1 h2
  rw [if_neg (by decide)] at a1 b1
  have hlen : W1.st.descChainLength = 1 := by
    rw [s1]
    exact chainLen_one count h1 h2
  have hwr1 : W1.st.writeHWAddr = w.st.writeHWAddr := by rw [s1]; rfl
  have hp : usize W1.st.writeHWAddr = w.st.writeHWAddr := by
    rw [hwr1, usize_eq]
    omega
  simp only [show ((2 : Nat) = 0) = False from by decide, if_false,
    show (PCI_DMA_FROMDEVICE = PCI_DMA_TODEVICE) = False from by decide, if_true, hp]
  obtain ⟨s2, g2, u2⟩ := sg_start_faithful W1 (by rw [s1]; exact hused) hlen w.st.writeHWAddr
    (by rw [g1]; exact regWord_setupRegs_control _ _)
    (by rw [g1, s1]; exact bar0_setupRegs _ _ _ hdc)
    (by rw [s1]; exact a0) (by rw [s1]; exact b0) (by rw [s1]; exact c0) (by rw [s1]; exact d0)
  have hbuf : (W1.st.dma).writeBuffer = w.st.writeBuffer := by rw [s1]; rfl
  have hex := execDesc_to_ddr W1.st.addrs
    (regsAfter (startRegs W1.hw.regs w.st.writeHWAddr) 8) W1.hw.ddr
    (markDone W1.st.dma 0 (W1.st.descChain 0)) 1 addr count
    (by rw [markDone_descChain_ne _ _ _ _ (by decide)]
        show (W1.st.descChain 1).srcAddr = _
        rw [s1]; exact a1)
    (by rw [markDone_descChain_ne _ _ _ _ (by decide)]
        show (W1.st.descChain 1).destAddr = _
        rw [s1, b1]
        show u32 (0 + u32 addr) = addr
        simp only [u32_eq]; omega)
    (by rw [markDone_descChain_ne _ _ _ _ (by decide)]
        show (W1.st.descChain 1).control = _
        rw [s1]; exact c1)
    (by rw [bar1_startRegs _ _ _ hwr]; show _ = W1.st.writeHWAddr; rw [hwr1])
    (by show BUF_SIZE + W1.st.writeHWAddr ≤ W1.st.readHWAddr ∨
          BUF_SIZE + W1.st.readHWAddr ≤ W1.st.writeHWAddr
        rw [s1]; exact hdisj)
    h2 hfit
  rw [hex] at s2 g2
  generalize sg_start faithfulEngine W1 w.st.writeHWAddr = W2 at s2 g2 u2 ⊢
  obtain ⟨p1, p2, -, -⟩ := sg_poll_faithful W2 (by rw [s2]; exact hlen)
    (by rw [s2]; exact markDone_status _ _ _)
  rw [p2, s2]
  refine ⟨p1, hlen, ?_, ?_, ?_⟩
  · show ((markDone (markDone W1.st.dma 0 (W1.st.descChain 0)) 1
      ((markDone W1.st.dma 0 (W1.st.descChain 0)).descChain 1)).descChain 1).control = count
    rw [markDone_control, markDone_descChain_ne _ _ _ _ (by decide)]
    show (W1.st.descChain 1).control = count
    rw [s1]; exact c1
  · show ((markDone (markDone W1.st.dma 0 (W1.st.descChain 0)) 1
      ((markDone W1.st.dma 0 (W1.st.descChain 0)).descChain 1)).descChain 0).control = ADDR_BTT
    rw [markDone_descChain_ne _ _ _ _ (by decide), markDone_control, s1]
    exact c0
  · show ((markDone (markDone W1.st.dma 0 (W1.st.descChain 0)) 1
      ((markDone W1.st.dma 0 (W1.st.descChain 0)).descChain 1)).descChain 1).status =
        SG_DESC_COMPLETE
    exact markDone_status _ _ _

end XPDMA

namespace XPDMA

/-- The loop of `dma_block` takes one iteration for a count of 1 to `BUF_SIZE`
bytes. -/
theorem dma_block_loop_one {H : Type} (E : Engine H) (mode direction : Int) (fuel : Nat)
    (w w2 : World H) (curData unsended curAddr : Nat)
    (h1 : 1 ≤ unsended) (h2 : unsended ≤ BUF_SIZE)
    (hb : dma_block_body E mode direction w curData unsended curAddr = Except.ok w2) :
    dma_block_loop E mode direction (fuel + 1) w curData unsended curAddr = (SUCCESS, w2) := by
  have cB : BUF_SIZE = 4194304 := rfl
  have e1 : u32 (if unsended < BUF_SIZE then unsended else BUF_SIZE) = unsended := by
    rw [u32_eq]
    split <;> omega
  have e2 : usize (18446744073709551616 + unsended - unsended) = 0 := by
    rw [usize_eq]
    omega
  rw [dma_block_loop_succ, if_neg (by omega), e1, hb]
  simp only [e2]
  rw [dma_block_loop_done]

/-- One iteration of the loop of `dma_block` to the device in scatter gather
mode, with an accessible caller buffer: the copy, then `sg_operation`. -/
theorem sg_send_body_eq {H : Type} (E : Engine H) (w : World H) (curData btt curAddr : Nat)
    (hcopy : curData + btt ≤ w.user.limit) :
    dma_block_body E DMA_SG_MODE PCI_DMA_TODEVICE w curData btt curAddr =
      Except.ok (sg_operation E ((copy_from_user w curData btt).2.log
        (Event.engineCall DMA_SG_MODE PCI_DMA_TODEVICE btt curAddr))
        PCI_DMA_TODEVICE btt curAddr).2 := by
  have hne : ¬ (PCI_DMA_FROMDEVICE = PCI_DMA_TODEVICE) := by decide
  have heng : ∀ W : World H,
      dma_block_engine E DMA_SG_MODE PCI_DMA_TODEVICE W btt curAddr =
        some (sg_operation E W PCI_DMA_TODEVICE btt curAddr).2 := fun _ => if_pos rfl
  unfold dma_block_body
  simp only [if_true, copy_from_user_ok w curData btt hcopy, ne_eq, not_true_eq_false,
    if_false, heng, hne]

/-- Every engine invocation of `dma_block` carries 1 to `BUF_SIZE` bytes, a
count for which `create_desc_chain` builds a chain of one pair. -/
theorem dma_block_calls_one_pair {H : Type} (E : Engine H) (w : World H) (mode direction : Int)
    (data C a : Nat) (hmode : mode = DMA_SG_MODE ∨ mode = DMA_SIMPLE_MODE)
    (hC : C < 18446744073709551616) (ha : a < 4294967296) (hal : a % 4 = 0)
    (hcopy : data + C ≤ w.user.limit) :
    ∃ L : List (Int × Int × Nat × Nat),
      engineCalls (dma_block E w mode direction data C a).2.trace = engineCalls w.trace ++ L ∧
      ∀ c ∈ L, 1 ≤ c.2.2.1 ∧ c.2.2.1 ≤ BUF_SIZE ∧ chainLen c.2.2.1 = 1 := by
  have cB : BUF_SIZE = 4194304 := rfl
  rw [dma_block_aligned E w mode direction data C a hal]
  have hCu : usize C = C := by simp only [usize_eq]; omega
  have hau : u32 a = a := by simp only [u32_eq]; omega
  rw [hCu, hau]
  obtain ⟨-, h2, -⟩ := dma_block_loop_spec E mode direction hmode C w data C a
    (Nat.le_refl C) hC ha (fun _ => hcopy)
  refine ⟨_, h2, ?_⟩
  intro c hc
  obtain ⟨i, hi, rfl⟩ := List.mem_map.mp hc
  have hi2 := List.mem_range.mp hi
  have hb : 1 ≤ min (C - i * BUF_SIZE) BUF_SIZE ∧ min (C - i * BUF_SIZE) BUF_SIZE ≤ BUF_SIZE := by
    rw [cB] at hi2 ⊢
    omega
  exact ⟨hb.1, hb.2, chainLen_one _ hb.1 hb.2⟩

end XPDMA

namespace XPDMA

/-- The function `xpdma_send` on the simulated engine for one chunk at device
address 0. -/
theorem xpdma_send_one (w : World Cdma) (data count : Nat) (hused : w.st.used = true)
    (h1 : 1 ≤ count) (h2 : count ≤ BUF_SIZE) (hdata : data + count ≤ w.user.limit) :
    xpdma_send faithfulEngine w data count 0 =
      (SUCCESS, (sg_operation faithfulEngine ((copy_from_user w data count).2.log
        (Event.engineCall DMA_SG_MODE PCI_DMA_TODEVICE count 0))
        PCI_DMA_TODEVICE count 0).2) := by
  have cB : BUF_SIZE = 4194304 := rfl
  have e1 : usize count = count := by rw [usize_eq]; omega
  have hloop := dma_block_loop_one faithfulEngine DMA_SG_MODE PCI_DMA_TODEVICE (count - 1) w _
    data count 0 h1 h2 (sg_send_body_eq faithfulEngine w data count 0 hdata)
  rw [show count - 1 + 1 = count from by omega] at hloop
  have hblock : dma_block faithfulEngine w DMA_SG_MODE PCI_DMA_TODEVICE data count 0 =
      (SUCCESS, (sg_operation faithfulEngine ((copy_from_user w data count).2.log
        (Event.engineCall DMA_SG_MODE PCI_DMA_TODEVICE count 0))
        PCI_DMA_TODEVICE count 0).2) := by
    rw [dma_block_aligned _ _ _ _ _ _ _ (by decide), e1]
    exact hloop
  simp only [xpdma_send, hused, Bool.not_true, Bool.false_eq_true, if_false, hblock]

/-! ## The scenario of a send of one chunk -/

/-- C11: on the simulated engine (always idle, the chain executed and marked
complete), for an initialised slot with disjoint staging buffers, an
accessible caller buffer and every `count` with `1 <= count <= BUF_SIZE`,
`xpdma_send (data, count, addr = 0)` returns `SUCCESS` and makes exactly one
engine invocation, `sg_operation` for `count` bytes at device address 0, which
itself returns `SUCCESS`; afterwards `descChainLength = 1`, descriptor 0 is the
address translation descriptor (control `ADDR_BTT`) and descriptor 1 the data
descriptor with control `count`.  On every engine, every engine invocation of
`dma_block` in scatter gather mode (accessible caller buffer, 4-aligned
address) carries 1 to `BUF_SIZE` bytes, for which `create_desc_chain` sets
`descChainLength = 1` on every slot. -/
theorem C11_single_chunk_send (w : World Cdma) (data count : Nat) (hs : SlotOk w.st)
    (h1 : 1 ≤ count) (h2 : count ≤ BUF_SIZE) (hdata : data + count ≤ w.user.limit) :
    (xpdma_send faithfulEngine w data count 0).1 = SUCCESS ∧
    engineCalls (xpdma_send faithfulEngine w data count 0).2.trace =
      engineCalls w.trace ++ [(DMA_SG_MODE, PCI_DMA_TODEVICE, count, 0)] ∧
    (sg_operation faithfulEngine ((copy_from_user w data count).2.log
      (Event.engineCall DMA_SG_MODE PCI_DMA_TODEVICE count 0))
      PCI_DMA_TODEVICE count 0).1 = SUCCESS ∧
    (xpdma_send faithfulEngine w data count 0).2.st.descChainLength = 1 ∧
    ((xpdma_send faithfulEngine w data count 0).2.st.descChain 0).control = ADDR_BTT ∧
    ((xpdma_send faithfulEngine w data count 0).2.st.descChain 1).control = count ∧
    (∀ (H : Type) (E : Engine H) (v : World H) (direction : Int) (p C a : Nat),
      C < 18446744073709551616 → a < 4294967296 → a % 4 = 0 → p + C ≤ v.user.limit →
      ∃ L : List (Int × Int × Nat × Nat),
        engineCalls (dma_block E v DMA_SG_MODE direction p C a).2.trace =
          engineCalls v.trace ++ L ∧
        ∀ c ∈ L, 1 ≤ c.2.2.1 ∧ c.2.2.1 ≤ BUF_SIZE ∧
          ∀ W : World H, (direction = PCI_DMA_FROMDEVICE ∨ direction = PCI_DMA_TODEVICE) →
            (create_desc_chain W direction c.2.2.1 c.2.2.2).2.st.descChainLength = 1) := by
  have cB : BUF_SIZE = 4194304 := rfl
  have cDM : AXI_PCIE_DM_ADDR = 2147483648 := rfl
  have hs1 : SlotOk ((copy_from_user w data count).2.log
      (Event.engineCall DMA_SG_MODE PCI_DMA_TODEVICE count 0)).st :=
    slotOk_of w.st _ rfl rfl hs
  obtain ⟨c1, c2, c3, c4, -⟩ := sg_operation_to_device_chain _ hs1 count 0 h1 h2 (by omega)
  rw [xpdma_send_one w data count hs.1 h1 h2 hdata]
  refine ⟨rfl, ?_, c1, c2, c4, c3, ?_⟩
  · show engineCalls (sg_operation faithfulEngine _ PCI_DMA_TODEVICE count 0).2.trace = _
    rw [(opStep_sg_operation faithfulEngine _ PCI_DMA_TODEVICE count 0).engineCalls]
    show engineCalls (w.trace ++ [Event.copy_from_user data count] ++
      [Event.engineCall DMA_SG_MODE PCI_DMA_TODEVICE count 0]) = _
    rw [engineCalls_append, engineCalls_append]
    show engineCalls w.trace ++ [] ++ [(DMA_SG_MODE, PCI_DMA_TODEVICE, count, 0)] = _
    rw [List.append_nil]
  · intro H E v direction p C a hC ha hal hcopy
    obtain ⟨L, hL1, hL2⟩ := dma_block_calls_one_pair E v DMA_SG_MODE direction p C a
      (Or.inl rfl) hC ha hal hcopy
    refine ⟨L, hL1, ?_⟩
    intro c hc
    obtain ⟨g1, g2, g3⟩ := hL2 c hc
    refine ⟨g1, g2, ?_⟩
    intro W hdir
    rw [create_desc_chain_ok W direction _ _ hdir]
    exact g3

/-- C11 (witness): on `world1`, a send of 1024 bytes from user address 0 to
device address 0 makes one engine invocation and leaves a chain of one pair
whose data descriptor carries 1024 bytes. -/
theorem C11_single_chunk_send_witness :
    SlotOk world1.st ∧ 1 ≤ 1024 ∧ 1024 ≤ BUF_SIZE ∧ 0 + 1024 ≤ world1.user.limit ∧
    (xpdma_send faithfulEngine world1 0 1024 0).1 = SUCCESS ∧
    engineCalls (xpdma_send faithfulEngine world1 0 1024 0).2.trace =
      engineCalls world1.trace ++ [(DMA_SG_MODE, PCI_DMA_TODEVICE, 1024, 0)] ∧
    (xpdma_send faithfulEngine world1 0 1024 0).2.st.descChainLength = 1 ∧
    ((xpdma_send faithfulEngine world1 0 1024 0).2.st.descChain 1).control = 1024 :=
  ⟨by decide, by decide, by decide, by decide,
    (C11_single_chunk_send world1 0 1024 (by decide) (by decide) (by decide) (by decide)).1,
    (C11_single_chunk_send world1 0 1024 (by decide) (by decide) (by decide) (by decide)).2.1,
    (C11_single_chunk_send world1 0 1024 (by decide) (by decide) (by decide)
      (by decide)).2.2.2.1,
    (C11_single_chunk_send world1 0 1024 (by decide) (by decide) (by decide)
      (by decide)).2.2.2.2.2.1⟩

end XPDMA

namespace XPDMA

/-! ## The data descriptors of the chain -/

/-- C21: after a successful `create_desc_chain (direction, size, addr)` with
chain length `n`, for every `i < n` the data descriptor `descChain[2i+1]` has
control `min (size - i * TRANSFER_SIZE) TRANSFER_SIZE` and status 0; from the
device its source is `AXI_DDR3_ADDR + addr + i * TRANSFER_SIZE` and its
destination `AXI_PCIE_DM_ADDR + i * TRANSFER_SIZE`, to the device its source is
`AXI_PCIE_DM_ADDR + i * TRANSFER_SIZE` and its destination
`AXI_DDR3_ADDR + addr + i * TRANSFER_SIZE`, all modulo `2^32`; and for every
descriptor index `k < 2n - 1` the link `descChain[k].nextDesc` is
`AXI_PCIE_SG_ADDR + 64 (k + 1)`, the device address of descriptor `k + 1`.
Here `size` is the `u32` argument (`u32 size = size` below `2^32`). -/
theorem C21_data_descriptors {H : Type} (w : World H) (direction : Int) (size addr : Nat)
    (hok : (create_desc_chain w direction size addr).1 = SUCCESS) :
    (∀ i, i < (create_desc_chain w direction size addr).2.st.descChainLength →
      ((create_desc_chain w direction size addr).2.st.descChain (2 * i + 1)).control =
        min (u32 size - i * TRANSFER_SIZE) TRANSFER_SIZE ∧
      ((create_desc_chain w direction size addr).2.st.descChain (2 * i + 1)).status = 0 ∧
      (direction = PCI_DMA_FROMDEVICE →
        ((create_desc_chain w direction size addr).2.st.descChain (2 * i + 1)).srcAddr =
          (AXI_DDR3_ADDR + addr + i * TRANSFER_SIZE) % 4294967296 ∧
        ((create_desc_chain w direction size addr).2.st.descChain (2 * i + 1)).destAddr =
          (AXI_PCIE_DM_ADDR + i * TRANSFER_SIZE) % 4294967296) ∧
      (direction = PCI_DMA_TODEVICE →
        ((create_desc_chain w direction size addr).2.st.descChain (2 * i + 1)).srcAddr =
          (AXI_PCIE_DM_ADDR + i * TRANSFER_SIZE) % 4294967296 ∧
        ((create_desc_chain w direction size addr).2.st.descChain (2 * i + 1)).destAddr =
          (AXI_DDR3_ADDR + addr + i * TRANSFER_SIZE) % 4294967296)) ∧
    (∀ k, k + 1 < 2 * (create_desc_chain w direction size addr).2.st.descChainLength →
      ((create_desc_chain w direction size addr).2.st.descChain k).nextDesc =
        AXI_PCIE_SG_ADDR + DESCRIPTOR_SIZE * (k + 1)) ∧
    DESCRIPTOR_SIZE = 64 ∧
    (size < 4294967296 → u32 size = size) := by
  have hdir := (create_desc_chain_success_iff w direction size addr).mp hok
  have hlen : (create_desc_chain w direction size addr).2.st.descChainLength = chainLen size := by
    rw [create_desc_chain_ok w direction size addr hdir]
  have hl := chainLen_le size
  have hsz : ∀ i, i < chainLen size → i * 4194304 < size % 4294967296 := by
    intro i hi
    simp only [chainLen, u32, TRANSFER_SIZE, Nat.reduceMod] at hi
    omega
  rw [hlen]
  refine ⟨?_, ?_, rfl, fun h => Nat.mod_eq_of_lt h⟩
  · intro i hi
    have hs := hsz i hi
    rw [create_desc_chain_data w direction size addr hdir i hi]
    refine ⟨?_, rfl, ?_, ?_⟩
    · simp only [dataDescOf, chainStart, u32]
    · intro hd
      subst hd
      simp only [dataDescOf, chainStart, u32, if_true, AXI_DDR3_ADDR, AXI_PCIE_DM_ADDR,
        TRANSFER_SIZE]
      constructor <;> omega
    · intro hd
      subst hd
      simp only [dataDescOf, chainStart, u32,
        show (PCI_DMA_TODEVICE = PCI_DMA_FROMDEVICE) = False from by decide, if_false,
        AXI_DDR3_ADDR, AXI_PCIE_DM_ADDR, TRANSFER_SIZE]
      constructor <;> omega
  · intro k hk
    rcases Nat.even_or_odd' k with ⟨i, hi | hi⟩
    · subst hi
      rw [create_desc_chain_addr w direction size addr hdir i (by omega)]
      simp only [addrDescOf, chainStart, u32, AXI_PCIE_SG_ADDR, DESCRIPTOR_SIZE]
      omega
    · subst hi
      rw [create_desc_chain_data w direction size addr hdir i (by omega)]
      simp only [if_neg (show ¬ (i + 1 = chainLen size) from by omega), u32, AXI_PCIE_SG_ADDR,
        DESCRIPTOR_SIZE]
      omega

/-- C21 (witness): the chain of a transfer of `2 * TRANSFER_SIZE + 5` bytes to
device address 16 on `world0`: the third data descriptor carries 5 bytes from
`AXI_PCIE_DM_ADDR + 2 * TRANSFER_SIZE`, and descriptor 4 links to descriptor
5. -/
theorem C21_data_descriptors_witness :
    (create_desc_chain world0 PCI_DMA_TODEVICE (2 * TRANSFER_SIZE + 5) 16).1 = SUCCESS ∧
    2 < (create_desc_chain world0 PCI_DMA_TODEVICE (2 * TRANSFER_SIZE + 5)
      16).2.st.descChainLength ∧
    ((create_desc_chain world0 PCI_DMA_TODEVICE (2 * TRANSFER_SIZE + 5) 16).2.st.descChain
      (2 * 2 + 1)).control = min (u32 (2 * TRANSFER_SIZE + 5) - 2 * TRANSFER_SIZE) TRANSFER_SIZE ∧
    ((create_desc_chain world0 PCI_DMA_TODEVICE (2 * TRANSFER_SIZE + 5) 16).2.st.descChain
      4).nextDesc = AXI_PCIE_SG_ADDR + DESCRIPTOR_SIZE * (4 + 1) :=
  ⟨by decide, by decide,
    ((C21_data_descriptors world0 PCI_DMA_TODEVICE (2 * TRANSFER_SIZE + 5) 16
      (by decide)).1 2 (by decide)).1,
    (C21_data_descriptors world0 PCI_DMA_TODEVICE (2 * TRANSFER_SIZE + 5) 16
      (by decide)).2.1 4 (by decide)⟩

end XPDMA

namespace XPDMA

/-! ## The completion poll of simple mode -/

/-- The idle check on an initialised slot is one read of the status register. -/
theorem isIdle_read {H : Type} (E : Engine H) (w : World H) (hused : w.st.used = true) :
    (xpdma_isIdle E w).1 =
      (xpdma_readReg E w (CDMA_OFFSET + CDMA_STATUS_OFFSET)).1 &&& CDMA_CR_IDLE_MASK ∧
    (xpdma_isIdle E w).2.trace = w.trace ++
      [Event.readReg (CDMA_OFFSET + CDMA_STATUS_OFFSET)
        (xpdma_readReg E w (CDMA_OFFSET + CDMA_STATUS_OFFSET)).1] ∧
    (xpdma_isIdle E w).2.st.used = true := by
  obtain ⟨-, h2, h3⟩ := readReg_used E w (CDMA_OFFSET + CDMA_STATUS_OFFSET) hused
  unfold xpdma_isIdle
  rw [if_neg (by simp [hused])]
  exact ⟨rfl, h2, h3⟩

/-- The status reads of the poll loop of `simple_operation`: reads that show
the engine busy (`clears`), then at most one read that shows it idle (`hit`),
which ends the loop; without such a read the loop makes `n` reads. -/
theorem simple_poll_reads {H : Type} (E : Engine H) (n : Nat) :
    ∀ w : World H, w.st.used = true →
    ∃ (t : List Event) (clears hit : List Nat),
      (simple_poll E n w).trace = w.trace ++ t ∧
      (∀ e ∈ t, e.passive = true) ∧
      regReads t = (clears ++ hit).map (fun v => (CDMA_OFFSET + CDMA_STATUS_OFFSET, v)) ∧
      (∀ v ∈ clears, v &&& CDMA_CR_IDLE_MASK = 0) ∧
      (∀ v ∈ hit, v &&& CDMA_CR_IDLE_MASK ≠ 0) ∧
      hit.length ≤ 1 ∧ clears.length + hit.length ≤ n ∧
      (hit = [] → clears.length = n) ∧
      (simple_poll E n w).st.used = true := by
  induction n with
  | zero =>
    intro w hused
    exact ⟨[], [], [], (List.append_nil _).symm, by simp, rfl, by simp, by simp, by simp,
      by simp, fun _ => rfl, hused⟩
  | succ n ih =>
    intro w hused
    obtain ⟨h1, h2, h3⟩ := isIdle_read E w hused
    rw [simple_poll_succ]
    by_cases hi : (xpdma_isIdle E w).1 ≠ 0
    · rw [if_pos hi]
      refine ⟨[_], [], [(xpdma_readReg E w (CDMA_OFFSET + CDMA_STATUS_OFFSET)).1], h2,
        by simp [Event.passive], rfl, by simp, ?_, by simp, by simp, by simp, h3⟩
      intro v hv
      rw [List.mem_singleton] at hv
      rw [hv, ← h1]
      exact hi
    · rw [if_neg hi]
      have hz : (xpdma_readReg E w (CDMA_OFFSET + CDMA_STATUS_OFFSET)).1 &&&
          CDMA_CR_IDLE_MASK = 0 := by
        rw [← h1]
        exact not_not.mp hi
      have hud : (udelay E (xpdma_isIdle E w).2 10).st.used = true :=
        (quiet_udelay E (xpdma_isIdle E w).2 10).1.1.trans h3
      obtain ⟨t, clears, hit, a1, a2, a3, a4, a5, a6, a7, a8, a9⟩ :=
        ih (udelay E (xpdma_isIdle E w).2 10) hud
      refine ⟨Event.readReg (CDMA_OFFSET + CDMA_STATUS_OFFSET)
          (xpdma_readReg E w (CDMA_OFFSET + CDMA_STATUS_OFFSET)).1 :: Event.udelay 10 :: t,
        (xpdma_readReg E w (CDMA_OFFSET + CDMA_STATUS_OFFSET)).1 :: clears, hit,
        ?_, ?_, ?_, ?_, a5, a6, ?_, ?_, a9⟩
      · rw [a1]
        show ((xpdma_isIdle E w).2.trace ++ [Event.udelay 10]) ++ t = _
        rw [h2, List.append_assoc, List.append_assoc]
        rfl
      · intro e he
        rcases List.mem_cons.mp he with h | h
        · rw [h]; rfl
        · rcases List.mem_cons.mp h with h | h
          · rw [h]; rfl
          · exact a2 e h
      · show (CDMA_OFFSET + CDMA_STATUS_OFFSET, _) :: regReads t = _
        rw [a3]
        rfl
      · intro v hv
        rcases List.mem_cons.mp hv with h | h
        · rw [h]; exact hz
        · exact a4 v h
      · rw [List.length_cons]
        omega
      · intro h
        rw [List.length_cons, a8 h]

/-- The trace of steps 1 to 4 of `simple_operation` on an initialised slot. -/
theorem simple_setup_trace {H : Type} (E : Engine H) (w : World H) (p src dst : Nat)
    (hused : w.st.used = true) :
    (∃ h0, (simple_setup E w p src dst).trace = w.trace ++ h0) ∧
    (simple_setup E w p src dst).st.used = true := by
  have step : ∀ (x : World H) (reg val : Nat),
      ((∃ h0, x.trace = w.trace ++ h0) ∧ x.st.used = true) →
      ((∃ h0, (xpdma_writeReg E x reg val).trace = w.trace ++ h0) ∧
        (xpdma_writeReg E x reg val).st.used = true) := by
    intro x reg val hx
    obtain ⟨⟨h0, e0⟩, u0⟩ := hx
    obtain ⟨a, -, c⟩ := writeReg_used E x reg val u0
    exact ⟨⟨h0 ++ [Event.writeReg reg (u32 val)], by rw [c, e0, List.append_assoc]⟩,
      a.1.trans u0⟩
  unfold simple_setup
  exact step _ _ _ (step _ _ _ (step _ _ _ (step _ _ _ (step _ _ _ (step _ _ _
    (step w _ _ ⟨⟨[], (List.append_nil _).symm⟩, hused⟩))))))

/-- The run of `simple_operation` from the armed world `armed` (the world after
the write of the byte count): the poll loop and the final idle check. -/
theorem simple_finish_reads {H : Type} (E : Engine H) (armed : World H)
    (hused : armed.st.used = true) :
    ∃ (t : List Event) (clears hit : List Nat) (last : Nat),
      (xpdma_isIdle E (simple_poll E CDMA_TRANSFER_LOOP armed)).2.trace = armed.trace ++ t ∧
      (∀ e ∈ t, e.passive = true) ∧
      regReads t =
        (clears ++ hit ++ [last]).map (fun v => (CDMA_OFFSET + CDMA_STATUS_OFFSET, v)) ∧
      (∀ v ∈ clears, v &&& CDMA_CR_IDLE_MASK = 0) ∧
      (∀ v ∈ hit, v &&& CDMA_CR_IDLE_MASK ≠ 0) ∧
      hit.length ≤ 1 ∧ clears.length + hit.length ≤ CDMA_TRANSFER_LOOP ∧
      (hit = [] → clears.length = CDMA_TRANSFER_LOOP) ∧
      (xpdma_isIdle E (simple_poll E CDMA_TRANSFER_LOOP armed)).1 =
        last &&& CDMA_CR_IDLE_MASK := by
  generalize CDMA_TRANSFER_LOOP = N
  obtain ⟨t, clears, hit, a1, a2, a3, a4, a5, a6, a7, a8, a9⟩ :=
    simple_poll_reads E N armed hused
  obtain ⟨h1, h2, -⟩ := isIdle_read E (simple_poll E N armed) a9
  refine ⟨t ++ [Event.readReg (CDMA_OFFSET + CDMA_STATUS_OFFSET)
      (xpdma_readReg E (simple_poll E N armed) (CDMA_OFFSET + CDMA_STATUS_OFFSET)).1],
    clears, hit, (xpdma_readReg E (simple_poll E N armed) (CDMA_OFFSET + CDMA_STATUS_OFFSET)).1,
    ?_, ?_, ?_, a4, a5, a6, a7, a8, h1⟩
  · rw [h2, a1, List.append_assoc]
  · intro e he
    rcases List.mem_append.mp he with h | h
    · exact a2 e h
    · rw [List.mem_singleton.mp h]; rfl
  · rw [regReads_append, a3, List.map_append _ (clears ++ hit)]
    rfl

end XPDMA

namespace XPDMA

/-- The run of `simple_operation` once the direction is selected and the idle
check has succeeded: the trace up to the write of the byte count (`head`), and
the poll with the final idle check (`tail`). -/
theorem simple_run_spec {H : Type} (E : Engine H) (w : World H) (p src dst count : Nat)
    (hidle : (xpdma_isIdle E w).1 ≠ 0)
    (r : Int × World H)
    (hr : r = if (xpdma_isIdle E (simple_poll E CDMA_TRANSFER_LOOP
              (xpdma_writeReg E (simple_setup E (xpdma_isIdle E w).2 p src dst)
                (CDMA_OFFSET + CDMA_BTT_OFFSET) count))).1 = 0 then
            (CRIT_ERR, (xpdma_isIdle E (simple_poll E CDMA_TRANSFER_LOOP
              (xpdma_writeReg E (simple_setup E (xpdma_isIdle E w).2 p src dst)
                (CDMA_OFFSET + CDMA_BTT_OFFSET) count))).2.log (Event.printk Msg.simpleTimeout))
          else
            (SUCCESS, (xpdma_isIdle E (simple_poll E CDMA_TRANSFER_LOOP
              (xpdma_writeReg E (simple_setup E (xpdma_isIdle E w).2 p src dst)
                (CDMA_OFFSET + CDMA_BTT_OFFSET) count))).2)) :
    ∃ (head tail : List Event) (clears hit : List Nat) (last : Nat),
      r.2.trace = w.trace ++ head ++ tail ∧
      head.getLast? = some (Event.writeReg (CDMA_OFFSET + CDMA_BTT_OFFSET) (u32 count)) ∧
      regWrites tail = [] ∧
      regReads tail =
        (clears ++ hit ++ [last]).map (fun v => (CDMA_OFFSET + CDMA_STATUS_OFFSET, v)) ∧
      (∀ v ∈ clears, v &&& CDMA_CR_IDLE_MASK = 0) ∧
      (∀ v ∈ hit, v &&& CDMA_CR_IDLE_MASK ≠ 0) ∧
      hit.length ≤ 1 ∧ clears.length + hit.length ≤ CDMA_TRANSFER_LOOP ∧
      (hit = [] → clears.length = CDMA_TRANSFER_LOOP) ∧
      (r.1 = SUCCESS ↔ last &&& CDMA_CR_IDLE_MASK ≠ 0) ∧
      (last &&& CDMA_CR_IDLE_MASK = 0 →
        r.1 = CRIT_ERR ∧ Event.printk Msg.simpleTimeout ∈ tail) := by
  have hne : CRIT_ERR ≠ SUCCESS := by decide
  have hused := isIdle_used E w hidle
  obtain ⟨-, i2, i3⟩ := isIdle_read E w hused
  obtain ⟨⟨h0, s1⟩, s2⟩ := simple_setup_trace E (xpdma_isIdle E w).2 p src dst i3
  obtain ⟨a, -, c⟩ := writeReg_used E (simple_setup E (xpdma_isIdle E w).2 p src dst)
    (CDMA_OFFSET + CDMA_BTT_OFFSET) count s2
  have hau : (xpdma_writeReg E (simple_setup E (xpdma_isIdle E w).2 p src dst)
      (CDMA_OFFSET + CDMA_BTT_OFFSET) count).st.used = true := a.1.trans s2
  obtain ⟨t, clears, hit, last, f1, f2, f3, f4, f5, f6, f7, f8, f9⟩ :=
    simple_finish_reads E _ hau
  have harm : (xpdma_writeReg E (simple_setup E (xpdma_isIdle E w).2 p src dst)
      (CDMA_OFFSET + CDMA_BTT_OFFSET) count).trace = w.trace ++
      ([Event.readReg (CDMA_OFFSET + CDMA_STATUS_OFFSET)
          (xpdma_readReg E w (CDMA_OFFSET + CDMA_STATUS_OFFSET)).1] ++ h0 ++
        [Event.writeReg (CDMA_OFFSET + CDMA_BTT_OFFSET) (u32 count)]) := by
    rw [c, s1, i2]
    simp only [List.append_assoc]
  have hlast : ([Event.readReg (CDMA_OFFSET + CDMA_STATUS_OFFSET)
          (xpdma_readReg E w (CDMA_OFFSET + CDMA_STATUS_OFFSET)).1] ++ h0 ++
        [Event.writeReg (CDMA_OFFSET + CDMA_BTT_OFFSET) (u32 count)]).getLast? =
      some (Event.writeReg (CDMA_OFFSET + CDMA_BTT_OFFSET) (u32 count)) :=
    List.getLast?_concat _
  rw [harm] at f1
  by_cases hz : (xpdma_isIdle E (simple_poll E CDMA_TRANSFER_LOOP
      (xpdma_writeReg E (simple_setup E (xpdma_isIdle E w).2 p src dst)
        (CDMA_OFFSET + CDMA_BTT_OFFSET) count))).1 = 0
  · rw [if_pos hz] at hr
    rw [f9] at hz
    refine ⟨_, t ++ [Event.printk Msg.simpleTimeout], clears, hit, last, ?_, hlast, ?_, ?_,
      f4, f5, f6, f7, f8, ?_, ?_⟩
    · rw [hr]
      show _ ++ [Event.printk Msg.simpleTimeout] = _
      rw [f1, List.append_assoc]
    · rw [regWrites_append, regWrites_passive t f2]
      rfl
    · rw [regReads_append, f3]
      exact List.append_nil _
    · rw [hr]
      constructor
      · intro h
        exact absurd h hne
      · intro h
        exact absurd hz h
    · intro _
      rw [hr]
      exact ⟨rfl, List.mem_append_right _ (List.mem_singleton.mpr rfl)⟩
  · rw [if_neg hz] at hr
    rw [f9] at hz
    refine ⟨_, t, clears, hit, last, ?_, hlast, regWrites_passive t f2, f3,
      f4, f5, f6, f7, f8, ?_, ?_⟩
    · rw [hr]
      exact f1
    · rw [hr]
      exact ⟨fun _ => hz, fun _ => rfl⟩
    · intro h
      exact absurd h hz

/-- C22: `simple_operation` returns `SUCCESS` or `CRIT_ERR`.  It returns
`SUCCESS` only for a recognised direction on an engine the idle check at entry
finds idle.  In that case the events after the write of the byte count (the
last event of `head`) hold no register write, and their register reads are
reads of the status register: the reads of the poll loop, which show the idle
bit clear (`clears`), at most one read that shows it set and ends the loop
(`hit`), `CDMA_TRANSFER_LOOP` reads at most, and the read of the final check
(`last`).  The result is `SUCCESS` exactly when the final check shows the idle
bit set; when it shows the bit clear the result is `CRIT_ERR` with the timeout
line logged, which is the case when every read shows the bit clear, after
`CDMA_TRANSFER_LOOP + 1` reads.  There are at most `CDMA_TRANSFER_LOOP + 1`
status reads after the write of the byte count, so at most
`CDMA_TRANSFER_LOOP + 2`. -/
theorem C22_simple_completion {H : Type} (E : Engine H) (w : World H) (direction : Int)
    (count addr : Nat) :
    ((simple_operation E w direction count addr).1 = SUCCESS ∨
      (simple_operation E w direction count addr).1 = CRIT_ERR) ∧
    ((simple_operation E w direction count addr).1 = SUCCESS →
      (direction = PCI_DMA_FROMDEVICE ∨ direction = PCI_DMA_TODEVICE) ∧
      (xpdma_isIdle E w).1 ≠ 0) ∧
    ((direction = PCI_DMA_FROMDEVICE ∨ direction = PCI_DMA_TODEVICE) →
      (xpdma_isIdle E w).1 ≠ 0 →
      ∃ (head tail : List Event) (clears hit : List Nat) (last : Nat),
        (simple_operation E w direction count addr).2.trace = w.trace ++ head ++ tail ∧
        head.getLast? = some (Event.writeReg (CDMA_OFFSET + CDMA_BTT_OFFSET) (u32 count)) ∧
        regWrites tail = [] ∧
        regReads tail =
          (clears ++ hit ++ [last]).map (fun v => (CDMA_OFFSET + CDMA_STATUS_OFFSET, v)) ∧
        (∀ v ∈ clears, v &&& CDMA_CR_IDLE_MASK = 0) ∧
        (∀ v ∈ hit, v &&& CDMA_CR_IDLE_MASK ≠ 0) ∧
        hit.length ≤ 1 ∧ clears.length + hit.length ≤ CDMA_TRANSFER_LOOP ∧
        ((simple_operation E w direction count addr).1 = SUCCESS ↔
          last &&& CDMA_CR_IDLE_MASK ≠ 0) ∧
        (last &&& CDMA_CR_IDLE_MASK = 0 →
          (simple_operation E w direction count addr).1 = CRIT_ERR ∧
          Event.printk Msg.simpleTimeout ∈ tail) ∧
        ((∀ v ∈ clears ++ hit ++ [last], v &&& CDMA_CR_IDLE_MASK = 0) →
          (simple_operation E w direction count addr).1 = CRIT_ERR ∧
          (clears ++ hit ++ [last]).length = CDMA_TRANSFER_LOOP + 1) ∧
        (clears ++ hit ++ [last]).length ≤ CDMA_TRANSFER_LOOP + 1 ∧
        (clears ++ hit ++ [last]).length ≤ CDMA_TRANSFER_LOOP + 2) := by
  have hne : CRIT_ERR ≠ SUCCESS := by decide
  have key : (direction = PCI_DMA_FROMDEVICE ∨ direction = PCI_DMA_TODEVICE) →
      (xpdma_isIdle E w).1 ≠ 0 →
      ∃ p src dst,
        simple_operation E w direction count addr =
          if (xpdma_isIdle E (simple_poll E CDMA_TRANSFER_LOOP
              (xpdma_writeReg E (simple_setup E (xpdma_isIdle E w).2 p src dst)
                (CDMA_OFFSET + CDMA_BTT_OFFSET) count))).1 = 0 then
            (CRIT_ERR, (xpdma_isIdle E (simple_poll E CDMA_TRANSFER_LOOP
              (xpdma_writeReg E (simple_setup E (xpdma_isIdle E w).2 p src dst)
                (CDMA_OFFSET + CDMA_BTT_OFFSET) count))).2.log (Event.printk Msg.simpleTimeout))
          else
            (SUCCESS, (xpdma_isIdle E (simple_poll E CDMA_TRANSFER_LOOP
              (xpdma_writeReg E (simple_setup E (xpdma_isIdle E w).2 p src dst)
                (CDMA_OFFSET + CDMA_BTT_OFFSET) count))).2) := by
    intro hdir hidle
    rw [simple_operation_stages]
    rcases hdir with h | h
    · subst h
      refine ⟨w.st.readHWAddr, AXI_DDR3_ADDR, AXI_PCIE_DM_ADDR, ?_⟩
      simp only [if_true]
      rw [if_neg hidle]
    · subst h
      refine ⟨w.st.writeHWAddr, AXI_PCIE_DM_ADDR, AXI_DDR3_ADDR, ?_⟩
      simp only [show (PCI_DMA_FROMDEVICE = PCI_DMA_TODEVICE) = False from by decide,
        if_false, if_true]
      rw [if_neg hidle]
  have main : (direction = PCI_DMA_FROMDEVICE ∨ direction = PCI_DMA_TODEVICE) →
      (xpdma_isIdle E w).1 ≠ 0 → _ := fun hdir hidle =>
    (key hdir hidle).elim fun p hp => hp.elim fun src hs => hs.elim fun dst hd =>
      simple_run_spec E w p src dst count hidle _ hd
  by_cases hdir : direction = PCI_DMA_FROMDEVICE ∨ direction = PCI_DMA_TODEVICE
  · by_cases hidle : (xpdma_isIdle E w).1 = 0
    · have hf := (simple_operation_not_idle E w direction count addr hidle).1
      refine ⟨Or.inr hf, ?_, fun _ h => absurd hidle h⟩
      intro h
      rw [hf] at h
      exact absurd h hne
    · obtain ⟨head, tail, clears, hit, last, m1, m2, m3, m4, m5, m6, m7, m8, m9, m10, m11⟩ :=
        main hdir hidle
      have hlen : (clears ++ hit ++ [last]).length = clears.length + hit.length + 1 := by
        simp only [List.length_append, List.length_singleton]
      refine ⟨?_, fun _ => ⟨hdir, hidle⟩, fun _ _ =>
        ⟨head, tail, clears, hit, last, m1, m2, m3, m4, m5, m6, m7, m8, m10, m11, ?_, ?_, ?_⟩⟩
      · by_cases hl : last &&& CDMA_CR_IDLE_MASK = 0
        · exact Or.inr (m11 hl).1
        · exact Or.inl (m10.mpr hl)
      · intro hall
        have hl : last &&& CDMA_CR_IDLE_MASK = 0 :=
          hall last (List.mem_append_right _ (List.mem_singleton.mpr rfl))
        have hh : hit = [] := by
          cases hit with
          | nil => rfl
          | cons v t =>
            exact absurd (hall v (List.mem_append_left _ (List.mem_append_right _
              (List.mem_cons_self _ _)))) (m6 v (List.mem_cons_self _ _))
        refine ⟨(m11 hl).1, ?_⟩
        rw [hlen, hh, m9 hh]
        rfl
      · rw [hlen]
        omega
      · rw [hlen]
        omega
  · have hbad : simple_operation E w direction count addr =
        (CRIT_ERR, w.log (Event.printk Msg.unknownDirection)) := by
      rw [simple_operation_stages]
      have h1 : ¬ PCI_DMA_FROMDEVICE = direction := fun h => hdir (Or.inl h.symm)
      have h2 : ¬ PCI_DMA_TODEVICE = direction := fun h => hdir (Or.inr h.symm)
      rw [if_neg h1, if_neg h2]
    refine ⟨Or.inr (by rw [hbad]), ?_, fun h => absurd h hdir⟩
    intro h
    rw [hbad] at h
    exact absurd h hne

end XPDMA

namespace XPDMA

/-! ## Index safety of the chain builder -/

/-- The descriptors `create_desc_chain` leaves as they were: those behind the
chunks of the chain, the tail descriptor apart. -/
theorem create_desc_chain_frame {H : Type} (w : World H) (direction : Int)
    (size addr k : Nat)
    (hdir : direction = PCI_DMA_FROMDEVICE ∨ direction = PCI_DMA_TODEVICE)
    (hk : 2 * chainLen size ≤ k) (ht : k ≠ tailIndex (chainLen size)) :
    (create_desc_chain w direction size addr).2.st.descChain k = w.st.descChain k := by
  rw [create_desc_chain_ok w direction size addr hdir]
  show Function.update _ _ _ k = _
  rw [Function.update_noteq ht, loop_frame _ 0 _ k (Or.inr (by omega))]
  rfl

/-- The status word of every descriptor of the chain is written. -/
theorem create_desc_chain_status {H : Type} (w : World H) (direction : Int)
    (size addr k : Nat)
    (hdir : direction = PCI_DMA_FROMDEVICE ∨ direction = PCI_DMA_TODEVICE)
    (hk : k < 2 * chainLen size) :
    ((create_desc_chain w direction size addr).2.st.descChain k).status = 0 := by
  rcases Nat.even_or_odd' k with ⟨i, hi | hi⟩
  · subst hi
    rw [create_desc_chain_addr w direction size addr hdir i (by omega)]
    rfl
  · subst hi
    rw [create_desc_chain_data w direction size addr hdir i (by omega)]
    rfl

/-- C23: for a recognised direction and `1 <= size <= 2^32 - TRANSFER_SIZE`,
`create_desc_chain` sets a chain length `n >= 1` with `2n` at most
`BUF_SIZE / DESCRIPTOR_SIZE`, the number of descriptors the buffer holds; the
ring closure goes to index `2n - 1`; every descriptor the call changes, on any
previous buffer content, has an index in `[0, 2n - 1]`, below that capacity;
and all the descriptors of `[0, 2n - 1]` are written (their status is 0
afterwards).  For `size = 0` the chain length is 0, the ring closure goes to
index `2 * 0 - 1`, which as a `size_t` is `2^64 - 1` and no index of the
buffer, and no descriptor of the buffer is changed. -/
theorem C23_index_safety {H : Type} (w : World H) (direction : Int) (size addr : Nat)
    (hdir : direction = PCI_DMA_FROMDEVICE ∨ direction = PCI_DMA_TODEVICE)
    (h1 : 1 ≤ size) (h2 : size ≤ 4294967296 - TRANSFER_SIZE) :
    (create_desc_chain w direction size addr).2.st.descChainLength = chainLen size ∧
    1 ≤ chainLen size ∧
    2 * chainLen size ≤ BUF_SIZE / DESCRIPTOR_SIZE ∧
    tailIndex (chainLen size) = 2 * chainLen size - 1 ∧
    (∀ k, (create_desc_chain w direction size addr).2.st.descChain k ≠ w.st.descChain k →
      k ≤ 2 * chainLen size - 1 ∧ k < BUF_SIZE / DESCRIPTOR_SIZE) ∧
    (∀ k, k ≤ 2 * chainLen size - 1 →
      ((create_desc_chain w direction size addr).2.st.descChain k).status = 0) ∧
    (∀ W : World H,
      (create_desc_chain W direction 0 addr).2.st.descChainLength = 0 ∧
      tailIndex 0 = 18446744073709551616 - 1 ∧
      ((create_desc_chain W direction 0 addr).2.st.descChain (tailIndex 0)).nextDesc =
        AXI_PCIE_SG_ADDR ∧
      ¬ (tailIndex 0 < BUF_SIZE / DESCRIPTOR_SIZE) ∧
      ∀ k, k < BUF_SIZE / DESCRIPTOR_SIZE →
        (create_desc_chain W direction 0 addr).2.st.descChain k = W.st.descChain k) := by
  have cap : BUF_SIZE / DESCRIPTOR_SIZE = 65536 := by decide
  have hl := chainLen_le size
  have hn : 1 ≤ chainLen size := by
    rw [chainLen_small size h2]
    simp only [TRANSFER_SIZE] at h2 ⊢
    omega
  have ht := tailIndex_pos (chainLen size) hn hl
  have hlen : (create_desc_chain w direction size addr).2.st.descChainLength = chainLen size := by
    rw [create_desc_chain_ok w direction size addr hdir]
  have h0 : chainLen 0 = 0 := by decide
  have ht0 : tailIndex 0 = 18446744073709551616 - 1 := by decide
  refine ⟨hlen, hn, by omega, ht, ?_, ?_, ?_⟩
  · intro k hk
    have hlt : k < 2 * chainLen size := by
      by_contra hge
      exact hk (create_desc_chain_frame w direction size addr k hdir (by omega) (by omega))
    exact ⟨by omega, by omega⟩
  · intro k hk
    exact create_desc_chain_status w direction size addr k hdir (by omega)
  · intro W
    refine ⟨?_, ht0, ?_, ?_, ?_⟩
    · rw [create_desc_chain_ok W direction 0 addr hdir]
      exact h0
    · rw [create_desc_chain_ok W direction 0 addr hdir, h0]
      dsimp only
      rw [Function.update_same]
    · rw [ht0, cap]
      decide
    · intro k hk
      exact create_desc_chain_frame W direction 0 addr k hdir (by rw [h0]; omega)
        (by rw [h0, ht0]; omega)

/-- C23 (witness): a transfer of `2 * TRANSFER_SIZE + 5` bytes to device address
16 on `world0` has a chain of 3 pairs, six descriptors of the 65536 of the
buffer, and the ring closure goes to index 5. -/
theorem C23_index_safety_witness :
    (PCI_DMA_TODEVICE = PCI_DMA_FROMDEVICE ∨ PCI_DMA_TODEVICE = PCI_DMA_TODEVICE) ∧
    1 ≤ 2 * TRANSFER_SIZE + 5 ∧ 2 * TRANSFER_SIZE + 5 ≤ 4294967296 - TRANSFER_SIZE ∧
    (create_desc_chain world0 PCI_DMA_TODEVICE (2 * TRANSFER_SIZE + 5)
      16).2.st.descChainLength = chainLen (2 * TRANSFER_SIZE + 5) ∧
    chainLen (2 * TRANSFER_SIZE + 5) = 3 ∧
    tailIndex (chainLen (2 * TRANSFER_SIZE + 5)) = 2 * chainLen (2 * TRANSFER_SIZE + 5) - 1 ∧
    2 * chainLen (2 * TRANSFER_SIZE + 5) ≤ BUF_SIZE / DESCRIPTOR_SIZE :=
  ⟨by decide, by decide, by decide,
    (C23_index_safety world0 PCI_DMA_TODEVICE (2 * TRANSFER_SIZE + 5) 16
      (by decide) (by decide) (by decide)).1,
    by decide,
    (C23_index_safety world0 PCI_DMA_TODEVICE (2 * TRANSFER_SIZE + 5) 16
      (by decide) (by decide) (by decide)).2.2.2.1,
    (C23_index_safety world0 PCI_DMA_TODEVICE (2 * TRANSFER_SIZE + 5) 16
      (by decide) (by decide) (by decide)).2.2.1⟩

end XPDMA

namespace XPDMA

/-! ## The outcome of the reset -/

end XPDMA

namespace XPDMA

/-! ## A reset bit that clears at the last poll -/

theorem readReg_late (k a b : Nat) (st : xpdma_state) (h : Nat) (u : UserMem)
    (t : List Event) (reg : Nat) (hused : st.used = true) :
    xpdma_readReg (lateEngine k a b) ⟨st, h, u, t⟩ reg =
      (u32 (if h < k then a else b),
        ⟨st, h + 1, u, t ++ [Event.readReg reg (u32 (if h < k then a else b))]⟩) := by
  unfold xpdma_readReg
  rw [if_neg (by simp [hused])]
  rfl

theorem writeReg_late (k a b : Nat) (st : xpdma_state) (h : Nat) (u : UserMem)
    (t : List Event) (reg val : Nat) (hused : st.used = true) :
    xpdma_writeReg (lateEngine k a b) ⟨st, h, u, t⟩ reg val =
      ⟨st, h, u, t ++ [Event.writeReg reg (u32 val)]⟩ := by
  unfold xpdma_writeReg
  rw [if_neg (by simp [hused])]
  rfl

/-- The loop of `xpdma_reset` with budget `n + 1` on an engine whose control
register shows the reset bit for `n` more reads and then reads 0: the loop
makes `n + 1` reads, the last one shows the reset bit clear, and the loop
counter is 0. -/
theorem reset_poll_late (k : Nat) (st : xpdma_state) (u : UserMem) (hused : st.used = true)
    (n : Nat) :
    ∀ (h : Nat) (t : List Event), h + n = k →
      reset_poll (lateEngine k 4 0) (n + 1) 4 ⟨st, h, u, t⟩ =
        (0, 0, ⟨st, h + n + 1, u,
          t ++ (List.replicate n (Event.readReg (CDMA_OFFSET + CDMA_CONTROL_OFFSET) 4) ++
            [Event.readReg (CDMA_OFFSET + CDMA_CONTROL_OFFSET) 0])⟩) := by
  have e0 : u32 0 = 0 := rfl
  have e00 : 0 &&& CDMA_CR_RESET_MASK = 0 := by decide
  have e2 : u32 4 = 4 := rfl
  have e4 : 4 &&& CDMA_CR_RESET_MASK = 4 := by decide
  induction n with
  | zero =>
    intro h t hk
    have hge : ¬ h < k := by omega
    rw [reset_poll_succ, if_neg (by decide), readReg_late k 4 0 st h u t _ hused, if_neg hge]
    dsimp only
    rw [e0, e00]
    rfl
  | succ n ih =>
    intro h t hk
    have hlt : h < k := by omega
    rw [reset_poll_succ, if_neg (by decide), readReg_late k 4 0 st h u t _ hused, if_pos hlt]
    dsimp only
    rw [e2, e4, ih (h + 1) _ (by omega), List.append_assoc, Nat.add_right_comm h 1 n]
    rfl

/-- The timeout report of `xpdma_reset` on an engine whose registers read 0 by
now, in either order of its two reads. -/
theorem reset_report_late (k : Nat) (statusFirst : Bool) (st : xpdma_state) (h : Nat)
    (u : UserMem) (t : List Event) (hused : st.used = true) (hk : k ≤ h) :
    reset_report (lateEngine k 4 0) statusFirst ⟨st, h, u, t⟩ =
      ⟨st, h + 1 + 1, u, t ++
        (if statusFirst = true then
          [Event.readReg (CDMA_OFFSET + CDMA_STATUS_OFFSET) 0,
            Event.readReg (CDMA_OFFSET + CDMA_CONTROL_OFFSET) 0,
            Event.printk Msg.resetTimeout]
        else
          [Event.readReg (CDMA_OFFSET + CDMA_CONTROL_OFFSET) 0,
            Event.readReg (CDMA_OFFSET + CDMA_STATUS_OFFSET) 0,
            Event.printk Msg.resetTimeout])⟩ := by
  have e0 : u32 0 = 0 := rfl
  unfold reset_report
  cases statusFirst with
  | true =>
    rw [if_pos rfl, if_pos rfl]
    dsimp only
    rw [readReg_late k 4 0 st h u t _ hused]
    dsimp only
    rw [readReg_late k 4 0 st _ u _ _ hused]
    dsimp only
    rw [if_neg (by omega), if_neg (by omega), e0]
    show (⟨st, h + 1 + 1, u, ((t ++ [_]) ++ [_]) ++ [Event.printk Msg.resetTimeout]⟩ :
      World Nat) = _
    simp only [List.append_assoc, List.cons_append, List.nil_append]
  | false =>
    rw [if_neg (by decide), if_neg (by decide)]
    dsimp only
    rw [readReg_late k 4 0 st h u t _ hused]
    dsimp only
    rw [readReg_late k 4 0 st _ u _ _ hused]
    dsimp only
    rw [if_neg (by omega), if_neg (by omega), e0]
    show (⟨st, h + 1 + 1, u, ((t ++ [_]) ++ [_]) ++ [Event.printk Msg.resetTimeout]⟩ :
      World Nat) = _
    simp only [List.append_assoc, List.cons_append, List.nil_append]

/-- The function `xpdma_reset` on an engine whose control register shows the
reset bit clear for the first time at read `CDMA_RESET_LOOP` of the loop, after
`CDMA_RESET_LOOP` reads that show it set (the read before the loop and the
first `CDMA_RESET_LOOP - 1` reads of the loop): the reset times out, and the
timeout report reads a control register with the reset bit clear, in either
order of its two reads. -/
theorem xpdma_reset_late (statusFirst : Bool) (st : xpdma_state) (u : UserMem)
    (t : List Event) (hused : st.used = true) :
    (xpdma_reset (lateEngine (CDMA_RESET_LOOP + 1) 4 0) statusFirst ⟨st, 0, u, t⟩).1 =
      CRIT_ERR ∧
    (xpdma_reset (lateEngine (CDMA_RESET_LOOP + 1) 4 0) statusFirst ⟨st, 0, u, t⟩).2.trace =
      t ++
      ([Event.readReg (CDMA_OFFSET + CDMA_CONTROL_OFFSET) 4,
          Event.writeReg (CDMA_OFFSET + CDMA_CONTROL_OFFSET) 4] ++
        (List.replicate CDMA_RESET_LOOP
            (Event.readReg (CDMA_OFFSET + CDMA_CONTROL_OFFSET) 4) ++
          [Event.readReg (CDMA_OFFSET + CDMA_CONTROL_OFFSET) 0])) ++
      (if statusFirst = true then
        [Event.readReg (CDMA_OFFSET + CDMA_STATUS_OFFSET) 0,
          Event.readReg (CDMA_OFFSET + CDMA_CONTROL_OFFSET) 0,
          Event.printk Msg.resetTimeout]
      else
        [Event.readReg (CDMA_OFFSET + CDMA_CONTROL_OFFSET) 0,
          Event.readReg (CDMA_OFFSET + CDMA_STATUS_OFFSET) 0,
          Event.printk Msg.resetTimeout]) := by
  obtain ⟨M, hM⟩ : ∃ M, CDMA_RESET_LOOP = M + 1 := ⟨999999, rfl⟩
  have e2 : u32 4 = 4 := rfl
  have e3 : 4 &&& CDMA_CR_RESET_MASK = 4 := by decide
  have e4 : u32 (4 ||| CDMA_CR_RESET_MASK) = 4 := by decide
  have harm : reset_arm (lateEngine (M + 1 + 1) 4 0) ⟨st, 0, u, t⟩ =
      ⟨st, 1, u, t ++ [Event.readReg (CDMA_OFFSET + CDMA_CONTROL_OFFSET) 4,
        Event.writeReg (CDMA_OFFSET + CDMA_CONTROL_OFFSET) 4]⟩ := by
    unfold reset_arm
    rw [readReg_late _ 4 0 st 0 u t _ hused, if_pos (by omega)]
    dsimp only
    rw [writeReg_late _ 4 0 st _ u _ _ _ hused, e2, e4, List.append_assoc]
    rfl
  have hwait : reset_wait (lateEngine (M + 1 + 1) 4 0)
      (reset_arm (lateEngine (M + 1 + 1) 4 0) ⟨st, 0, u, t⟩) =
      (0, 0, ⟨st, M + 1 + 1 + 1, u,
        t ++ ([Event.readReg (CDMA_OFFSET + CDMA_CONTROL_OFFSET) 4,
          Event.writeReg (CDMA_OFFSET + CDMA_CONTROL_OFFSET) 4] ++
          (List.replicate (M + 1) (Event.readReg (CDMA_OFFSET + CDMA_CONTROL_OFFSET) 4) ++
            [Event.readReg (CDMA_OFFSET + CDMA_CONTROL_OFFSET) 0]))⟩) := by
    unfold reset_wait
    rw [harm, hM, readReg_late _ 4 0 st 1 u _ _ hused]
    dsimp only
    rw [if_pos (by omega), e2, e3, reset_poll_late (M + 1 + 1) st u hused M (1 + 1) _ (by omega)]
    rw [show 1 + 1 + M + 1 = M + 1 + 1 + 1 from by omega]
    simp only [List.append_assoc, List.cons_append, List.nil_append, List.replicate_succ]
  rw [hM, xpdma_reset_used _ _ _ hused, hwait, if_pos rfl]
  dsimp only
  rw [reset_report_late (M + 1 + 1) statusFirst st _ u _ hused (by omega)]
  exact ⟨rfl, rfl⟩

/-- The reset on `worldLate` with the reset bit clear for the first time at
read `CDMA_RESET_LOOP` of the loop, when the compiled driver reads the status
register first for the timeout report: `CRIT_ERR`, after `CDMA_RESET_LOOP`
reads that show the reset bit and one that shows it clear. -/
theorem xpdma_reset_worldLate :
    (xpdma_reset (lateEngine (CDMA_RESET_LOOP + 1) 4 0) true worldLate).1 = CRIT_ERR ∧
    (xpdma_reset (lateEngine (CDMA_RESET_LOOP + 1) 4 0) true worldLate).2.trace =
      worldLate.trace ++
      ([Event.readReg (CDMA_OFFSET + CDMA_CONTROL_OFFSET) 4,
          Event.writeReg (CDMA_OFFSET + CDMA_CONTROL_OFFSET) 4] ++
        (List.replicate CDMA_RESET_LOOP
            (Event.readReg (CDMA_OFFSET + CDMA_CONTROL_OFFSET) 4) ++
          [Event.readReg (CDMA_OFFSET + CDMA_CONTROL_OFFSET) 0])) ++
      [Event.readReg (CDMA_OFFSET + CDMA_STATUS_OFFSET) 0,
        Event.readReg (CDMA_OFFSET + CDMA_CONTROL_OFFSET) 0,
        Event.printk Msg.resetTimeout] := by
  have hw : worldLate = ⟨slot0, 0, worldLate.user, []⟩ := rfl
  have h := xpdma_reset_late true slot0 worldLate.user [] rfl
  rw [if_pos rfl] at h
  rw [hw]
  exact h

end XPDMA

namespace XPDMA

/-! ## Scatter gather with an unknown direction -/

/-- Steps 1 to 3 of `sg_operation` for an unknown direction: three register
writes, and the chain length `create_desc_chain` has set before it failed. -/
theorem sg_setup_bad {H : Type} (E : Engine H) (w : World H) (direction : Int)
    (count addr : Nat) (hused : w.st.used = true)
    (h1 : direction ≠ PCI_DMA_FROMDEVICE) (h2 : direction ≠ PCI_DMA_TODEVICE) :
    (sg_setup E w direction count addr).st.descChainLength = chainLen count ∧
    regWrites (sg_setup E w direction count addr).trace = regWrites w.trace ++
      [(CDMA_OFFSET + CDMA_CONTROL_OFFSET, u32 CDMA_CR_SG_EN),
       (PCIE_CTL_OFFSET + AXIBAR2PCIEBAR_0L, u32 (u32 (usize w.st.descChainHWAddr))),
       (PCIE_CTL_OFFSET + AXIBAR2PCIEBAR_0U,
         u32 (u32 (usize w.st.descChainHWAddr / 4294967296)))] ∧
    statusReads (sg_setup E w direction count addr).trace = statusReads w.trace ∧
    (∃ t, (sg_setup E w direction count addr).trace = w.trace ++ t ∧
      Event.printk Msg.chainUnknownDirection ∈ t) := by
  unfold sg_setup
  have hw1 := wrote_writeReg E w (CDMA_OFFSET + CDMA_CONTROL_OFFSET) CDMA_CR_SG_EN hused
  have ht1 := (writeReg_used E w (CDMA_OFFSET + CDMA_CONTROL_OFFSET) CDMA_CR_SG_EN hused).2.2
  generalize xpdma_writeReg E w (CDMA_OFFSET + CDMA_CONTROL_OFFSET) CDMA_CR_SG_EN = W1
    at hw1 ht1 ⊢
  rw [create_desc_chain_bad W1 direction count addr h1 h2]
  obtain ⟨⟨a1, a2, a3, a4, a5⟩, b1, c1, d1⟩ := hw1
  have hu2 : ((⟨{ W1.st with descChainLength := chainLen count }, W1.hw, W1.user,
      W1.trace⟩ : World H).log (Event.printk Msg.chainUnknownDirection)).st.used = true :=
    a1.trans hused
  have hd2 : ((⟨{ W1.st with descChainLength := chainLen count }, W1.hw, W1.user,
      W1.trace⟩ : World H).log (Event.printk Msg.chainUnknownDirection)).st.descChainHWAddr =
      w.st.descChainHWAddr := a4
  have hl2 : ((⟨{ W1.st with descChainLength := chainLen count }, W1.hw, W1.user,
      W1.trace⟩ : World H).log (Event.printk Msg.chainUnknownDirection)).st.descChainLength =
      chainLen count := rfl
  have ht2 : ((⟨{ W1.st with descChainLength := chainLen count }, W1.hw, W1.user,
      W1.trace⟩ : World H).log (Event.printk Msg.chainUnknownDirection)).trace =
      W1.trace ++ [Event.printk Msg.chainUnknownDirection] := rfl
  show (xpdma_writeReg E (xpdma_writeReg E
      ((⟨{ W1.st with descChainLength := chainLen count }, W1.hw, W1.user,
        W1.trace⟩ : World H).log (Event.printk Msg.chainUnknownDirection)) _ _) _ _).st.descChainLength
      = _ ∧ _
  generalize ((⟨{ W1.st with descChainLength := chainLen count }, W1.hw, W1.user,
      W1.trace⟩ : World H).log (Event.printk Msg.chainUnknownDirection)) = W2
    at hu2 hd2 hl2 ht2 ⊢
  rw [hd2]
  obtain ⟨⟨-, -, -, -, e5⟩, -, g1, k1⟩ := wrote_step E (wrote_step E (wrote_refl W2) hu2
    (PCIE_CTL_OFFSET + AXIBAR2PCIEBAR_0L) (u32 (usize w.st.descChainHWAddr))) hu2
    (PCIE_CTL_OFFSET + AXIBAR2PCIEBAR_0U) (u32 (usize w.st.descChainHWAddr / 4294967296))
  obtain ⟨q1, -, q3⟩ := writeReg_used E W2 (PCIE_CTL_OFFSET + AXIBAR2PCIEBAR_0L)
    (u32 (usize w.st.descChainHWAddr)) hu2
  obtain ⟨-, -, q6⟩ := writeReg_used E
    (xpdma_writeReg E W2 (PCIE_CTL_OFFSET + AXIBAR2PCIEBAR_0L)
      (u32 (usize w.st.descChainHWAddr)))
    (PCIE_CTL_OFFSET + AXIBAR2PCIEBAR_0U) (u32 (usize w.st.descChainHWAddr / 4294967296))
    (q1.1.trans hu2)
  refine ⟨e5.trans hl2, ?_, ?_, ?_⟩
  · rw [g1, ht2, regWrites_append, c1]
    simp only [regWrites, List.append_assoc, List.nil_append, List.cons_append]
  · rw [k1, ht2, statusReads_append, d1]
    exact List.append_nil _
  · refine ⟨[Event.writeReg (CDMA_OFFSET + CDMA_CONTROL_OFFSET) (u32 CDMA_CR_SG_EN),
        Event.printk Msg.chainUnknownDirection,
        Event.writeReg (PCIE_CTL_OFFSET + AXIBAR2PCIEBAR_0L)
          (u32 (u32 (usize w.st.descChainHWAddr))),
        Event.writeReg (PCIE_CTL_OFFSET + AXIBAR2PCIEBAR_0U)
          (u32 (u32 (usize w.st.descChainHWAddr / 4294967296)))], ?_, by simp⟩
    show (xpdma_writeReg E (xpdma_writeReg E W2 _ _) _ _).trace = _
    rw [q6, q3, ht2, ht1]
    simp only [List.append_assoc, List.cons_append, List.nil_append]

/-- C25: for a direction that is neither `PCI_DMA_FROMDEVICE` nor
`PCI_DMA_TODEVICE`, `sg_operation` returns `CRIT_ERR`, reads no descriptor
status word, and none of its register writes goes to the translation vector
table (the offsets below `PCIE_CTL_OFFSET`), to the current descriptor pointer
or to the tail descriptor pointer.  When the idle check fails it writes no
register; on an engine the idle check finds idle it has written the control
register (`CDMA_CR_SG_EN`) and the `AXIBAR2PCIEBAR_0` pair (the halves of
`descChainHWAddr`), `create_desc_chain` has failed with its log line, and
`descChainLength` holds the chain length of `count`, whatever it was. -/
theorem C25_unknown_direction {H : Type} (E : Engine H) (w : World H) (direction : Int)
    (count addr : Nat)
    (h1 : direction ≠ PCI_DMA_FROMDEVICE) (h2 : direction ≠ PCI_DMA_TODEVICE) :
    (sg_operation E w direction count addr).1 = CRIT_ERR ∧
    statusReads (sg_operation E w direction count addr).2.trace = statusReads w.trace ∧
    (∃ l : List (Nat × Nat),
      regWrites (sg_operation E w direction count addr).2.trace = regWrites w.trace ++ l ∧
      (∀ r ∈ l, PCIE_CTL_OFFSET ≤ r.1 ∧ r.1 ≠ CDMA_OFFSET + CDMA_CDESC_OFFSET ∧
        r.1 ≠ CDMA_OFFSET + CDMA_TDESC_OFFSET) ∧
      ((xpdma_isIdle E w).1 = 0 → l = []) ∧
      ((xpdma_isIdle E w).1 ≠ 0 →
        l = [(CDMA_OFFSET + CDMA_CONTROL_OFFSET, CDMA_CR_SG_EN),
          (PCIE_CTL_OFFSET + AXIBAR2PCIEBAR_0L, w.st.descChainHWAddr % 4294967296),
          (PCIE_CTL_OFFSET + AXIBAR2PCIEBAR_0U,
            w.st.descChainHWAddr / 4294967296 % 4294967296)])) ∧
    ((xpdma_isIdle E w).1 ≠ 0 →
      (sg_operation E w direction count addr).2.st.descChainLength = chainLen count ∧
      Event.printk Msg.chainUnknownDirection ∈ (sg_operation E w direction count addr).2.trace ∧
      Event.printk Msg.unknownDirection ∈ (sg_operation E w direction count addr).2.trace) := by
  by_cases hidle : (xpdma_isIdle E w).1 = 0
  · obtain ⟨a1, a2, -⟩ := sg_operation_not_idle E w direction count addr hidle
    refine ⟨a1, a2.statusReads, ⟨[], ?_, ?_, fun _ => rfl, fun h => absurd hidle h⟩,
      fun h => absurd hidle h⟩
    · rw [a2.regWrites, List.append_nil]
    · intro r hr
      simp at hr
  · have hused := isIdle_used E w hidle
    have hq := quiet_isIdle E w
    have hu1 : (xpdma_isIdle E w).2.st.used = true := hq.1.1.trans hused
    obtain ⟨s1, s2, s3, t, s4, s5⟩ :=
      sg_setup_bad E (xpdma_isIdle E w).2 direction count addr hu1 h1 h2
    have e1 : u32 CDMA_CR_SG_EN = CDMA_CR_SG_EN := by decide
    have e2 : u32 (u32 (usize w.st.descChainHWAddr)) = w.st.descChainHWAddr % 4294967296 := by
      simp only [u32_eq, usize_eq]
      omega
    have e3 : u32 (u32 (usize w.st.descChainHWAddr / 4294967296)) =
        w.st.descChainHWAddr / 4294967296 % 4294967296 := by
      simp only [u32_eq, usize_eq]
      omega
    have c1 : CDMA_OFFSET + CDMA_CONTROL_OFFSET = 49152 := rfl
    have c2 : PCIE_CTL_OFFSET + AXIBAR2PCIEBAR_0L = 33292 := rfl
    have c3 : PCIE_CTL_OFFSET + AXIBAR2PCIEBAR_0U = 33288 := rfl
    have c4 : CDMA_OFFSET + CDMA_CDESC_OFFSET = 49160 := rfl
    have c5 : CDMA_OFFSET + CDMA_TDESC_OFFSET = 49168 := rfl
    have cP : PCIE_CTL_OFFSET = 32768 := rfl
    rw [hq.1.2.2.2.1, e1, e2, e3, hq.regWrites] at s2
    rw [hq.statusReads] at s3
    rw [sg_operation_unknown_direction E w direction count addr hidle h1 h2]
    refine ⟨rfl, ?_, ⟨_, ?_, ?_, fun h => absurd h hidle, fun _ => rfl⟩, fun _ => ⟨s1, ?_, ?_⟩⟩
    · show statusReads (_ ++ [Event.printk Msg.unknownDirection]) = _
      rw [statusReads_append, s3]
      exact List.append_nil _
    · show regWrites (_ ++ [Event.printk Msg.unknownDirection]) = _
      rw [regWrites_append, s2]
      exact List.append_nil _
    · intro r hr
      rw [c1, c2, c3] at hr
      rw [c4, c5, cP]
      simp only [List.mem_cons, List.mem_singleton, List.not_mem_nil, or_false] at hr
      rcases hr with h | h | h <;> rw [h] <;> refine ⟨?_, ?_, ?_⟩ <;> dsimp only <;> omega
    · show Event.printk Msg.chainUnknownDirection ∈ _ ++ [Event.printk Msg.unknownDirection]
      rw [s4]
      exact List.mem_append_left _ (List.mem_append_right _ s5)
    · show Event.printk Msg.unknownDirection ∈ _ ++ [Event.printk Msg.unknownDirection]
      exact List.mem_append_right _ (List.mem_singleton.mpr rfl)

set_option maxRecDepth 100000 in
/-- C25 (witness): on `world0` with an engine whose registers all read 2 (idle),
`sg_operation` with direction 3 for `2 * TRANSFER_SIZE + 5` bytes returns
`CRIT_ERR` after three register writes, and leaves `descChainLength = 3` where
it was 0. -/
theorem C25_unknown_direction_witness :
    (3 : Int) ≠ PCI_DMA_FROMDEVICE ∧ (3 : Int) ≠ PCI_DMA_TODEVICE ∧
    (xpdma_isIdle (constEngine 2) world0).1 ≠ 0 ∧
    world0.st.descChainLength = 0 ∧
    (sg_operation (constEngine 2) world0 3 (2 * TRANSFER_SIZE + 5) 0).1 = CRIT_ERR ∧
    (sg_operation (constEngine 2) world0 3 (2 * TRANSFER_SIZE + 5) 0).2.st.descChainLength =
      chainLen (2 * TRANSFER_SIZE + 5) ∧
    chainLen (2 * TRANSFER_SIZE + 5) = 3 ∧
    regWrites (sg_operation (constEngine 2) world0 3 (2 * TRANSFER_SIZE + 5) 0).2.trace =
      [(0xc000, 8), (0x820c, 0x10800000), (0x8208, 0)] :=
  ⟨by decide, by decide, by decide, rfl,
    (C25_unknown_direction (constEngine 2) world0 3 (2 * TRANSFER_SIZE + 5) 0
      (by decide) (by decide)).1,
    ((C25_unknown_direction (constEngine 2) world0 3 (2 * TRANSFER_SIZE + 5) 0
      (by decide) (by decide)).2.2.2 (by decide)).1,
    by decide, by decide⟩

end XPDMA

namespace XPDMA

/-! ## A simple mode transfer that never completes -/

theorem isIdle_late (k a b : Nat) (st : xpdma_state) (h : Nat) (u : UserMem)
    (t : List Event) (hused : st.used = true) :
    xpdma_isIdle (lateEngine k a b) ⟨st, h, u, t⟩ =
      (u32 (if h < k then a else b) &&& CDMA_CR_IDLE_MASK,
        ⟨st, h + 1, u, t ++ [Event.readReg (CDMA_OFFSET + CDMA_STATUS_OFFSET)
          (u32 (if h < k then a else b))]⟩) := by
  unfold xpdma_isIdle
  rw [if_neg (by simp [hused]), readReg_late k a b st h u t _ hused]

/-- The poll loop of `simple_operation` on an engine whose status register
reads 0: all `n` reads are made. -/
theorem simple_poll_late (st : xpdma_state) (u : UserMem) (hused : st.used = true) (n : Nat) :
    ∀ (h : Nat) (t : List Event), 1 ≤ h →
      ∃ t2 : List Event,
        simple_poll (lateEngine 1 2 0) n ⟨st, h, u, t⟩ = ⟨st, h + n, u, t ++ t2⟩ ∧
        regReads t2 = List.replicate n (CDMA_OFFSET + CDMA_STATUS_OFFSET, 0) ∧
        regWrites t2 = [] := by
  induction n with
  | zero =>
    intro h t _
    exact ⟨[], by rw [List.append_nil]; rfl, rfl, rfl⟩
  | succ n ih =>
    intro h t hh
    have hge : ¬ h < 1 := by omega
    obtain ⟨t2, a1, a2, a3⟩ := ih (h + 1)
      (t ++ [Event.readReg (CDMA_OFFSET + CDMA_STATUS_OFFSET) 0] ++ [Event.udelay 10])
      (by omega)
    refine ⟨Event.readReg (CDMA_OFFSET + CDMA_STATUS_OFFSET) 0 :: Event.udelay 10 :: t2,
      ?_, ?_, a3⟩
    · rw [simple_poll_succ, isIdle_late 1 2 0 st h u t hused, if_neg hge]
      have e0 : u32 0 &&& CDMA_CR_IDLE_MASK = 0 := by decide
      have e1 : u32 0 = 0 := rfl
      dsimp only
      rw [e0, e1, if_neg (by decide)]
      show simple_poll (lateEngine 1 2 0) n
        ⟨st, h + 1, u, t ++ [Event.readReg (CDMA_OFFSET + CDMA_STATUS_OFFSET) 0] ++
          [Event.udelay 10]⟩ = _
      rw [a1, Nat.add_right_comm h 1 n]
      simp only [List.append_assoc, List.cons_append, List.nil_append]
      rfl
    · show (CDMA_OFFSET + CDMA_STATUS_OFFSET, 0) :: regReads t2 = _
      rw [a2, List.replicate_succ]

/-- A transfer in simple mode on `worldLate` with an engine that is idle at
entry and busy at every later read of the status register: after the write of
the byte count the driver makes `CDMA_TRANSFER_LOOP + 1` reads of the status
register, `CDMA_TRANSFER_LOOP` in the loop and the final check, and returns
`CRIT_ERR`. -/
theorem simple_operation_worldLate :
    (simple_operation (lateEngine 1 2 0) worldLate PCI_DMA_TODEVICE 1024 0).1 = CRIT_ERR ∧
    ∃ head tail : List Event,
      (simple_operation (lateEngine 1 2 0) worldLate PCI_DMA_TODEVICE 1024 0).2.trace =
        head ++ tail ∧
      head.getLast? = some (Event.writeReg (CDMA_OFFSET + CDMA_BTT_OFFSET) 1024) ∧
      regWrites tail = [] ∧
      regReads tail =
        List.replicate (CDMA_TRANSFER_LOOP + 1) (CDMA_OFFSET + CDMA_STATUS_OFFSET, 0) ∧
      Event.printk Msg.simpleTimeout ∈ tail := by
  have hused : slot0.used = true := rfl
  have e2 : u32 2 &&& CDMA_CR_IDLE_MASK ≠ 0 := by decide
  have e0 : u32 0 &&& CDMA_CR_IDLE_MASK = 0 := by decide
  have hw : worldLate = ⟨slot0, 0, worldLate.user, []⟩ := rfl
  have hsetup : ∃ h0, xpdma_writeReg (lateEngine 1 2 0)
      (simple_setup (lateEngine 1 2 0) (xpdma_isIdle (lateEngine 1 2 0) worldLate).2
        worldLate.st.writeHWAddr AXI_PCIE_DM_ADDR AXI_DDR3_ADDR)
      (CDMA_OFFSET + CDMA_BTT_OFFSET) 1024 =
      ⟨slot0, 1, worldLate.user,
        h0 ++ [Event.writeReg (CDMA_OFFSET + CDMA_BTT_OFFSET) 1024]⟩ := by
    rw [hw, isIdle_late 1 2 0 slot0 0 _ [] hused]
    unfold simple_setup
    simp only [writeReg_late 1 2 0 slot0 _ _ _ _ _ hused]
    exact ⟨_, rfl⟩
  obtain ⟨h0, harmed⟩ := hsetup
  obtain ⟨t2, p1, p2, p3⟩ := simple_poll_late slot0 worldLate.user hused CDMA_TRANSFER_LOOP 1
    (h0 ++ [Event.writeReg (CDMA_OFFSET + CDMA_BTT_OFFSET) 1024]) (Nat.le_refl 1)
  have hidle : (xpdma_isIdle (lateEngine 1 2 0) worldLate).1 ≠ 0 := by
    rw [hw, isIdle_late 1 2 0 slot0 0 _ [] hused]
    exact e2
  have hfin : xpdma_isIdle (lateEngine 1 2 0) (simple_poll (lateEngine 1 2 0)
      CDMA_TRANSFER_LOOP (xpdma_writeReg (lateEngine 1 2 0)
        (simple_setup (lateEngine 1 2 0) (xpdma_isIdle (lateEngine 1 2 0) worldLate).2
          worldLate.st.writeHWAddr AXI_PCIE_DM_ADDR AXI_DDR3_ADDR)
        (CDMA_OFFSET + CDMA_BTT_OFFSET) 1024)) =
      (0, ⟨slot0, 1 + CDMA_TRANSFER_LOOP + 1, worldLate.user,
        h0 ++ [Event.writeReg (CDMA_OFFSET + CDMA_BTT_OFFSET) 1024] ++ t2 ++
          [Event.readReg (CDMA_OFFSET + CDMA_STATUS_OFFSET) 0]⟩) := by
    rw [harmed, p1]
    generalize CDMA_TRANSFER_LOOP = N
    rw [isIdle_late 1 2 0 slot0 _ _ _ hused, if_neg (by omega), e0]
    rfl
  have hstage : simple_operation (lateEngine 1 2 0) worldLate PCI_DMA_TODEVICE 1024 0 =
      (CRIT_ERR, (xpdma_isIdle (lateEngine 1 2 0) (simple_poll (lateEngine 1 2 0)
        CDMA_TRANSFER_LOOP (xpdma_writeReg (lateEngine 1 2 0)
          (simple_setup (lateEngine 1 2 0) (xpdma_isIdle (lateEngine 1 2 0) worldLate).2
            worldLate.st.writeHWAddr AXI_PCIE_DM_ADDR AXI_DDR3_ADDR)
        (CDMA_OFFSET + CDMA_BTT_OFFSET) 1024))).2.log (Event.printk Msg.simpleTimeout)) := by
    rw [simple_operation_stages]
    simp only [show (PCI_DMA_FROMDEVICE = PCI_DMA_TODEVICE) = False from by decide,
      if_false, if_true]
    rw [if_neg hidle]
    show (if (xpdma_isIdle (lateEngine 1 2 0) (simple_poll (lateEngine 1 2 0)
        CDMA_TRANSFER_LOOP (xpdma_writeReg (lateEngine 1 2 0)
          (simple_setup (lateEngine 1 2 0) (xpdma_isIdle (lateEngine 1 2 0) worldLate).2
            worldLate.st.writeHWAddr AXI_PCIE_DM_ADDR AXI_DDR3_ADDR)
        (CDMA_OFFSET + CDMA_BTT_OFFSET) 1024))).1 = 0 then _ else _) = _
    rw [if_pos (by rw [hfin])]
  rw [hstage, hfin]
  refine ⟨rfl, h0 ++ [Event.writeReg (CDMA_OFFSET + CDMA_BTT_OFFSET) 1024],
    t2 ++ [Event.readReg (CDMA_OFFSET + CDMA_STATUS_OFFSET) 0] ++
      [Event.printk Msg.simpleTimeout], ?_, List.getLast?_concat _, ?_, ?_, ?_⟩
  · show _ ++ [Event.printk Msg.simpleTimeout] = _
    simp only [List.append_assoc]
  · rw [regWrites_append, regWrites_append, p3]
    rfl
  · rw [regReads_append, regReads_append, p2]
    generalize CDMA_TRANSFER_LOOP = N
    show List.replicate N _ ++ [(CDMA_OFFSET + CDMA_STATUS_OFFSET, 0)] ++ [] = _
    rw [List.append_nil, List.replicate_succ']
  · exact List.mem_append_right _ (List.mem_singleton.mpr rfl)

end XPDMA
